import Mathlib

/-! # pressure-vessel runtime composition: a Lean model of `src/runtime.c`

The development follows `src/src/runtime.c`.  Strings of the C program are
Lean strings; host paths are lists of path components; the file system is a
finite map from canonical paths to nodes; advisory locks are a table of held
locks keyed by inode.  Everything the program obtains from outside (helper
processes, `mkdtemp`, I/O faults) is read from an explicit `Env` record, so
that every function below is a total, executable function.  An error is the
message the program itself supplies; the description of `errno` that libglnx
appends to it is left out.
-/

set_option autoImplicit false

namespace PressureVessel

/-! ## GLib string helpers -/

/-- GLib `g_str_has_prefix (str, prefix)`. -/
def g_str_has_prefix (str pfx : String) : Bool :=
  pfx.data.isPrefixOf str.data

/-- GLib `g_str_has_suffix (str, suffix)`. -/
def g_str_has_suffix (str sfx : String) : Bool :=
  sfx.data.reverse.isPrefixOf str.data.reverse

/-- Whether `needle` occurs in `hay` (the test `strstr (hay, needle) != NULL`). -/
def has_infix : List Char → List Char → Bool
  | [], needle => needle.isEmpty
  | c :: cs, needle => needle.isPrefixOf (c :: cs) || has_infix cs needle

/-- C `strstr (hay, needle) != NULL`. -/
def strstr_found (hay needle : String) : Bool :=
  has_infix hay.data needle.data

/-- GLib `g_path_is_absolute` on Unix: the first character is the separator. -/
def g_path_is_absolute (file_name : String) : Bool :=
  match file_name.data with
  | c :: _ => c == '/'
  | [] => false

/-- Characters after the last `/` of a list of characters (GNU `basename`). -/
def basename_chars : List Char → List Char → List Char
  | [], acc => acc.reverse
  | c :: cs, acc => if c = '/' then basename_chars cs [] else basename_chars cs (c :: acc)

/-- libglnx `glnx_basename`, i.e. GNU `basename`: the part after the last `/`
(the whole string if there is none, the empty string if the path ends in `/`). -/
def glnx_basename (path : String) : String :=
  ⟨basename_chars path.data []⟩

/-- Removes every trailing `/` of a list of characters. -/
def strip_trailing_sep (l : List Char) : List Char :=
  (l.reverse.dropWhile (fun c => c == '/')).reverse

/-- The run of `/` characters at the end of a list of characters. -/
def trailing_sep (l : List Char) : List Char :=
  l.reverse.takeWhile (fun c => c == '/')

/-- Loop state of GLib `g_build_path_va` (separator `/`). -/
structure BuildPathState where
  result : List Char
  is_first : Bool
  have_leading : Bool
  single_element : Option (List Char)
  last_trailing : Option (List Char)
deriving DecidableEq, Repr

/-- One iteration of the loop of GLib `g_build_path_va` for the separator `/`.
`lead` is the text before `start`, `core` is the text between `start` and
`end`, `trail` is the text from `last_trailing` on. -/
def build_path_step (st : BuildPathState) (element : List Char) : BuildPathState :=
  if element.isEmpty then st
  else
    let lead := element.takeWhile (fun c => c == '/')
    let rest := element.dropWhile (fun c => c == '/')
    let core := strip_trailing_sep rest
    let trail := if core.isEmpty then element else trailing_sep rest
    let st1 : BuildPathState :=
      if st.have_leading then { st with single_element := none }
      else
        { st with
          single_element := if core.isEmpty then some element else st.single_element
          result := st.result ++ lead
          have_leading := true }
    let st2 : BuildPathState := { st1 with last_trailing := some trail }
    if core.isEmpty then st2
    else
      { st2 with
        result := (if st2.is_first then st2.result else st2.result ++ ['/']) ++ core
        is_first := false }

/-- GLib `g_build_path_va` for the separator `/`, on lists of characters. -/
def build_path_chars (elements : List (List Char)) : List Char :=
  let st := elements.foldl build_path_step
    { result := [], is_first := true, have_leading := false,
      single_element := none, last_trailing := none }
  match st.single_element with
  | some e => e
  | none => st.result ++ st.last_trailing.getD []

/-- GLib `g_build_filename (first, ..., NULL)` on Unix. -/
def g_build_filename (elements : List String) : String :=
  ⟨build_path_chars (elements.map String.data)⟩

/-- Decimal digits of `n`, most significant first, prepended to `acc`;
`fuel` bounds the number of digits. -/
def decimal_digits : Nat → Nat → List Char → List Char
  | 0, _, acc => acc
  | fuel + 1, n, acc =>
    let acc1 := Char.ofNat (48 + n % 10) :: acc
    if n < 10 then acc1 else decimal_digits fuel (n / 10) acc1

/-- Largest value of a `gsize` (64-bit). -/
def G_MAXSIZE : Nat := 2 ^ 64 - 1

/-- The result of `g_strdup_printf ("%" G_GSIZE_FORMAT, n)`: `n` (reduced to a
`gsize`) in decimal; a `gsize` has at most 20 decimal digits. -/
def gsize_to_string (n : Nat) : String :=
  ⟨decimal_digits 20 (n % 2 ^ 64) []⟩

/-- pressure-vessel `pv_search_path_append`: appends `item` to a
colon-separated search path, ignoring a NULL or empty item. -/
def pv_search_path_append (search_path : String) (item : Option String) : String :=
  match item with
  | none => search_path
  | some i =>
    if i.data.isEmpty then search_path
    else if search_path.data.isEmpty then i
    else search_path ++ ":" ++ i

/-! ## File system -/

/-- Absolute host path, as its list of components. -/
abbrev Path := List String

/-- A file-system object.  Regular files carry their inode number, which is
what advisory locks and hard links are keyed by. -/
inductive Node where
  | dir
  | file (ino : Nat)
  | symlink (target : String)
deriving DecidableEq, Repr

/-- The file system: the objects that exist, by canonical path. -/
abbrev FS := List (Path × Node)

/-- The object at a canonical path, if any. -/
def fs_get (fs : FS) (p : Path) : Option Node :=
  match fs with
  | [] => none
  | (q, n) :: rest => if q = p then some n else fs_get rest p

/-- Removes the object at a canonical path (not its descendants). -/
def fs_del (fs : FS) (p : Path) : FS :=
  fs.filter (fun e => decide (e.1 ≠ p))

/-- Adds an object at a canonical path, replacing any object there. -/
def fs_put (fs : FS) (p : Path) (n : Node) : FS :=
  fs_del fs p ++ [(p, n)]

/-- Removes the object at a canonical path and everything beneath it. -/
def fs_rm_tree (fs : FS) (p : Path) : FS :=
  fs.filter (fun e => !(p.isPrefixOf e.1))

/-- The name of `p` inside `dir`, when `p` is a direct child of `dir`. -/
def child_name : Path → Path → Option String
  | [], [n] => some n
  | d :: ds, q :: qs => if d = q then child_name ds qs else none
  | _, _ => none

/-- The remainder of `p` after the leading components `dir`, if `p` is `dir`
or lies beneath it. -/
def strip_dir : Path → Path → Option Path
  | [], p => some p
  | d :: ds, q :: qs => if d = q then strip_dir ds qs else none
  | _ :: _, [] => none

/-- Splits a list of characters at every `/`. -/
def split_sep : List Char → List Char → List (List Char)
  | [], cur => [cur.reverse]
  | c :: cs, cur => if c = '/' then cur.reverse :: split_sep cs [] else split_sep cs (c :: cur)

/-- The non-empty components of a path string. -/
def path_components (s : String) : List String :=
  ((split_sep s.data []).filter (fun l => !l.isEmpty)).map String.mk

/-- Error numbers used by the model. -/
inductive Errno where
  | ENOENT | ENOTDIR | ELOOP | EEXIST | EISDIR | ENOTEMPTY | EACCES | EIO | EAGAIN
deriving DecidableEq, Repr

/-- Outcome of walking path components up to the next symbolic link. -/
inductive WalkStep where
  | done (location : Path)
  | err (e : Errno)
  | link (cur : Path) (target : String) (rest : List String)
deriving DecidableEq, Repr

/-- Walks `comps` from the directory `cur` until the components are used up
or a symbolic link has to be followed.  `root` is the directory that `..`
cannot leave.  A missing final component is reported by its would-be
location (the caller looks it up); a final symbolic link is returned rather
than followed when `follow_final` is false. -/
def walk_segment (fs : FS) (root : Path) (follow_final : Bool) :
    Path → List String → WalkStep
  | cur, [] => .done cur
  | cur, c :: rest =>
    if c = "." then walk_segment fs root follow_final cur rest
    else if c = ".." then
      walk_segment fs root follow_final (if cur = root then cur else cur.dropLast) rest
    else
      match fs_get fs (cur ++ [c]) with
      | none => if rest.isEmpty then .done (cur ++ [c]) else .err .ENOENT
      | some .dir => walk_segment fs root follow_final (cur ++ [c]) rest
      | some (.file _) => if rest.isEmpty then .done (cur ++ [c]) else .err .ENOTDIR
      | some (.symlink t) =>
        if rest.isEmpty && !follow_final then .done (cur ++ [c])
        else .link cur t rest

/-- Path resolution: walks `comps` from the directory `cur`, following at most
`fuel` symbolic links (Linux gives up with `ELOOP` after 40).  Absolute link
targets restart at `root`.  Returns the canonical location reached. -/
def walk (fs : FS) (root : Path) (follow_final : Bool) :
    Nat → Path → List String → Except Errno Path
  | fuel, cur, comps =>
    match walk_segment fs root follow_final cur comps with
    | .done p => .ok p
    | .err e => .error e
    | .link cur1 t rest =>
      match fuel with
      | 0 => .error .ELOOP
      | fuel1 + 1 =>
        walk fs root follow_final fuel1 (if g_path_is_absolute t then root else cur1)
          (path_components t ++ rest)

/-- The object at a canonical path; the root directory always exists. -/
def fs_node (fs : FS) (p : Path) : Option Node :=
  if p.isEmpty then some .dir else fs_get fs p

/-- Linux limit on the number of symbolic links followed in one resolution. -/
def MAXSYMLINKS : Nat := 40

/-- The object a relative name denotes from directory `base`, following
symbolic links (`stat`), with its canonical location. -/
def stat_at (fs : FS) (base : Path) (rel : List String) : Except Errno (Path × Node) :=
  match walk fs [] true MAXSYMLINKS base rel with
  | .error e => .error e
  | .ok loc =>
    match fs_node fs loc with
    | none => .error .ENOENT
    | some n => .ok (loc, n)

/-- Like `stat_at`, but a final symbolic link is not followed (`lstat`). -/
def lstat_at (fs : FS) (base : Path) (rel : List String) : Except Errno (Path × Node) :=
  match walk fs [] false MAXSYMLINKS base rel with
  | .error e => .error e
  | .ok loc =>
    match fs_node fs loc with
    | none => .error .ENOENT
    | some n => .ok (loc, n)

/-- GLib `g_file_test (path, G_FILE_TEST_IS_DIR)`. -/
def g_file_test_is_dir (fs : FS) (base : Path) (rel : List String) : Bool :=
  match stat_at fs base rel with
  | .ok (_, .dir) => true
  | _ => false

/-- GLib `g_file_test (path, G_FILE_TEST_IS_SYMLINK)`. -/
def g_file_test_is_symlink (fs : FS) (base : Path) (rel : List String) : Bool :=
  match lstat_at fs base rel with
  | .ok (_, .symlink _) => true
  | _ => false

/-- GLib `g_file_test (path, G_FILE_TEST_EXISTS)`. -/
def g_file_test_exists (fs : FS) (base : Path) (rel : List String) : Bool :=
  match stat_at fs base rel with
  | .ok _ => true
  | _ => false

/-- Directory entry types of `readdir`. -/
inductive DType where
  | DT_DIR | DT_REG | DT_LNK | DT_OTHER
deriving DecidableEq, Repr

/-- A directory entry as returned by
`glnx_dirfd_iterator_next_dent_ensure_dtype`. -/
structure Dirent where
  d_name : String
  d_type : DType
deriving DecidableEq, Repr

/-- The `d_type` of an object. -/
def node_dtype : Node → DType
  | .dir => .DT_DIR
  | .file _ => .DT_REG
  | .symlink _ => .DT_LNK

/-- The entries of the directory at canonical path `dir`, in directory order. -/
def readdir (fs : FS) (dir : Path) : List Dirent :=
  fs.filterMap (fun e => (child_name dir e.1).map (fun n => ⟨n, node_dtype e.2⟩))

/-- Whether the canonical path `p` is a directory. -/
def is_dir_node (fs : FS) (p : Path) : Bool :=
  fs_node fs p == some .dir

/-- Text of a host path. -/
def path_to_string (p : Path) : String :=
  "/" ++ String.intercalate "/" p

/-- C `realpath (path, NULL)`: the canonical path of an existing object. -/
def realpath (fs : FS) (p : Path) : Option Path :=
  match walk fs [] true MAXSYMLINKS [] p with
  | .error _ => none
  | .ok loc => if (fs_node fs loc).isSome then some loc else none

/-- Directory test for an absolute host path (`g_file_test (p, G_FILE_TEST_IS_DIR)`). -/
def path_is_dir (fs : FS) (p : Path) : Bool :=
  match walk fs [] true MAXSYMLINKS [] p with
  | .error _ => false
  | .ok loc => is_dir_node fs loc

/-- POSIX `symlinkat (target, dirfd, rel)`: never replaces an existing object. -/
def symlinkat (fs : FS) (target : String) (base : Path) (rel : List String) :
    Except Errno FS :=
  match walk fs [] false MAXSYMLINKS base rel with
  | .error e => .error e
  | .ok loc =>
    if (fs_node fs loc).isSome then .error .EEXIST
    else if is_dir_node fs loc.dropLast then .ok (fs ++ [(loc, .symlink target)])
    else .error .ENOENT

/-- GLib `g_mkdir_with_parents`: creates the missing directories along `comps`
below the directory `base`; returns the canonical path of the last one. -/
def g_mkdir_with_parents : FS → Path → List String → Except Errno (FS × Path)
  | fs, base, [] => .ok (fs, base)
  | fs, base, c :: rest =>
    match walk fs [] true MAXSYMLINKS base [c] with
    | .error e => .error e
    | .ok loc =>
      match fs_node fs loc with
      | some .dir => g_mkdir_with_parents fs loc rest
      | some _ => .error .ENOTDIR
      | none =>
        if is_dir_node fs loc.dropLast then
          g_mkdir_with_parents (fs ++ [(loc, .dir)]) loc rest
        else .error .ENOENT

/-- GLib `g_mkdir (path, mode)`: creates one directory. -/
def g_mkdir (fs : FS) (base : Path) (rel : List String) : Except Errno FS :=
  match walk fs [] false MAXSYMLINKS base rel with
  | .error e => .error e
  | .ok loc =>
    if (fs_node fs loc).isSome then .error .EEXIST
    else if is_dir_node fs loc.dropLast then .ok (fs ++ [(loc, .dir)])
    else .error .ENOENT

/-- GLib `g_rmdir (path)`: removes an empty directory. -/
def g_rmdir (fs : FS) (base : Path) (rel : List String) : Except Errno FS :=
  match lstat_at fs base rel with
  | .error e => .error e
  | .ok (loc, .dir) =>
    if (readdir fs loc).isEmpty then .ok (fs_del fs loc) else .error .ENOTEMPTY
  | .ok _ => .error .ENOTDIR

/-- libglnx `glnx_opendirat (dfd, path, follow, ...)`: the directory opened,
as its canonical path. -/
def glnx_opendirat (fs : FS) (base : Path) (rel : List String) (follow : Bool) :
    Except Errno Path :=
  match (if follow then stat_at fs base rel else lstat_at fs base rel) with
  | .error e => .error e
  | .ok (loc, .dir) => .ok loc
  | .ok (_, .symlink _) => .error .ELOOP
  | .ok _ => .error .ENOTDIR

/-! ## The outside world -/

/-- A held `PvBwrapLock`: an advisory lock on the file with inode `ino`,
exclusive if `write`, owned by the open file description `fd`. -/
structure Lock where
  ino : Nat
  write : Bool
  is_ofd : Bool
  fd : Nat
deriving DecidableEq, Repr

/-- The state shared by all processes: the file system, the locks currently
held, counters for fresh inodes and descriptors, and the helper command
lines run so far (oldest first). -/
structure World where
  fs : FS
  locks : List Lock := []
  next_ino : Nat := 1000
  next_fd : Nat := 3
  spawned : List (List String) := []
deriving DecidableEq, Repr

/-- What the program cannot decide by itself: choices made by the C library
and the kernel, I/O faults, and the behaviour of helper programs. -/
structure Env where
  /-- The six characters `g_mkdtemp` substitutes for `XXXXXX` when creating a
  directory in `dir`; `none` if it gives up. -/
  mkdtemp_suffix : FS → Path → Option String := fun _ _ => none
  /-- Recursive removal of this tree fails (for example `EACCES`). -/
  rm_rf_fails : Path → Bool := fun _ => false
  /-- Opening this directory for iteration fails. -/
  iter_init_fails : Path → Bool := fun _ => false
  /-- Reading entry number `i` (from 0) of this directory fails. -/
  next_dent_fails : Path → Nat → Bool := fun _ _ => false
  /-- `fstatat` of this name fails with an error other than `ENOENT`. -/
  stat_fails : Path → List String → Bool := fun _ _ => false
  /-- `unlinkat` of this object fails (for example `EACCES`). -/
  unlink_fails : Path → Bool := fun _ => false
  /-- Hard links from the runtime image into the copy can be made. -/
  hardlink_ok : Bool := true
  /-- Open-file-description locks are available. -/
  ofd_locks : Bool := true
  /-- `g_file_test (path, G_FILE_TEST_IS_EXECUTABLE)`. -/
  is_executable : String → Bool := fun _ => true
  /-- Effect of running a helper command line to completion on the file
  system; `none` if it cannot be run or exits unsuccessfully. -/
  run_sync : FS → List String → Option FS := fun fs _ => some fs
  /-- Standard output of a helper command line (`pv_capture_output`), with the
  trailing newline removed; `none` if it fails. -/
  capture_output : FS → List String → Option String := fun _ _ => none
  /-- The `DT_SONAME` of the ELF file with this inode, if it can be read. -/
  elf_soname : Nat → Option String := fun _ => none
  /-- GLib `g_find_program_in_path`: the absolute path of a program found in
  `PATH`. -/
  find_program : String → Option String := fun _ => none
  /-- Writing the file at this path fails. -/
  write_fails : Path → Bool := fun _ => false
  /-- GLib `g_getenv`. -/
  getenv : String → Option String := fun _ => none
  /-- What a helper whose exit status the caller inspects leaves behind: the
  file system and the exit status (0 for success). -/
  run_status : FS → List String → FS × Nat := fun fs _ => (fs, 0)
  /-- The effective user ID, `geteuid ()`. -/
  euid : Nat := 1000
  /-- The host's time zone, `flatpak_get_timezone ()`. -/
  timezone : String := "UTC"
  /-- Arguments and file descriptors that a function outside `runtime.c`
  appends to a launcher command line, by the name of the function and its
  arguments. -/
  external_args : FS → String → List String → List String × List Nat :=
    fun _ _ _ => ([], [])
  /-- Result of `flatpak_bwrap_bundle_args` on an argument vector; `none` if it
  fails. -/
  bundle_args : List String → Option (List String) := fun argv => some argv

/-- POSIX `unlinkat (dirfd, rel, 0)`. -/
def unlinkat (env : Env) (fs : FS) (base : Path) (rel : List String) : Except Errno FS :=
  match lstat_at fs base rel with
  | .error e => .error e
  | .ok (_, .dir) => .error .EISDIR
  | .ok (loc, _) => if env.unlink_fails loc then .error .EACCES else .ok (fs_del fs loc)

/-- libglnx `glnx_shutil_rm_rf_at (dfd, rel, ...)`: removes a whole tree; a
missing tree is not an error.  A failed removal is modelled as removing
nothing. -/
def glnx_shutil_rm_rf_at (env : Env) (fs : FS) (base : Path) (rel : List String) :
    Except Errno FS :=
  match lstat_at fs base rel with
  | .error .ENOENT => .ok fs
  | .error e => .error e
  | .ok (loc, _) => if env.rm_rf_fails loc then .error .EACCES else .ok (fs_rm_tree fs loc)

/-- Outcome of `glnx_fstatat (..., AT_SYMLINK_NOFOLLOW, &error)` as the
caller distinguishes it. -/
inductive StatResult where
  | found
  | not_found
  | other_error
deriving DecidableEq, Repr

/-- libglnx `glnx_fstatat (dfd, rel, &buf, AT_SYMLINK_NOFOLLOW, &error)`;
`ENOENT` is reported as `G_IO_ERROR_NOT_FOUND`. -/
def glnx_fstatat_nofollow (env : Env) (fs : FS) (base : Path) (rel : List String) :
    StatResult :=
  if env.stat_fails base rel then .other_error
  else
    match lstat_at fs base rel with
    | .ok _ => .found
    | .error .ENOENT => .not_found
    | .error _ => .other_error

/-- Whether a new lock of the given mode on inode `ino` is refused because of
the locks already held (locks taken through different open file
descriptions conflict unless both are shared). -/
def lock_conflicts (locks : List Lock) (ino : Nat) (write : Bool) : Bool :=
  locks.any (fun l => l.ino == ino && (write || l.write))

/-- Takes a non-blocking lock on the file with inode `ino`. -/
def take_lock (env : Env) (w : World) (ino : Nat) (write : Bool) :
    Except String (World × Lock) :=
  if lock_conflicts w.locks ino write then .error "Unable to lock: file is busy"
  else
    let l : Lock := { ino := ino, write := write, is_ofd := env.ofd_locks, fd := w.next_fd }
    .ok ({ w with locks := l :: w.locks, next_fd := w.next_fd + 1 }, l)

/-- Modelled from the spec: `pv_bwrap_lock_new (at_fd, path, flags, &error)` of
`bwrap-lock.c`, which is not among the sources.  "Creation opens/creates the
target, acquires the requested mode (`read` shared / `write` exclusive), and
returns a handle"; the acquisition does not block.  The target is opened
following symbolic links; with `create` a missing file is created. -/
def pv_bwrap_lock_new (env : Env) (w : World) (at_dir : Path) (path : List String)
    (create write : Bool) : Except String (World × Lock) :=
  match walk w.fs [] true MAXSYMLINKS at_dir path with
  | .error _ => .error "Unable to open lock file"
  | .ok loc =>
    match fs_node w.fs loc with
    | some (.file ino) => take_lock env w ino write
    | some _ => .error "Unable to open lock file"
    | none =>
      if create && is_dir_node w.fs loc.dropLast then
        take_lock env
          { w with fs := w.fs ++ [(loc, .file w.next_ino)], next_ino := w.next_ino + 1 }
          w.next_ino write
      else .error "Unable to open lock file"

/-- Modelled from the spec: `pv_bwrap_lock_free` of `bwrap-lock.c`: the handle
"releases on drop". -/
def pv_bwrap_lock_free (w : World) (l : Lock) : World :=
  { w with locks := w.locks.erase l }

/-- Releases an optional lock (`g_autoptr(PvBwrapLock)` going out of scope). -/
def release (w : World) (l : Option Lock) : World :=
  match l with
  | none => w
  | some l => pv_bwrap_lock_free w l

/-- Whether a character may be substituted for an `X` by `g_mkdtemp`. -/
def is_template_char (c : Char) : Bool :=
  c.isAlphanum

/-- GLib `g_mkdtemp` for the template `<dir>/<pfx>XXXXXX`: creates a new
directory and returns its name. -/
def g_mkdtemp (env : Env) (fs : FS) (dir : Path) (pfx : String) : Except Errno (FS × String) :=
  match env.mkdtemp_suffix fs dir with
  | none => .error .EEXIST
  | some sfx =>
    if sfx.data.length == 6 && sfx.data.all is_template_char then
      if !is_dir_node fs dir then .error .ENOENT
      else if (fs_get fs (dir ++ [pfx ++ sfx])).isSome then .error .EEXIST
      else .ok (fs ++ [(dir ++ [pfx ++ sfx], .dir)], pfx ++ sfx)
    else .error .EEXIST

/-- The node a copy of `n` gets: hard links share the inode, real copies get
a fresh one. -/
def copied_node (hardlink : Bool) (fresh : Nat) : Node → Node
  | .file ino => if hardlink then .file ino else .file (fresh + ino)
  | n => n

/-- The objects to create below `dest` for a copy of the tree at `source`. -/
def copy_items (fs : FS) (hardlink : Bool) (fresh : Nat) (source dest : Path) :
    List (Path × Node) :=
  fs.filterMap (fun e =>
    (strip_dir source e.1).map (fun sfx => (dest ++ sfx, copied_node hardlink fresh e.2)))

/-- Whether creating `item` collides with an existing object (an existing
directory is acceptable where a directory is to be made). -/
def copy_conflict (fs : FS) (item : Path × Node) : Bool :=
  match fs_node fs item.1, item.2 with
  | none, _ => false
  | some .dir, .dir => false
  | some _, _ => true

/-- Modelled from the spec: `pv_cheap_tree_copy (source, dest, &error)` of
`utils.c`, which is not among the sources: "a cheap tree copy (hardlinks
where possible, real copies where required)".  Directories are created,
symbolic links are re-created with the same target, regular files are
hard-linked or, failing that, copied. -/
def pv_cheap_tree_copy (env : Env) (w : World) (source dest : Path) : Except String World :=
  if (fs_node w.fs source).isNone then .error "Unable to copy: source does not exist"
  else if !is_dir_node w.fs dest.dropLast then
    .error "Unable to copy: destination cannot be created"
  else
    let items := copy_items w.fs env.hardlink_ok w.next_ino source dest
    if items.any (copy_conflict w.fs) then .error "Unable to copy: destination exists"
    else
      .ok { w with
            fs := w.fs ++ items.filter (fun it => (fs_node w.fs it.1).isNone)
            next_ino := if env.hardlink_ok then w.next_ino else w.next_ino + w.next_ino }

/-! ## The runtime object -/

/-- The flags of `PvRuntimeFlags` that `runtime.c` tests. -/
structure PvRuntimeFlags where
  host_graphics_stack : Bool := false
  generate_locales : Bool := false
  gc_runtimes : Bool := false
deriving DecidableEq, Repr

/-- Fields of `struct _PvRuntime`.  Host paths are canonical component lists,
container paths are strings, descriptors of directories are the canonical
path of the directory. -/
structure PvRuntime where
  bubblewrap : String
  source_files : Path
  tools_dir : Path
  runtime_lock : Option Lock := none
  mutable_parent : Option Path := none
  mutable_sysroot : Option Path := none
  tmpdir : Option Path := none
  overrides : Option Path := none
  overrides_in_container : String := ""
  container_access : Option Path := none
  container_access_adverb : Option (List String) := none
  runtime_files : Path := []
  runtime_usr : Path := []
  with_lock_in_container : Option String := none
  flags : PvRuntimeFlags := {}
  mutable_parent_fd : Option Path := none
  mutable_sysroot_fd : Option Path := none
  any_libc_from_host : Bool := false
  all_libc_from_host : Bool := false
  runtime_is_just_usr : Bool := false
deriving DecidableEq, Repr

/-- A function result in the GLib style: the world it leaves behind, and either
a value or the message of the `GError` it set. -/
abbrev Outcome (α : Type) := World × Except String α

/-! ## Garbage collection of temporary runtimes -/

/-- Body of the loop of `pv_runtime_garbage_collect` for one directory entry
of the mutable parent.  The temporary lock is released at the end of the
iteration, whichever way the iteration ends. -/
def gc_entry (env : Env) (parent_fd : Path) (w : World) (dent : Dirent) : World :=
  match dent.d_type with
  | .DT_DIR =>
    if ! g_str_has_prefix dent.d_name "tmp-" then w
    else
      match glnx_fstatat_nofollow env w.fs parent_fd [dent.d_name, "keep"] with
      | .found => w
      | .other_error => w
      | .not_found =>
        match pv_bwrap_lock_new env w parent_fd [dent.d_name, ".ref"] true true with
        | .error _ => w
        | .ok (w1, temp_lock) =>
          match glnx_shutil_rm_rf_at env w1.fs parent_fd [dent.d_name] with
          | .error _ => pv_bwrap_lock_free w1 temp_lock
          | .ok fs2 => pv_bwrap_lock_free { w1 with fs := fs2 } temp_lock
  | _ => w

/-- The `while (TRUE)` loop of `pv_runtime_garbage_collect`: `i` counts the
calls of `glnx_dirfd_iterator_next_dent_ensure_dtype`, `dents` are the
entries not yet returned. -/
def gc_loop (env : Env) (iter_dir parent_fd : Path) : Nat → List Dirent → World → Outcome Unit
  | i, [], w =>
    if env.next_dent_fails iter_dir i then (w, .error "Unable to read directory")
    else (w, .ok ())
  | i, dent :: rest, w =>
    if env.next_dent_fails iter_dir i then (w, .error "Unable to read directory")
    else gc_loop env iter_dir parent_fd (i + 1) rest (gc_entry env parent_fd w dent)

/-- `pv_runtime_garbage_collect` of `runtime.c`. -/
def pv_runtime_garbage_collect (env : Env) (self : PvRuntime) (w : World)
    (mutable_parent_lock : Option Lock) : Outcome Unit :=
  match self.mutable_parent, mutable_parent_lock, self.mutable_parent_fd with
  | some mutable_parent, some _, some parent_fd =>
    match glnx_opendirat w.fs [] mutable_parent true with
    | .error _ => (w, .error ("opendir(" ++ path_to_string mutable_parent ++ ")"))
    | .ok iter_dir =>
      if env.iter_init_fails iter_dir then
        (w, .error ("opendir(" ++ path_to_string mutable_parent ++ ")"))
      else gc_loop env iter_dir parent_fd 0 (readdir w.fs iter_dir) w
  | _, _, _ => (w, .error "assertion failed")

/-! ## Creating the mutable copy -/

/-- Whether `pv_runtime_init_mutable` makes a top-level symlink for this
member of the runtime's `/usr`. -/
def wants_usr_symlink (member : String) : Bool :=
  member == "bin" || member == "etc" ||
    ( g_str_has_prefix member "lib" && !(member == "libexec")) ||
    member == "sbin" || member == "var"

/-- The loop over the members of `source_usr` in `pv_runtime_init_mutable`,
which creates `${temp_dir}/bin -> usr/bin` and so on. -/
def symlink_members (temp_dir : Path) (is_just_usr : Bool) :
    List String → FS → Except String FS
  | [], fs => .ok fs
  | member :: rest, fs =>
    if wants_usr_symlink member then
      match symlinkat fs (g_build_filename ["usr", member]) temp_dir [member] with
      | .ok fs1 => symlink_members temp_dir is_just_usr rest fs1
      | .error e =>
        if is_just_usr || e != .EEXIST then
          .error ("Cannot create symlink \"" ++ path_to_string (temp_dir ++ [member])
            ++ "\" -> " ++ g_build_filename ["usr", member])
        else symlink_members temp_dir is_just_usr rest fs
    else symlink_members temp_dir is_just_usr rest fs

/-- `unlinkat` as used to break a hard link: a missing file is not an error. -/
def unlink_if_exists (env : Env) (fs : FS) (base : Path) (rel : List String) : Option FS :=
  match unlinkat env fs base rel with
  | .ok fs1 => some fs1
  | .error .ENOENT => some fs
  | .error _ => none

/-- Second half of `pv_runtime_init_mutable`, from `g_mkdtemp` on.  A
`copy_lock` that is not handed over to the runtime is released when the
function returns. -/
def init_mutable_copy (env : Env) (self : PvRuntime) (w : World) (parent_fd : Path) :
    Outcome PvRuntime :=
  match g_mkdtemp env w.fs parent_fd "tmp-" with
  | .error _ =>
    (w, .error ("Cannot create temporary directory \""
      ++ path_to_string (parent_fd ++ ["tmp-XXXXXX"]) ++ "\""))
  | .ok (fs1, name) =>
    let temp_dir := parent_fd ++ [name]
    let dest_usr := temp_dir ++ ["usr"]
    let is_just_usr := !g_file_test_is_dir fs1 self.source_files ["usr"]
    let w1 : World := { w with fs := fs1 }
    match pv_cheap_tree_copy env w1 self.source_files
        (if is_just_usr then dest_usr else temp_dir) with
    | .error e => (w1, .error e)
    | .ok w2 =>
      match glnx_opendirat w2.fs temp_dir [] false with
      | .error _ => (w2, .error ("opendir(" ++ path_to_string temp_dir ++ ")"))
      | .ok temp_dir_fd =>
        match unlink_if_exists env w2.fs temp_dir_fd [".ref"] with
        | none => (w2, .error ("Cannot remove \"" ++ path_to_string temp_dir ++ "/.ref\""))
        | some fs3 =>
          match unlink_if_exists env fs3 temp_dir_fd ["usr", ".ref"] with
          | none =>
            ({ w2 with fs := fs3 },
              .error ("Cannot remove \"" ++ path_to_string temp_dir ++ "/usr/.ref\""))
          | some fs4 =>
            match pv_bwrap_lock_new env { w2 with fs := fs4 } temp_dir_fd ["usr", ".ref"]
                true false with
            | .error e =>
              ({ w2 with fs := fs4 },
                .error ("Unable to lock \"" ++ path_to_string dest_usr
                  ++ "/.ref\" in temporary runtime: " ++ e))
            | .ok (w5, copy_lock) =>
              match (if is_just_usr then symlinkat w5.fs "usr/.ref" temp_dir_fd [".ref"]
                     else .ok w5.fs) with
              | .error _ =>
                (pv_bwrap_lock_free w5 copy_lock,
                  .error ("Cannot create symlink \"" ++ path_to_string temp_dir
                    ++ "/.ref\" -> usr/.ref"))
              | .ok fs6 =>
                let w6 : World := { w5 with fs := fs6 }
                match glnx_opendirat fs6 self.source_files
                    (if is_just_usr then [] else ["usr"]) true with
                | .error _ => (pv_bwrap_lock_free w6 copy_lock, .error "Error opening directory")
                | .ok dir =>
                  match symlink_members temp_dir is_just_usr
                      ((readdir fs6 dir).map Dirent.d_name) fs6 with
                  | .error e => (pv_bwrap_lock_free w6 copy_lock, .error e)
                  | .ok fs7 =>
                    (release { w6 with fs := fs7 } self.runtime_lock,
                      .ok { self with
                            runtime_lock := some copy_lock
                            mutable_sysroot := some temp_dir
                            mutable_sysroot_fd := some temp_dir_fd })

/-- `pv_runtime_init_mutable` of `runtime.c`.  The lock on the parent
directory is released when the function returns. -/
def pv_runtime_init_mutable (env : Env) (self : PvRuntime) (w : World) : Outcome PvRuntime :=
  match self.mutable_parent with
  | none => (w, .ok self)
  | some mutable_parent =>
    match g_mkdir_with_parents w.fs [] mutable_parent with
    | .error _ => (w, .error ("Unable to create " ++ path_to_string mutable_parent))
    | .ok (fs1, _) =>
      match glnx_opendirat fs1 [] mutable_parent true with
      | .error _ =>
        ({ w with fs := fs1 }, .error ("opendir(" ++ path_to_string mutable_parent ++ ")"))
      | .ok parent_fd =>
        match pv_bwrap_lock_new env { w with fs := fs1 } parent_fd [".ref"] true false with
        | .error e =>
          ({ w with fs := fs1 },
            .error ("Unable to lock \"" ++ path_to_string mutable_parent ++ "/.ref\": " ++ e))
        | .ok (w2, mutable_lock) =>
          let self1 : PvRuntime := { self with mutable_parent_fd := some parent_fd }
          let collected : Outcome Unit :=
            if self.flags.gc_runtimes then
              pv_runtime_garbage_collect env self1 w2 (some mutable_lock)
            else (w2, .ok ())
          match collected with
          | (w3, .error e) => (pv_bwrap_lock_free w3 mutable_lock, .error e)
          | (w3, .ok ()) =>
            let copied := init_mutable_copy env self1 w3 parent_fd
            (pv_bwrap_lock_free copied.1 mutable_lock, copied.2)

/-- Components of the container path `/usr/lib/pressure-vessel/overrides`. -/
def overrides_in_mutable_sysroot : List String :=
  ["usr", "lib", "pressure-vessel", "overrides"]

/-- GLib `g_dir_make_tmp ("pressure-vessel-wrap.XXXXXX", &error)`: a new
directory in the temporary directory `/tmp`. -/
def g_dir_make_tmp (env : Env) (fs : FS) : Except String (FS × Path) :=
  match g_mkdtemp env fs ["tmp"] "pressure-vessel-wrap." with
  | .error _ => .error "Failed to create directory"
  | .ok (fs1, name) => .ok (fs1, ["tmp", name])

/-- `pv_runtime_initable_init` of `runtime.c`. -/
def pv_runtime_initable_init (env : Env) (self : PvRuntime) (w : World) : Outcome PvRuntime :=
  if !env.is_executable self.bubblewrap then
    (w, .error ("\"" ++ self.bubblewrap ++ "\" is not executable"))
  else if self.mutable_parent.isSome && !path_is_dir w.fs (self.mutable_parent.getD []) then
    (w, .error ("\"" ++ path_to_string (self.mutable_parent.getD []) ++ "\" is not a directory"))
  else if !path_is_dir w.fs self.source_files then
    (w, .error ("\"" ++ path_to_string self.source_files ++ "\" is not a directory"))
  else if !path_is_dir w.fs self.tools_dir then
    (w, .error ("\"" ++ path_to_string self.tools_dir ++ "\" is not a directory"))
  else
    match pv_bwrap_lock_new env w self.source_files [".ref"] true false with
    | .error e => (w, .error e)
    | .ok (w1, runtime_lock) =>
      match pv_runtime_init_mutable env { self with runtime_lock := some runtime_lock } w1 with
      | (w2, .error e) => (w2, .error e)
      | (w2, .ok self2) =>
        let placed : Outcome PvRuntime :=
          match self2.mutable_sysroot with
          | some mutable_sysroot =>
            (w2, .ok { self2 with
                       overrides_in_container := "/usr/lib/pressure-vessel/overrides"
                       overrides := some (mutable_sysroot ++ overrides_in_mutable_sysroot)
                       runtime_files := mutable_sysroot })
          | none =>
            match g_dir_make_tmp env w2.fs with
            | .error e => (w2, .error e)
            | .ok (fs3, tmpdir) =>
              ({ w2 with fs := fs3 },
                .ok { self2 with
                      tmpdir := some tmpdir
                      overrides := some (tmpdir ++ ["overrides"])
                      overrides_in_container := "/overrides"
                      runtime_files := self2.source_files })
        match placed with
        | (w3, .error e) => (w3, .error e)
        | (w3, .ok self3) =>
          let fs4 :=
            match g_mkdir w3.fs [] (self3.overrides.getD []) with
            | .ok fs => fs
            | .error _ => w3.fs
          if g_file_test_is_dir fs4 self3.runtime_files ["usr"] then
            ({ w3 with fs := fs4 },
              .ok { self3 with
                    runtime_usr := self3.runtime_files ++ ["usr"]
                    runtime_is_just_usr := false })
          else
            ({ w3 with fs := fs4 },
              .ok { self3 with
                    runtime_usr := self3.runtime_files
                    runtime_is_just_usr := true })

/-- The `set_property` handler for a construct-only path property: the
canonical path if the path exists, the path as given otherwise. -/
def canonical_or_given (fs : FS) (path : Path) : Path :=
  match realpath fs path with
  | some p => p
  | none => path

/-- `pv_runtime_new` of `runtime.c`: sets the construct-only properties, then
runs `pv_runtime_initable_init`. -/
def pv_runtime_new (env : Env) (w : World) (source_files : Path) (mutable_parent : Option Path)
    (bubblewrap : String) (tools_dir : Path) (flags : PvRuntimeFlags) : Outcome PvRuntime :=
  pv_runtime_initable_init env
    { bubblewrap := bubblewrap
      source_files := canonical_or_given w.fs source_files
      tools_dir := tools_dir
      mutable_parent := mutable_parent.map (canonical_or_given w.fs)
      flags := flags }
    w

/-! ## Architectures and helper processes -/

/-- Supported Debian-style multiarch tuples (`multiarch_tuples` without its
NULL terminator). -/
def multiarch_tuples : List String :=
  ["x86_64-linux-gnu", "i386-linux-gnu"]

/-- `libquals`: directories other than `/usr/lib` searched for loadable
modules, in the same order as `multiarch_tuples`. -/
def libquals : List String :=
  ["lib64", "lib32"]

/-- `G_N_ELEMENTS (multiarch_tuples)`, which counts the NULL terminator. -/
def N_MULTIARCH : Nat :=
  multiarch_tuples.length + 1

/-- `RuntimeArchitecture` of `runtime.c`. -/
structure RuntimeArchitecture where
  multiarch_index : Nat
  tuple : String
  capsule_capture_libs_basename : String
  capsule_capture_libs : Path
  libdir_on_host : Path
  libdir_in_container : String
  libqual : String
  ld_so : String
deriving DecidableEq, Repr

/-- `runtime_architecture_init` of `runtime.c`: `none` stands for the return
value FALSE (no entry in the tables, or the capture tool cannot be run). -/
def runtime_architecture_init (env : Env) (self : PvRuntime) (fs : FS)
    (multiarch_index : Nat) : Option RuntimeArchitecture :=
  match multiarch_tuples.get? multiarch_index, libquals.get? multiarch_index with
  | some tuple, some libqual =>
    let capsule_capture_libs_basename := tuple ++ "-capsule-capture-libs"
    let capsule_capture_libs := self.tools_dir ++ [capsule_capture_libs_basename]
    match env.capture_output fs [path_to_string capsule_capture_libs, "--print-ld.so"] with
    | none => none
    | some ld_so =>
      some
        { multiarch_index := multiarch_index
          tuple := tuple
          capsule_capture_libs_basename := capsule_capture_libs_basename
          capsule_capture_libs := capsule_capture_libs
          libdir_on_host := self.overrides.getD [] ++ ["lib", tuple]
          libdir_in_container := g_build_filename [self.overrides_in_container, "lib", tuple]
          libqual := libqual
          ld_so := ld_so }
  | _, _ => none

/-- `runtime_architecture_check_valid` of `runtime.c` (pointers of the model
are never NULL). -/
def runtime_architecture_check_valid (arch : RuntimeArchitecture) : Bool :=
  decide (arch.multiarch_index < libquals.length) &&
    multiarch_tuples.get? arch.multiarch_index == some arch.tuple &&
    libquals.get? arch.multiarch_index == some arch.libqual

/-- `pv_bwrap_run_sync (bwrap, NULL, &error)`: runs a helper command line to
completion and records it. -/
def pv_bwrap_run_sync (env : Env) (w : World) (argv : List String) : Outcome Unit :=
  match env.run_sync w.fs argv with
  | none => ({ w with spawned := w.spawned ++ [argv] }, .error "Child process failed")
  | some fs1 => ({ w with fs := fs1, spawned := w.spawned ++ [argv] }, .ok ())

/-- Modelled from the spec: `pv_bwrap_bind_usr (bwrap, host_path, mount_point,
&error)` of `bwrap.c`, which is not among the sources.  It appends the
launcher arguments that make the `/usr` of `host_path` (and the top-level
directories that belong to it) appear below `mount_point`; it fails if
`host_path` cannot be read as a directory. -/
def pv_bwrap_bind_usr (fs : FS) (bwrap : List String) (host_path : Path)
    (mount_point : String) : Except String (List String) :=
  match glnx_opendirat fs [] host_path true with
  | .error _ => .error ("Unable to open \"" ++ path_to_string host_path ++ "\"")
  | .ok dir =>
    if is_dir_node fs (dir ++ ["usr"]) then
      .ok (bwrap ++ ["--ro-bind", path_to_string (dir ++ ["usr"]),
        g_build_filename [mount_point, "usr"]])
    else
      .ok (bwrap ++ ["--ro-bind", path_to_string dir, g_build_filename [mount_point, "usr"]])

/-- `pv_runtime_provide_container_access` of `runtime.c`. -/
def pv_runtime_provide_container_access (self : PvRuntime) (w : World) : Outcome PvRuntime :=
  if self.container_access_adverb.isSome then (w, .ok self)
  else if !self.runtime_is_just_usr then
    (w, .ok { self with
              container_access_adverb := some []
              container_access := some self.runtime_files })
  else
    match self.mutable_sysroot, self.tmpdir with
    | none, some tmpdir =>
      let container_access := tmpdir ++ ["mnt"]
      let fs1 :=
        match g_mkdir w.fs [] container_access with
        | .ok fs => fs
        | .error _ => w.fs
      let overrides := path_to_string (self.overrides.getD [])
      match pv_bwrap_bind_usr fs1
          [self.bubblewrap, "--ro-bind", "/", "/", "--bind", overrides, overrides,
            "--tmpfs", path_to_string container_access]
          self.runtime_files (path_to_string container_access) with
      | .error e =>
        ({ w with fs := fs1 }, .error e)
      | .ok adverb =>
        ({ w with fs := fs1 },
          .ok { self with
                container_access := some container_access
                container_access_adverb := some adverb })
    | _, _ => (w, .error "assertion failed")

/-! ## Binding ICDs -/

/-- `IcdKind` of `runtime.c`. -/
inductive IcdKind where
  | ICD_KIND_NONEXISTENT
  | ICD_KIND_ABSOLUTE
  | ICD_KIND_SONAME
deriving DecidableEq, Repr

/-- What the model needs of an `SrtEglIcd`, `SrtVulkanIcd`, `SrtVdpauDriver`
or `SrtVaApiDriver`: the manifest path, whether `check_error` reports an
error, and the result of `resolve_library_path`. -/
structure Icd where
  json_path : String := ""
  has_error : Bool := false
  resolved_library : String
deriving DecidableEq, Repr

/-- `IcdDetails` of `runtime.c`; both arrays have `N_MULTIARCH` entries. -/
structure IcdDetails where
  icd : Icd
  resolved_library : Option String
  kinds : List IcdKind
  paths_in_container : List (Option String)
deriving DecidableEq, Repr

/-- `icd_details_new` of `runtime.c`. -/
def icd_details_new (icd : Icd) : IcdDetails :=
  { icd := icd
    resolved_library := none
    kinds := List.replicate N_MULTIARCH .ICD_KIND_NONEXISTENT
    paths_in_container := List.replicate N_MULTIARCH none }

/-- `details->kinds[i]`. -/
def IcdDetails.kind (details : IcdDetails) (i : Nat) : IcdKind :=
  details.kinds.getD i .ICD_KIND_NONEXISTENT

/-- `details->paths_in_container[i]`. -/
def IcdDetails.path_in_container (details : IcdDetails) (i : Nat) : Option String :=
  (details.paths_in_container.get? i).join

/-- The `options` of `bind_icd`. -/
def bind_icd_options : String :=
  "if-exists:if-same-abi"

/-- Command line of one run of the capture helper, as `bind_icd`,
`try_bind_dri` and `pv_runtime_use_host_graphics_stack` assemble it. -/
def capture_libs_argv (self : PvRuntime) (arch : RuntimeArchitecture) (dest : Path)
    (patterns : List String) : List String :=
  self.container_access_adverb.getD [] ++
    [path_to_string arch.capsule_capture_libs,
      "--container", path_to_string (self.container_access.getD []),
      "--link-target", "/run/host",
      "--dest", path_to_string dest,
      "--provider", "/"] ++ patterns

/-- The text `seq_str` of `bind_icd` for an ICD with an absolute library:
the sequence number in decimal, unless it is `G_MAXSIZE`. -/
def icd_seq_str (sequence_number : Nat) : Option String :=
  if sequence_number != G_MAXSIZE then some (gsize_to_string sequence_number) else none

/-- The staging directory `on_host` of `bind_icd` for an ICD with an absolute
library: `<libdir_on_host>/<subdir>/<seq_str>`, or `<libdir_on_host>/<subdir>`
without a sequence number. -/
def icd_on_host (arch : RuntimeArchitecture) (sequence_number : Nat) (subdir : String) : Path :=
  arch.libdir_on_host ++ path_components subdir ++ (icd_seq_str sequence_number).toList

/-- The expression `pattern` of `bind_icd` (root-only capture). -/
def icd_pattern (mode resolved_library : String) : String :=
  "no-dependencies:even-if-older:" ++ bind_icd_options ++ ":" ++ mode ++ ":" ++ resolved_library

/-- The expression `dependency_pattern` of `bind_icd`. -/
def icd_dependency_pattern (mode resolved_library : String) : String :=
  "only-dependencies:" ++ bind_icd_options ++ ":" ++ mode ++ ":" ++ resolved_library

/-- The library-capture mode of `bind_icd`. -/
def icd_mode (resolved_library : String) : String :=
  if g_path_is_absolute resolved_library then "path" else "soname"

/-- First part of `bind_icd` of `runtime.c`, up to and including the
root-only capture (`no-dependencies:...`).  On success it returns the
updated runtime and the ICD record with `kinds[multiarch_index]` set to
`ABSOLUTE` or `SONAME`. -/
def bind_icd_capture (env : Env) (self : PvRuntime) (w : World) (arch : RuntimeArchitecture)
    (sequence_number : Nat) (subdir : String) (details : IcdDetails) :
    Outcome (PvRuntime × IcdDetails) :=
  if !runtime_architecture_check_valid arch then (w, .error "assertion failed")
  else
    match details.resolved_library with
    | none => (w, .error "assertion failed")
    | some resolved_library =>
      let multiarch_index := arch.multiarch_index
      if details.kind multiarch_index != .ICD_KIND_NONEXISTENT ||
          (details.path_in_container multiarch_index).isSome then
        (w, .error "assertion failed")
      else
        let absolute := g_path_is_absolute resolved_library
        let on_host : Option Path :=
          if absolute then some (icd_on_host arch sequence_number subdir) else none
        let details1 : IcdDetails :=
          { details with
            kinds := details.kinds.set multiarch_index
              (if absolute then .ICD_KIND_ABSOLUTE else .ICD_KIND_SONAME) }
        let made : Except Errno FS :=
          match on_host with
          | some dir => (g_mkdir_with_parents w.fs [] dir).map Prod.fst
          | none => .ok w.fs
        match made with
        | .error _ =>
          (w, .error ("Unable to create " ++ path_to_string (on_host.getD [])))
        | .ok fs1 =>
          match pv_runtime_provide_container_access self { w with fs := fs1 } with
          | (w2, .error e) => (w2, .error e)
          | (w2, .ok self2) =>
            match pv_bwrap_run_sync env w2
                (capture_libs_argv self2 arch (on_host.getD arch.libdir_on_host)
                  [icd_pattern (icd_mode resolved_library) resolved_library]) with
            | (w3, .error e) => (w3, .error e)
            | (w3, .ok ()) => (w3, .ok (self2, details1))

/-- Second part of `bind_icd` of `runtime.c`, after the root-only capture:
the attempt to remove the staging directory, the capture of the
dependencies and the computation of the path in the container. -/
def bind_icd_finish (env : Env) (self : PvRuntime) (w : World) (arch : RuntimeArchitecture)
    (sequence_number : Nat) (subdir : String) (details : IcdDetails) :
    Outcome (PvRuntime × IcdDetails) :=
  let resolved_library := details.resolved_library.getD ""
  let multiarch_index := arch.multiarch_index
  let absolute := g_path_is_absolute resolved_library
  let seq_str : Option String := if absolute then icd_seq_str sequence_number else none
  let removed : Option FS :=
    if absolute then
      match g_rmdir w.fs [] (icd_on_host arch sequence_number subdir) with
      | .ok fs => some fs
      | .error _ => none
    else none
  match removed with
  | some fs1 =>
    ({ w with fs := fs1 },
      .ok (self,
        { details with
          kinds := details.kinds.set multiarch_index .ICD_KIND_NONEXISTENT }))
  | none =>
    match pv_bwrap_run_sync env w
        (capture_libs_argv self arch arch.libdir_on_host
          [icd_dependency_pattern (icd_mode resolved_library) resolved_library]) with
    | (w2, .error e) => (w2, .error e)
    | (w2, .ok ()) =>
      if details.kind multiarch_index == .ICD_KIND_ABSOLUTE then
        (w2,
          .ok (self,
            { details with
              paths_in_container := details.paths_in_container.set multiarch_index
                (some (g_build_filename
                  [arch.libdir_in_container, subdir, seq_str.getD "",
                    glnx_basename resolved_library])) }))
      else (w2, .ok (self, details))

/-- `bind_icd` of `runtime.c`.  On success the updated runtime and ICD record
are returned. -/
def bind_icd (env : Env) (self : PvRuntime) (w : World) (arch : RuntimeArchitecture)
    (sequence_number : Nat) (subdir : String) (details : IcdDetails) :
    Outcome (PvRuntime × IcdDetails) :=
  match bind_icd_capture env self w arch sequence_number subdir details with
  | (w1, .error e) => (w1, .error e)
  | (w1, .ok (self1, details1)) =>
    bind_icd_finish env self1 w1 arch sequence_number subdir details1

/-! ## Removing overridden libraries from the mutable sysroot -/

/-- Modelled from the spec: `pv_resolve_in_sysroot (sysroot_fd, descendant,
flags, &real_path, &error)` of `resolve-in-sysroot.c`, which is not among the
sources: resolves `descendant` "by walking symlinks in the sysroot", so
that absolute link targets and `..` stay inside the sysroot.  The result is
the canonical host path of the object found, which must exist. -/
def pv_resolve_in_sysroot (fs : FS) (sysroot : Path) (descendant : List String) :
    Except Errno Path :=
  match walk fs sysroot true MAXSYMLINKS sysroot descendant with
  | .error e => .error e
  | .ok loc => if (fs_node fs loc).isSome then .ok loc else .error .ENOENT

/-- libglnx `glnx_readlinkat_malloc (dfd, name, ...)`: the target of a
symbolic link, `none` if the name is not a symbolic link. -/
def glnx_readlinkat_malloc (fs : FS) (base : Path) (rel : List String) : Option String :=
  match lstat_at fs base rel with
  | .ok (_, .symlink t) => some t
  | _ => none

/-- `pv_elf_open_fd` followed by `pv_elf_get_soname` on the object at a
canonical path: the `DT_SONAME` of a regular ELF file. -/
def elf_soname_at (env : Env) (fs : FS) (loc : Path) : Option String :=
  match fs_node fs loc with
  | some (.file ino) => env.elf_soname ino
  | _ => none

/-- `libdirs` of `pv_runtime_remove_overridden_libraries`. -/
def libdirs : List (List String) :=
  [["lib"], ["usr", "lib"], ["usr", "lib", "mesa"]]

/-- The name filter of the scan in `pv_runtime_remove_overridden_libraries`:
regular files and symbolic links whose name starts with `lib` and either
ends in `.so` or contains `.so.`. -/
def is_library_candidate (dent : Dirent) : Bool :=
  (dent.d_type == .DT_REG || dent.d_type == .DT_LNK) &&
    ( g_str_has_prefix dent.d_name "lib") &&
    !(! g_str_has_suffix dent.d_name ".so" && !strstr_found dent.d_name ".so.")

/-- Body of the scan loop of `pv_runtime_remove_overridden_libraries` for one
entry `dent` of the directory `dir` (which is `multiarch_libdir` inside the
sysroot): the reason for which the entry is to be deleted, if it is. -/
def overridden_by (env : Env) (fs : FS) (sysroot_fd : Path) (arch : RuntimeArchitecture)
    (multiarch_libdir : List String) (dir : Path) (dent : Dirent) : Option Path :=
  if !is_library_candidate dent then none
  else if g_file_test_is_symlink fs [] (arch.libdir_on_host ++ [dent.d_name]) then
    some (arch.libdir_on_host ++ [dent.d_name])
  else
    let by_target : Option Path :=
      match glnx_readlinkat_malloc fs dir [dent.d_name] with
      | some target =>
        let soname_link := arch.libdir_on_host ++ path_components (glnx_basename target)
        if g_file_test_is_symlink fs [] soname_link then some soname_link else none
      | none => none
    match by_target with
    | some reason => some reason
    | none =>
      match pv_resolve_in_sysroot fs sysroot_fd (multiarch_libdir ++ [dent.d_name]) with
      | .error _ => none
      | .ok lib =>
        match elf_soname_at env fs lib with
        | none => none
        | some soname =>
          let soname_link := arch.libdir_on_host ++ path_components soname
          if g_file_test_is_symlink fs [] soname_link then some soname_link else none

/-- The `while (TRUE)` scan loop for one library directory: the table
`delete[i]` of names to delete with the reason for each; `i` counts the
calls of the directory iterator. -/
def scan_libdir (env : Env) (fs : FS) (sysroot_fd : Path) (arch : RuntimeArchitecture)
    (multiarch_libdir : List String) (dir : Path) :
    Nat → List Dirent → List (String × Path) → Except String (List (String × Path))
  | i, [], delete =>
    if env.next_dent_fails dir i then
      .error ("Unable to iterate over \"" ++ path_to_string (sysroot_fd ++ multiarch_libdir) ++ "\"")
    else .ok delete
  | i, dent :: rest, delete =>
    if env.next_dent_fails dir i then
      .error ("Unable to iterate over \"" ++ path_to_string (sysroot_fd ++ multiarch_libdir) ++ "\"")
    else
      match overridden_by env fs sysroot_fd arch multiarch_libdir dir dent with
      | some reason =>
        scan_libdir env fs sysroot_fd arch multiarch_libdir dir (i + 1) rest
          (delete ++ [(dent.d_name, reason)])
      | none => scan_libdir env fs sysroot_fd arch multiarch_libdir dir (i + 1) rest delete

/-- First loop of `pv_runtime_remove_overridden_libraries`: for each of
`libdirs`, the directory opened (`iters[i]`) with its table `delete[i]`, or
`none` where the directory cannot be resolved. -/
def scan_libdirs (env : Env) (fs : FS) (sysroot_fd : Path) (arch : RuntimeArchitecture) :
    List (List String) → Except String (List (Option (Path × List (String × Path))))
  | [] => .ok []
  | libdir :: rest =>
    let multiarch_libdir := libdir ++ [arch.tuple]
    match pv_resolve_in_sysroot fs sysroot_fd multiarch_libdir with
    | .error _ =>
      (scan_libdirs env fs sysroot_fd arch rest).map (fun tables => none :: tables)
    | .ok dir =>
      if !is_dir_node fs dir || env.iter_init_fails dir then
        .error ("Unable to start iterating \""
          ++ path_to_string (sysroot_fd ++ multiarch_libdir) ++ "\"")
      else
        match scan_libdir env fs sysroot_fd arch multiarch_libdir dir 0 (readdir fs dir) [] with
        | .error e => .error e
        | .ok delete =>
          (scan_libdirs env fs sysroot_fd arch rest).map
            (fun tables => some (dir, delete) :: tables)

/-- Deletes the names of one table `delete[i]` from the directory `dir`;
a name that cannot be deleted is only warned about. -/
def delete_marked (env : Env) (dir : Path) : List (String × Path) → FS → FS
  | [], fs => fs
  | (name, _) :: rest, fs =>
    match unlinkat env fs dir [name] with
    | .ok fs1 => delete_marked env dir rest fs1
    | .error _ => delete_marked env dir rest fs

/-- Second loop of `pv_runtime_remove_overridden_libraries`. -/
def delete_tables (env : Env) : List (Option (Path × List (String × Path))) → FS → FS
  | [], fs => fs
  | none :: rest, fs => delete_tables env rest fs
  | some (dir, delete) :: rest, fs => delete_tables env rest (delete_marked env dir delete fs)

/-- `pv_runtime_remove_overridden_libraries` of `runtime.c`. -/
def pv_runtime_remove_overridden_libraries (env : Env) (self : PvRuntime) (w : World)
    (arch : RuntimeArchitecture) : Outcome Unit :=
  match self.mutable_sysroot, self.mutable_sysroot_fd with
  | some _, some sysroot_fd =>
    match scan_libdirs env w.fs sysroot_fd arch libdirs with
    | .error e => (w, .error e)
    | .ok tables => ({ w with fs := delete_tables env tables w.fs }, .ok ())
  | _, _ => (w, .error "assertion failed")

deriving instance DecidableEq for Except

/-- The string is not empty and does not begin with `/`. -/
def clean_head (s : String) : Bool :=
  match s.data with
  | [] => false
  | c :: _ => c != '/'

/-- The string is not empty and does not end in `/`. -/
def clean_tail (s : String) : Bool :=
  match s.data.reverse with
  | [] => false
  | c :: _ => c != '/'

/-! ## Taking files from the host -/

/-- The character a C program reads at index `i` of a NUL-terminated string:
`none` if the index lies beyond the terminator. -/
def c_char_at (s : List Char) (i : Nat) : Option Char :=
  match s.get? i with
  | some c => some c
  | none => if i = s.length then some (Char.ofNat 0) else none

/-- The test `c == '\0' || c == '/'`. -/
def is_end_or_sep (c : Char) : Bool :=
  c == Char.ofNat 0 || c == '/'

/-- `path_visible_in_run_host` of `runtime.c`, with every character read
checked against the end of the string: `none` stands for a read beyond the
terminator. -/
def path_visible_in_run_host (path : String) : Option Bool :=
  let p := path.data.dropWhile (fun c => c == '/')
  let usr : Option Bool :=
    if "usr".data.isPrefixOf p then (c_char_at p 3).map is_end_or_sep else some false
  match usr with
  | none => none
  | some true => some true
  | some false =>
    if "lib".data.isPrefixOf p then some true
    else
      let bin : Option Bool :=
        if "bin".data.isPrefixOf p then (c_char_at p 3).map is_end_or_sep else some false
      match bin with
      | none => none
      | some true => some true
      | some false =>
        if "sbin".data.isPrefixOf p then some true
        else
          match (c_char_at p 4).map is_end_or_sep with
          | none => none
          | some true => some true
          | some false => some false

/-- GLib `g_path_get_dirname` on Unix. -/
def g_path_get_dirname (file_name : String) : String :=
  if !file_name.data.contains '/' then "."
  else
    let upto := (file_name.data.reverse.dropWhile (fun c => c != '/')).reverse
    let stripped := strip_trailing_sep upto
    if stripped.isEmpty then ⟨file_name.data.take 1⟩ else ⟨stripped⟩

/-- `TakeFromHostFlags` of `runtime.c`. -/
structure TakeFromHostFlags where
  if_dir : Bool := false
  if_exists : Bool := false
  if_container_compatible : Bool := false
  copy_fallback : Bool := false
deriving DecidableEq, Repr

/-- Modelled from the spec: the text of the error that `pv_resolve_in_sysroot`
of `resolve-in-sysroot.c` (not among the sources) sets when it cannot
resolve `descendant`. -/
def pv_resolve_in_sysroot_error (descendant : String) : String :=
  "Unable to resolve \"" ++ descendant ++ "\" in sysroot"

/-- Modelled from the spec: `pv_resolve_in_sysroot` with
`PV_RESOLVE_FLAGS_MKDIR_P` (`resolve-in-sysroot.c` is not among the
sources): resolves `descendant` "by walking symlinks in the sysroot",
creating the directories that are missing. -/
def pv_resolve_in_sysroot_mkdir_p (sysroot : Path) :
    FS → Path → List String → Except Errno (FS × Path)
  | fs, base, [] => .ok (fs, base)
  | fs, base, c :: rest =>
    match walk fs sysroot true MAXSYMLINKS base [c] with
    | .error e => .error e
    | .ok loc =>
      match fs_node fs loc with
      | some .dir => pv_resolve_in_sysroot_mkdir_p sysroot fs loc rest
      | some _ => .error .ENOTDIR
      | none =>
        if is_dir_node fs loc.dropLast then
          pv_resolve_in_sysroot_mkdir_p sysroot (fs ++ [(loc, .dir)]) loc rest
        else .error .ENOENT

/-- libglnx `glnx_file_copy_at (AT_FDCWD, source, NULL, dfd, name,
GLNX_FILE_COPY_OVERWRITE, ...)`: copies a regular file, replacing the
destination. -/
def glnx_file_copy_at (w : World) (source : List String) (dest_dir : Path) (name : String) :
    Outcome Unit :=
  match stat_at w.fs [] source with
  | .ok (_, .file _) =>
    ({ w with
       fs := fs_put w.fs (dest_dir ++ [name]) (.file w.next_ino)
       next_ino := w.next_ino + 1 }, .ok ())
  | _ => (w, .error "Unable to copy file")

/-- `pv_runtime_take_from_host` of `runtime.c`; returns the launcher
arguments `bwrap` with what it appended.  A read beyond the end of the
string in `path_visible_in_run_host` is reported as an error. -/
def pv_runtime_take_from_host (env : Env) (self : PvRuntime) (w : World) (bwrap : List String)
    (source_in_host dest_in_container : String) (flags : TakeFromHostFlags) :
    Outcome (List String) :=
  if flags.if_dir && !g_file_test_is_dir w.fs [] (path_components source_in_host) then
    (w, .ok bwrap)
  else if flags.if_exists && !g_file_test_exists w.fs [] (path_components source_in_host) then
    (w, .ok bwrap)
  else
    match self.mutable_sysroot, self.mutable_sysroot_fd with
    | some mutable_sysroot, some sysroot_fd =>
      match pv_resolve_in_sysroot_mkdir_p sysroot_fd w.fs sysroot_fd
          (path_components (g_path_get_dirname dest_in_container)) with
      | .error _ =>
        (w, .error (pv_resolve_in_sysroot_error (g_path_get_dirname dest_in_container)))
      | .ok (fs1, parent_dirfd) =>
        let base := glnx_basename dest_in_container
        match glnx_shutil_rm_rf_at env fs1 parent_dirfd (path_components base) with
        | .error _ => ({ w with fs := fs1 }, .error ("Unable to remove \"" ++ base ++ "\""))
        | .ok fs2 =>
          match path_visible_in_run_host source_in_host with
          | none => ({ w with fs := fs2 }, .error "read beyond the end of a string")
          | some visible =>
            if !visible && flags.copy_fallback then
              match glnx_file_copy_at { w with fs := fs2 } (path_components source_in_host)
                  parent_dirfd base with
              | (w3, .error e) => (w3, .error e)
              | (w3, .ok ()) => (w3, .ok bwrap)
            else
              match symlinkat fs2 (g_build_filename ["/run/host", source_in_host])
                  parent_dirfd (path_components base) with
              | .error _ =>
                ({ w with fs := fs2 },
                  .error ("Unable to create symlink \"" ++ path_to_string mutable_sysroot ++ "/"
                    ++ dest_in_container ++ "\" -> \""
                    ++ g_build_filename ["/run/host", source_in_host] ++ "\""))
              | .ok fs3 => ({ w with fs := fs3 }, .ok bwrap)
    | _, _ =>
      let dest : Path :=
        if g_str_has_prefix dest_in_container "/usr/" then
          self.runtime_usr ++ path_components ⟨dest_in_container.data.drop 5⟩
        else self.runtime_files ++ path_components dest_in_container
      if flags.if_container_compatible &&
          (if g_file_test_is_dir w.fs [] (path_components source_in_host) then
            !g_file_test_is_dir w.fs [] dest
          else !(g_file_test_exists w.fs [] dest && g_file_test_is_dir w.fs [] dest)) then
        (w, .ok bwrap)
      else (w, .ok (bwrap ++ ["--ro-bind", source_in_host, dest_in_container]))

/-- `pv_runtime_take_ld_so_from_host` of `runtime.c`. -/
def pv_runtime_take_ld_so_from_host (env : Env) (self : PvRuntime) (w : World)
    (arch : RuntimeArchitecture) (ld_so_in_runtime : String) (bwrap : List String) :
    Outcome (List String) :=
  match realpath w.fs (path_components arch.ld_so) with
  | none => (w, .error ("Unable to determine host path to " ++ arch.ld_so))
  | some ld_so_in_host =>
    let first : Outcome (List String) :=
      if self.mutable_sysroot.isSome then
        pv_runtime_take_from_host env self w bwrap (path_to_string ld_so_in_host) arch.ld_so {}
      else (w, .ok bwrap)
    match first with
    | (w1, .error e) => (w1, .error e)
    | (w1, .ok bwrap1) =>
      pv_runtime_take_from_host env self w1 bwrap1 (path_to_string ld_so_in_host)
        ld_so_in_runtime {}

/-! ## DRI drivers -/

/-- The loop of `try_bind_dri` over the members of `<libdir>/dri`: replaces
`<libdir_on_host>/dri/<member>` by a symbolic link into `/run/host`. -/
def link_dri_members (env : Env) (arch : RuntimeArchitecture) (dri : String) :
    List String → FS → Except String FS
  | [], fs => .ok fs
  | member :: rest, fs =>
    let target := g_build_filename ["/run/host", dri, member]
    let dest := arch.libdir_on_host ++ ["dri", member]
    match unlink_if_exists env fs [] dest with
    | none => .error ("Unable to remove \"" ++ path_to_string dest ++ "\"")
    | some fs1 =>
      match symlinkat fs1 target [] dest with
      | .error _ =>
        .error ("Unable to create symlink \"" ++ path_to_string dest ++ "\" -> \""
          ++ target ++ "\"")
      | .ok fs2 => link_dri_members env arch dri rest fs2

/-- The expression `expr` of `try_bind_dri` for the DRI drivers of `libdir`. -/
def dri_pattern (libdir : String) : String :=
  "only-dependencies:if-exists:path-match:" ++ libdir ++ "/dri/*.so"

/-- The expression `expr` of `try_bind_dri` for the library `s2tc`. -/
def s2tc_pattern (s2tc : String) : String :=
  "path-match:" ++ s2tc

/-- `try_bind_dri` of `runtime.c`. -/
def try_bind_dri (env : Env) (self : PvRuntime) (w : World) (arch : RuntimeArchitecture)
    (libdir : String) : Outcome PvRuntime :=
  let dri := g_build_filename [libdir, "dri"]
  let s2tc := g_build_filename [libdir, "libtxc_dxtn.so"]
  let bound : Outcome PvRuntime :=
    if g_file_test_is_dir w.fs [] (path_components dri) then
      match pv_runtime_provide_container_access self w with
      | (w1, .error e) => (w1, .error e)
      | (w1, .ok self1) =>
        match pv_bwrap_run_sync env w1
            (capture_libs_argv self1 arch arch.libdir_on_host
              [dri_pattern libdir]) with
        | (w2, .error e) => (w2, .error e)
        | (w2, .ok ()) =>
          match glnx_opendirat w2.fs [] (path_components dri) true with
          | .error _ => (w2, .error "Error opening directory")
          | .ok dir =>
            match link_dri_members env arch dri ((readdir w2.fs dir).map Dirent.d_name)
                w2.fs with
            | .error e => (w2, .error e)
            | .ok fs3 => ({ w2 with fs := fs3 }, .ok self1)
    else (w, .ok self)
  match bound with
  | (w3, .error e) => (w3, .error e)
  | (w3, .ok self3) =>
    if g_file_test_exists w3.fs [] (path_components s2tc) then
      match pv_runtime_provide_container_access self3 w3 with
      | (w4, .error e) => (w4, .error e)
      | (w4, .ok self4) =>
        match pv_bwrap_run_sync env w4
            (capture_libs_argv self4 arch arch.libdir_on_host [s2tc_pattern s2tc]) with
        | (w5, .error e) => (w5, .error e)
        | (w5, .ok ()) => (w5, .ok self4)
    else (w3, .ok self3)

/-! ## Using the graphics stack of the host -/

/-- What the model needs of `SrtSystemInfo`: the drivers it enumerates on the
host system, in the order of enumeration. -/
structure SrtSystemInfo where
  egl_icds : List Icd := []
  vulkan_icds : List Icd := []
  vdpau_drivers : String → List Icd := fun _ => []
  va_api_drivers : String → List Icd := fun _ => []

/-- The `IcdDetails` array built from an enumeration: one record for every
ICD that `check_error` accepts. -/
def icd_details_array (icds : List Icd) : List IcdDetails :=
  (icds.filter (fun icd => !icd.has_error)).map icd_details_new

/-- Local variables of `pv_runtime_use_host_graphics_stack` that outlive one
iteration of its loop over the architectures, with the runtime object and
the launcher arguments `bwrap`. -/
structure GraphicsStack where
  self : PvRuntime
  bwrap : List String
  dri_path : String := ""
  egl_icd_details : List IcdDetails := []
  vulkan_icd_details : List IcdDetails := []
  va_api_icd_details : List IcdDetails := []
  any_architecture_works : Bool := false
  all_libdrm_from_host : Bool := true
  libdrm_data_from_host : List String := []
  gconv_from_host : List String := []
deriving DecidableEq, Repr

/-- GLib `g_hash_table_add` on a table used as a set of strings. -/
def g_hash_table_add (table : List String) (key : String) : List String :=
  if table.contains key then table else table ++ [key]

/-- The fixed patterns of the first capture of
`pv_runtime_use_host_graphics_stack` for an architecture. -/
def graphics_stack_patterns : List String :=
  ["gl:",
   "if-exists:if-same-abi:soname:libvulkan.so.1",
   "if-exists:if-same-abi:soname:libvdpau.so.1",
   "if-exists:if-same-abi:soname:libva.so.1",
   "if-exists:if-same-abi:soname:libva-drm.so.1",
   "if-exists:if-same-abi:soname:libva-glx.so.1",
   "if-exists:if-same-abi:soname:libva-x11.so.1",
   "if-exists:if-same-abi:soname:libva.so.2",
   "if-exists:if-same-abi:soname:libva-drm.so.2",
   "if-exists:if-same-abi:soname:libva-glx.so.2",
   "if-exists:if-same-abi:soname:libva-x11.so.2",
   "if-exists:even-if-older:soname-match:libEGL.so.*",
   "if-exists:even-if-older:soname-match:libEGL_nvidia.so.*",
   "if-exists:even-if-older:soname-match:libGL.so.*",
   "if-exists:even-if-older:soname-match:libGLESv1_CM.so.*",
   "if-exists:even-if-older:soname-match:libGLESv1_CM_nvidia.so.*",
   "if-exists:even-if-older:soname-match:libGLESv2.so.*",
   "if-exists:even-if-older:soname-match:libGLESv2_nvidia.so.*",
   "if-exists:even-if-older:soname-match:libGLX.so.*",
   "if-exists:even-if-older:soname-match:libGLX_nvidia.so.*",
   "if-exists:even-if-older:soname-match:libGLX_indirect.so.*",
   "if-exists:even-if-older:soname-match:libGLdispatch.so.*",
   "if-exists:even-if-older:soname-match:libOpenGL.so.*",
   "if-exists:even-if-older:soname-match:libcuda.so.*",
   "if-exists:even-if-older:soname-match:libglx.so.*",
   "if-exists:even-if-older:soname-match:libnvidia-cbl.so.*",
   "if-exists:even-if-older:soname-match:libnvidia-cfg.so.*",
   "if-exists:even-if-older:soname-match:libnvidia-compiler.so.*",
   "if-exists:even-if-older:soname-match:libnvidia-egl-wayland.so.*",
   "if-exists:even-if-older:soname-match:libnvidia-eglcore.so.*",
   "if-exists:even-if-older:soname-match:libnvidia-encode.so.*",
   "if-exists:even-if-older:soname-match:libnvidia-fatbinaryloader.so.*",
   "if-exists:even-if-older:soname-match:libnvidia-fbc.so.*",
   "if-exists:even-if-older:soname-match:libnvidia-glcore.so.*",
   "if-exists:even-if-older:soname-match:libnvidia-glsi.so.*",
   "if-exists:even-if-older:soname-match:libnvidia-glvkspirv.so.*",
   "if-exists:even-if-older:soname-match:libnvidia-ifr.so.*",
   "if-exists:even-if-older:soname-match:libnvidia-ml.so.*",
   "if-exists:even-if-older:soname-match:libnvidia-opencl.so.*",
   "if-exists:even-if-older:soname-match:libnvidia-opticalflow.so.*",
   "if-exists:even-if-older:soname-match:libnvidia-ptxjitcompiler.so.*",
   "if-exists:even-if-older:soname-match:libnvidia-rtcore.so.*",
   "if-exists:even-if-older:soname-match:libnvidia-tls.so.*",
   "if-exists:even-if-older:soname-match:libOpenCL.so.*",
   "if-exists:even-if-older:soname-match:libvdpau_nvidia.so.*"]

/-- The expression of the capture of the libraries that libc may load
(line 2442). -/
def libidn2_pattern : String :=
  "if-exists:libidn2.so.0"

/-- Result of the step of `pv_runtime_use_host_graphics_stack` that finds the
path of `ld.so` in the runtime. -/
inductive LdSoLookup where
  /-- The function returns FALSE with this error. -/
  | failed (message : String)
  /-- The variable `ld_so_in_runtime` is left NULL. -/
  | missing
  /-- The variable `ld_so_in_runtime` is set. -/
  | found (ld_so_in_runtime : String)
deriving DecidableEq, Repr

/-- Lines 2206 to 2248 of `pv_runtime_use_host_graphics_stack`: with a
mutable sysroot, `pv_resolve_in_sysroot` and `return FALSE` if it fails;
otherwise a helper process running in a container that resembles the final
one prints the resolved path. -/
def resolve_ld_so (env : Env) (self : PvRuntime) (fs : FS) (arch : RuntimeArchitecture) :
    LdSoLookup :=
  if self.mutable_sysroot.isSome then
    let sysroot_fd := self.mutable_sysroot_fd.getD []
    match pv_resolve_in_sysroot fs sysroot_fd (path_components arch.ld_so) with
    | .error _ => .failed (pv_resolve_in_sysroot_error arch.ld_so)
    | .ok loc => .found (String.intercalate "/" ((strip_dir sysroot_fd loc).getD loc))
  else
    match pv_bwrap_bind_usr fs [self.bubblewrap] self.runtime_files "/" with
    | .error e => .failed e
    | .ok temp_bwrap =>
      match pv_bwrap_bind_usr fs temp_bwrap [] "/run/host" with
      | .error e => .failed e
      | .ok temp_bwrap1 =>
        match env.capture_output fs
            (temp_bwrap1 ++ ["env", "PATH=/usr/bin:/bin", "readlink", "-e", arch.ld_so]) with
        | none => .missing
        | some ld_so_in_runtime => .found ld_so_in_runtime

/-- The loops of `pv_runtime_use_host_graphics_stack` that call `bind_icd` for
the records of an `IcdDetails` array, from index `j` on; `seq` gives the
sequence number passed for an index. -/
def bind_icd_details (env : Env) (arch : RuntimeArchitecture) (subdir : String)
    (seq : Nat → Nat) :
    Nat → List IcdDetails → PvRuntime → World → Outcome (PvRuntime × List IcdDetails)
  | _, [], self, w => (w, .ok (self, []))
  | j, details :: rest, self, w =>
    if details.icd.has_error then
      match bind_icd_details env arch subdir seq (j + 1) rest self w with
      | (w1, .error e) => (w1, .error e)
      | (w1, .ok (self1, rest1)) => (w1, .ok (self1, details :: rest1))
    else
      match bind_icd env self w arch (seq j) subdir
          { details with resolved_library := some details.icd.resolved_library } with
      | (w1, .error e) => (w1, .error e)
      | (w1, .ok (self1, details1)) =>
        match bind_icd_details env arch subdir seq (j + 1) rest self1 w1 with
        | (w2, .error e) => (w2, .error e)
        | (w2, .ok (self2, rest1)) => (w2, .ok (self2, details1 :: rest1))

/-- The loops over the VDPAU and VA-API drivers of an architecture: a new
`IcdDetails` record for each driver, the assertion that its resolved library
is an absolute path, then `bind_icd`. -/
def bind_drivers (env : Env) (arch : RuntimeArchitecture) (subdir : String)
    (seq : Nat → Nat) :
    Nat → List Icd → PvRuntime → World → Outcome (PvRuntime × List IcdDetails)
  | _, [], self, w => (w, .ok (self, []))
  | j, icd :: rest, self, w =>
    if !g_path_is_absolute icd.resolved_library then (w, .error "assertion failed")
    else
      match bind_icd env self w arch (seq j) subdir
          { icd_details_new icd with resolved_library := some icd.resolved_library } with
      | (w1, .error e) => (w1, .error e)
      | (w1, .ok (self1, details1)) =>
        match bind_drivers env arch subdir seq (j + 1) rest self1 w1 with
        | (w2, .error e) => (w2, .error e)
        | (w2, .ok (self2, rest1)) => (w2, .ok (self2, details1 :: rest1))

/-- The directory of the host's gconv modules that goes with the target of
the `libc.so.6` link (lines 2458 to 2487): `none` if it is not a
directory. -/
def gconv_dir_in_host (fs : FS) (libc_target : String) : Option String :=
  let dir0 := g_path_get_dirname libc_target
  let dir : String :=
    if g_str_has_prefix dir0 "/run/host/" then ⟨dir0.data.drop "/run/host".length⟩ else dir0
  let gconv : String :=
    if ! g_str_has_prefix dir "/usr/" then g_build_filename ["/usr", dir, "gconv"]
    else g_build_filename [dir, "gconv"]
  if g_file_test_is_dir fs [] (path_components gconv) then some gconv else none

/-- The path `libdrm_dir_in_host` that lines 2520 to 2535 compute from the
target of the `libdrm.so.2` link: the directory of the target without one of
the suffixes `/lib/<tuple>`, `/lib64`, `/lib32`, `/lib` and without the
prefix `/run/host`, followed by `share/libdrm`. -/
def libdrm_data_dir (arch : RuntimeArchitecture) (target : String) : String :=
  let dir0 := g_path_get_dirname target
  let lib_multiarch := g_build_filename ["/lib", arch.tuple]
  let cut (sfx : String) : String := ⟨dir0.data.take (dir0.length - sfx.length)⟩
  let dir1 : String :=
    if g_str_has_suffix dir0 lib_multiarch then cut lib_multiarch
    else if g_str_has_suffix dir0 "/lib64" then cut "/lib64"
    else if g_str_has_suffix dir0 "/lib32" then cut "/lib32"
    else if g_str_has_suffix dir0 "/lib" then cut "/lib"
    else dir0
  let dir : String :=
    if g_str_has_prefix dir1 "/run/host" then ⟨dir1.data.drop "/run/host".length⟩ else dir1
  g_build_filename [dir, "share", "libdrm"]

/-- The directory `share/libdrm` of the host that goes with the target of the
`libdrm.so.2` link (lines 2520 to 2540): `none` if it is not a directory. -/
def libdrm_dir_in_host (fs : FS) (arch : RuntimeArchitecture) (target : String) :
    Option String :=
  let libdrm := libdrm_data_dir arch target
  if g_file_test_is_dir fs [] (path_components libdrm) then some libdrm else none

/-- The array `dirs` of `pv_runtime_use_host_graphics_stack`. -/
def dri_dirs (arch : RuntimeArchitecture) : List String :=
  ["/lib", "/usr/lib",
   g_build_filename ["/", arch.libqual],
   g_build_filename ["/usr", arch.libqual],
   g_build_filename ["/lib", arch.tuple],
   g_build_filename ["/usr", "lib", arch.tuple]]

/-- The loop `for (j = 0; j < 6; j++)` over `dirs`. -/
def try_bind_dri_dirs (env : Env) (arch : RuntimeArchitecture) :
    List String → PvRuntime → World → Outcome PvRuntime
  | [], self, w => (w, .ok self)
  | libdir :: rest, self, w =>
    match try_bind_dri env self w arch libdir with
    | (w1, .error e) => (w1, .error e)
    | (w1, .ok self1) => try_bind_dri_dirs env arch rest self1 w1

/-- `g_mkdir_with_parents (path, 0755)` with the result ignored. -/
def mkdir_p_ignore (fs : FS) (p : Path) : FS :=
  match g_mkdir_with_parents fs [] p with
  | .ok (fs1, _) => fs1
  | .error _ => fs

/-- Lines 2258 to 2417 of `pv_runtime_use_host_graphics_stack`: for an
architecture whose `ld.so` has been found, the capture of the graphics stack
and of the ICDs and drivers, and the removal of the overridden libraries. -/
def use_arch_capture (env : Env) (system_info : SrtSystemInfo) (arch : RuntimeArchitecture)
    (st : GraphicsStack) (w : World) : Outcome GraphicsStack :=
  let st1 : GraphicsStack :=
    { st with
      any_architecture_works := true
      dri_path := pv_search_path_append st.dri_path
        (some (g_build_filename [arch.libdir_in_container, "dri"])) }
  let fs1 := mkdir_p_ignore (mkdir_p_ignore w.fs arch.libdir_on_host)
    (arch.libdir_on_host ++ ["dri"])
  match pv_bwrap_run_sync env { w with fs := fs1 }
      (capture_libs_argv st1.self arch arch.libdir_on_host graphics_stack_patterns) with
  | (w2, .error e) => (w2, .error e)
  | (w2, .ok ()) =>
  match bind_icd_details env arch "glvnd" id 0 st1.egl_icd_details st1.self w2 with
  | (w3, .error e) => (w3, .error e)
  | (w3, .ok (self3, egl)) =>
  match bind_icd_details env arch "vulkan" id 0 st1.vulkan_icd_details self3 w3 with
  | (w4, .error e) => (w4, .error e)
  | (w4, .ok (self4, vulkan)) =>
  match bind_drivers env arch "vdpau" (fun _ => G_MAXSIZE) 0
      (system_info.vdpau_drivers arch.tuple) self4 w4 with
  | (w5, .error e) => (w5, .error e)
  | (w5, .ok (self5, _)) =>
  match bind_drivers env arch "dri" id 0 (system_info.va_api_drivers arch.tuple) self5 w5 with
  | (w6, .error e) => (w6, .error e)
  | (w6, .ok (self6, va_api)) =>
  let removed : Outcome Unit :=
    if self6.mutable_sysroot.isSome then
      pv_runtime_remove_overridden_libraries env self6 w6 arch
    else (w6, .ok ())
  match removed with
  | (w7, .error e) => (w7, .error e)
  | (w7, .ok ()) =>
    (w7, .ok
      { st1 with
        self := self6
        egl_icd_details := egl
        vulkan_icd_details := vulkan
        va_api_icd_details := st1.va_api_icd_details ++ va_api })

/-- Lines 2419 to 2502 of `pv_runtime_use_host_graphics_stack`: whether the
libc of the host is used for the architecture, and what follows from it. -/
def use_arch_libc (env : Env) (arch : RuntimeArchitecture) (ld_so_in_runtime : String)
    (st7 : GraphicsStack) (w7 : World) : Outcome GraphicsStack :=
  let libc := arch.libdir_on_host ++ ["libc.so.6"]
  if g_file_test_is_symlink w7.fs [] libc then
    match pv_runtime_take_ld_so_from_host env st7.self w7 arch ld_so_in_runtime st7.bwrap with
    | (w8, .error e) => (w8, .error e)
    | (w8, .ok bwrap8) =>
      match pv_bwrap_run_sync env w8
          (capture_libs_argv st7.self arch arch.libdir_on_host [libidn2_pattern]) with
      | (w9, .error e) => (w9, .error e)
      | (w9, .ok ()) =>
        let gconv : List String :=
          match glnx_readlinkat_malloc w9.fs [] libc with
          | some libc_target =>
            match gconv_dir_in_host w9.fs libc_target with
            | some dir => g_hash_table_add st7.gconv_from_host dir
            | none => st7.gconv_from_host
          | none => st7.gconv_from_host
        (w9, .ok { st7 with
                   bwrap := bwrap8
                   gconv_from_host := gconv
                   self := { st7.self with any_libc_from_host := true } })
  else
    (w7, .ok { st7 with self := { st7.self with all_libc_from_host := false } })

/-- Lines 2504 to 2572 of `pv_runtime_use_host_graphics_stack`: the data
directory of libdrm and the DRI drivers of the architecture. -/
def use_arch_dri (env : Env) (arch : RuntimeArchitecture) (st10 : GraphicsStack)
    (w10 : World) : Outcome GraphicsStack :=
  let libdrm := arch.libdir_on_host ++ ["libdrm.so.2"]
  let st11 : GraphicsStack :=
    if g_file_test_is_symlink w10.fs [] libdrm then
      match glnx_readlinkat_malloc w10.fs [] libdrm with
      | some target =>
        match libdrm_dir_in_host w10.fs arch target with
        | some dir =>
          { st10 with libdrm_data_from_host := g_hash_table_add st10.libdrm_data_from_host dir }
        | none => st10
      | none => st10
    else { st10 with all_libdrm_from_host := false }
  match try_bind_dri_dirs env arch (dri_dirs arch) st11.self w10 with
  | (w12, .error e) => (w12, .error e)
  | (w12, .ok self12) => (w12, .ok { st11 with self := self12 })

/-- Lines 2258 to 2572 of `pv_runtime_use_host_graphics_stack`: what is done
for an architecture once `ld_so_in_runtime` is known. -/
def use_arch (env : Env) (system_info : SrtSystemInfo) (arch : RuntimeArchitecture)
    (ld_so_in_runtime : String) (st : GraphicsStack) (w : World) : Outcome GraphicsStack :=
  match use_arch_capture env system_info arch st w with
  | (w7, .error e) => (w7, .error e)
  | (w7, .ok st7) =>
    match use_arch_libc env arch ld_so_in_runtime st7 w7 with
    | (w10, .error e) => (w10, .error e)
    | (w10, .ok st10) => use_arch_dri env arch st10 w10

/-- One iteration of the loop of `pv_runtime_use_host_graphics_stack` over
`multiarch_tuples` (lines 2186 to 2573).  An architecture that is skipped
leaves the state as it was. -/
def use_host_graphics_stack_arch (env : Env) (system_info : SrtSystemInfo) (i : Nat)
    (st : GraphicsStack) (w : World) : Outcome GraphicsStack :=
  match runtime_architecture_init env st.self w.fs i with
  | none => (w, .ok st)
  | some arch =>
    match resolve_ld_so env st.self w.fs arch with
    | .failed e => (w, .error e)
    | .missing => (w, .ok st)
    | .found ld_so_in_runtime => use_arch env system_info arch ld_so_in_runtime st w

/-- The loop `for (i = 0; i < G_N_ELEMENTS (multiarch_tuples) - 1; i++)`, as
a loop over the remaining indices. -/
def use_host_graphics_stack_loop (env : Env) (system_info : SrtSystemInfo) :
    List Nat → GraphicsStack → World → Outcome GraphicsStack
  | [], st, w => (w, .ok st)
  | i :: rest, st, w =>
    match use_host_graphics_stack_arch env system_info i st w with
    | (w1, .error e) => (w1, .error e)
    | (w1, .ok st1) => use_host_graphics_stack_loop env system_info rest st1 w1

/-- The message of the error of lines 2576 to 2596. -/
def no_architecture_message : String :=
  "None of the supported CPU architectures are common to "
    ++ "the host system and the container (tried: "
    ++ multiarch_tuples.foldl
        (fun archs tuple => (if archs.length > 0 then archs ++ ", " else archs) ++ tuple) ""
    ++ ")"

/-- Lines 2080 to 2596 of `pv_runtime_use_host_graphics_stack`: the
enumeration of the ICDs, the loop over the architectures and the check that
some architecture works.  Each error is a `return FALSE` of the function, so
the function fails with the same error; on success the function goes on
with the state returned here. -/
def pv_runtime_use_host_graphics_stack (env : Env) (system_info : SrtSystemInfo)
    (self : PvRuntime) (w : World) (bwrap : List String) : Outcome GraphicsStack :=
  match pv_runtime_provide_container_access self w with
  | (w1, .error e) => (w1, .error e)
  | (w1, .ok self1) =>
    let st : GraphicsStack :=
      { self := { self1 with all_libc_from_host := true }
        bwrap := bwrap
        egl_icd_details := icd_details_array system_info.egl_icds
        vulkan_icd_details := icd_details_array system_info.vulkan_icds }
    match use_host_graphics_stack_loop env system_info (List.range (N_MULTIARCH - 1)) st w1 with
    | (w2, .error e) => (w2, .error e)
    | (w2, .ok st2) =>
      if !st2.any_architecture_works then (w2, .error no_architecture_message)
      else (w2, .ok st2)

/-! ## Capture expressions -/

/-- Modelled from the spec: the modifier tokens of the expression language of
the capture helper, "`if-exists:`", "`if-same-abi:`", "`even-if-older:`",
"`only-dependencies:` / `no-dependencies:`". -/
def capture_modifiers : List String :=
  ["if-exists", "if-same-abi", "even-if-older", "only-dependencies", "no-dependencies"]

/-- Splits the leading modifier tokens off an expression: the modifiers found,
in order, and what follows them.  `fuel` bounds the number of tokens. -/
def split_modifiers : Nat → List Char → List String × List Char
  | 0, e => ([], e)
  | fuel + 1, e =>
    match capture_modifiers.find? (fun m => (m.data ++ [':']).isPrefixOf e) with
    | none => ([], e)
    | some m =>
      let r := split_modifiers fuel (e.drop (m.length + 1))
      (m :: r.1, r.2)

/-- The modifier tokens at the start of a capture expression. -/
def expr_modifiers (e : String) : List String :=
  (split_modifiers e.length e.data).1

/-- What follows the modifier tokens of a capture expression. -/
def expr_selector (e : String) : String :=
  ⟨(split_modifiers e.length e.data).2⟩

/-- Modelled from the spec: the selector tokens of the expression language,
"`soname:NAME`", "`soname-match:GLOB`", "`path:ABS` / `path-match:GLOB`" and
"`gl:`"; the path of `path:` is absolute. -/
def is_capture_selector (s : String) : Bool :=
  s == "gl:" ||
    g_str_has_prefix s "soname:" ||
    g_str_has_prefix s "soname-match:" ||
    ( g_str_has_prefix s "path:" && g_path_is_absolute ⟨s.data.drop 5⟩) ||
    g_str_has_prefix s "path-match:"

/-- Modelled from the spec: an expression is well-formed when it is a sequence of
modifier tokens followed by one selector token. -/
def well_formed_expr (e : String) : Bool :=
  is_capture_selector (expr_selector e)

/-! ## Search paths -/

/-- The search path that results from appending the items, in order, to an
empty `GString` with `pv_search_path_append`. -/
def search_path_of (items : List String) : String :=
  items.foldl (fun path item => pv_search_path_append path (some item)) ""

/-- `pv_runtime_set_search_paths` of `runtime.c`; returns the launcher
arguments `bwrap` with what it appended. -/
def pv_runtime_set_search_paths (self : PvRuntime) (bwrap : List String) : List String :=
  let ld_library_path :=
    multiarch_tuples.foldl
      (fun path tuple =>
        pv_search_path_append path
          (some (g_build_filename [self.overrides_in_container, "lib", tuple])))
      ""
  bwrap ++ ["--setenv", "PATH", "/usr/bin:/bin", "--setenv", "LD_LIBRARY_PATH", ld_library_path]

/-- The test that decides whether the loop of
`pv_runtime_use_host_graphics_stack` uses the architecture with index `i`
(lines 2191 to 2256): its capture tool runs and the path of its `ld.so` in
the runtime is found.  The result is the architecture record and that
path. -/
def viable_architecture (env : Env) (self : PvRuntime) (fs : FS) (i : Nat) :
    Option (RuntimeArchitecture × String) :=
  match runtime_architecture_init env self fs i with
  | none => none
  | some arch =>
    match resolve_ld_so env self fs arch with
    | .found ld_so_in_runtime => some (arch, ld_so_in_runtime)
    | _ => none

/-! ## After the loop over the architectures -/

/-- A sequence of calls of `pv_runtime_take_from_host`, each for a source, a
destination and flags, that stops at the first failure. -/
def take_each_from_host (env : Env) (self : PvRuntime) :
    List (String × String × TakeFromHostFlags) → World → List String → Outcome (List String)
  | [], w, bwrap => (w, .ok bwrap)
  | (source_in_host, dest_in_container, flags) :: rest, w, bwrap =>
    match pv_runtime_take_from_host env self w bwrap source_in_host dest_in_container flags with
    | (w1, .error e) => (w1, .error e)
    | (w1, .ok bwrap1) => take_each_from_host env self rest w1 bwrap1

/-- The program `ldconfig` of the host as lines 2662 to 2670 look for it: in
`PATH`, then `/sbin/ldconfig`, then `/usr/sbin/ldconfig`. -/
def find_ldconfig (env : Env) : Option String :=
  match env.find_program "ldconfig" with
  | some p => some p
  | none =>
    if env.is_executable "/sbin/ldconfig" then some "/sbin/ldconfig"
    else if env.is_executable "/usr/sbin/ldconfig" then some "/usr/sbin/ldconfig"
    else none

/-- What lines 2620 to 2696 of `pv_runtime_use_host_graphics_stack` take from
the host when some libc comes from the host, in order: the locale data, the
programs `localedef`, `locale` and `ldconfig` that are found, and the gconv
modules. -/
def locale_data_from_host (env : Env) (gconv_from_host : List String) :
    List (String × String × TakeFromHostFlags) :=
  [("/usr/lib/locale", "/usr/lib/locale", { if_exists := true }),
   ("/usr/share/i18n", "/usr/share/i18n", { if_exists := true })] ++
  (env.find_program "localedef").toList.map
    (fun p => (p, "/usr/bin/localedef", { if_container_compatible := true })) ++
  (env.find_program "locale").toList.map
    (fun p => (p, "/usr/bin/locale", { if_container_compatible := true })) ++
  (find_ldconfig env).toList.map (fun p => (p, "/sbin/ldconfig", ({} : TakeFromHostFlags))) ++
  gconv_from_host.map (fun p => (p, p, { if_dir := true }))

/-- The choice of `best_libdrm_data_from_host` (lines 2712 to 2725).  The table
is kept in the order of insertion and `pv_hash_table_get_arbitrary_key` is
taken to give its first key. -/
def best_libdrm_data_from_host (libdrm_data_from_host : List String) : Option String :=
  match libdrm_data_from_host with
  | [] => none
  | [key] => some key
  | key :: _ =>
    if libdrm_data_from_host.contains "/usr/share/libdrm" then some "/usr/share/libdrm"
    else some key

/-- Modelled from the spec: `srt_egl_icd_write_to_file` and
`srt_vulkan_icd_write_to_file` of steam-runtime-tools, which "write one
rewritten JSON" to the path given: a regular file is created or replaced in
an existing directory.  The text of the file is not modelled. -/
def srt_icd_write_to_file (env : Env) (w : World) (json_on_host : Path) : Outcome Unit :=
  if env.write_fails json_on_host || !is_dir_node w.fs json_on_host.dropLast ||
      is_dir_node w.fs json_on_host then
    (w, .error ("Unable to write \"" ++ path_to_string json_on_host ++ "\""))
  else
    ({ w with
       fs := fs_put w.fs json_on_host (.file w.next_ino)
       next_ino := w.next_ino + 1 }, .ok ())

/-- The name `json_base` of the manifest of ICD number `j`: `<j>-<tuple>.json`
for an architecture, `<j>.json` for the copy of the manifest of the host. -/
def icd_json_base (j : Nat) (tuple : Option String) : String :=
  match tuple with
  | some t => gsize_to_string j ++ "-" ++ t ++ ".json"
  | none => gsize_to_string j ++ ".json"

/-- The path `json_in_container` of a manifest: `share_dir` is
`share/glvnd/egl_vendor.d` or `share/vulkan/icd.d`. -/
def icd_json_in_container (self : PvRuntime) (share_dir : List String) (json_base : String) :
    String :=
  g_build_filename ([self.overrides_in_container] ++ share_dir ++ [json_base])

/-- The loop over the architectures for one ICD record (lines 2757 to 2792 and
2837 to 2871): writes a manifest for each architecture of kind `ABSOLUTE` and
appends it to the search path; the flag `need_host_json` is set by an
architecture of kind `SONAME`. -/
def write_icd_json_archs (env : Env) (self : PvRuntime) (dir_on_host : Path)
    (share_dir : List String) (j : Nat) (details : IcdDetails) :
    List Nat → World → String → Bool → Outcome (String × Bool)
  | [], w, path, need_host_json => (w, .ok (path, need_host_json))
  | i :: rest, w, path, need_host_json =>
    if details.kind i == .ICD_KIND_ABSOLUTE then
      match details.path_in_container i with
      | none => (w, .error "assertion failed")
      | some _ =>
        let json_base := icd_json_base j (some (multiarch_tuples.getD i ""))
        match srt_icd_write_to_file env w (dir_on_host ++ [json_base]) with
        | (w1, .error e) => (w1, .error e)
        | (w1, .ok ()) =>
          write_icd_json_archs env self dir_on_host share_dir j details rest w1
            (pv_search_path_append path (some (icd_json_in_container self share_dir json_base)))
            need_host_json
    else if details.kind i == .ICD_KIND_SONAME then
      write_icd_json_archs env self dir_on_host share_dir j details rest w path true
    else
      write_icd_json_archs env self dir_on_host share_dir j details rest w path need_host_json

/-- The loops over `egl_icd_details` and `vulkan_icd_details` that write the
manifests (lines 2748 to 2815 and 2828 to 2893), from index `j` on. -/
def write_icd_jsons (env : Env) (self : PvRuntime) (dir_on_host : Path)
    (share_dir : List String) :
    Nat → List IcdDetails → World → List String → String → Outcome (List String × String)
  | _, [], w, bwrap, path => (w, .ok (bwrap, path))
  | j, details :: rest, w, bwrap, path =>
    if details.icd.has_error then
      write_icd_jsons env self dir_on_host share_dir (j + 1) rest w bwrap path
    else
      match write_icd_json_archs env self dir_on_host share_dir j details
          (List.range (N_MULTIARCH - 1)) w path false with
      | (w1, .error e) => (w1, .error e)
      | (w1, .ok (path1, need_host_json)) =>
        if need_host_json then
          let json_in_container := icd_json_in_container self share_dir (icd_json_base j none)
          match pv_runtime_take_from_host env self w1 bwrap details.icd.json_path
              json_in_container { copy_fallback := true } with
          | (w2, .error e) => (w2, .error e)
          | (w2, .ok bwrap2) =>
            write_icd_jsons env self dir_on_host share_dir (j + 1) rest w2 bwrap2
              (pv_search_path_append path1 (some json_in_container))
        else write_icd_jsons env self dir_on_host share_dir (j + 1) rest w1 bwrap path1

/-- The set-up of the manifests of one kind of ICD: the directory is created,
then the manifests are written (lines 2737 to 2815 and 2817 to 2893). -/
def setup_icd_json (env : Env) (self : PvRuntime) (share_dir : List String)
    (icd_details : List IcdDetails) (w : World) (bwrap : List String) :
    Outcome (List String × String) :=
  let dir_on_host := self.overrides.getD [] ++ share_dir
  match g_mkdir_with_parents w.fs [] dir_on_host with
  | .error _ => (w, .error ("Unable to create " ++ path_to_string dir_on_host))
  | .ok (fs1, _) =>
    write_icd_jsons env self dir_on_host share_dir 0 icd_details { w with fs := fs1 } bwrap ""

/-- The loop over the architectures for one VA-API record (lines 2899 to
2917). -/
def va_api_path_archs (details : IcdDetails) : List Nat → String → Except String String
  | [], path => .ok path
  | i :: rest, path =>
    if details.kind i == .ICD_KIND_NONEXISTENT then va_api_path_archs details rest path
    else if details.kind i != .ICD_KIND_ABSOLUTE then .error "assertion failed"
    else
      va_api_path_archs details rest
        (pv_search_path_append path ((details.path_in_container i).map g_path_get_dirname))

/-- The loop over `va_api_icd_details` that builds `va_api_path` (lines 2895 to
2918). -/
def va_api_search_path : List IcdDetails → String → Except String String
  | [], path => .ok path
  | details :: rest, path =>
    match va_api_path_archs details (List.range (N_MULTIARCH - 1)) path with
    | .error e => .error e
    | .ok path1 => va_api_search_path rest path1

/-- The arguments of lines 2920 to 2958: each of the four search paths is set
if it is not empty and unset if it is; `__EGL_VENDOR_LIBRARY_DIRS` is
unset. -/
def driver_env_args (dri_path egl_path vulkan_path va_api_path : String) : List String :=
  (if dri_path.length != 0 then ["--setenv", "LIBGL_DRIVERS_PATH", dri_path]
   else ["--unsetenv", "LIBGL_DRIVERS_PATH"]) ++
  (if egl_path.length != 0 then ["--setenv", "__EGL_VENDOR_LIBRARY_FILENAMES", egl_path]
   else ["--unsetenv", "__EGL_VENDOR_LIBRARY_FILENAMES"]) ++
  ["--unsetenv", "__EGL_VENDOR_LIBRARY_DIRS"] ++
  (if vulkan_path.length != 0 then ["--setenv", "VK_ICD_FILENAMES", vulkan_path]
   else ["--unsetenv", "VK_ICD_FILENAMES"]) ++
  (if va_api_path.length != 0 then ["--setenv", "LIBVA_DRIVERS_PATH", va_api_path]
   else ["--unsetenv", "LIBVA_DRIVERS_PATH"])

/-- The arguments of lines 2968 to 2973. -/
def vdpau_env_args (self : PvRuntime) : List String :=
  ["--setenv", "VDPAU_DRIVER_PATH",
    self.overrides_in_container ++ "/lib/$\x7bPLATFORM\x7d-linux-gnu/vdpau"]

/-- `extra_multiarch_tuples` (without its NULL terminator). -/
def extra_multiarch_tuples : List String :=
  ["i486-linux-gnu", "i586-linux-gnu", "i686-linux-gnu"]

/-- The loop over `extra_multiarch_tuples` (lines 2987 to 3003). -/
def link_extra_tuples (env : Env) (self : PvRuntime) : List String → FS → Except String FS
  | [], fs => .ok fs
  | tuple :: rest, fs =>
    let extra_libdir_on_host := self.overrides.getD [] ++ ["lib", tuple]
    let i386_libdir_on_host := self.overrides.getD [] ++ ["lib", "i386-linux-gnu"]
    if !g_file_test_exists fs [] extra_libdir_on_host &&
        g_file_test_is_dir fs [] i386_libdir_on_host then
      let fs1 :=
        match unlinkat env fs [] extra_libdir_on_host with
        | .ok fs1 => fs1
        | .error _ => fs
      match symlinkat fs1 "i386-linux-gnu" [] extra_libdir_on_host with
      | .error _ =>
        .error ("Unable to create symlink " ++ path_to_string extra_libdir_on_host
          ++ " -> i386-linux-gnu")
      | .ok fs2 => link_extra_tuples env self rest fs2
    else link_extra_tuples env self rest fs

/-- Lines 2598 to 3006 of `pv_runtime_use_host_graphics_stack`: what follows
the loop over the architectures.  The result is the launcher arguments
`bwrap` with what the function appended. -/
def use_host_graphics_stack_finish (env : Env) (st : GraphicsStack) (w : World) :
    Outcome (List String) :=
  let self := st.self
  let taken : Outcome (List String) :=
    if self.any_libc_from_host then
      take_each_from_host env self (locale_data_from_host env st.gconv_from_host) w st.bwrap
    else (w, .ok st.bwrap)
  match taken with
  | (w1, .error e) => (w1, .error e)
  | (w1, .ok bwrap1) =>
  match take_each_from_host env self
      ((best_libdrm_data_from_host st.libdrm_data_from_host).toList.map
        (fun p => (p, "/usr/share/libdrm", { if_container_compatible := true })))
      w1 bwrap1 with
  | (w2, .error e) => (w2, .error e)
  | (w2, .ok bwrap2) =>
  match setup_icd_json env self ["share", "glvnd", "egl_vendor.d"] st.egl_icd_details w2
      bwrap2 with
  | (w3, .error e) => (w3, .error e)
  | (w3, .ok (bwrap3, egl_path)) =>
  match setup_icd_json env self ["share", "vulkan", "icd.d"] st.vulkan_icd_details w3
      bwrap3 with
  | (w4, .error e) => (w4, .error e)
  | (w4, .ok (bwrap4, vulkan_path)) =>
  match va_api_search_path st.va_api_icd_details "" with
  | .error e => (w4, .error e)
  | .ok va_api_path =>
  let bwrap5 := bwrap4 ++ driver_env_args st.dri_path egl_path vulkan_path va_api_path ++
    vdpau_env_args self
  match link_extra_tuples env self extra_multiarch_tuples w4.fs with
  | .error e => (w4, .error e)
  | .ok fs6 => ({ w4 with fs := fs6 }, .ok bwrap5)

/-- The whole of `pv_runtime_use_host_graphics_stack`: the part up to the
check that some architecture works (the definition of that name, lines 2080 to
2596), followed by lines 2598 to 3006.  On success the result is the runtime
object and the launcher arguments. -/
def use_host_graphics_stack_complete (env : Env) (system_info : SrtSystemInfo)
    (self : PvRuntime) (w : World) (bwrap : List String) :
    Outcome (PvRuntime × List String) :=
  match pv_runtime_use_host_graphics_stack env system_info self w bwrap with
  | (w1, .error e) => (w1, .error e)
  | (w1, .ok st) =>
    match use_host_graphics_stack_finish env st w1 with
    | (w2, .error e) => (w2, .error e)
    | (w2, .ok bwrap2) => (w2, .ok (st.self, bwrap2))

/-! ## Properties used in the statements about the graphics stack -/

/-- The runtime object `s1` is `s` except for its fields `container_access`
and `container_access_adverb`. -/
def same_runtime (s s1 : PvRuntime) : Prop :=
  s1 = { s with
         container_access := s1.container_access
         container_access_adverb := s1.container_access_adverb }

/-- The architectures that a run of the loop of
`pv_runtime_use_host_graphics_stack` over the indices `tuples` finds viable,
in the order of the loop; each is tested in the state in which the loop
reaches it. -/
def loop_viable (env : Env) (system_info : SrtSystemInfo) :
    List Nat → GraphicsStack → World → List RuntimeArchitecture
  | [], _, _ => []
  | i :: rest, st, w =>
    match use_host_graphics_stack_arch env system_info i st w with
    | (_, .error _) => []
    | (w1, .ok st1) =>
      ((viable_architecture env st.self w.fs i).map Prod.fst).toList ++
        loop_viable env system_info rest st1 w1

/-- For each architecture that a run of the loop finds viable, in the order of
the loop: whether `libc.so.6` in its directory of the overrides is a symbolic
link at the time of the test of line 2423. -/
def loop_libc (env : Env) (system_info : SrtSystemInfo) :
    List Nat → GraphicsStack → World → List Bool
  | [], _, _ => []
  | i :: rest, st, w =>
    match use_host_graphics_stack_arch env system_info i st w with
    | (_, .error _) => []
    | (w1, .ok st1) =>
      (match viable_architecture env st.self w.fs i with
       | none => []
       | some (arch, _) =>
         match use_arch_capture env system_info arch st w with
         | (w7, .ok _) =>
           [g_file_test_is_symlink w7.fs [] (arch.libdir_on_host ++ ["libc.so.6"])]
         | (_, .error _) => []) ++
        loop_libc env system_info rest st1 w1

/-- The state in which `pv_runtime_use_host_graphics_stack` enters its loop
over the architectures (lines 2116 to 2180), for the runtime object `self1`
that `pv_runtime_provide_container_access` returned. -/
def graphics_stack_start (system_info : SrtSystemInfo) (self1 : PvRuntime)
    (bwrap : List String) : GraphicsStack :=
  { self := { self1 with all_libc_from_host := true }
    bwrap := bwrap
    egl_icd_details := icd_details_array system_info.egl_icds
    vulkan_icd_details := icd_details_array system_info.vulkan_icds }

/-- Following the spec: a driver variable is set to its search path "when the
accumulated list is non-empty" and unset when it is empty. -/
def spec_set_or_unset (name value : String) : List String :=
  if value = "" then ["--unsetenv", name] else ["--setenv", name, value]

/-- Following the spec: the manifests of ICD number `j` in the search path:
`<j>-<tuple>.json` "for each architecture whose kind is ABSOLUTE, in declared
order", followed by `<j>.json` "if and only if at least one architecture's
kind is SONAME". -/
def spec_icd_manifests (self : PvRuntime) (share_dir : List String) (j : Nat)
    (details : IcdDetails) : List String :=
  ((List.range (N_MULTIARCH - 1)).filter
      (fun i => details.kind i == .ICD_KIND_ABSOLUTE)).map
    (fun i =>
      icd_json_in_container self share_dir (icd_json_base j (some (multiarch_tuples.getD i "")))) ++
  (if (List.range (N_MULTIARCH - 1)).any (fun i => details.kind i == .ICD_KIND_SONAME) then
    [icd_json_in_container self share_dir (icd_json_base j none)]
   else [])

/-- Following the spec: the manifests in the search path, "for j ascending over
the accepted ICDs", for the records from number `j` on. -/
def spec_manifest_list (self : PvRuntime) (share_dir : List String) :
    Nat → List IcdDetails → List String
  | _, [] => []
  | j, details :: rest =>
    (if details.icd.has_error then [] else spec_icd_manifests self share_dir j details) ++
      spec_manifest_list self share_dir (j + 1) rest

/-! ## The launcher command line, locales and the lock -/

/-- Modelled from the spec: the command-line builder `FlatpakBwrap`, "an
append-only, ordered sequence of instructions" whose instructions "may carry
file descriptors that the builder tracks"; "once finished, the sequence is
immutable". -/
structure FlatpakBwrap where
  argv : List String := []
  fds : List Nat := []
  finished : Bool := false
deriving DecidableEq, Repr

/-- Modelled from the spec: `flatpak_bwrap_add_args`, which appends
instructions to the builder. -/
def flatpak_bwrap_add_args (bwrap : FlatpakBwrap) (args : List String) : FlatpakBwrap :=
  { bwrap with argv := bwrap.argv ++ args }

/-- Modelled from the spec: `flatpak_bwrap_add_fd`, which makes the builder
track a file descriptor. -/
def flatpak_bwrap_add_fd (bwrap : FlatpakBwrap) (fd : Nat) : FlatpakBwrap :=
  { bwrap with fds := bwrap.fds ++ [fd] }

/-- Modelled from the spec: `pv_bwrap_was_finished`. -/
def pv_bwrap_was_finished (bwrap : FlatpakBwrap) : Bool :=
  bwrap.finished

/-- Modelled from the spec: `pv_bwrap_lock_is_ofd`, the operation `is_ofd()` of
a lock; false for a NULL lock. -/
def pv_bwrap_lock_is_ofd (lock : Option Lock) : Bool :=
  match lock with
  | some l => l.is_ofd
  | none => false

/-- Modelled from the spec: `pv_bwrap_lock_steal_fd`, the operation
`steal_fd()` that "gives ownership of the descriptor to a child process that
will inherit the lock"; the result is the descriptor. -/
def pv_bwrap_lock_steal_fd (lock : Lock) : Nat :=
  lock.fd

/-- C `g_strdup_printf ("%d", fd)` for a descriptor, which is a non-negative
`int`. -/
def fd_to_string (fd : Nat) : String :=
  ⟨decimal_digits 10 fd []⟩

/-- `pv_runtime_append_lock_adverb` of `runtime.c`; returns the builder with
what it appended.  A failed `g_return_if_fail` leaves the builder as it
was. -/
def pv_runtime_append_lock_adverb (self : PvRuntime) (bwrap : FlatpakBwrap) : FlatpakBwrap :=
  if pv_bwrap_was_finished bwrap then bwrap
  else
    match self.with_lock_in_container with
    | none => bwrap
    | some with_lock_in_container =>
      let bwrap1 := flatpak_bwrap_add_args bwrap [with_lock_in_container, "--subreaper"]
      let bwrap2 :=
        if pv_bwrap_lock_is_ofd self.runtime_lock then
          match self.runtime_lock with
          | some runtime_lock =>
            let fd := pv_bwrap_lock_steal_fd runtime_lock
            flatpak_bwrap_add_args (flatpak_bwrap_add_fd bwrap1 fd) ["--fd", fd_to_string fd]
          | none => bwrap1
        else flatpak_bwrap_add_args bwrap1 ["--lock-file", "/.ref"]
      flatpak_bwrap_add_args bwrap2 ["--"]

/-- GLib `g_dir_open (path, 0, NULL)` followed by `g_dir_read_name`: whether
`path` can be opened as a directory and has an entry. -/
def dir_has_entry (fs : FS) (path : Path) : Bool :=
  match glnx_opendirat fs [] path true with
  | .error _ => false
  | .ok dir => !(readdir fs dir).isEmpty

/-- The command line of the locale helper in `ensure_locales` (lines 1151 to
1190). -/
def locale_gen_argv (env : Env) (self : PvRuntime) (on_host : Bool) (bwrap : FlatpakBwrap) :
    List String :=
  let locales := path_to_string (self.overrides.getD [] ++ ["locales"])
  let locales_in_container := g_build_filename [self.overrides_in_container, "locales"]
  if on_host then
    [path_to_string (self.tools_dir ++ ["pressure-vessel-locale-gen"]),
      "--output-dir", locales, "--verbose"]
  else
    let locale_gen := g_build_filename ["/run/host/tools", "pressure-vessel-locale-gen"]
    let run_locale_gen := bwrap.argv ++
      ["--ro-bind", path_to_string (self.overrides.getD []), self.overrides_in_container]
    let bundled :=
      match env.bundle_args run_locale_gen with
      | some args => args
      | none => run_locale_gen
    bundled ++
      ["--ro-bind", path_to_string self.tools_dir, "/run/host/tools",
       "--bind", locales, locales_in_container,
       locale_gen, "--output-dir", locales_in_container, "--verbose"]

/-- `ensure_locales` of `runtime.c`; returns the builder with what it
appended.  The exit status of the helper only selects the message that is
logged. -/
def ensure_locales (env : Env) (self : PvRuntime) (on_host : Bool) (w : World)
    (bwrap : FlatpakBwrap) : World × FlatpakBwrap :=
  let locales := self.overrides.getD [] ++ ["locales"]
  let locales_in_container := g_build_filename [self.overrides_in_container, "locales"]
  if !bwrap.fds.isEmpty then (w, bwrap)
  else
    let fs1 :=
      match g_mkdir w.fs [] locales with
      | .ok fs => fs
      | .error _ => w.fs
    let run_locale_gen := locale_gen_argv env self on_host bwrap
    let (fs2, _exit_status) := env.run_status fs1 run_locale_gen
    let w2 := { w with fs := fs2, spawned := w.spawned ++ [run_locale_gen] }
    if dir_has_entry fs2 locales then
      let locpath := pv_search_path_append locales_in_container (env.getenv "LOCPATH")
      (w2, flatpak_bwrap_add_args bwrap ["--setenv", "LOCPATH", locpath])
    else (w2, bwrap)

/-- Modelled from the spec: a function of `bwrap.c` or of Flatpak that is not
among the sources and appends instructions, which "may carry file
descriptors", to the builder: `pv_bwrap_add_api_filesystems`,
`flatpak_run_add_wayland_args`, `flatpak_run_add_x11_args`,
`flatpak_run_add_pulseaudio_args`, `flatpak_run_add_session_dbus_args`,
`flatpak_run_add_system_dbus_args`, `pv_bwrap_copy_tree` and
`flatpak_bwrap_add_args_data`. -/
def external_add (env : Env) (fs : FS) (bwrap : FlatpakBwrap) (name : String)
    (args : List String) : FlatpakBwrap :=
  { bwrap with
    argv := bwrap.argv ++ (env.external_args fs name args).1
    fds := bwrap.fds ++ (env.external_args fs name args).2 }

/-- `bind_mutable` of `bind_runtime`. -/
def bind_mutable : List String :=
  ["etc", "var/cache", "var/lib"]

/-- `dont_bind` of `bind_runtime`. -/
def dont_bind : List String :=
  ["/etc/group", "/etc/passwd", "/etc/host.conf", "/etc/hosts", "/etc/localtime",
   "/etc/machine-id", "/etc/resolv.conf", "/var/lib/dbus", "/var/lib/dhcp", "/var/lib/sudo",
   "/var/lib/urandom"]

/-- The inner loop of `bind_runtime` over the members of one directory of
`bind_mutable` (lines 1516 to 1538). -/
def bind_mutable_members (self : PvRuntime) (fs : FS) (dir : String) :
    List Dirent → List String → List String
  | [], argv => argv
  | member :: rest, argv =>
    let dest := g_build_filename ["/", dir, member.d_name]
    if dont_bind.contains dest then bind_mutable_members self fs dir rest argv
    else
      let full := self.runtime_files ++ path_components dir ++ [member.d_name]
      match glnx_readlinkat_malloc fs [] full with
      | some target => bind_mutable_members self fs dir rest (argv ++ ["--symlink", target, dest])
      | none =>
        bind_mutable_members self fs dir rest (argv ++ ["--ro-bind", path_to_string full, dest])

/-- The loop of `bind_runtime` over `bind_mutable` (lines 1503 to 1539). -/
def bind_mutable_dirs (self : PvRuntime) (fs : FS) : List String → List String → List String
  | [], argv => argv
  | dir :: rest, argv =>
    match glnx_opendirat fs [] (self.runtime_files ++ path_components dir) true with
    | .error _ => bind_mutable_dirs self fs rest argv
    | .ok loc =>
      bind_mutable_dirs self fs rest (bind_mutable_members self fs dir (readdir fs loc) argv)

/-- Lines 1541 to 1582 of `bind_runtime`: the files of `/etc` of the host. -/
def bind_etc_files (fs : FS) (argv : List String) : List String :=
  let ro_bind_if_exists (argv : List String) (path : String) : List String :=
    if g_file_test_exists fs [] (path_components path) then argv ++ ["--ro-bind", path, path]
    else argv
  let argv1 :=
    if g_file_test_exists fs [] ["etc", "machine-id"] then
      argv ++ ["--ro-bind", "/etc/machine-id", "/etc/machine-id",
        "--symlink", "/etc/machine-id", "/var/lib/dbus/machine-id"]
    else if g_file_test_exists fs [] ["var", "lib", "dbus", "machine-id"] then
      argv ++ ["--ro-bind", "/var/lib/dbus/machine-id", "/etc/machine-id",
        "--symlink", "/etc/machine-id", "/var/lib/dbus/machine-id"]
    else argv
  ["/etc/resolv.conf", "/etc/host.conf", "/etc/hosts", "/etc/passwd", "/etc/group"].foldl
    ro_bind_if_exists argv1

/-- GLib `g_file_resolve_relative_path` on the directory `base` followed by
`g_file_get_path`: the path in canonical form, without `.` and `..`. -/
def resolve_relative_path (base : List String) (relative : String) : String :=
  let start := if g_path_is_absolute relative then [] else base
  path_to_string
    ((path_components relative).foldl
      (fun acc c => if c == "." then acc else if c == ".." then acc.dropLast else acc ++ [c])
      start)

/-- Lines 1620 to 1655 of `bind_runtime`: the time zone. -/
def bind_localtime (env : Env) (fs : FS) (bwrap : FlatpakBwrap) : FlatpakBwrap :=
  if g_file_test_exists fs [] ["etc", "localtime"] then
    let timezone_content := env.timezone ++ "\n"
    let target := glnx_readlinkat_malloc fs [] ["etc", "localtime"]
    let is_reachable :=
      match target with
      | some t => ( g_str_has_prefix (resolve_relative_path ["etc"] t) "/usr/")
      | none => false
    let bwrap1 :=
      if is_reachable then
        flatpak_bwrap_add_args bwrap ["--symlink", target.getD "", "/etc/localtime"]
      else flatpak_bwrap_add_args bwrap ["--ro-bind", "/etc/localtime", "/etc/localtime"]
    external_add env fs bwrap1 "flatpak_bwrap_add_args_data"
      ["timezone", timezone_content, "/etc/timezone"]
  else bwrap

/-- `bind_runtime` of `runtime.c`.  The enumeration of the drivers of the
host, which `pv_runtime_use_host_graphics_stack` makes itself, is the
argument `system_info`. -/
def bind_runtime (env : Env) (system_info : SrtSystemInfo) (self : PvRuntime) (w : World)
    (bwrap : FlatpakBwrap) : Outcome (PvRuntime × FlatpakBwrap) :=
  let xrd := "/run/user/" ++ gsize_to_string env.euid
  if pv_bwrap_was_finished bwrap then (w, .error "assertion failed")
  else
  match pv_bwrap_bind_usr w.fs bwrap.argv self.runtime_files "/" with
  | .error e => (w, .error e)
  | .ok argv1 =>
  let linked : Outcome (List String) :=
    match self.mutable_sysroot with
    | some mutable_sysroot =>
      if !( g_str_has_prefix self.overrides_in_container "/") ||
          self.overrides_in_container == "/overrides" then
        (w, .error "assertion failed")
      else
        let target : String := ⟨self.overrides_in_container.data.drop 1⟩
        match symlinkat w.fs target (self.mutable_sysroot_fd.getD []) ["overrides"] with
        | .error _ =>
          (w, .error ("Unable to create symlink \"" ++ path_to_string mutable_sysroot
            ++ "/overrides\" -> \"" ++ target ++ "\""))
        | .ok fs1 => ({ w with fs := fs1 }, .ok (argv1 ++ ["--symlink", target, "/overrides"]))
    | none => (w, .ok argv1)
  match linked with
  | (w1, .error e) => (w1, .error e)
  | (w1, .ok argv2) =>
  let argv3 := argv2 ++
    ["--setenv", "XDG_RUNTIME_DIR", xrd, "--tmpfs", "/run", "--tmpfs", "/tmp",
     "--tmpfs", "/var", "--symlink", "../run", "/var/run"]
  match pv_bwrap_bind_usr w1.fs argv3 [] "/run/host" with
  | .error e => (w1, .error e)
  | .ok argv4 =>
  let argv5 := bind_etc_files w1.fs (bind_mutable_dirs self w1.fs bind_mutable argv4)
  let graphics : Outcome (PvRuntime × List String) :=
    if self.flags.host_graphics_stack then
      use_host_graphics_stack_complete env system_info self w1 argv5
    else (w1, .ok (self, argv5))
  match graphics with
  | (w2, .error e) => (w2, .error e)
  | (w2, .ok (self2, argv6)) =>
  let located : World × FlatpakBwrap :=
    if self2.flags.generate_locales then
      ensure_locales env self2 self2.any_libc_from_host w2 { bwrap with argv := argv6 }
    else (w2, { bwrap with argv := argv6 })
  let w3 := located.1
  let bwrap7 :=
    ["flatpak_run_add_wayland_args", "flatpak_run_add_x11_args",
     "flatpak_run_add_pulseaudio_args", "flatpak_run_add_session_dbus_args",
     "flatpak_run_add_system_dbus_args"].foldl
      (fun b name => external_add env w3.fs b name []) located.2
  let bwrap8 :=
    if self2.mutable_sysroot.isNone then
      external_add env w3.fs bwrap7 "pv_bwrap_copy_tree"
        [path_to_string (self2.overrides.getD []), self2.overrides_in_container]
    else bwrap7
  (w3, .ok (self2, bind_localtime env w3.fs bwrap8))

/-- `pv_runtime_bind` of `runtime.c`; on success the result is the runtime
object and the builder with what the function appended. -/
def pv_runtime_bind (env : Env) (system_info : SrtSystemInfo) (self : PvRuntime) (w : World)
    (bwrap : FlatpakBwrap) : Outcome (PvRuntime × FlatpakBwrap) :=
  if pv_bwrap_was_finished bwrap then (w, .error "assertion failed")
  else
  match bind_runtime env system_info self w
      (external_add env w.fs bwrap "pv_bwrap_add_api_filesystems" []) with
  | (w1, .error e) => (w1, .error e)
  | (w1, .ok (self1, bwrap1)) =>
  let bwrap2 := flatpak_bwrap_add_args bwrap1 ["--dir", "/run/pressure-vessel"]
  let pressure_vessel_prefix := self1.tools_dir.dropLast
  match self1.mutable_sysroot with
  | some _ =>
    let sysroot_fd := self1.mutable_sysroot_fd.getD []
    match pv_resolve_in_sysroot_mkdir_p sysroot_fd w1.fs sysroot_fd
        ["usr", "lib", "pressure-vessel"] with
    | .error _ => (w1, .error (pv_resolve_in_sysroot_error "/usr/lib/pressure-vessel"))
    | .ok (fs2, parent_dirfd) =>
      match glnx_shutil_rm_rf_at env fs2 parent_dirfd ["from-host"] with
      | .error _ => ({ w1 with fs := fs2 }, .error "Unable to remove \"from-host\"")
      | .ok fs3 =>
        match pv_cheap_tree_copy env { w1 with fs := fs3 } pressure_vessel_prefix
            (parent_dirfd ++ ["from-host"]) with
        | .error e => ({ w1 with fs := fs3 }, .error e)
        | .ok w4 =>
          let self2 :=
            { self1 with
              with_lock_in_container :=
                some "/usr/lib/pressure-vessel/from-host/bin/pressure-vessel-with-lock" }
          (w4, .ok (self2,
            { bwrap2 with argv := pv_runtime_set_search_paths self2 bwrap2.argv }))
  | none =>
    let bwrap3 := flatpak_bwrap_add_args bwrap2
      ["--ro-bind", path_to_string pressure_vessel_prefix, "/run/pressure-vessel/pv-from-host"]
    let self2 :=
      { self1 with
        with_lock_in_container :=
          some "/run/pressure-vessel/pv-from-host/bin/pressure-vessel-with-lock" }
    (w1, .ok (self2, { bwrap3 with argv := pv_runtime_set_search_paths self2 bwrap3.argv }))

/-! ## Symbol lookup across capsules (`capsule-wrappers.c`) -/

/-- What `_dlsym_from_capsules` reads of a capsule: its handle `dl_handle` and
the list `ns->combined_export` of the sonames it exports. -/
structure Capsule where
  dl_handle : Nat
  combined_export : List String := []
deriving DecidableEq, Repr

/-- The dynamic linker as `capsule-wrappers.c` uses it.  Addresses are
numbers, and 0 is NULL. -/
structure Linker where
  /-- `_capsule_original_dlsym (handle, symbol)`. -/
  dlsym : Nat → String → Nat := fun _ _ => 0
  /-- `dladdr (addr, &dso)`: `dso.dli_fname` if it succeeds. -/
  dladdr : Nat → Option String := fun _ => none
  /-- Modelled from the spec: `soname_matches_path (soname, path)` of
  `utils.c`, which is not among the sources and which the spec does not
  describe: any test of a soname against the path of a DSO. -/
  soname_matches_path : String → String → Bool := fun _ _ => false

/-- `dso_is_exported` of `capsule-wrappers.c`. -/
def dso_is_exported (ld : Linker) (dsopath : String) (exported : List String) : Bool :=
  exported.any (fun ex => ld.soname_matches_path ex dsopath)

/-- The loop of `_dlsym_from_capsules` over the slots of `_capsule_list` that
are left, with the current value of `addr`. -/
def dlsym_from_capsules_loop (ld : Linker) (symbol : String) :
    List (Option Capsule) → Nat → Nat
  | [], addr => addr
  | none :: rest, addr => dlsym_from_capsules_loop ld symbol rest addr
  | some cap :: rest, _ =>
    let addr := ld.dlsym cap.dl_handle symbol
    if addr != 0 then
      match ld.dladdr addr with
      | some dli_fname =>
        if !dso_is_exported ld dli_fname cap.combined_export then
          dlsym_from_capsules_loop ld symbol rest 0
        else addr
      | none => dlsym_from_capsules_loop ld symbol rest addr
    else dlsym_from_capsules_loop ld symbol rest addr

/-- `_dlsym_from_capsules` of `capsule-wrappers.c`, for the slots of
`_capsule_list` below `next`. -/
def _dlsym_from_capsules (ld : Linker) (capsule_list : List (Option Capsule))
    (symbol : String) : Nat :=
  dlsym_from_capsules_loop ld symbol capsule_list 0

/-! ## The bind plan for `/etc` and `/var` -/

/-- Following the amended claim for one entry `member` of the directory `dir`
of the runtime (`etc`, `var/cache` or `var/lib`): nothing if `/<dir>/<member>`
is in the blocklist; `--symlink <target> /<dir>/<member>` if the entry is a
symbolic link; `--ro-bind <runtime_files>/<dir>/<member> /<dir>/<member>`
otherwise. -/
def spec_bind_entry (self : PvRuntime) (fs : FS) (dir member : String) : List String :=
  if dont_bind.contains (g_build_filename ["/", dir, member]) then []
  else
    match glnx_readlinkat_malloc fs [] (self.runtime_files ++ path_components dir ++ [member]) with
    | some target => ["--symlink", target, g_build_filename ["/", dir, member]]
    | none =>
      ["--ro-bind", path_to_string (self.runtime_files ++ path_components dir ++ [member]),
        g_build_filename ["/", dir, member]]

/-- Following the amended claim: the instructions for the entries of the
directory `dir` of the runtime, in directory order; none if the directory
cannot be opened. -/
def spec_bind_dir (self : PvRuntime) (fs : FS) (dir : String) : List String :=
  match glnx_opendirat fs [] (self.runtime_files ++ path_components dir) true with
  | .error _ => []
  | .ok loc => ((readdir fs loc).map (fun m => spec_bind_entry self fs dir m.d_name)).flatten

/-! ## The invariant of the ICD records -/

/-- The invariant of an `IcdDetails` record: both arrays have `N_MULTIARCH`
entries, at every index the kind is `ABSOLUTE` exactly when
`paths_in_container` is set, and the entry at the last index (the slot of the
NULL terminator of `multiarch_tuples`) is `NONEXISTENT` / NULL. -/
def icd_record_ok (details : IcdDetails) : Prop :=
  details.kinds.length = N_MULTIARCH ∧
  details.paths_in_container.length = N_MULTIARCH ∧
  (∀ i, i < N_MULTIARCH →
    (details.kind i = .ICD_KIND_ABSOLUTE ↔ (details.path_in_container i).isSome = true)) ∧
  details.kind (N_MULTIARCH - 1) = .ICD_KIND_NONEXISTENT ∧
  details.path_in_container (N_MULTIARCH - 1) = none

instance icd_record_ok_decidable (details : IcdDetails) : Decidable (icd_record_ok details) := by
  unfold icd_record_ok
  infer_instance

/-- No architecture of the record has the kind `SONAME`. -/
def icd_record_no_soname (details : IcdDetails) : Prop :=
  ∀ i, i < N_MULTIARCH → details.kind i ≠ .ICD_KIND_SONAME

instance icd_record_no_soname_decidable (details : IcdDetails) :
    Decidable (icd_record_no_soname details) := by
  unfold icd_record_no_soname
  infer_instance

/-- The invariant of the three arrays of ICD records of
`pv_runtime_use_host_graphics_stack`: every record satisfies the record
invariant, and no VA-API record has an architecture of kind `SONAME`. -/
def graphics_stack_records_ok (st : GraphicsStack) : Prop :=
  (∀ d ∈ st.egl_icd_details, icd_record_ok d) ∧
  (∀ d ∈ st.vulkan_icd_details, icd_record_ok d) ∧
  (∀ d ∈ st.va_api_icd_details, icd_record_ok d ∧ icd_record_no_soname d)

instance graphics_stack_records_ok_decidable (st : GraphicsStack) :
    Decidable (graphics_stack_records_ok st) := by
  unfold graphics_stack_records_ok
  infer_instance

/-! ## The DRI drivers of an architecture, as the loop reads them -/

/-- Whether every directory along `comps`, starting below the directory
`base`, is a directory of `fs` itself (no symbolic link is involved and no
component is `.` or `..`). -/
def is_real_dir_path (fs : FS) : Path → List String → Bool
  | _, [] => true
  | base, c :: rest =>
    c != "." && c != ".." && fs_get fs (base ++ [c]) == some .dir &&
      is_real_dir_path fs (base ++ [c]) rest

/-- The names that the loop `for (member = g_dir_read_name (dir); ...)` of
`try_bind_dri` goes through for `libdir`: the members of `<libdir>/dri` after
the capture helper has run, none if `<libdir>/dri` is not a directory or the
loop is not reached. -/
def try_bind_dri_members (env : Env) (self : PvRuntime) (w : World) (arch : RuntimeArchitecture)
    (libdir : String) : List String :=
  let dri := g_build_filename [libdir, "dri"]
  if g_file_test_is_dir w.fs [] (path_components dri) then
    match pv_runtime_provide_container_access self w with
    | (_, .error _) => []
    | (w1, .ok self1) =>
      match pv_bwrap_run_sync env w1
          (capture_libs_argv self1 arch arch.libdir_on_host
            [dri_pattern libdir]) with
      | (_, .error _) => []
      | (w2, .ok ()) =>
        match glnx_opendirat w2.fs [] (path_components dri) true with
        | .error _ => []
        | .ok dir => (readdir w2.fs dir).map Dirent.d_name
  else []

/-- The directories that the loop `for (j = 0; j < 6; j++)` passes to
`try_bind_dri`, each with the names that `try_bind_dri` reads from its `dri`
subdirectory, in the order of the calls; the list ends with the first call
that fails. -/
def dri_listings (env : Env) (arch : RuntimeArchitecture) :
    List String → PvRuntime → World → List (String × List String)
  | [], _, _ => []
  | libdir :: rest, self, w =>
    (libdir, try_bind_dri_members env self w arch libdir) ::
      match try_bind_dri env self w arch libdir with
      | (_, .error _) => []
      | (w1, .ok self1) => dri_listings env arch rest self1 w1

/-- The last directory of a list of listings whose `dri` subdirectory
contains the driver `name`. -/
def last_dri_dir : List (String × List String) → String → Option String
  | [], _ => none
  | (libdir, members) :: rest, name =>
    match last_dri_dir rest name with
    | some later => some later
    | none => if members.contains name then some libdir else none

/-- The `target` of the symbolic link that `try_bind_dri` creates for a
member of `<libdir>/dri`. -/
def dri_link_target (libdir member : String) : String :=
  g_build_filename ["/run/host", g_build_filename [libdir, "dri"], member]

/-! ## The state that a pass over an architecture leaves -/

/-- Every object of `fs` is still there, unchanged, in `fs1`. -/
def FsExtends (fs fs1 : FS) : Prop :=
  ∀ p n, fs_get fs p = some n → fs_get fs1 p = some n

/-- No directory of `fs1` is new: each was already a directory in `fs`. -/
def NoNewDirs (fs fs1 : FS) : Prop :=
  ∀ q, fs_get fs1 q = some .dir → fs_get fs q = some .dir

/-! ## Concrete inputs

File systems, environments and runs of the functions above on them; the
closed theorems at the end of the development evaluate the model on
these. -/

/-- The value of a successful outcome. -/
def Outcome.value {α : Type} (r : Outcome α) : Option α :=
  match r.2 with
  | .ok v => some v
  | .error _ => none

/-- The message of a failed outcome. -/
def Outcome.message {α : Type} (r : Outcome α) : Option String :=
  match r.2 with
  | .ok _ => none
  | .error e => some e

/-- A host with a merged-`/usr` runtime image in `/srv/scout` (the members of
`/usr` at top level, no `usr` directory), an empty store `/var/pv` and the
helper programs in `/tools`. -/
def img_merged : FS :=
  [(["srv"], .dir), (["srv", "scout"], .dir), (["srv", "scout", ".ref"], .file 1),
   (["srv", "scout", "bin"], .dir), (["srv", "scout", "lib"], .dir),
   (["srv", "scout", "bin", "sh"], .file 2), (["srv", "scout", "libexec"], .dir),
   (["var"], .dir), (["var", "pv"], .dir), (["tools"], .dir)]

/-- The same host with a complete sysroot as the runtime image: a `usr`
directory and a top-level link `bin -> usr/bin`. -/
def img_sysroot : FS :=
  [(["srv"], .dir), (["srv", "scout"], .dir), (["srv", "scout", ".ref"], .file 1),
   (["srv", "scout", "usr"], .dir), (["srv", "scout", "usr", "bin"], .dir),
   (["srv", "scout", "usr", "lib"], .dir), (["srv", "scout", "usr", "bin", "sh"], .file 2),
   (["srv", "scout", "bin"], .symlink "usr/bin"),
   (["var"], .dir), (["var", "pv"], .dir), (["tools"], .dir)]

/-- An environment in which `g_mkdtemp` picks the suffix `AAAAAA`. -/
def envA : Env :=
  { mkdtemp_suffix := fun _ _ => some "AAAAAA" }

/-- An environment in which `g_mkdtemp` picks the suffix `BBBBBB`. -/
def envB : Env :=
  { mkdtemp_suffix := fun _ _ => some "BBBBBB" }

/-- Flags of a run with `PV_RUNTIME_FLAGS_GC_RUNTIMES`. -/
def flagsGC : PvRuntimeFlags :=
  { gc_runtimes := true }

/-- Session A composes a runtime from the image of `fs` in the store
`/var/pv`. -/
def session_a (fs : FS) : Outcome PvRuntime :=
  pv_runtime_new envA { fs := fs } ["srv", "scout"] (some ["var", "pv"]) "/usr/bin/bwrap"
    ["tools"] flagsGC

/-- Session B composes a runtime in the same store while session A still runs:
it starts in the world that session A left, with the locks of A held. -/
def session_b (fs : FS) : Outcome PvRuntime :=
  pv_runtime_new envB (session_a fs).1 ["srv", "scout"] (some ["var", "pv"]) "/usr/bin/bwrap"
    ["tools"] flagsGC

/-- The lock that session A holds once its runtime is composed. -/
def lock_a : Lock :=
  { ino := 1001, write := false, is_ofd := true, fd := 5 }

/-- A store `/var/pv` with one old entry `tmp-OLD` of the merged-`/usr` layout
(`.ref` is the link to `usr/.ref`), not in use and without `keep`. -/
def store_old : FS :=
  [(["var"], .dir), (["var", "pv"], .dir), (["var", "pv", ".ref"], .file 10),
   (["var", "pv", "tmp-OLD"], .dir),
   (["var", "pv", "tmp-OLD", ".ref"], .symlink "usr/.ref"),
   (["var", "pv", "tmp-OLD", "usr"], .dir),
   (["var", "pv", "tmp-OLD", "usr", ".ref"], .file 11),
   (["var", "pv", "tmp-OLD", "usr", "bin"], .dir)]

/-- An environment in which the recursive removal of `/var/pv/tmp-OLD`
fails. -/
def env_rm_fails : Env :=
  { rm_rf_fails := fun p => p == ["var", "pv", "tmp-OLD"] }

/-- A runtime object as `pv_runtime_init_mutable` passes it to
`pv_runtime_garbage_collect` for the store `/var/pv`. -/
def self_store : PvRuntime :=
  { bubblewrap := "/usr/bin/bwrap"
    source_files := ["srv", "scout"]
    tools_dir := ["tools"]
    mutable_parent := some ["var", "pv"]
    mutable_parent_fd := some ["var", "pv"]
    flags := flagsGC }

/-- The lock on `/var/pv/.ref` that the caller of the garbage collection
holds. -/
def lock_store : Lock :=
  { ino := 10, write := false, is_ofd := true, fd := 3 }

/-- An environment in which reading the first entry of `/var/pv` fails. -/
def env_iter_fails : Env :=
  { mkdtemp_suffix := fun _ _ => some "AAAAAA"
    next_dent_fails := fun p i => p == ["var", "pv"] && i == 0 }

/-- The runtime object that `pv_runtime_initable_init` passes to
`pv_runtime_init_mutable` for the image `/srv/scout` and the store
`/var/pv`, before the parent directory is opened. -/
def self_new : PvRuntime :=
  { bubblewrap := "/usr/bin/bwrap"
    source_files := ["srv", "scout"]
    tools_dir := ["tools"]
    mutable_parent := some ["var", "pv"]
    flags := flagsGC }

/-- A host like `img_merged` on which the store `/var/pv` does not exist yet
(its parent `/var` does). -/
def img_no_store : FS :=
  [(["srv"], .dir), (["srv", "scout"], .dir), (["srv", "scout", ".ref"], .file 1),
   (["srv", "scout", "bin"], .dir), (["srv", "scout", "lib"], .dir),
   (["srv", "scout", "bin", "sh"], .file 2),
   (["var"], .dir), (["tools"], .dir)]

/-- A host with the sysroot image `/srv/scout`, the helper programs in
`/tools`, and the temporary directory of a runtime that is used in place
(no mutable copy), with its empty `overrides`. -/
def host_plain : FS :=
  img_sysroot ++
    [(["tmp"], .dir), (["tmp", "pressure-vessel-wrap.AAAAAA"], .dir),
     (["tmp", "pressure-vessel-wrap.AAAAAA", "overrides"], .dir)]

/-- The runtime object of a runtime used in place, as `pv_runtime_new` leaves
it on `host_plain`. -/
def self_plain : PvRuntime :=
  { bubblewrap := "/usr/bin/bwrap"
    source_files := ["srv", "scout"]
    tools_dir := ["tools"]
    runtime_lock := some { ino := 1, write := false, is_ofd := true, fd := 3 }
    tmpdir := some ["tmp", "pressure-vessel-wrap.AAAAAA"]
    overrides := some ["tmp", "pressure-vessel-wrap.AAAAAA", "overrides"]
    overrides_in_container := "/overrides"
    runtime_files := ["srv", "scout"]
    runtime_usr := ["srv", "scout", "usr"] }

/-- The architecture record of `x86_64-linux-gnu` for `self_plain`. -/
def arch_plain : RuntimeArchitecture :=
  { multiarch_index := 0
    tuple := "x86_64-linux-gnu"
    capsule_capture_libs_basename := "x86_64-linux-gnu-capsule-capture-libs"
    capsule_capture_libs := ["tools", "x86_64-linux-gnu-capsule-capture-libs"]
    libdir_on_host := ["tmp", "pressure-vessel-wrap.AAAAAA", "overrides", "lib",
      "x86_64-linux-gnu"]
    libdir_in_container := "/overrides/lib/x86_64-linux-gnu"
    libqual := "lib64"
    ld_so := "/lib64/ld-linux-x86-64.so.2" }

/-- The record of the first EGL ICD of the host, whose library is given by an
absolute path. -/
def egl_nvidia : IcdDetails :=
  { icd_details_new
      { json_path := "/usr/share/glvnd/egl_vendor.d/10_nvidia.json"
        resolved_library := "/usr/lib/x86_64-linux-gnu/libEGL_nvidia.so.0" } with
    resolved_library := some "/usr/lib/x86_64-linux-gnu/libEGL_nvidia.so.0" }

/-- The staging directory of the first EGL ICD for `arch_plain`. -/
def staging_egl : Path :=
  ["tmp", "pressure-vessel-wrap.AAAAAA", "overrides", "lib", "x86_64-linux-gnu", "glvnd", "0"]

/-- An environment whose capture helper finds the library of `egl_nvidia` on
the host: the root-only capture leaves a link to it in the staging
directory. -/
def env_capture : Env :=
  { run_sync := fun fs argv =>
      if argv.contains
          "no-dependencies:even-if-older:if-exists:if-same-abi:path:/usr/lib/x86_64-linux-gnu/libEGL_nvidia.so.0"
      then
        some (fs ++ [(staging_egl ++ ["libEGL_nvidia.so.0"],
          .symlink "/run/host/usr/lib/x86_64-linux-gnu/libEGL_nvidia.so.0")])
      else some fs }

/-- The root-only capture of `egl_nvidia` in an environment whose capture
helper finds nothing. -/
def capture_nothing : Outcome (PvRuntime × IcdDetails) :=
  bind_icd_capture {} self_plain { fs := host_plain } arch_plain 0 "glvnd" egl_nvidia

/-- The root-only capture of `egl_nvidia` in `env_capture`. -/
def capture_found : Outcome (PvRuntime × IcdDetails) :=
  bind_icd_capture env_capture self_plain { fs := host_plain } arch_plain 0 "glvnd" egl_nvidia

/-- The complete `bind_icd` of `egl_nvidia` in `env_capture`. -/
def bound_found : Outcome (PvRuntime × IcdDetails) :=
  bind_icd env_capture self_plain { fs := host_plain } arch_plain 0 "glvnd" egl_nvidia

/-- A mutable sysroot `/var/pv/tmp-AAAAAA` after the capture for
`x86_64-linux-gnu`: `overrides/lib/x86_64-linux-gnu` holds links named
`libfoo.so.1`, `libbar.so.1` and `ld-linux-x86-64.so.2`; the sysroot's own
`usr/lib/x86_64-linux-gnu` holds a regular file `libfoo.so.1`, a
directory `libbar.so.1` and a regular file `ld-linux-x86-64.so.2`. -/
def sysroot_captured : FS :=
  [(["var"], .dir), (["var", "pv"], .dir), (["var", "pv", "tmp-AAAAAA"], .dir),
   (["var", "pv", "tmp-AAAAAA", "usr"], .dir),
   (["var", "pv", "tmp-AAAAAA", "lib"], .symlink "usr/lib"),
   (["var", "pv", "tmp-AAAAAA", "usr", "lib"], .dir),
   (["var", "pv", "tmp-AAAAAA", "usr", "lib", "x86_64-linux-gnu"], .dir),
   (["var", "pv", "tmp-AAAAAA", "usr", "lib", "x86_64-linux-gnu", "libfoo.so.1"], .file 20),
   (["var", "pv", "tmp-AAAAAA", "usr", "lib", "x86_64-linux-gnu", "libbar.so.1"], .dir),
   (["var", "pv", "tmp-AAAAAA", "usr", "lib", "x86_64-linux-gnu", "ld-linux-x86-64.so.2"],
     .file 21),
   (["var", "pv", "tmp-AAAAAA", "usr", "lib", "pressure-vessel"], .dir),
   (["var", "pv", "tmp-AAAAAA", "usr", "lib", "pressure-vessel", "overrides"], .dir),
   (["var", "pv", "tmp-AAAAAA", "usr", "lib", "pressure-vessel", "overrides", "lib"], .dir),
   (["var", "pv", "tmp-AAAAAA", "usr", "lib", "pressure-vessel", "overrides", "lib",
      "x86_64-linux-gnu"], .dir),
   (["var", "pv", "tmp-AAAAAA", "usr", "lib", "pressure-vessel", "overrides", "lib",
      "x86_64-linux-gnu", "libfoo.so.1"],
     .symlink "/run/host/usr/lib/x86_64-linux-gnu/libfoo.so.1"),
   (["var", "pv", "tmp-AAAAAA", "usr", "lib", "pressure-vessel", "overrides", "lib",
      "x86_64-linux-gnu", "libbar.so.1"],
     .symlink "/run/host/usr/lib/x86_64-linux-gnu/libbar.so.1"),
   (["var", "pv", "tmp-AAAAAA", "usr", "lib", "pressure-vessel", "overrides", "lib",
      "x86_64-linux-gnu", "ld-linux-x86-64.so.2"],
     .symlink "/run/host/usr/lib/x86_64-linux-gnu/ld-linux-x86-64.so.2")]

/-- The runtime object of the mutable sysroot `/var/pv/tmp-AAAAAA`. -/
def self_mutable : PvRuntime :=
  { bubblewrap := "/usr/bin/bwrap"
    source_files := ["srv", "scout"]
    tools_dir := ["tools"]
    mutable_parent := some ["var", "pv"]
    mutable_parent_fd := some ["var", "pv"]
    mutable_sysroot := some ["var", "pv", "tmp-AAAAAA"]
    mutable_sysroot_fd := some ["var", "pv", "tmp-AAAAAA"]
    overrides := some ["var", "pv", "tmp-AAAAAA", "usr", "lib", "pressure-vessel", "overrides"]
    overrides_in_container := "/usr/lib/pressure-vessel/overrides"
    runtime_files := ["var", "pv", "tmp-AAAAAA"]
    runtime_usr := ["var", "pv", "tmp-AAAAAA", "usr"] }

/-- The architecture record of `x86_64-linux-gnu` for `self_mutable`. -/
def arch_mutable : RuntimeArchitecture :=
  { multiarch_index := 0
    tuple := "x86_64-linux-gnu"
    capsule_capture_libs_basename := "x86_64-linux-gnu-capsule-capture-libs"
    capsule_capture_libs := ["tools", "x86_64-linux-gnu-capsule-capture-libs"]
    libdir_on_host := ["var", "pv", "tmp-AAAAAA", "usr", "lib", "pressure-vessel", "overrides",
      "lib", "x86_64-linux-gnu"]
    libdir_in_container := "/usr/lib/pressure-vessel/overrides/lib/x86_64-linux-gnu"
    libqual := "lib64"
    ld_so := "/lib64/ld-linux-x86-64.so.2" }

/-- The sysroot's own library directory for `x86_64-linux-gnu`. -/
def sysroot_libdir : Path :=
  ["var", "pv", "tmp-AAAAAA", "usr", "lib", "x86_64-linux-gnu"]

/-- The run of `pv_runtime_remove_overridden_libraries` on
`sysroot_captured`. -/
def removed_overridden : Outcome Unit :=
  pv_runtime_remove_overridden_libraries {} self_mutable { fs := sysroot_captured } arch_mutable

/-- A host whose runtime image `/srv/scout` is a complete sysroot with the
32-bit loader `/lib/ld-linux.so.2` (through the link `lib -> usr/lib`) but
without the 64-bit loader `/lib64/ld-linux-x86-64.so.2`. -/
def img_arch : FS :=
  [(["srv"], .dir), (["srv", "scout"], .dir), (["srv", "scout", ".ref"], .file 1),
   (["srv", "scout", "usr"], .dir), (["srv", "scout", "usr", "bin"], .dir),
   (["srv", "scout", "usr", "lib"], .dir), (["srv", "scout", "usr", "bin", "sh"], .file 2),
   (["srv", "scout", "lib"], .symlink "usr/lib"),
   (["srv", "scout", "usr", "lib", "ld-linux.so.2"], .file 3),
   (["var"], .dir), (["var", "pv"], .dir), (["tools"], .dir), (["tmp"], .dir)]

/-- Output of the helpers of `env_arch`: both capture tools print the path of
their `ld.so`; `readlink -e` in the container finds the 32-bit loader only. -/
def helper_output (argv : List String) : Option String :=
  if argv == ["/tools/x86_64-linux-gnu-capsule-capture-libs", "--print-ld.so"] then
    some "/lib64/ld-linux-x86-64.so.2"
  else if argv == ["/tools/i386-linux-gnu-capsule-capture-libs", "--print-ld.so"] then
    some "/lib/ld-linux.so.2"
  else if argv.contains "readlink" && argv.getLast? == some "/lib/ld-linux.so.2" then
    some "/usr/lib/ld-linux.so.2"
  else none

/-- An environment in which the capture tools of both architectures run. -/
def env_arch : Env :=
  { mkdtemp_suffix := fun _ _ => some "AAAAAA"
    capture_output := fun _ argv => helper_output argv }

/-- An environment in which only the capture tool of `x86_64-linux-gnu`
runs. -/
def env_arch_64 : Env :=
  { mkdtemp_suffix := fun _ _ => some "AAAAAA"
    capture_output := fun _ argv =>
      if argv == ["/tools/x86_64-linux-gnu-capsule-capture-libs", "--print-ld.so"] then
        some "/lib64/ld-linux-x86-64.so.2"
      else none }

/-- The runtime composed on `img_arch` by `pv_runtime_new`: with a mutable
copy in `/var/pv`, or used in place. -/
def composed_arch (env : Env) (mutable_parent : Option Path) : Outcome PvRuntime :=
  pv_runtime_new env { fs := img_arch } ["srv", "scout"] mutable_parent "/usr/bin/bwrap"
    ["tools"] {}

/-- Composes a runtime on `img_arch` and takes the graphics stack of a host
without drivers. -/
def graphics_run (env : Env) (mutable_parent : Option Path) : Outcome GraphicsStack :=
  match composed_arch env mutable_parent with
  | (w, .error e) => (w, .error e)
  | (w, .ok self) => pv_runtime_use_host_graphics_stack env {} self w []

/-- The world before `store_old` is garbage-collected: the caller holds the
lock on `/var/pv/.ref`. -/
def world_old : World :=
  { fs := store_old, locks := [lock_store], next_fd := 4 }

/-- The host `img_merged` with the old entry `tmp-OLD` of `store_old` in its
store `/var/pv`. -/
def host_old : FS :=
  img_merged ++
    [(["var", "pv", ".ref"], .file 10),
     (["var", "pv", "tmp-OLD"], .dir),
     (["var", "pv", "tmp-OLD", ".ref"], .symlink "usr/.ref"),
     (["var", "pv", "tmp-OLD", "usr"], .dir),
     (["var", "pv", "tmp-OLD", "usr", ".ref"], .file 11),
     (["var", "pv", "tmp-OLD", "usr", "bin"], .dir)]

/-- An environment in which `g_mkdtemp` picks `AAAAAA` and the recursive
removal of `/var/pv/tmp-OLD` fails. -/
def env_old : Env :=
  { mkdtemp_suffix := fun _ _ => some "AAAAAA"
    rm_rf_fails := fun p => p == ["var", "pv", "tmp-OLD"] }

/-- The world and the lock after `pv_runtime_init_mutable` has locked
`/var/pv/.ref` on `host_old`. -/
def locked_old : World × Lock :=
  match pv_bwrap_lock_new env_old { fs := host_old } ["var", "pv"] [".ref"] true false with
  | .ok r => r
  | .error _ => ({ fs := host_old }, lock_store)

/-- The host `host_plain` with the programs `/usr/bin/localedef` and
`/usr/bin/locale` and the directory `/usr/share/libdrm`; the runtime
`/srv/scout` has a regular file `usr/bin/localedef`, a directory
`usr/bin/locale` and a directory `usr/share/libdrm`. -/
def host_locale : FS :=
  host_plain ++
    [(["usr"], .dir), (["usr", "bin"], .dir), (["usr", "bin", "localedef"], .file 30),
     (["usr", "bin", "locale"], .file 31),
     (["usr", "share"], .dir), (["usr", "share", "libdrm"], .dir),
     (["srv", "scout", "usr", "bin", "localedef"], .file 32),
     (["srv", "scout", "usr", "bin", "locale"], .dir),
     (["srv", "scout", "usr", "share"], .dir),
     (["srv", "scout", "usr", "share", "libdrm"], .dir)]

/-- The flags `TAKE_FROM_HOST_FLAGS_IF_CONTAINER_COMPATIBLE`. -/
def if_container_compatible : TakeFromHostFlags :=
  { if_container_compatible := true }

/-- The argument that follows the option `opt` in a command line. -/
def arg_after (opt : String) : List String → Option String
  | a :: b :: rest => if a == opt then some b else arg_after opt (b :: rest)
  | _ => none

/-- A host with a complete-sysroot runtime image in `/srv/scout`, its own
64-bit loader and gconv modules, and the manifest of a Mesa EGL ICD. -/
def host_full : FS :=
  [(["srv"], .dir), (["srv", "scout"], .dir), (["srv", "scout", ".ref"], .file 1),
   (["srv", "scout", "usr"], .dir), (["srv", "scout", "usr", "bin"], .dir),
   (["srv", "scout", "usr", "lib"], .dir), (["srv", "scout", "usr", "bin", "sh"], .file 2),
   (["tools"], .dir), (["tmp"], .dir),
   (["lib64"], .dir), (["lib64", "ld-linux-x86-64.so.2"], .file 40),
   (["usr"], .dir), (["usr", "lib"], .dir), (["usr", "lib", "x86_64-linux-gnu"], .dir),
   (["usr", "lib", "x86_64-linux-gnu", "gconv"], .dir),
   (["usr", "share"], .dir), (["usr", "share", "glvnd"], .dir),
   (["usr", "share", "glvnd", "egl_vendor.d"], .dir),
   (["usr", "share", "glvnd", "egl_vendor.d", "50_mesa.json"], .file 41)]

/-- The library directory of `x86_64-linux-gnu` in the overrides of the
runtime composed on `host_full`. -/
def libdir_full : Path :=
  ["tmp", "pressure-vessel-wrap.AAAAAA", "overrides", "lib", "x86_64-linux-gnu"]

/-- The capture helper of `env_full`.  For `x86_64-linux-gnu` it finds the
libc of the host to be newer, the library of the NVIDIA EGL ICD and a VA-API
driver; for `i386-linux-gnu` it finds nothing. -/
def capture_full (fs : FS) (argv : List String) : Option FS :=
  if argv.contains "gl:" && arg_after "--dest" argv == some (path_to_string libdir_full) then
    some (fs ++ [(libdir_full ++ ["libc.so.6"],
      .symlink "/run/host/usr/lib/x86_64-linux-gnu/libc.so.6")])
  else if argv.contains (icd_pattern "path" "/usr/lib/x86_64-linux-gnu/libEGL_nvidia.so.0")
      && arg_after "--dest" argv == some (path_to_string (libdir_full ++ ["glvnd", "0"])) then
    some (fs ++ [(libdir_full ++ ["glvnd", "0", "libEGL_nvidia.so.0"],
      .symlink "/run/host/usr/lib/x86_64-linux-gnu/libEGL_nvidia.so.0")])
  else if argv.contains (icd_pattern "path" "/usr/lib/x86_64-linux-gnu/dri/radeonsi_drv_video.so")
      && arg_after "--dest" argv == some (path_to_string (libdir_full ++ ["dri", "0"])) then
    some (fs ++ [(libdir_full ++ ["dri", "0", "radeonsi_drv_video.so"],
      .symlink "/run/host/usr/lib/x86_64-linux-gnu/dri/radeonsi_drv_video.so")])
  else some fs

/-- Output of the helpers of `env_full`: both capture tools print the path of
their `ld.so`, and `readlink -e` finds both in the runtime. -/
def helper_output_full (argv : List String) : Option String :=
  if argv == ["/tools/x86_64-linux-gnu-capsule-capture-libs", "--print-ld.so"] then
    some "/lib64/ld-linux-x86-64.so.2"
  else if argv == ["/tools/i386-linux-gnu-capsule-capture-libs", "--print-ld.so"] then
    some "/lib/ld-linux.so.2"
  else if argv.contains "readlink" && argv.getLast? == some "/lib64/ld-linux-x86-64.so.2" then
    some "/usr/lib/x86_64-linux-gnu/ld-2.31.so"
  else if argv.contains "readlink" && argv.getLast? == some "/lib/ld-linux.so.2" then
    some "/usr/lib/i386-linux-gnu/ld-2.31.so"
  else none

/-- An environment in which both architectures are viable. -/
def env_full : Env :=
  { mkdtemp_suffix := fun _ _ => some "AAAAAA"
    capture_output := fun _ argv => helper_output_full argv
    run_sync := capture_full }

/-- The drivers of the host of `env_full`: an NVIDIA EGL ICD whose library is
given by an absolute path, a Mesa EGL ICD whose library is given by its
SONAME, an EGL ICD that cannot be loaded, no Vulkan ICD, and one VA-API driver
for `x86_64-linux-gnu`. -/
def system_info_full : SrtSystemInfo :=
  { egl_icds :=
      [{ json_path := "/usr/share/glvnd/egl_vendor.d/10_nvidia.json"
         resolved_library := "/usr/lib/x86_64-linux-gnu/libEGL_nvidia.so.0" },
       { json_path := "/usr/share/glvnd/egl_vendor.d/20_broken.json"
         has_error := true
         resolved_library := "" },
       { json_path := "/usr/share/glvnd/egl_vendor.d/50_mesa.json"
         resolved_library := "libEGL_mesa.so.0" }]
    va_api_drivers := fun tuple =>
      if tuple == "x86_64-linux-gnu" then
        [{ resolved_library := "/usr/lib/x86_64-linux-gnu/dri/radeonsi_drv_video.so" }]
      else [] }

/-- The runtime composed in place on `host_full`. -/
def composed_full : Outcome PvRuntime :=
  pv_runtime_new env_full { fs := host_full } ["srv", "scout"] none "/usr/bin/bwrap"
    ["tools"] { host_graphics_stack := true }

/-- The part of `pv_runtime_use_host_graphics_stack` up to the end of the loop
over the architectures, for the runtime composed on `host_full`. -/
def archs_full : Outcome GraphicsStack :=
  match composed_full with
  | (w, .error e) => (w, .error e)
  | (w, .ok self) => pv_runtime_use_host_graphics_stack env_full system_info_full self w []

/-- The whole of `pv_runtime_use_host_graphics_stack` for the runtime composed
on `host_full`. -/
def graphics_full : Outcome (PvRuntime × List String) :=
  match composed_full with
  | (w, .error e) => (w, .error e)
  | (w, .ok self) => use_host_graphics_stack_complete env_full system_info_full self w []

/-- The runtime object composed on `host_full`. -/
def self_full : PvRuntime :=
  composed_full.value.getD self_plain

/-- The graphics stack at the end of the loop over the architectures for the
runtime composed on `host_full`. -/
def stack_full : GraphicsStack :=
  archs_full.value.getD (graphics_stack_start system_info_full self_plain [])

/-- The set-up of the manifests of the EGL ICDs at the end of the loop over
the architectures for the runtime composed on `host_full`. -/
def egl_setup_full : Outcome (List String × String) :=
  setup_icd_json env_full stack_full.self ["share", "glvnd", "egl_vendor.d"]
    stack_full.egl_icd_details archs_full.1 stack_full.bwrap

/-- A host on which the overrides of `self_plain` exist, with its tools. -/
def host_locales : FS :=
  [(["srv"], .dir), (["srv", "scout"], .dir), (["srv", "scout", ".ref"], .file 1),
   (["srv", "scout", "usr"], .dir), (["tools"], .dir), (["tools", "bin"], .dir),
   (["tmp"], .dir), (["tmp", "pressure-vessel-wrap.AAAAAA"], .dir),
   (["tmp", "pressure-vessel-wrap.AAAAAA", "overrides"], .dir)]

/-- An environment whose locale helper creates a locale in the directory given
after `--output-dir` and exits with the status 72; `LOCPATH` is set. -/
def env_locales : Env :=
  { run_status := fun fs argv =>
      (fs ++ [(path_components ((arg_after "--output-dir" argv).getD "") ++ ["en_GB.UTF-8"],
        .dir)], 72)
    getenv := fun name => if name == "LOCPATH" then some "/usr/lib/locale" else none }

/-- The builder before `ensure_locales`. -/
def builder_plain : FlatpakBwrap :=
  { argv := ["/usr/bin/bwrap", "--ro-bind", "/srv/scout/usr", "/usr"] }

/-- The run of `ensure_locales` on `host_locales`. -/
def locales_run : World × FlatpakBwrap :=
  ensure_locales env_locales self_plain true { fs := host_locales } builder_plain

/-- The runtime in `/srv/scout` bound on `host_locales`, without the graphics
stack of the host. -/
def bound_plain : Outcome (PvRuntime × FlatpakBwrap) :=
  pv_runtime_bind {} {} self_plain { fs := host_locales } { argv := ["/usr/bin/bwrap"] }

/-- A linker in which the capsule with handle 1 gives the address 4096 for
`glFlush`, of which `dladdr` knows nothing, and the capsule with handle 2 does
not have the symbol. -/
def linker_unknown : Linker :=
  { dlsym := fun handle symbol => if handle == 1 && symbol == "glFlush" then 4096 else 0 }

/-- A linker in which the capsule with handle 1 gives the address 4096 for
`glFlush`, of which `dladdr` knows nothing, and the capsule with handle 2
gives the address 8192 in `libGL.so.1`. -/
def linker_two : Linker :=
  { dlsym := fun handle symbol =>
      if symbol != "glFlush" then 0 else if handle == 1 then 4096 else 8192
    dladdr := fun addr => if addr == 8192 then some "/usr/lib/libGL.so.1" else none
    soname_matches_path := fun soname path => glnx_basename path == soname }

/-- A runtime image in `/srv/scout` whose `etc` holds a symbolic link, a
regular file, a directory and the blocklisted `passwd`, and whose `var/lib`
holds the blocklisted `dbus`. -/
def img_etc : FS :=
  [(["srv"], .dir), (["srv", "scout"], .dir), (["srv", "scout", "usr"], .dir),
   (["srv", "scout", "etc"], .dir),
   (["srv", "scout", "etc", "mtab"], .symlink "/proc/mounts"),
   (["srv", "scout", "etc", "ld.so.conf"], .file 50),
   (["srv", "scout", "etc", "passwd"], .file 51),
   (["srv", "scout", "etc", "fonts"], .dir),
   (["srv", "scout", "var"], .dir), (["srv", "scout", "var", "lib"], .dir),
   (["srv", "scout", "var", "lib", "dbus"], .dir),
   (["srv", "scout", "var", "lib", "dpkg"], .dir)]

/-- The sysroot `sysroot_captured` with a regular file `libGL.sold` in its own
`usr/lib/x86_64-linux-gnu` and a link of the same name among the overrides. -/
def sysroot_sold : FS :=
  sysroot_captured ++
    [(sysroot_libdir ++ ["libGL.sold"], .file 22),
     (arch_mutable.libdir_on_host ++ ["libGL.sold"],
       .symlink "/run/host/usr/lib/x86_64-linux-gnu/libGL.sold")]

/-- The run of `pv_runtime_remove_overridden_libraries` on `sysroot_sold`. -/
def removed_sold : Outcome Unit :=
  pv_runtime_remove_overridden_libraries {} self_mutable { fs := sysroot_sold } arch_mutable

/-- The run of `pv_runtime_initable_init` on the merged-`/usr` image with the
store `/var/pv`. -/
def init_copy_merged : Outcome PvRuntime :=
  pv_runtime_initable_init envA self_new { fs := img_merged }

/-- The run of `pv_runtime_initable_init` on the complete sysroot with the
store `/var/pv`. -/
def init_copy_sysroot : Outcome PvRuntime :=
  pv_runtime_initable_init envA self_new { fs := img_sysroot }

/-- A host with a merged `/usr` (`/lib` is a link to `usr/lib`) whose DRI
drivers are in `/usr/lib/dri` (`i965_dri.so`, `swrast_dri.so`) and in
`/usr/lib/x86_64-linux-gnu/dri` (`i965_dri.so`, `radeonsi_dri.so`), with the
temporary directory of a runtime used in place, in which
`overrides/lib/x86_64-linux-gnu/dri` has been created. -/
def host_dri : FS :=
  [(["usr"], .dir), (["usr", "lib"], .dir), (["usr", "lib", "dri"], .dir),
   (["usr", "lib", "dri", "i965_dri.so"], .file 20),
   (["usr", "lib", "dri", "swrast_dri.so"], .file 21),
   (["usr", "lib", "x86_64-linux-gnu"], .dir),
   (["usr", "lib", "x86_64-linux-gnu", "dri"], .dir),
   (["usr", "lib", "x86_64-linux-gnu", "dri", "i965_dri.so"], .file 22),
   (["usr", "lib", "x86_64-linux-gnu", "dri", "radeonsi_dri.so"], .file 23),
   (["lib"], .symlink "usr/lib"),
   (["tools"], .dir),
   (["tmp"], .dir), (["tmp", "pressure-vessel-wrap.AAAAAA"], .dir),
   (["tmp", "pressure-vessel-wrap.AAAAAA", "overrides"], .dir),
   (["tmp", "pressure-vessel-wrap.AAAAAA", "overrides", "lib"], .dir),
   (["tmp", "pressure-vessel-wrap.AAAAAA", "overrides", "lib", "x86_64-linux-gnu"], .dir),
   (["tmp", "pressure-vessel-wrap.AAAAAA", "overrides", "lib", "x86_64-linux-gnu", "dri"],
     .dir)]

/-- The runtime object `self_plain` once the container has been made
accessible. -/
def self_dri : PvRuntime :=
  { self_plain with
    container_access := some ["srv", "scout"]
    container_access_adverb := some [] }

/-- An environment whose capture helper leaves a link to the `libdrm.so.2` of
the host in the directory of the libraries of `arch_plain`. -/
def env_dri : Env :=
  { run_sync := fun fs _ =>
      if (fs_get fs (arch_plain.libdir_on_host ++ ["libdrm.so.2"])).isSome then some fs
      else
        some (fs ++ [(arch_plain.libdir_on_host ++ ["libdrm.so.2"],
          .symlink "/run/host/usr/lib/x86_64-linux-gnu/libdrm.so.2")]) }

/-- The loop over the six directories of DRI drivers on `host_dri`. -/
def dri_bound : Outcome PvRuntime :=
  try_bind_dri_dirs env_dri arch_plain (dri_dirs arch_plain) self_dri { fs := host_dri }

/-- The lock on the image's `/srv/scout/.ref` that `pv_runtime_initable_init`
takes before it calls `pv_runtime_init_mutable`. -/
def lock_source : Lock :=
  { ino := 1, write := false, is_ofd := true, fd := 3 }

/-- The world in which `pv_runtime_init_mutable` starts on `host_old`: the
lock on the image is held. -/
def world_source_locked : World :=
  { fs := host_old, locks := [lock_source], next_fd := 4 }

/-- The runtime object `self_new` holding the lock on the image. -/
def self_locked : PvRuntime :=
  { self_new with runtime_lock := some lock_source }

/-- The run of `pv_runtime_init_mutable` on the merged-`/usr` image with the
lock on the image held and the old entry `tmp-OLD` in the store. -/
def init_merged_locked : Outcome PvRuntime :=
  pv_runtime_init_mutable envA self_locked world_source_locked

/-! # Theorems -/

/-! ## Basic facts about the file-system map -/

theorem fs_get_append_of_some {fs : FS} {p : Path} {n : Node} (l : FS)
    (h : fs_get fs p = some n) : fs_get (fs ++ l) p = some n := by
  induction fs with
  | nil => simp [fs_get] at h
  | cons e rest ih =>
    obtain ⟨q, m⟩ := e
    simp only [List.cons_append, fs_get] at h ⊢
    by_cases hq : q = p
    · simpa [hq] using h
    · simp only [hq, if_false] at h ⊢
      exact ih h

theorem fs_get_append_of_none {fs : FS} {p : Path} (l : FS)
    (h : fs_get fs p = none) : fs_get (fs ++ l) p = fs_get l p := by
  induction fs with
  | nil => simp
  | cons e rest ih =>
    obtain ⟨q, m⟩ := e
    simp only [List.cons_append, fs_get] at h ⊢
    by_cases hq : q = p
    · simp [hq] at h
    · simp only [hq, if_false] at h ⊢
      exact ih h

theorem fs_get_singleton (q p : Path) (n : Node) :
    fs_get [(q, n)] p = if q = p then some n else none := by
  simp [fs_get]

theorem fs_get_filter_key (g : Path → Bool) (fs : FS) (p : Path) :
    fs_get (fs.filter (fun e => g e.1)) p = if g p then fs_get fs p else none := by
  induction fs with
  | nil => simp [fs_get]
  | cons e rest ih =>
    obtain ⟨q, m⟩ := e
    by_cases hg : g q = true
    · simp only [List.filter_cons, hg, if_true, fs_get]
      by_cases hq : q = p
      · subst hq; simp [hg]
      · simp only [hq, if_false]; exact ih
    · have hg' : g q = false := by simpa using hg
      simp only [List.filter_cons, hg', fs_get, Bool.false_eq_true, if_false]
      by_cases hq : q = p
      · subst hq; rw [ih]; simp [hg']
      · simp only [hq, if_false]; exact ih

theorem fs_get_del (fs : FS) (p q : Path) :
    fs_get (fs_del fs p) q = if q = p then none else fs_get fs q := by
  unfold fs_del
  rw [fs_get_filter_key (fun k => decide (k ≠ p)) fs q]
  by_cases h : q = p <;> simp [h]

theorem fs_get_rm_tree (fs : FS) (p q : Path) :
    fs_get (fs_rm_tree fs p) q = if p.isPrefixOf q then none else fs_get fs q := by
  unfold fs_rm_tree
  rw [fs_get_filter_key (fun k => !(p.isPrefixOf k)) fs q]
  by_cases h : p.isPrefixOf q = true <;> simp [h]

/-! ## Path resolution on plain names -/

theorem tmp_name_plain {name : String} (h : g_str_has_prefix name "tmp-" = true) :
    name ≠ "." ∧ name ≠ ".." := by
  constructor
  · rintro rfl; revert h; decide
  · rintro rfl; revert h; decide

theorem walk_segment_dir {fs : FS} {root cur : Path} {ff : Bool} {c : String}
    (rest : List String) (h1 : c ≠ ".") (h2 : c ≠ "..")
    (h : fs_get fs (cur ++ [c]) = some .dir) :
    walk_segment fs root ff cur (c :: rest) = walk_segment fs root ff (cur ++ [c]) rest := by
  simp [walk_segment, h1, h2, h]

theorem walk_segment_last_none {fs : FS} {root cur : Path} {ff : Bool} {c : String}
    (h1 : c ≠ ".") (h2 : c ≠ "..") (h : fs_get fs (cur ++ [c]) = none) :
    walk_segment fs root ff cur [c] = .done (cur ++ [c]) := by
  simp [walk_segment, h1, h2, h]

theorem walk_segment_last_file {fs : FS} {root cur : Path} {ff : Bool} {c : String} {ino : Nat}
    (h1 : c ≠ ".") (h2 : c ≠ "..") (h : fs_get fs (cur ++ [c]) = some (.file ino)) :
    walk_segment fs root ff cur [c] = .done (cur ++ [c]) := by
  simp [walk_segment, h1, h2, h]

theorem walk_segment_last_symlink_follow {fs : FS} {root cur : Path} {c t : String}
    (h1 : c ≠ ".") (h2 : c ≠ "..") (h : fs_get fs (cur ++ [c]) = some (.symlink t)) :
    walk_segment fs root true cur [c] = .link cur t [] := by
  simp [walk_segment, h1, h2, h]

theorem walk_segment_last_symlink_nofollow {fs : FS} {root cur : Path} {c t : String}
    (h1 : c ≠ ".") (h2 : c ≠ "..") (h : fs_get fs (cur ++ [c]) = some (.symlink t)) :
    walk_segment fs root false cur [c] = .done (cur ++ [c]) := by
  simp [walk_segment, h1, h2, h]

theorem walk_of_done {fs : FS} {root cur : Path} {ff : Bool} {comps : List String} {p : Path}
    (fuel : Nat) (h : walk_segment fs root ff cur comps = .done p) :
    walk fs root ff fuel cur comps = .ok p := by
  rw [walk]
  simp only [h]

theorem walk_of_err {fs : FS} {root cur : Path} {ff : Bool} {comps : List String} {e : Errno}
    (fuel : Nat) (h : walk_segment fs root ff cur comps = .err e) :
    walk fs root ff fuel cur comps = .error e := by
  rw [walk]
  simp only [h]

theorem walk_of_link {fs : FS} {root cur cur1 : Path} {ff : Bool} {comps rest : List String}
    {t : String} (fuel : Nat) (h : walk_segment fs root ff cur comps = .link cur1 t rest) :
    walk fs root ff (fuel + 1) cur comps =
      walk fs root ff fuel (if g_path_is_absolute t then root else cur1)
        (path_components t ++ rest) := by
  rw [walk]
  simp only [h]

theorem fs_node_append_singleton (fs : FS) (p : Path) (c : String) :
    fs_node fs (p ++ [c]) = fs_get fs (p ++ [c]) := by
  simp [fs_node]

theorem lstat_at_child {fs : FS} {base : Path} {c : String} {n : Node}
    (h1 : c ≠ ".") (h2 : c ≠ "..") (h : fs_get fs (base ++ [c]) = some n) :
    lstat_at fs base [c] = .ok (base ++ [c], n) := by
  have hseg : walk_segment fs [] false base [c] = .done (base ++ [c]) := by
    cases n with
    | dir => rw [walk_segment_dir [] h1 h2 h]; simp [walk_segment]
    | file ino => exact walk_segment_last_file h1 h2 h
    | symlink t => exact walk_segment_last_symlink_nofollow h1 h2 h
  simp [lstat_at, walk_of_done _ hseg, fs_node_append_singleton, h]

theorem lstat_at_child_none {fs : FS} {base : Path} {c : String}
    (h1 : c ≠ ".") (h2 : c ≠ "..") (h : fs_get fs (base ++ [c]) = none) :
    lstat_at fs base [c] = .error .ENOENT := by
  simp [lstat_at, walk_of_done _ (walk_segment_last_none h1 h2 h), fs_node_append_singleton, h]

theorem lstat_at_grandchild {fs : FS} {base : Path} {c d : String}
    (h1 : c ≠ ".") (h2 : c ≠ "..") (hc : fs_get fs (base ++ [c]) = some .dir)
    (g1 : d ≠ ".") (g2 : d ≠ "..") :
    lstat_at fs base [c, d] =
      match fs_get fs (base ++ [c, d]) with
      | none => .error .ENOENT
      | some n => .ok (base ++ [c, d], n) := by
  have happ : base ++ [c] ++ [d] = base ++ [c, d] := by simp
  cases hd : fs_get fs (base ++ [c, d]) with
  | none =>
    have hseg : walk_segment fs [] false base [c, d] = .done (base ++ [c, d]) := by
      rw [walk_segment_dir [d] h1 h2 hc, walk_segment_last_none g1 g2 (by rw [happ]; exact hd), happ]
    have hnode : fs_node fs (base ++ [c, d]) = none := by
      rw [← happ, fs_node_append_singleton, happ]; exact hd
    simp [lstat_at, walk_of_done _ hseg, hnode]
  | some n =>
    have hseg : walk_segment fs [] false base [c, d] = .done (base ++ [c, d]) := by
      rw [walk_segment_dir [d] h1 h2 hc]
      have hd' : fs_get fs (base ++ [c] ++ [d]) = some n := by rw [happ]; exact hd
      cases n with
      | dir => rw [walk_segment_dir [] g1 g2 hd', happ]; simp [walk_segment]
      | file ino => rw [walk_segment_last_file g1 g2 hd', happ]
      | symlink t => rw [walk_segment_last_symlink_nofollow g1 g2 hd', happ]
    have hnode : fs_node fs (base ++ [c, d]) = some n := by
      rw [← happ, fs_node_append_singleton, happ]; exact hd
    simp [lstat_at, walk_of_done _ hseg, hnode]

theorem walk_segment_last_not_symlink {fs : FS} {root cur : Path} {ff : Bool} {c : String}
    (h1 : c ≠ ".") (h2 : c ≠ "..") (h : ∀ t, fs_get fs (cur ++ [c]) ≠ some (.symlink t)) :
    walk_segment fs root ff cur [c] = .done (cur ++ [c]) := by
  cases hn : fs_get fs (cur ++ [c]) with
  | none => exact walk_segment_last_none h1 h2 hn
  | some n =>
    cases n with
    | dir => rw [walk_segment_dir [] h1 h2 hn]; simp [walk_segment]
    | file ino => exact walk_segment_last_file h1 h2 hn
    | symlink t => exact absurd hn (h t)

theorem walk_usr_ref {fs : FS} {dir : Path} (fuel : Nat)
    (husr : fs_get fs (dir ++ ["usr"]) = some .dir)
    (hnl : ∀ t, fs_get fs (dir ++ ["usr", ".ref"]) ≠ some (.symlink t)) :
    walk fs [] true fuel dir ["usr", ".ref"] = .ok (dir ++ ["usr", ".ref"]) := by
  have happ : dir ++ ["usr"] ++ [".ref"] = dir ++ ["usr", ".ref"] := by simp
  apply walk_of_done
  rw [walk_segment_dir [".ref"] (by decide) (by decide) husr,
    walk_segment_last_not_symlink (by decide) (by decide) (by rw [happ]; exact hnl), happ]

theorem walk_ref_alias {fs : FS} {dir : Path} (fuel : Nat)
    (href : fs_get fs (dir ++ [".ref"]) = some (.symlink "usr/.ref"))
    (husr : fs_get fs (dir ++ ["usr"]) = some .dir)
    (hnl : ∀ t, fs_get fs (dir ++ ["usr", ".ref"]) ≠ some (.symlink t)) :
    walk fs [] true (fuel + 1) dir [".ref"] = .ok (dir ++ ["usr", ".ref"]) := by
  rw [walk_of_link fuel (walk_segment_last_symlink_follow (by decide) (by decide) href)]
  have h1 : g_path_is_absolute "usr/.ref" = false := by decide
  have h2 : path_components "usr/.ref" = ["usr", ".ref"] := by decide
  simp only [h1, h2, List.append_nil]
  exact walk_usr_ref fuel husr hnl

theorem walk_into_dir {fs : FS} {root base : Path} {ff : Bool} {c : String} (fuel : Nat)
    (rest : List String) (h1 : c ≠ ".") (h2 : c ≠ "..")
    (h : fs_get fs (base ++ [c]) = some .dir) :
    walk fs root ff fuel base (c :: rest) = walk fs root ff fuel (base ++ [c]) rest := by
  rw [walk, walk_segment_dir rest h1 h2 h]
  conv => rhs; rw [walk]

/-- In an entry whose `.ref` is the symbolic link to `usr/.ref`, locking
`<entry>/.ref` is locking `<entry>/usr/.ref`. -/
theorem lock_new_ref_alias (env : Env) (w : World) (parent_fd : Path) (name : String)
    (create write : Bool)
    (h1 : name ≠ ".") (h2 : name ≠ "..")
    (hdir : fs_get w.fs (parent_fd ++ [name]) = some .dir)
    (href : fs_get w.fs (parent_fd ++ [name, ".ref"]) = some (.symlink "usr/.ref"))
    (husr : fs_get w.fs (parent_fd ++ [name, "usr"]) = some .dir)
    (hnl : ∀ t, fs_get w.fs (parent_fd ++ [name, "usr", ".ref"]) ≠ some (.symlink t)) :
    pv_bwrap_lock_new env w parent_fd [name, ".ref"] create write =
      pv_bwrap_lock_new env w parent_fd [name, "usr", ".ref"] create write := by
  have e1 : parent_fd ++ [name] ++ [".ref"] = parent_fd ++ [name, ".ref"] := by simp
  have e2 : parent_fd ++ [name] ++ ["usr"] = parent_fd ++ [name, "usr"] := by simp
  have e3 : parent_fd ++ [name] ++ ["usr", ".ref"] = parent_fd ++ [name, "usr", ".ref"] := by simp
  have ha : walk w.fs [] true MAXSYMLINKS parent_fd [name, ".ref"]
      = .ok (parent_fd ++ [name, "usr", ".ref"]) := by
    rw [walk_into_dir _ _ h1 h2 hdir]
    show walk w.fs [] true (39 + 1) (parent_fd ++ [name]) [".ref"] = _
    rw [walk_ref_alias 39 (by rw [e1]; exact href) (by rw [e2]; exact husr)
      (by rw [e3]; exact hnl), e3]
  have hb : walk w.fs [] true MAXSYMLINKS parent_fd [name, "usr", ".ref"]
      = .ok (parent_fd ++ [name, "usr", ".ref"]) := by
    rw [walk_into_dir _ _ h1 h2 hdir,
      walk_usr_ref _ (by rw [e2]; exact husr) (by rw [e3]; exact hnl), e3]
  simp only [pv_bwrap_lock_new, ha, hb]

theorem take_lock_fs {env : Env} {w w1 : World} {ino : Nat} {write : Bool} {l : Lock}
    (h : take_lock env w ino write = .ok (w1, l)) : w1.fs = w.fs := by
  unfold take_lock at h
  split at h
  · cases h
  · simp only [Except.ok.injEq, Prod.mk.injEq] at h
    rw [← h.1]

/-- Taking a lock changes the file system at most by creating the lock file
where nothing existed. -/
theorem lock_new_preserves {env : Env} {w w1 : World} {at_dir : Path} {path : List String}
    {create write : Bool} {l : Lock}
    (h : pv_bwrap_lock_new env w at_dir path create write = .ok (w1, l))
    {q : Path} {n : Node} (hq : fs_get w.fs q = some n) : fs_get w1.fs q = some n := by
  unfold pv_bwrap_lock_new at h
  split at h
  · cases h
  · split at h
    · rw [take_lock_fs h]; exact hq
    · cases h
    · split at h
      · rw [take_lock_fs h]
        exact fs_get_append_of_some _ hq
      · cases h

theorem lock_free_fs (w : World) (l : Lock) : (pv_bwrap_lock_free w l).fs = w.fs := rfl

theorem isPrefixOf_self (p : Path) : p.isPrefixOf p = true := by
  induction p with
  | nil => rfl
  | cons a as ih => simp [List.isPrefixOf, ih]

/-- Amended C2 (deletion rule of garbage collection): when
`pv_runtime_garbage_collect` considers a directory entry `tmp-*` whose `.ref`
is the symbolic link to `usr/.ref` (with `usr` a directory and `usr/.ref`
not itself a symbolic link), it deletes the entry if and only if no `keep`
marker exists and the `stat` of it does not fail, a write lock on the
entry's `usr/.ref` can be acquired, and the recursive removal does not
fail. -/
theorem gc_entry_deletes_iff (env : Env) (w : World) (parent_fd : Path) (name : String)
    (hpre : g_str_has_prefix name "tmp-" = true)
    (hdir : fs_get w.fs (parent_fd ++ [name]) = some .dir)
    (href : fs_get w.fs (parent_fd ++ [name, ".ref"]) = some (.symlink "usr/.ref"))
    (husr : fs_get w.fs (parent_fd ++ [name, "usr"]) = some .dir)
    (hnl : ∀ t, fs_get w.fs (parent_fd ++ [name, "usr", ".ref"]) ≠ some (.symlink t)) :
    fs_get (gc_entry env parent_fd w ⟨name, .DT_DIR⟩).fs (parent_fd ++ [name]) = none ↔
      ((fs_get w.fs (parent_fd ++ [name, "keep"]) = none ∧
          env.stat_fails parent_fd [name, "keep"] = false) ∧
        (∃ r, pv_bwrap_lock_new env w parent_fd [name, "usr", ".ref"] true true = .ok r) ∧
        env.rm_rf_fails (parent_fd ++ [name]) = false) := by
  obtain ⟨h1, h2⟩ := tmp_name_plain hpre
  have hstat : glnx_fstatat_nofollow env w.fs parent_fd [name, "keep"] =
      if env.stat_fails parent_fd [name, "keep"] then .other_error
      else match fs_get w.fs (parent_fd ++ [name, "keep"]) with
        | none => .not_found
        | some _ => .found := by
    unfold glnx_fstatat_nofollow
    rw [lstat_at_grandchild h1 h2 hdir (by decide) (by decide)]
    cases fs_get w.fs (parent_fd ++ [name, "keep"]) <;> rfl
  have hlock := lock_new_ref_alias env w parent_fd name true true h1 h2 hdir href husr hnl
  simp only [gc_entry, hpre, hstat, hlock, Bool.not_true, Bool.false_eq_true, if_false]
  by_cases hsf : env.stat_fails parent_fd [name, "keep"] = true
  · simp [hsf, hdir]
  · have hsf' : env.stat_fails parent_fd [name, "keep"] = false := by simpa using hsf
    simp only [hsf', Bool.false_eq_true, if_false, and_true]
    cases hkeep : fs_get w.fs (parent_fd ++ [name, "keep"]) with
    | some k => simp [hdir]
    | none =>
      simp only [true_and]
      cases hl : pv_bwrap_lock_new env w parent_fd [name, "usr", ".ref"] true true with
      | error e => simp [hdir]
      | ok r =>
        obtain ⟨w1, l⟩ := r
        have hdir1 : fs_get w1.fs (parent_fd ++ [name]) = some .dir := lock_new_preserves hl hdir
        have hrm : glnx_shutil_rm_rf_at env w1.fs parent_fd [name] =
            if env.rm_rf_fails (parent_fd ++ [name]) then .error .EACCES
            else .ok (fs_rm_tree w1.fs (parent_fd ++ [name])) := by
          unfold glnx_shutil_rm_rf_at
          rw [lstat_at_child h1 h2 hdir1]
        simp only [hrm]
        by_cases hf : env.rm_rf_fails (parent_fd ++ [name]) = true
        · simp [hf, lock_free_fs, hdir1]
        · have hf' : env.rm_rf_fails (parent_fd ++ [name]) = false := by simpa using hf
          simp [hf', lock_free_fs, fs_get_rm_tree, isPrefixOf_self]

/-! ## Resolution is stable when objects are only added -/

theorem FsExtends.refl (fs : FS) : FsExtends fs fs := fun _ _ h => h

theorem FsExtends.trans {a b c : FS} (h1 : FsExtends a b) (h2 : FsExtends b c) :
    FsExtends a c := fun p n h => h2 p n (h1 p n h)

theorem FsExtends.append (fs l : FS) : FsExtends fs (fs ++ l) :=
  fun _ _ h => fs_get_append_of_some l h

theorem FsExtends.node {fs fs1 : FS} (h : FsExtends fs fs1) {p : Path} {n : Node}
    (hn : fs_node fs p = some n) : fs_node fs1 p = some n := by
  unfold fs_node at hn ⊢
  by_cases hp : p.isEmpty = true
  · simpa [hp] using hn
  · simp only [hp] at hn ⊢
    exact h p n hn

theorem walk_segment_mono {fs fs1 : FS} (hext : FsExtends fs fs1) (root : Path) (ff : Bool) :
    ∀ (comps : List String) (cur : Path) (r : WalkStep),
      walk_segment fs root ff cur comps = r →
      (match r with
        | .done loc => (fs_node fs loc).isSome = true
        | .err _ => False
        | .link _ _ _ => True) →
      walk_segment fs1 root ff cur comps = r := by
  intro comps
  induction comps with
  | nil => intro cur r h _; simpa [walk_segment] using h
  | cons c rest ih =>
    intro cur r h hr
    unfold walk_segment at h ⊢
    by_cases h1 : c = "."
    · simp only [h1, if_true] at h ⊢
      exact ih cur r h hr
    · by_cases h2 : c = ".."
      · simp only [h1, h2, if_true, if_false] at h ⊢
        exact ih _ r h hr
      · simp only [h1, h2, if_false] at h ⊢
        cases hn : fs_get fs (cur ++ [c]) with
        | none =>
          rw [hn] at h
          simp only at h
          split at h
          · subst h
            simp [fs_node, hn] at hr
          · subst h
            exact absurd hr (by simp)
        | some n =>
          rw [hn] at h
          rw [hext _ _ hn]
          cases n with
          | dir => exact ih _ r h hr
          | file ino => exact h
          | symlink t => exact h

theorem walk_mono {fs fs1 : FS} (hext : FsExtends fs fs1) (root : Path) (ff : Bool) :
    ∀ (fuel : Nat) (cur : Path) (comps : List String) (loc : Path),
      walk fs root ff fuel cur comps = .ok loc → (fs_node fs loc).isSome = true →
      walk fs1 root ff fuel cur comps = .ok loc := by
  intro fuel
  induction fuel with
  | zero =>
    intro cur comps loc h hloc
    rw [walk] at h ⊢
    cases hs : walk_segment fs root ff cur comps with
    | done p =>
      rw [hs] at h
      simp only [Except.ok.injEq] at h
      subst h
      rw [walk_segment_mono hext root ff comps cur _ hs hloc]
    | err e => rw [hs] at h; cases h
    | link c t r => rw [hs] at h; cases h
  | succ n ih =>
    intro cur comps loc h hloc
    rw [walk] at h ⊢
    cases hs : walk_segment fs root ff cur comps with
    | done p =>
      rw [hs] at h
      simp only [Except.ok.injEq] at h
      subst h
      rw [walk_segment_mono hext root ff comps cur _ hs hloc]
    | err e => rw [hs] at h; cases h
    | link c t r =>
      rw [hs] at h
      rw [walk_segment_mono hext root ff comps cur _ hs trivial]
      exact ih _ _ loc h hloc

theorem stat_at_mono {fs fs1 : FS} (hext : FsExtends fs fs1) {base : Path} {rel : List String}
    {loc : Path} {n : Node} (h : stat_at fs base rel = .ok (loc, n)) :
    stat_at fs1 base rel = .ok (loc, n) := by
  unfold stat_at at h ⊢
  cases hw : walk fs [] true MAXSYMLINKS base rel with
  | error e => rw [hw] at h; cases h
  | ok l =>
    rw [hw] at h
    simp only at h
    cases hn : fs_node fs l with
    | none => rw [hn] at h; cases h
    | some m =>
      rw [hn] at h
      simp only [Except.ok.injEq, Prod.mk.injEq] at h
      obtain ⟨rfl, rfl⟩ := h
      rw [walk_mono hext [] true _ _ _ _ hw (by simp [hn])]
      simp only
      rw [hext.node hn]

theorem glnx_opendirat_follow_mono {fs fs1 : FS} (hext : FsExtends fs fs1) {base : Path}
    {rel : List String} {dir : Path} (h : glnx_opendirat fs base rel true = .ok dir) :
    glnx_opendirat fs1 base rel true = .ok dir := by
  unfold glnx_opendirat at h ⊢
  simp only [if_true] at h ⊢
  cases hs : stat_at fs base rel with
  | error e => rw [hs] at h; cases h
  | ok r =>
    obtain ⟨loc, n⟩ := r
    rw [stat_at_mono hext hs]
    rw [hs] at h
    exact h

theorem lock_new_extends {env : Env} {w w1 : World} {at_dir : Path} {path : List String}
    {create write : Bool} {l : Lock}
    (h : pv_bwrap_lock_new env w at_dir path create write = .ok (w1, l)) :
    FsExtends w.fs w1.fs :=
  fun _ _ hq => lock_new_preserves h hq

theorem gc_loop_ok (env : Env) (iter_dir parent_fd : Path)
    (hnext : ∀ i, env.next_dent_fails iter_dir i = false) :
    ∀ (dents : List Dirent) (i : Nat) (w : World),
      (gc_loop env iter_dir parent_fd i dents w).2 = .ok () := by
  intro dents
  induction dents with
  | nil => intro i w; simp [gc_loop, hnext]
  | cons d rest ih => intro i w; simp only [gc_loop, hnext, Bool.false_eq_true, if_false]; exact ih _ _

/-- Amended C3 (garbage collection never fails the launch): with
`GC_RUNTIMES` set and the parent directory created, opened and locked,
unless iterating over the parent directory itself fails,
`pv_runtime_garbage_collect` returns success whatever happens to the
individual entries (an entry that cannot be examined, locked or deleted is
skipped), and `pv_runtime_init_mutable` goes on to create the new
`tmp-XXXXXX` entry: its result is that of the steps from `g_mkdtemp` on. -/
theorem init_mutable_gc_failures_ignored (env : Env) (self : PvRuntime) (w : World)
    (mutable_parent : Path) (fs1 : FS) (made parent_fd : Path) (w2 : World)
    (mutable_lock : Lock)
    (hflag : self.flags.gc_runtimes = true)
    (hmp : self.mutable_parent = some mutable_parent)
    (hmk : g_mkdir_with_parents w.fs [] mutable_parent = .ok (fs1, made))
    (hopen : glnx_opendirat fs1 [] mutable_parent true = .ok parent_fd)
    (hlock : pv_bwrap_lock_new env { w with fs := fs1 } parent_fd [".ref"] true false
      = .ok (w2, mutable_lock))
    (hinit : env.iter_init_fails parent_fd = false)
    (hnext : ∀ i, env.next_dent_fails parent_fd i = false) :
    ∃ w3,
      pv_runtime_garbage_collect env { self with mutable_parent_fd := some parent_fd } w2
        (some mutable_lock) = (w3, .ok ()) ∧
      pv_runtime_init_mutable env self w =
        (pv_bwrap_lock_free
          (init_mutable_copy env { self with mutable_parent_fd := some parent_fd } w3
            parent_fd).1 mutable_lock,
          (init_mutable_copy env { self with mutable_parent_fd := some parent_fd } w3
            parent_fd).2) := by
  have hopen2 : glnx_opendirat w2.fs [] mutable_parent true = .ok parent_fd :=
    glnx_opendirat_follow_mono (lock_new_extends hlock) hopen
  have hok := gc_loop_ok env parent_fd parent_fd hnext (readdir w2.fs parent_fd) 0 w2
  cases self
  simp only at hmp hflag
  subst hmp
  refine ⟨(gc_loop env parent_fd parent_fd 0 (readdir w2.fs parent_fd) w2).1, ?_, ?_⟩
  · simp only [pv_runtime_garbage_collect, hopen2, hinit, Bool.false_eq_true, if_false]
    rw [← hok]
  · simp only [pv_runtime_init_mutable, hmk, hopen, hlock, hflag, if_true,
      pv_runtime_garbage_collect, hopen2, hinit, Bool.false_eq_true, if_false]
    generalize gc_loop env parent_fd parent_fd 0 (readdir w2.fs parent_fd) w2 = res at hok ⊢
    obtain ⟨w3, r⟩ := res
    simp only at hok
    subst hok
    rfl

theorem path_is_dir_of_realpath_none {fs : FS} {p : Path} (h : realpath fs p = none) :
    path_is_dir fs p = false := by
  unfold realpath at h
  unfold path_is_dir
  cases hw : walk fs [] true MAXSYMLINKS [] p with
  | error e => rfl
  | ok loc =>
    rw [hw] at h
    simp only at h
    cases hn : fs_node fs loc with
    | none => simp [is_dir_node, hn]
    | some n => simp [hn] at h

/-- Amended C4 (a missing store parent): for every mutable-parent path that
does not exist, `pv_runtime_new` does not create it: it fails with the
message `"<path>" is not a directory` and leaves the file system, the locks
and everything else as they were. -/
theorem pv_runtime_new_missing_parent (env : Env) (w : World) (source_files mutable_parent : Path)
    (bubblewrap : String) (tools_dir : Path) (flags : PvRuntimeFlags)
    (hexe : env.is_executable bubblewrap = true)
    (hmissing : realpath w.fs mutable_parent = none) :
    pv_runtime_new env w source_files (some mutable_parent) bubblewrap tools_dir flags =
      (w, .error ("\"" ++ path_to_string mutable_parent ++ "\" is not a directory")) := by
  have hdir := path_is_dir_of_realpath_none hmissing
  simp [pv_runtime_new, pv_runtime_initable_init, canonical_or_given, hmissing, hexe, hdir]

/-! ## `g_build_filename` on well-formed elements -/

theorem strip_trailing_sep_clean {l : List Char} {c : Char} {r : List Char}
    (h : l.reverse = c :: r) (hc : c ≠ '/') : strip_trailing_sep l = l := by
  unfold strip_trailing_sep
  rw [h, List.dropWhile_cons_of_neg (by simpa using hc), ← h, List.reverse_reverse]

theorem trailing_sep_clean {l : List Char} {c : Char} {r : List Char}
    (h : l.reverse = c :: r) (hc : c ≠ '/') : trailing_sep l = [] := by
  unfold trailing_sep
  rw [h, List.takeWhile_cons_of_neg (by simpa using hc)]

theorem reverse_dropWhile_sep {l : List Char} {c : Char} {r : List Char}
    (h : l.reverse = c :: r) (hc : c ≠ '/') :
    ∃ r1, (l.dropWhile (fun c => c == '/')).reverse = c :: r1 := by
  induction l generalizing r with
  | nil => simp at h
  | cons a as ih =>
    by_cases ha : a = '/'
    · subst ha
      rw [List.dropWhile_cons_of_pos (by simp)]
      cases as with
      | nil =>
        simp only [List.reverse_cons, List.reverse_nil, List.nil_append, List.cons.injEq] at h
        exact absurd h.1.symm hc
      | cons b bs =>
        have hrev : (b :: bs).reverse ≠ [] := by simp
        obtain ⟨d, ds, hd⟩ := List.exists_cons_of_ne_nil hrev
        have h' : ('/' :: b :: bs).reverse = (b :: bs).reverse ++ ['/'] := by simp
        rw [h', hd] at h
        simp only [List.cons_append, List.cons.injEq] at h
        exact ih (h.1 ▸ hd)
    · rw [List.dropWhile_cons_of_neg (by simpa using ha)]
      exact ⟨r, h⟩

theorem build_path_step_first {f : List Char} {c : Char} {r : List Char}
    (h : f.reverse = c :: r) (hc : c ≠ '/') :
    build_path_step
      { result := [], is_first := true, have_leading := false,
        single_element := none, last_trailing := none } f =
      { result := f, is_first := false, have_leading := true,
        single_element := none, last_trailing := some [] } := by
  have hne : f ≠ [] := by rintro rfl; simp at h
  obtain ⟨r1, hr1⟩ := reverse_dropWhile_sep h hc
  have hcore : strip_trailing_sep (f.dropWhile (fun c => c == '/'))
      = f.dropWhile (fun c => c == '/') := strip_trailing_sep_clean hr1 hc
  have htrail : trailing_sep (f.dropWhile (fun c => c == '/')) = [] :=
    trailing_sep_clean hr1 hc
  have hdne : f.dropWhile (fun c => c == '/') ≠ [] := by
    intro h0; rw [h0] at hr1; simp at hr1
  have hne' : f.isEmpty = false := by
    cases f with
    | nil => exact absurd rfl hne
    | cons a as => rfl
  have hdne' : (f.dropWhile (fun c => c == '/')).isEmpty = false := by
    cases hd : f.dropWhile (fun c => c == '/') with
    | nil => exact absurd hd hdne
    | cons a as => rfl
  simp only [build_path_step, hne', hcore, htrail, hdne', Bool.false_eq_true, if_false,
    List.nil_append, if_true, List.takeWhile_append_dropWhile]

theorem build_path_step_next {e : List Char} {a c : Char} {as r : List Char}
    (res : List Char) (hhead : e = a :: as) (ha : a ≠ '/')
    (h : e.reverse = c :: r) (hc : c ≠ '/') :
    build_path_step
      { result := res, is_first := false, have_leading := true,
        single_element := none, last_trailing := some [] } e =
      { result := res ++ '/' :: e, is_first := false, have_leading := true,
        single_element := none, last_trailing := some [] } := by
  have hdrop : e.dropWhile (fun c => c == '/') = e := by
    rw [hhead, List.dropWhile_cons_of_neg (by simpa using ha)]
  have hcore : strip_trailing_sep e = e := strip_trailing_sep_clean h hc
  have htrail : trailing_sep e = [] := trailing_sep_clean h hc
  have hne' : e.isEmpty = false := by rw [hhead]; rfl
  simp only [build_path_step, hne', hdrop, hcore, htrail, Bool.false_eq_true, if_false,
    if_true, List.append_assoc, List.singleton_append]

theorem clean_head_data {s : String} (h : clean_head s = true) :
    ∃ a as, s.data = a :: as ∧ a ≠ '/' := by
  unfold clean_head at h
  cases hd : s.data with
  | nil => rw [hd] at h; cases h
  | cons a as => rw [hd] at h; exact ⟨a, as, rfl, by simpa using h⟩

theorem clean_tail_data {s : String} (h : clean_tail s = true) :
    ∃ c r, s.data.reverse = c :: r ∧ c ≠ '/' := by
  unfold clean_tail at h
  cases hd : s.data.reverse with
  | nil => rw [hd] at h; cases h
  | cons a as => rw [hd] at h; exact ⟨a, as, rfl, by simpa using h⟩

/-- `g_build_filename` of four well-formed elements joins them with `/`. -/
theorem g_build_filename_four {a b c d : String}
    (ha : clean_tail a = true)
    (hb1 : clean_head b = true) (hb2 : clean_tail b = true)
    (hc1 : clean_head c = true) (hc2 : clean_tail c = true)
    (hd1 : clean_head d = true) (hd2 : clean_tail d = true) :
    g_build_filename [a, b, c, d] = a ++ "/" ++ b ++ "/" ++ c ++ "/" ++ d := by
  obtain ⟨_, _, ha, ha'⟩ := clean_tail_data ha
  obtain ⟨_, _, hb1, hb1'⟩ := clean_head_data hb1
  obtain ⟨_, _, hb2, hb2'⟩ := clean_tail_data hb2
  obtain ⟨_, _, hc1, hc1'⟩ := clean_head_data hc1
  obtain ⟨_, _, hc2, hc2'⟩ := clean_tail_data hc2
  obtain ⟨_, _, hd1, hd1'⟩ := clean_head_data hd1
  obtain ⟨_, _, hd2, hd2'⟩ := clean_tail_data hd2
  apply String.ext
  simp only [g_build_filename, build_path_chars, List.map, List.foldl,
    build_path_step_first ha ha', build_path_step_next _ hb1 hb1' hb2 hb2',
    build_path_step_next _ hc1 hc1' hc2 hc2', build_path_step_next _ hd1 hd1' hd2 hd2',
    Option.getD, String.data_append, List.append_nil]
  simp

/-- `g_build_filename` skips an empty element. -/
theorem g_build_filename_three_skip {a b d : String}
    (ha : clean_tail a = true)
    (hb1 : clean_head b = true) (hb2 : clean_tail b = true)
    (hd1 : clean_head d = true) (hd2 : clean_tail d = true) :
    g_build_filename [a, b, "", d] = a ++ "/" ++ b ++ "/" ++ d := by
  obtain ⟨_, _, ha, ha'⟩ := clean_tail_data ha
  obtain ⟨_, _, hb1, hb1'⟩ := clean_head_data hb1
  obtain ⟨_, _, hb2, hb2'⟩ := clean_tail_data hb2
  obtain ⟨_, _, hd1, hd1'⟩ := clean_head_data hd1
  obtain ⟨_, _, hd2, hd2'⟩ := clean_tail_data hd2
  have hskip : ∀ st, build_path_step st "".data = st := by
    intro st; simp [build_path_step]
  apply String.ext
  simp only [g_build_filename, build_path_chars, List.map, List.foldl,
    build_path_step_first ha ha', build_path_step_next _ hb1 hb1' hb2 hb2', hskip,
    build_path_step_next _ hd1 hd1' hd2 hd2',
    Option.getD, String.data_append, List.append_nil]
  simp

theorem clean_of_no_sep {l : List Char} (hne : l ≠ []) (h : ∀ x ∈ l, x ≠ '/') :
    clean_head ⟨l⟩ = true ∧ clean_tail ⟨l⟩ = true := by
  constructor
  · unfold clean_head
    cases l with
    | nil => exact absurd rfl hne
    | cons a as => simpa using h a (by simp)
  · unfold clean_tail
    cases hr : l.reverse with
    | nil => simp at hr; exact absurd hr hne
    | cons a as =>
      have : a ∈ l := by
        have : a ∈ l.reverse := by rw [hr]; simp
        simpa using this
      simpa [hr] using h a this

theorem basename_chars_no_sep :
    ∀ (l acc : List Char), (∀ x ∈ acc, x ≠ '/') → ∀ x ∈ basename_chars l acc, x ≠ '/' := by
  intro l
  induction l with
  | nil => intro acc h x hx; simp [basename_chars] at hx; exact h x hx
  | cons a as ih =>
    intro acc h x hx
    unfold basename_chars at hx
    by_cases ha : a = '/'
    · simp only [ha, if_true] at hx
      exact ih [] (by simp) x hx
    · simp only [ha, if_false] at hx
      refine ih (a :: acc) ?_ x hx
      intro y hy
      simp only [List.mem_cons] at hy
      rcases hy with rfl | hy
      · exact ha
      · exact h y hy

theorem basename_chars_ne_nil :
    ∀ (l acc : List Char) (c : Char) (r : List Char),
      (acc.reverse ++ l).reverse = c :: r → c ≠ '/' → basename_chars l acc ≠ [] := by
  intro l
  induction l with
  | nil =>
    intro acc c r h _
    simp only [List.append_nil, List.reverse_reverse] at h
    simp [basename_chars, h]
  | cons a as ih =>
    intro acc c r h hc
    unfold basename_chars
    by_cases ha : a = '/'
    · simp only [ha, if_true]
      cases as with
      | nil =>
        subst ha
        simp only [List.reverse_append, List.reverse_cons, List.reverse_nil, List.nil_append,
          List.reverse_reverse, List.singleton_append, List.cons.injEq] at h
        exact absurd h.1.symm hc
      | cons b bs =>
        have hrev : (b :: bs).reverse ≠ [] := by simp
        obtain ⟨d, ds, hd⟩ := List.exists_cons_of_ne_nil hrev
        have h' : (acc.reverse ++ a :: b :: bs).reverse = (b :: bs).reverse ++ (a :: acc) := by
          simp
        rw [h', hd] at h
        simp only [List.cons_append, List.cons.injEq] at h
        exact ih [] c ds (by simpa [h.1] using hd) hc
    · simp only [ha, if_false]
      exact ih (a :: acc) c r (by simpa using h) hc

/-- The base name of a library path that does not end in `/` is a non-empty
name without `/`. -/
theorem glnx_basename_clean {path : String} (h : clean_tail path = true) :
    clean_head ( glnx_basename path) = true ∧ clean_tail ( glnx_basename path) = true := by
  obtain ⟨c, r, hr, hc⟩ := clean_tail_data h
  unfold glnx_basename
  exact clean_of_no_sep (basename_chars_ne_nil path.data [] c r (by simpa using hr) hc)
    (basename_chars_no_sep path.data [] (by simp))

theorem digit_char_ne_sep (n : Nat) : Char.ofNat (48 + n % 10) ≠ '/' := by
  have hd : n % 10 < 10 := Nat.mod_lt _ (by decide)
  generalize n % 10 = d at hd
  interval_cases d <;> decide

theorem decimal_digits_no_sep :
    ∀ (fuel n : Nat) (acc : List Char), (∀ x ∈ acc, x ≠ '/') →
      ∀ x ∈ decimal_digits fuel n acc, x ≠ '/' := by
  intro fuel
  induction fuel with
  | zero => intro n acc h x hx; exact h x (by simpa [decimal_digits] using hx)
  | succ k ih =>
    intro n acc h x hx
    have hacc : ∀ y ∈ Char.ofNat (48 + n % 10) :: acc, y ≠ '/' := by
      intro y hy
      simp only [List.mem_cons] at hy
      rcases hy with rfl | hy
      · exact digit_char_ne_sep n
      · exact h y hy
    unfold decimal_digits at hx
    simp only at hx
    split at hx
    · exact hacc x hx
    · exact ih _ _ hacc x hx

theorem decimal_digits_ne_nil :
    ∀ (fuel n : Nat) (acc : List Char), acc ≠ [] → decimal_digits fuel n acc ≠ [] := by
  intro fuel
  induction fuel with
  | zero => intro n acc h; simpa [decimal_digits] using h
  | succ k ih =>
    intro n acc _
    unfold decimal_digits
    simp only
    split
    · simp
    · exact ih _ _ (by simp)

/-- A sequence number is printed as a non-empty string without `/`. -/
theorem gsize_to_string_clean (n : Nat) :
    clean_head (gsize_to_string n) = true ∧ clean_tail (gsize_to_string n) = true := by
  unfold gsize_to_string
  refine clean_of_no_sep ?_ (decimal_digits_no_sep 20 _ [] (by simp))
  show decimal_digits (19 + 1) (n % 2 ^ 64) [] ≠ []
  unfold decimal_digits
  simp only
  split
  · simp
  · exact decimal_digits_ne_nil _ _ _ (by simp)

/-! ## `bind_icd` -/

theorem provide_container_access_spawned {self self1 : PvRuntime} {w w1 : World}
    (h : pv_runtime_provide_container_access self w = (w1, .ok self1)) :
    w1.spawned = w.spawned := by
  unfold pv_runtime_provide_container_access at h
  split at h
  · simp only [Prod.mk.injEq] at h; rw [← h.1]
  · split at h
    · simp only [Prod.mk.injEq] at h; rw [← h.1]
    · split at h
      · simp only at h
        split at h
        · simp only [Prod.mk.injEq] at h; exact absurd h.2 (by simp)
        · simp only [Prod.mk.injEq] at h; rw [← h.1]
      · simp only [Prod.mk.injEq] at h; exact absurd h.2 (by simp)

theorem run_sync_spawned {env : Env} {w w1 : World} {argv : List String}
    (h : pv_bwrap_run_sync env w argv = (w1, .ok ())) :
    w1.spawned = w.spawned ++ [argv] := by
  unfold pv_bwrap_run_sync at h
  split at h
  · simp only [Prod.mk.injEq] at h; exact absurd h.2 (by simp)
  · simp only [Prod.mk.injEq] at h; rw [← h.1]

/-- What a successful first part of `bind_icd` has established. -/
theorem bind_icd_capture_ok {env : Env} {self self2 : PvRuntime} {w w3 : World}
    {arch : RuntimeArchitecture} {sequence_number : Nat} {subdir : String}
    {details details1 : IcdDetails} {lib : String}
    (hlib : details.resolved_library = some lib)
    (h : bind_icd_capture env self w arch sequence_number subdir details
      = (w3, .ok (self2, details1))) :
    details.kind arch.multiarch_index = .ICD_KIND_NONEXISTENT ∧
    details.path_in_container arch.multiarch_index = none ∧
    details1 = { details with
      kinds := details.kinds.set arch.multiarch_index
        (if g_path_is_absolute lib then .ICD_KIND_ABSOLUTE else .ICD_KIND_SONAME) } ∧
    w3.spawned = w.spawned ++
      [capture_libs_argv self2 arch
        ((if g_path_is_absolute lib then some (icd_on_host arch sequence_number subdir)
          else none).getD arch.libdir_on_host)
        [icd_pattern (icd_mode lib) lib]] := by
  obtain ⟨icd, rl, kinds, paths⟩ := details
  simp only at hlib
  subst hlib
  unfold bind_icd_capture at h
  simp only at h
  split at h
  · simp only [Prod.mk.injEq] at h; exact absurd h.2 (by simp)
  · split at h
    · simp only [Prod.mk.injEq] at h; exact absurd h.2 (by simp)
    · rename_i hpre
      simp only [Bool.or_eq_true, bne_iff_ne, ne_eq, not_or, Decidable.not_not,
        Bool.not_eq_true] at hpre
      have hpath : IcdDetails.path_in_container
          { icd := icd, resolved_library := some lib, kinds := kinds,
            paths_in_container := paths } arch.multiarch_index = none := by
        have h2 := hpre.2
        cases hx : IcdDetails.path_in_container
          { icd := icd, resolved_library := some lib, kinds := kinds,
            paths_in_container := paths } arch.multiarch_index with
        | none => rfl
        | some v => rw [hx] at h2; cases h2
      split at h
      · simp only [Prod.mk.injEq] at h; exact absurd h.2 (by simp)
      · rename_i fs1 hmade
        split at h
        · simp only [Prod.mk.injEq] at h; exact absurd h.2 (by simp)
        · rename_i w2 self2' hacc
          split at h
          · simp only [Prod.mk.injEq] at h; exact absurd h.2 (by simp)
          · rename_i w3' hrun
            simp only [Prod.mk.injEq, Except.ok.injEq] at h
            obtain ⟨rfl, rfl, rfl⟩ := h
            refine ⟨hpre.1, hpath, rfl, ?_⟩
            rw [run_sync_spawned hrun, provide_container_access_spawned hacc]

theorem kind_set (kinds : List IcdKind) (i : Nat) (k : IcdKind) (icd : Icd)
    (rl : Option String) (paths : List (Option String)) :
    (⟨icd, rl, kinds.set i k, paths⟩ : IcdDetails).kind i
      = if i < kinds.length then k else .ICD_KIND_NONEXISTENT := by
  unfold IcdDetails.kind
  by_cases h : i < kinds.length
  · simp [h, List.getD_eq_getElem?_getD]
  · have hlen : (kinds.set i k).length ≤ i := by simpa using h
    simp [h, List.getD_eq_getElem?_getD, List.getElem?_eq_none hlen]

theorem path_set (paths : List (Option String)) (i : Nat) (v : Option String) (icd : Icd)
    (rl : Option String) (kinds : List IcdKind) (h : i < paths.length) :
    (⟨icd, rl, kinds, paths.set i v⟩ : IcdDetails).path_in_container i = v := by
  unfold IcdDetails.path_in_container
  simp [h]

/-- C8 (empty-capture short-circuit): for an ICD with an absolute resolved
library, if the staging directory is (still a directory and) empty after the
root-only capture, `bind_icd` removes it and returns success with
`kinds[arch] = NONEXISTENT` and `paths_in_container[arch]` still NULL, and
the only helper that has been run is the root-only capture: the
dependency capture is not run. -/
theorem bind_icd_empty_capture (env : Env) (self self2 : PvRuntime) (w w3 : World)
    (arch : RuntimeArchitecture) (sequence_number : Nat) (subdir lib : String)
    (details details1 : IcdDetails) (staging : Path)
    (hlib : details.resolved_library = some lib)
    (habs : g_path_is_absolute lib = true)
    (hcap : bind_icd_capture env self w arch sequence_number subdir details
      = (w3, .ok (self2, details1)))
    (hstat : lstat_at w3.fs [] (icd_on_host arch sequence_number subdir) = .ok (staging, .dir))
    (hempty : readdir w3.fs staging = []) :
    ∃ details2,
      bind_icd env self w arch sequence_number subdir details =
        ({ w3 with fs := fs_del w3.fs staging }, .ok (self2, details2)) ∧
      details2.kind arch.multiarch_index = .ICD_KIND_NONEXISTENT ∧
      details2.path_in_container arch.multiarch_index = none ∧
      w3.spawned = w.spawned ++
        [capture_libs_argv self2 arch (icd_on_host arch sequence_number subdir)
          [icd_pattern "path" lib]] := by
  obtain ⟨_, hpath, hd1, hsp⟩ := bind_icd_capture_ok hlib hcap
  obtain ⟨icd, rl, kinds, paths⟩ := details
  simp only at hlib
  subst hlib
  subst hd1
  simp only [habs, if_true, Option.getD_some] at hsp
  have hmode : icd_mode lib = "path" := by simp [icd_mode, habs]
  rw [hmode] at hsp
  refine ⟨⟨icd, some lib, (kinds.set arch.multiarch_index .ICD_KIND_ABSOLUTE).set
      arch.multiarch_index .ICD_KIND_NONEXISTENT, paths⟩, ?_, ?_, hpath, hsp⟩
  · simp only [bind_icd, hcap, bind_icd_finish, Option.getD_some, habs, if_true, g_rmdir, hstat,
      hempty, List.isEmpty_nil]
  · rw [kind_set]
    split <;> rfl

theorem kind_of_kinds (icd : Icd) (rl : Option String) (kinds : List IcdKind)
    (paths paths1 : List (Option String)) (i : Nat) :
    (⟨icd, rl, kinds, paths⟩ : IcdDetails).kind i = (⟨icd, rl, kinds, paths1⟩ : IcdDetails).kind i :=
  rfl

theorem path_of_paths (icd : Icd) (rl : Option String) (kinds kinds1 : List IcdKind)
    (paths : List (Option String)) (i : Nat) :
    (⟨icd, rl, kinds, paths⟩ : IcdDetails).path_in_container i
      = (⟨icd, rl, kinds1, paths⟩ : IcdDetails).path_in_container i :=
  rfl

/-- C9 (container path of a bound ICD): a successful `bind_icd` for an ICD
with an absolute resolved library whose staging directory is not empty after
the root-only capture sets `kinds[arch] = ABSOLUTE` and
`paths_in_container[arch]` to `<libdir_in_container>/<subdir>/<seq>/<basename>`,
or to `<libdir_in_container>/<subdir>/<basename>` when the sequence number
is `G_MAXSIZE`; for a relative resolved library it sets `kinds[arch] =
SONAME` and leaves the path NULL.  (The names are well-formed: the library
directory and the library path do not end in `/`, the subdirectory is a
plain name.) -/
theorem bind_icd_container_path (env : Env) (self self2 self3 : PvRuntime) (w w3 w5 : World)
    (arch : RuntimeArchitecture) (sequence_number : Nat) (subdir lib : String)
    (details details1 details3 : IcdDetails)
    (hlib : details.resolved_library = some lib)
    (hlen1 : arch.multiarch_index < details.kinds.length)
    (hlen2 : arch.multiarch_index < details.paths_in_container.length)
    (hdir : clean_tail arch.libdir_in_container = true)
    (hsub1 : clean_head subdir = true) (hsub2 : clean_tail subdir = true)
    (hlibc : clean_tail lib = true)
    (hcap : bind_icd_capture env self w arch sequence_number subdir details
      = (w3, .ok (self2, details1)))
    (hnonempty : g_path_is_absolute lib = true →
      ∃ staging, lstat_at w3.fs [] (icd_on_host arch sequence_number subdir)
          = .ok (staging, .dir) ∧ readdir w3.fs staging ≠ [])
    (hok : bind_icd env self w arch sequence_number subdir details
      = (w5, .ok (self3, details3))) :
    if g_path_is_absolute lib then
      details3.kind arch.multiarch_index = .ICD_KIND_ABSOLUTE ∧
      details3.path_in_container arch.multiarch_index =
        some (if sequence_number = G_MAXSIZE then
            arch.libdir_in_container ++ "/" ++ subdir ++ "/" ++ glnx_basename lib
          else
            arch.libdir_in_container ++ "/" ++ subdir ++ "/" ++ gsize_to_string sequence_number
              ++ "/" ++ glnx_basename lib)
    else
      details3.kind arch.multiarch_index = .ICD_KIND_SONAME ∧
      details3.path_in_container arch.multiarch_index = none := by
  obtain ⟨_, hpath, hd1, _⟩ := bind_icd_capture_ok hlib hcap
  obtain ⟨icd, rl, kinds, paths⟩ := details
  simp only at hlib hlen1 hlen2
  subst hlib
  subst hd1
  simp only [bind_icd, hcap, bind_icd_finish, Option.getD_some] at hok
  by_cases habs : g_path_is_absolute lib = true
  · obtain ⟨staging, hstat, hne⟩ := hnonempty habs
    have hne' : (readdir w3.fs staging).isEmpty = false := by
      cases hr : readdir w3.fs staging with
      | nil => exact absurd hr hne
      | cons a as => rfl
    simp only [habs, if_true, g_rmdir, hstat, hne', Bool.false_eq_true, if_false] at hok
    split at hok
    · simp only [Prod.mk.injEq] at hok; exact absurd hok.2 (by simp)
    · rw [kind_set] at hok
      simp only [hlen1, if_true, beq_self_eq_true, Prod.mk.injEq, Except.ok.injEq] at hok
      obtain ⟨_, _, rfl⟩ := hok
      simp only [habs, if_true]
      refine ⟨?_, ?_⟩
      · rw [← kind_of_kinds icd (some lib) _ paths, kind_set, if_pos hlen1]
      · rw [path_set _ _ _ _ _ _ hlen2]
        obtain ⟨hb1, hb2⟩ := glnx_basename_clean hlibc
        by_cases hseq : sequence_number = G_MAXSIZE
        · simp only [icd_seq_str, hseq, bne_self_eq_false, Bool.false_eq_true, if_false,
            Option.getD_none, if_true]
          rw [g_build_filename_three_skip hdir hsub1 hsub2 hb1 hb2]
        · have hseq' : (sequence_number != G_MAXSIZE) = true := by simpa using hseq
          obtain ⟨hs1, hs2⟩ := gsize_to_string_clean sequence_number
          simp only [icd_seq_str, hseq', if_true, Option.getD_some, hseq, if_false]
          rw [g_build_filename_four hdir hsub1 hsub2 hs1 hs2 hb1 hb2]
  · have habs' : g_path_is_absolute lib = false := by simpa using habs
    simp only [habs', Bool.false_eq_true, if_false] at hok
    split at hok
    · simp only [Prod.mk.injEq] at hok; exact absurd hok.2 (by simp)
    · rw [kind_set] at hok
      simp only [hlen1, if_true] at hok
      have hk : (IcdKind.ICD_KIND_SONAME == IcdKind.ICD_KIND_ABSOLUTE) = false := by decide
      simp only [hk, Bool.false_eq_true, if_false, Prod.mk.injEq, Except.ok.injEq] at hok
      obtain ⟨_, _, rfl⟩ := hok
      simp only [habs', Bool.false_eq_true, if_false]
      refine ⟨?_, ?_⟩
      · rw [kind_set, if_pos hlen1]
      · rw [← path_of_paths icd (some lib) kinds]
        exact hpath

/-! ## Removal of overridden libraries -/

theorem lib_name_plain {name : String} (h : g_str_has_prefix name "lib" = true) :
    name ≠ "." ∧ name ≠ ".." := by
  constructor
  · rintro rfl; revert h; decide
  · rintro rfl; revert h; decide

theorem fs_get_mem {fs : FS} {p : Path} {n : Node} (h : fs_get fs p = some n) :
    (p, n) ∈ fs := by
  induction fs with
  | nil => simp [fs_get] at h
  | cons e rest ih =>
    obtain ⟨q, m⟩ := e
    simp only [fs_get] at h
    by_cases hq : q = p
    · simp only [hq, if_true, Option.some.injEq] at h
      subst hq; subst h
      simp
    · simp only [hq, if_false] at h
      exact List.mem_cons_of_mem _ (ih h)

theorem child_name_append (dir : Path) (name : String) :
    child_name dir (dir ++ [name]) = some name := by
  induction dir with
  | nil => rfl
  | cons d ds ih => simp [child_name, ih]

theorem mem_readdir {fs : FS} {dir : Path} {name : String} {n : Node}
    (h : fs_get fs (dir ++ [name]) = some n) : ⟨name, node_dtype n⟩ ∈ readdir fs dir := by
  unfold readdir
  rw [List.mem_filterMap]
  exact ⟨(dir ++ [name], n), fs_get_mem h, by simp [child_name_append]⟩

theorem scan_libdir_marks (env : Env) (fs : FS) (sysroot_fd : Path) (arch : RuntimeArchitecture)
    (multiarch_libdir : List String) (dir : Path) :
    ∀ (dents : List Dirent) (i : Nat) (acc delete : List (String × Path)),
      scan_libdir env fs sysroot_fd arch multiarch_libdir dir i dents acc = .ok delete →
      (∀ x ∈ acc, x ∈ delete) ∧
      ∀ dent ∈ dents, ∀ r,
        overridden_by env fs sysroot_fd arch multiarch_libdir dir dent = some r →
        (dent.d_name, r) ∈ delete := by
  intro dents
  induction dents with
  | nil =>
    intro i acc delete h
    unfold scan_libdir at h
    split at h
    · cases h
    · simp only [Except.ok.injEq] at h
      subst h
      exact ⟨fun x hx => hx, fun dent hd => by simp at hd⟩
  | cons d rest ih =>
    intro i acc delete h
    unfold scan_libdir at h
    split at h
    · cases h
    · split at h
      · rename_i reason hov
        obtain ⟨h1, h2⟩ := ih _ _ _ h
        refine ⟨fun x hx => h1 x (by simp [hx]), ?_⟩
        intro dent hdent r hr
        simp only [List.mem_cons] at hdent
        rcases hdent with rfl | hdent
        · rw [hov] at hr
          simp only [Option.some.injEq] at hr
          subst hr
          exact h1 _ (by simp)
        · exact h2 dent hdent r hr
      · rename_i hov
        obtain ⟨h1, h2⟩ := ih _ _ _ h
        refine ⟨h1, ?_⟩
        intro dent hdent r hr
        simp only [List.mem_cons] at hdent
        rcases hdent with rfl | hdent
        · rw [hov] at hr; cases hr
        · exact h2 dent hdent r hr

theorem scan_libdirs_table (env : Env) (fs : FS) (sysroot_fd : Path) (arch : RuntimeArchitecture) :
    ∀ (dirs : List (List String)) (tables : List (Option (Path × List (String × Path)))),
      scan_libdirs env fs sysroot_fd arch dirs = .ok tables →
      ∀ libdir ∈ dirs, ∀ dir,
        pv_resolve_in_sysroot fs sysroot_fd (libdir ++ [arch.tuple]) = .ok dir →
        ∃ delete, some (dir, delete) ∈ tables ∧
          scan_libdir env fs sysroot_fd arch (libdir ++ [arch.tuple]) dir 0 (readdir fs dir) []
            = .ok delete := by
  intro dirs
  induction dirs with
  | nil => intro tables _ libdir hl; simp at hl
  | cons d rest ih =>
    intro tables h libdir hl dir hres
    unfold scan_libdirs at h
    simp only at h
    cases hr : pv_resolve_in_sysroot fs sysroot_fd (d ++ [arch.tuple]) with
    | error e =>
      rw [hr] at h
      simp only at h
      cases hrest : scan_libdirs env fs sysroot_fd arch rest with
      | error e2 => rw [hrest] at h; cases h
      | ok tables2 =>
        rw [hrest] at h
        simp only [Except.map, Except.ok.injEq] at h
        subst h
        simp only [List.mem_cons] at hl
        rcases hl with rfl | hl
        · rw [hr] at hres; cases hres
        · obtain ⟨delete, hmem, hscan⟩ := ih tables2 hrest libdir hl dir hres
          exact ⟨delete, List.mem_cons_of_mem _ hmem, hscan⟩
    | ok dir1 =>
      rw [hr] at h
      simp only at h
      split at h
      · cases h
      · cases hs : scan_libdir env fs sysroot_fd arch (d ++ [arch.tuple]) dir1 0
            (readdir fs dir1) [] with
        | error e => rw [hs] at h; cases h
        | ok delete1 =>
          rw [hs] at h
          simp only at h
          cases hrest : scan_libdirs env fs sysroot_fd arch rest with
          | error e2 => rw [hrest] at h; cases h
          | ok tables2 =>
            rw [hrest] at h
            simp only [Except.map, Except.ok.injEq] at h
            subst h
            simp only [List.mem_cons] at hl
            rcases hl with rfl | hl
            · rw [hr] at hres
              simp only [Except.ok.injEq] at hres
              subst hres
              exact ⟨delete1, by simp, hs⟩
            · obtain ⟨delete, hmem, hscan⟩ := ih tables2 hrest libdir hl dir hres
              exact ⟨delete, List.mem_cons_of_mem _ hmem, hscan⟩

theorem unlinkat_result {env : Env} {fs fs1 : FS} {base : Path} {rel : List String}
    (h : unlinkat env fs base rel = .ok fs1) : ∃ loc, fs1 = fs_del fs loc := by
  unfold unlinkat at h
  split at h
  · cases h
  · cases h
  · split at h
    · cases h
    · simp only [Except.ok.injEq] at h
      exact ⟨_, h.symm⟩

theorem delete_marked_none (env : Env) (dir : Path) (q : Path) :
    ∀ (tbl : List (String × Path)) (fs : FS),
      fs_get fs q = none → fs_get (delete_marked env dir tbl fs) q = none := by
  intro tbl
  induction tbl with
  | nil => intro fs h; exact h
  | cons e rest ih =>
    intro fs h
    obtain ⟨name, reason⟩ := e
    unfold delete_marked
    split
    · rename_i fs1 hu
      obtain ⟨loc, rfl⟩ := unlinkat_result hu
      apply ih
      rw [fs_get_del]; split <;> simp [h]
    · exact ih fs h

theorem delete_marked_not_dir (env : Env) (dir : Path) (q : Path) :
    ∀ (tbl : List (String × Path)) (fs : FS),
      fs_get fs q ≠ some .dir → fs_get (delete_marked env dir tbl fs) q ≠ some .dir := by
  intro tbl
  induction tbl with
  | nil => intro fs h; exact h
  | cons e rest ih =>
    intro fs h
    obtain ⟨name, reason⟩ := e
    unfold delete_marked
    split
    · rename_i fs1 hu
      obtain ⟨loc, rfl⟩ := unlinkat_result hu
      apply ih
      rw [fs_get_del]; split
      · simp
      · exact h
    · exact ih fs h

theorem unlinkat_child (env : Env) (fs : FS) (dir : Path) (name : String)
    (h1 : name ≠ ".") (h2 : name ≠ "..") (hf : env.unlink_fails (dir ++ [name]) = false)
    (hnd : fs_get fs (dir ++ [name]) ≠ some .dir) :
    (match unlinkat env fs dir [name] with
      | .ok fs1 => fs_get fs1 (dir ++ [name]) = none
      | .error _ => fs_get fs (dir ++ [name]) = none) := by
  cases hn : fs_get fs (dir ++ [name]) with
  | none =>
    simp [unlinkat, lstat_at_child_none h1 h2 hn]
  | some n =>
    cases n with
    | dir => exact absurd hn hnd
    | file ino => simp [unlinkat, lstat_at_child h1 h2 hn, hf, fs_get_del]
    | symlink t => simp [unlinkat, lstat_at_child h1 h2 hn, hf, fs_get_del]

theorem delete_marked_deletes (env : Env) (dir : Path) (name : String)
    (h1 : name ≠ ".") (h2 : name ≠ "..") (hf : env.unlink_fails (dir ++ [name]) = false) :
    ∀ (tbl : List (String × Path)) (fs : FS) (reason : Path),
      (name, reason) ∈ tbl → fs_get fs (dir ++ [name]) ≠ some .dir →
      fs_get (delete_marked env dir tbl fs) (dir ++ [name]) = none := by
  intro tbl
  induction tbl with
  | nil => intro fs reason hm; simp at hm
  | cons e rest ih =>
    intro fs reason hm hnd
    obtain ⟨name1, reason1⟩ := e
    simp only [List.mem_cons, Prod.mk.injEq] at hm
    rcases hm with ⟨rfl, rfl⟩ | hm
    · have hstep := unlinkat_child env fs dir name h1 h2 hf hnd
      unfold delete_marked
      split
      · rename_i fs1 hu
        rw [hu] at hstep
        exact delete_marked_none env dir _ rest fs1 hstep
      · rename_i e hu
        rw [hu] at hstep
        exact delete_marked_none env dir _ rest fs hstep
    · unfold delete_marked
      split
      · rename_i fs1 hu
        obtain ⟨loc, rfl⟩ := unlinkat_result hu
        apply ih _ reason hm
        rw [fs_get_del]; split
        · simp
        · exact hnd
      · exact ih fs reason hm hnd

theorem delete_tables_none (env : Env) (q : Path) :
    ∀ (tables : List (Option (Path × List (String × Path)))) (fs : FS),
      fs_get fs q = none → fs_get (delete_tables env tables fs) q = none := by
  intro tables
  induction tables with
  | nil => intro fs h; exact h
  | cons t rest ih =>
    intro fs h
    cases t with
    | none => exact ih fs h
    | some dt =>
      obtain ⟨dir, tbl⟩ := dt
      exact ih _ (delete_marked_none env dir q tbl fs h)

theorem delete_tables_deletes (env : Env) (dir : Path) (name : String)
    (h1 : name ≠ ".") (h2 : name ≠ "..") (hf : env.unlink_fails (dir ++ [name]) = false) :
    ∀ (tables : List (Option (Path × List (String × Path)))) (fs : FS)
      (tbl : List (String × Path)) (reason : Path),
      some (dir, tbl) ∈ tables → (name, reason) ∈ tbl →
      fs_get fs (dir ++ [name]) ≠ some .dir →
      fs_get (delete_tables env tables fs) (dir ++ [name]) = none := by
  intro tables
  induction tables with
  | nil => intro fs tbl reason hm; simp at hm
  | cons t rest ih =>
    intro fs tbl reason hm hn hnd
    simp only [List.mem_cons] at hm
    rcases hm with rfl | hm
    · exact delete_tables_none env _ rest _
        (delete_marked_deletes env dir name h1 h2 hf tbl fs reason hn hnd)
    · cases t with
      | none => exact ih fs tbl reason hm hn hnd
      | some dt =>
        obtain ⟨dir1, tbl1⟩ := dt
        exact ih _ tbl reason hm hn (delete_marked_not_dir env dir1 _ tbl1 fs hnd)

/-- Amended C10 (single provider): with a mutable sysroot, after
`pv_runtime_remove_overridden_libraries` has succeeded for an architecture,
for every name `N` that starts with `lib` and ends in `.so` or contains
`.so.`, and that exists as a symbolic link under `overrides/lib/<tuple>`,
no regular file or symbolic link named `N` remains in the sysroot's
`lib/<tuple>`, `usr/lib/<tuple>` or `usr/lib/mesa/<tuple>` (the directory
these names resolve to), provided that unlinking it is not refused. -/
theorem remove_overridden_single_provider (env : Env) (self : PvRuntime) (w w1 : World)
    (arch : RuntimeArchitecture) (sysroot_fd : Path) (name : String)
    (libdir : List String) (dir : Path)
    (hfd : self.mutable_sysroot_fd = some sysroot_fd)
    (hok : pv_runtime_remove_overridden_libraries env self w arch = (w1, .ok ()))
    (hsym : g_file_test_is_symlink w.fs [] (arch.libdir_on_host ++ [name]) = true)
    (hlib : g_str_has_prefix name "lib" = true)
    (hso : g_str_has_suffix name ".so" = true ∨ strstr_found name ".so." = true)
    (hmem : libdir ∈ libdirs)
    (hres : pv_resolve_in_sysroot w.fs sysroot_fd (libdir ++ [arch.tuple]) = .ok dir)
    (hnd : fs_get w.fs (dir ++ [name]) ≠ some .dir)
    (hunlink : env.unlink_fails (dir ++ [name]) = false) :
    fs_get w1.fs (dir ++ [name]) = none := by
  obtain ⟨h1, h2⟩ := lib_name_plain hlib
  unfold pv_runtime_remove_overridden_libraries at hok
  rw [hfd] at hok
  cases hms : self.mutable_sysroot with
  | none => rw [hms] at hok; simp only [Prod.mk.injEq] at hok; exact absurd hok.2 (by simp)
  | some sysroot =>
    rw [hms] at hok
    simp only at hok
    cases hscan : scan_libdirs env w.fs sysroot_fd arch libdirs with
    | error e => rw [hscan] at hok; simp only [Prod.mk.injEq] at hok; exact absurd hok.2 (by simp)
    | ok tables =>
      rw [hscan] at hok
      simp only [Prod.mk.injEq, and_true] at hok
      subst hok
      simp only
      cases hn : fs_get w.fs (dir ++ [name]) with
      | none => exact delete_tables_none env _ tables _ hn
      | some n =>
        obtain ⟨delete, htab, hdel⟩ :=
          scan_libdirs_table env w.fs sysroot_fd arch libdirs tables hscan libdir hmem dir hres
        have hdent := mem_readdir hn
        have hcand : is_library_candidate ⟨name, node_dtype n⟩ = true := by
          have hty : (node_dtype n == DType.DT_REG || node_dtype n == DType.DT_LNK) = true := by
            cases n with
            | dir => exact absurd hn hnd
            | file ino => rfl
            | symlink t => rfl
          unfold is_library_candidate
          simp only [hty, hlib, Bool.true_and]
          rcases hso with h | h <;> simp [h]
        have hov : overridden_by env w.fs sysroot_fd arch (libdir ++ [arch.tuple]) dir
            ⟨name, node_dtype n⟩ = some (arch.libdir_on_host ++ [name]) := by
          simp [overridden_by, hcand, hsym]
        have hmark := (scan_libdir_marks env w.fs sysroot_fd arch (libdir ++ [arch.tuple]) dir
          (readdir w.fs dir) 0 [] delete hdel).2 _ hdent _ hov
        exact delete_tables_deletes env dir name h1 h2 hunlink tables w.fs delete _ htab hmark hnd

/-! ## The last component of a name that is not followed -/

theorem walk_segment_last (fs : FS) (root : Path) (c : String) (h1 : c ≠ ".") (h2 : c ≠ "..") :
    ∀ (comps : List String) (cur : Path),
      (∀ loc, walk_segment fs root false cur (comps ++ [c]) = .done loc → ∃ d, loc = d ++ [c]) ∧
      (∀ cur1 t rest, walk_segment fs root false cur (comps ++ [c]) = .link cur1 t rest →
        ∃ r, rest = r ++ [c]) := by
  intro comps
  induction comps with
  | nil =>
    intro cur
    have hdone : walk_segment fs root false cur [c] = .done (cur ++ [c]) := by
      cases hn : fs_get fs (cur ++ [c]) with
      | none => exact walk_segment_last_none h1 h2 hn
      | some n =>
        cases n with
        | dir => rw [walk_segment_dir [] h1 h2 hn]; simp [walk_segment]
        | file ino => exact walk_segment_last_file h1 h2 hn
        | symlink t => exact walk_segment_last_symlink_nofollow h1 h2 hn
    simp only [List.nil_append, hdone]
    exact ⟨fun loc h => ⟨cur, (by cases h; rfl)⟩, fun _ _ _ h => nomatch h⟩
  | cons x xs ih =>
    intro cur
    simp only [List.cons_append]
    unfold walk_segment
    by_cases hx1 : x = "."
    · simp only [hx1, if_true]; exact ih cur
    · by_cases hx2 : x = ".."
      · simp only [hx1, hx2, if_true, if_false]; exact ih _
      · simp only [hx1, hx2, if_false]
        have hne : (xs ++ [c]).isEmpty = false := by cases xs <;> rfl
        cases hn : fs_get fs (cur ++ [x]) with
        | none => simp [hne]
        | some n =>
          cases n with
          | dir => exact ih _
          | file ino => simp [hne]
          | symlink t =>
            simp only [hne, Bool.false_and, Bool.false_eq_true, if_false]
            constructor
            · intro loc h; cases h
            · intro cur1 t1 rest h
              simp only [WalkStep.link.injEq] at h
              exact ⟨xs, h.2.2.symm⟩

theorem walk_last (fs : FS) (root : Path) (c : String) (h1 : c ≠ ".") (h2 : c ≠ "..") :
    ∀ (fuel : Nat) (cur : Path) (comps : List String) (loc : Path),
      walk fs root false fuel cur (comps ++ [c]) = .ok loc → ∃ d, loc = d ++ [c] := by
  intro fuel
  induction fuel with
  | zero =>
    intro cur comps loc h
    rw [walk] at h
    cases hs : walk_segment fs root false cur (comps ++ [c]) with
    | done p =>
      rw [hs] at h
      simp only [Except.ok.injEq] at h
      subst h
      exact (walk_segment_last fs root c h1 h2 comps cur).1 _ hs
    | err e => rw [hs] at h; cases h
    | link cur1 t rest => rw [hs] at h; cases h
  | succ n ih =>
    intro cur comps loc h
    rw [walk] at h
    cases hs : walk_segment fs root false cur (comps ++ [c]) with
    | done p =>
      rw [hs] at h
      simp only [Except.ok.injEq] at h
      subst h
      exact (walk_segment_last fs root c h1 h2 comps cur).1 _ hs
    | err e => rw [hs] at h; cases h
    | link cur1 t rest =>
      rw [hs] at h
      obtain ⟨r, rfl⟩ := (walk_segment_last fs root c h1 h2 comps cur).2 _ _ _ hs
      simp only at h
      rw [← List.append_assoc] at h
      exact ih _ _ _ h

/-- `unlinkat` of a name whose last component is `c` removes an object whose
own name is `c`. -/
theorem unlinkat_last {env : Env} {fs fs1 : FS} {base : Path} (comps : List String) {c : String}
    (h1 : c ≠ ".") (h2 : c ≠ "..")
    (h : unlinkat env fs base (comps ++ [c]) = .ok fs1) : ∃ d, fs1 = fs_del fs (d ++ [c]) := by
  unfold unlinkat at h
  unfold lstat_at at h
  cases hw : walk fs [] false MAXSYMLINKS base (comps ++ [c]) with
  | error e => rw [hw] at h; cases h
  | ok loc =>
    rw [hw] at h
    obtain ⟨d, rfl⟩ := walk_last fs [] c h1 h2 _ _ _ _ hw
    simp only at h
    cases hn : fs_node fs (d ++ [c]) with
    | none => rw [hn] at h; cases h
    | some n =>
      rw [hn] at h
      simp only at h
      cases n with
      | dir => cases h
      | file ino =>
        simp only at h
        split at h
        · cases h
        · simp only [Except.ok.injEq] at h; exact ⟨d, h.symm⟩
      | symlink t =>
        simp only at h
        split at h
        · cases h
        · simp only [Except.ok.injEq] at h; exact ⟨d, h.symm⟩

theorem unlink_if_exists_last {env : Env} {fs fs1 : FS} {base : Path} (comps : List String)
    {c : String} (h1 : c ≠ ".") (h2 : c ≠ "..")
    (h : unlink_if_exists env fs base (comps ++ [c]) = some fs1) :
    fs1 = fs ∨ ∃ d, fs1 = fs_del fs (d ++ [c]) := by
  unfold unlink_if_exists at h
  cases hu : unlinkat env fs base (comps ++ [c]) with
  | ok fs2 =>
    rw [hu] at h
    simp only [Option.some.injEq] at h
    subst h
    exact Or.inr (unlinkat_last comps h1 h2 hu)
  | error e =>
    rw [hu] at h
    cases e <;> first | (simp only [Option.some.injEq] at h; exact Or.inl h.symm) | cases h

/-! ## The steps of a successful `pv_runtime_init_mutable` -/

/-- A successful second half of `pv_runtime_init_mutable` has performed each
of its steps successfully, in order. -/
theorem init_mutable_copy_steps {env : Env} {self self1 : PvRuntime} {w w4 : World}
    {parent_fd : Path}
    (h : init_mutable_copy env self w parent_fd = (w4, .ok self1)) :
    ∃ (fs1 : FS) (name : String) (w2 : World) (temp_dir_fd : Path) (fs3 fs4 : FS) (w5 : World)
      (copy_lock : Lock) (fs6 : FS) (dir : Path) (fs7 : FS),
      g_mkdtemp env w.fs parent_fd "tmp-" = .ok (fs1, name) ∧
      pv_cheap_tree_copy env { w with fs := fs1 } self.source_files
        (if (!g_file_test_is_dir fs1 self.source_files ["usr"]) = true
          then parent_fd ++ [name] ++ ["usr"] else parent_fd ++ [name]) = .ok w2 ∧
      glnx_opendirat w2.fs (parent_fd ++ [name]) [] false = .ok temp_dir_fd ∧
      unlink_if_exists env w2.fs temp_dir_fd [".ref"] = some fs3 ∧
      unlink_if_exists env fs3 temp_dir_fd ["usr", ".ref"] = some fs4 ∧
      pv_bwrap_lock_new env { w2 with fs := fs4 } temp_dir_fd ["usr", ".ref"] true false
        = .ok (w5, copy_lock) ∧
      (if (!g_file_test_is_dir fs1 self.source_files ["usr"]) = true
        then symlinkat w5.fs "usr/.ref" temp_dir_fd [".ref"] else .ok w5.fs) = .ok fs6 ∧
      glnx_opendirat fs6 self.source_files
        (if (!g_file_test_is_dir fs1 self.source_files ["usr"]) = true then [] else ["usr"]) true
        = .ok dir ∧
      symlink_members (parent_fd ++ [name]) (!g_file_test_is_dir fs1 self.source_files ["usr"])
        ((readdir fs6 dir).map Dirent.d_name) fs6 = .ok fs7 ∧
      w4 = release { w5 with fs := fs7 } self.runtime_lock ∧
      self1 = { self with
                runtime_lock := some copy_lock
                mutable_sysroot := some (parent_fd ++ [name])
                mutable_sysroot_fd := some temp_dir_fd } := by
  unfold init_mutable_copy at h
  split at h
  · simp only [Prod.mk.injEq] at h; exact absurd h.2 (by simp)
  · rename_i fs1 name hmk
    simp only at h
    split at h
    · simp only [Prod.mk.injEq] at h; exact absurd h.2 (by simp)
    · rename_i w2 hcopy
      split at h
      · simp only [Prod.mk.injEq] at h; exact absurd h.2 (by simp)
      · rename_i temp_dir_fd hopen
        split at h
        · simp only [Prod.mk.injEq] at h; exact absurd h.2 (by simp)
        · rename_i fs3 hu1
          split at h
          · simp only [Prod.mk.injEq] at h; exact absurd h.2 (by simp)
          · rename_i fs4 hu2
            split at h
            · simp only [Prod.mk.injEq] at h; exact absurd h.2 (by simp)
            · rename_i w5 copy_lock hlock
              split at h
              · simp only [Prod.mk.injEq] at h; exact absurd h.2 (by simp)
              · rename_i fs6 hsym
                split at h
                · simp only [Prod.mk.injEq] at h; exact absurd h.2 (by simp)
                · rename_i dir hdir
                  split at h
                  · simp only [Prod.mk.injEq] at h; exact absurd h.2 (by simp)
                  · rename_i fs7 hmem
                    simp only [Prod.mk.injEq, Except.ok.injEq] at h
                    exact ⟨fs1, name, w2, temp_dir_fd, fs3, fs4, w5, copy_lock, fs6, dir, fs7,
                      hmk, hcopy, hopen, hu1, hu2, hlock, hsym, hdir, hmem, h.1.symm, h.2.symm⟩

theorem fs_del_of_none {fs : FS} {p : Path} (h : fs_get fs p = none) : fs_del fs p = fs := by
  induction fs with
  | nil => rfl
  | cons e rest ih =>
    obtain ⟨q, m⟩ := e
    simp only [fs_get] at h
    by_cases hq : q = p
    · simp [hq] at h
    · simp only [hq, if_false] at h
      have hrest := ih h
      unfold fs_del at hrest ⊢
      have hd : decide ((q, m).1 ≠ p) = true := decide_eq_true hq
      rw [List.filter_cons, if_pos hd, hrest]

theorem snoc_ne {a b : Path} {x y : String} (h : x ≠ y) : a ++ [x] ≠ b ++ [y] := by
  intro heq
  have := congrArg List.getLast? heq
  simp at this
  exact h this

theorem g_mkdtemp_ok {env : Env} {fs fs1 : FS} {dir : Path} {pfx name : String}
    (h : g_mkdtemp env fs dir pfx = .ok (fs1, name)) :
    fs1 = fs ++ [(dir ++ [name], .dir)] ∧ fs_get fs (dir ++ [name]) = none := by
  unfold g_mkdtemp at h
  split at h
  · cases h
  · split at h
    · split at h
      · cases h
      · split at h
        · cases h
        · rename_i hex
          simp only [Except.ok.injEq, Prod.mk.injEq] at h
          obtain ⟨rfl, rfl⟩ := h
          refine ⟨rfl, ?_⟩
          cases hg : fs_get fs (dir ++ [pfx ++ _]) with
          | none => rfl
          | some n => simp [hg] at hex
    · cases h

theorem unlink_if_exists_child {env : Env} {fs fs1 : FS} {base : Path} {c : String}
    (h1 : c ≠ ".") (h2 : c ≠ "..")
    (h : unlink_if_exists env fs base [c] = some fs1) : fs1 = fs_del fs (base ++ [c]) := by
  unfold unlink_if_exists unlinkat at h
  cases hn : fs_get fs (base ++ [c]) with
  | none =>
    rw [lstat_at_child_none h1 h2 hn] at h
    simp only [Option.some.injEq] at h
    rw [fs_del_of_none hn]; exact h.symm
  | some n =>
    rw [lstat_at_child h1 h2 hn] at h
    cases n with
    | dir => simp at h
    | file ino =>
      simp only at h
      split at h
      · rename_i hu; split at hu
        · cases hu
        · simp only [Except.ok.injEq] at hu; simp only [Option.some.injEq] at h; rw [← h, hu]
      · rename_i hu; split at hu <;> cases hu
      · rename_i hu; cases h
    | symlink t =>
      simp only at h
      split at h
      · rename_i hu; split at hu
        · cases hu
        · simp only [Except.ok.injEq] at hu; simp only [Option.some.injEq] at h; rw [← h, hu]
      · rename_i hu; split at hu <;> cases hu
      · rename_i hu; cases h

theorem unlink_if_exists_grandchild {env : Env} {fs fs1 : FS} {base : Path} {c d : String}
    (h1 : c ≠ ".") (h2 : c ≠ "..") (hc : fs_get fs (base ++ [c]) = some .dir)
    (g1 : d ≠ ".") (g2 : d ≠ "..")
    (h : unlink_if_exists env fs base [c, d] = some fs1) : fs1 = fs_del fs (base ++ [c, d]) := by
  unfold unlink_if_exists unlinkat at h
  rw [lstat_at_grandchild h1 h2 hc g1 g2] at h
  cases hn : fs_get fs (base ++ [c, d]) with
  | none =>
    rw [hn] at h
    simp only [Option.some.injEq] at h
    rw [fs_del_of_none hn]; exact h.symm
  | some n =>
    rw [hn] at h
    cases n with
    | dir => simp at h
    | file ino =>
      simp only at h
      split at h
      · rename_i hu; split at hu
        · cases hu
        · simp only [Except.ok.injEq] at hu; simp only [Option.some.injEq] at h; rw [← h, hu]
      · rename_i hu; split at hu <;> cases hu
      · rename_i hu; cases h
    | symlink t =>
      simp only at h
      split at h
      · rename_i hu; split at hu
        · cases hu
        · simp only [Except.ok.injEq] at hu; simp only [Option.some.injEq] at h; rw [← h, hu]
      · rename_i hu; split at hu <;> cases hu
      · rename_i hu; cases h

theorem symlinkat_extends {fs fs1 : FS} {target : String} {base : Path} {rel : List String}
    (h : symlinkat fs target base rel = .ok fs1) : FsExtends fs fs1 := by
  unfold symlinkat at h
  split at h
  · cases h
  · split at h
    · cases h
    · split at h
      · simp only [Except.ok.injEq] at h
        subst h
        exact FsExtends.append _ _
      · cases h

theorem symlinkat_child {fs fs1 : FS} {target : String} {base : Path} {c : String}
    (h1 : c ≠ ".") (h2 : c ≠ "..") (hn : fs_get fs (base ++ [c]) = none)
    (h : symlinkat fs target base [c] = .ok fs1) :
    fs1 = fs ++ [(base ++ [c], .symlink target)] := by
  unfold symlinkat at h
  rw [walk_of_done _ (walk_segment_last_none h1 h2 hn)] at h
  simp only [fs_node_append_singleton, hn, Option.isSome_none, Bool.false_eq_true,
    if_false] at h
  split at h
  · simp only [Except.ok.injEq] at h; exact h.symm
  · cases h

theorem symlink_members_extends (temp_dir : Path) (is_just_usr : Bool) :
    ∀ (members : List String) (fs fs1 : FS),
      symlink_members temp_dir is_just_usr members fs = .ok fs1 → FsExtends fs fs1 := by
  intro members
  induction members with
  | nil =>
    intro fs fs1 h
    simp only [symlink_members, Except.ok.injEq] at h
    subst h
    exact FsExtends.refl _
  | cons m rest ih =>
    intro fs fs1 h
    unfold symlink_members at h
    split at h
    · split at h
      · rename_i fs2 hs
        exact (symlinkat_extends hs).trans (ih _ _ h)
      · split at h
        · cases h
        · exact ih _ _ h
    · exact ih _ _ h

theorem release_fs (w : World) (l : Option Lock) : (release w l).fs = w.fs := by
  cases l <;> rfl

theorem lock_new_create {env : Env} {w w1 : World} {dir : Path} {l : Lock} {write : Bool}
    (husr : fs_get w.fs (dir ++ ["usr"]) = some .dir)
    (hnone : fs_get w.fs (dir ++ ["usr", ".ref"]) = none)
    (h : pv_bwrap_lock_new env w dir ["usr", ".ref"] true write = .ok (w1, l)) :
    w1.fs = w.fs ++ [(dir ++ ["usr", ".ref"], .file w.next_ino)] ∧
      l.ino = w.next_ino ∧ l.write = write := by
  have hw := @walk_usr_ref w.fs dir MAXSYMLINKS husr (by simp [hnone])
  have happ : dir ++ ["usr", ".ref"] = (dir ++ ["usr"]) ++ [".ref"] := by simp
  have hnode : fs_node w.fs (dir ++ ["usr", ".ref"]) = none := by
    rw [happ, fs_node_append_singleton, ← happ]; exact hnone
  have hparent : is_dir_node w.fs (dir ++ ["usr", ".ref"]).dropLast = true := by
    rw [happ, List.dropLast_concat]
    simp [is_dir_node, fs_node_append_singleton, husr]
  unfold pv_bwrap_lock_new at h
  rw [hw] at h
  simp only [hnode, hparent, Bool.and_self, if_true] at h
  unfold take_lock at h
  split at h
  · cases h
  · simp only [Except.ok.injEq, Prod.mk.injEq] at h
    obtain ⟨rfl, rfl⟩ := h
    exact ⟨rfl, rfl, rfl⟩

/-! ## The cheap tree copy -/

theorem strip_dir_spec : ∀ (dir p sfx : Path), strip_dir dir p = some sfx ↔ p = dir ++ sfx := by
  intro dir
  induction dir with
  | nil => intro p sfx; simp [strip_dir, eq_comm]
  | cons d ds ih =>
    intro p sfx
    cases p with
    | nil => simp [strip_dir]
    | cons q qs =>
      unfold strip_dir
      by_cases hq : d = q
      · simp only [hq, if_true, List.cons_append, List.cons.injEq, true_and]
        exact ih qs sfx
      · simp only [hq, if_false, List.cons_append, List.cons.injEq, false_and]
        simp [eq_comm, hq]

theorem fs_get_copy_items_dest (hl : Bool) (fresh : Nat) (source dest : Path) :
    ∀ fs : FS, fs_get (copy_items fs hl fresh source dest) dest
      = (fs_get fs source).map (copied_node hl fresh) := by
  intro fs
  induction fs with
  | nil => rfl
  | cons e rest ih =>
    obtain ⟨p, n⟩ := e
    unfold copy_items at ih ⊢
    rw [List.filterMap_cons]
    cases hs : strip_dir source p with
    | none =>
      have hne : p ≠ source := by
        rintro rfl
        have := (strip_dir_spec p p []).2 (by simp)
        rw [hs] at this; cases this
      simp only [Option.map_none', fs_get, hne, if_false]
      exact ih
    | some sfx =>
      have hp := (strip_dir_spec source p sfx).1 hs
      simp only [Option.map_some', fs_get]
      by_cases hsfx : sfx = []
      · subst hsfx
        simp only [List.append_nil] at hp
        simp [hp]
      · have h1 : dest ++ sfx ≠ dest := by
          intro h; exact hsfx (List.append_right_eq_self.mp h)
        have h2 : p ≠ source := by
          rintro rfl
          exact hsfx (List.append_right_eq_self.mp hp.symm)
        simp only [h1, h2, if_false]
        exact ih

theorem copy_ok {env : Env} {w w2 : World} {source dest : Path}
    (h : pv_cheap_tree_copy env w source dest = .ok w2) :
    (copy_items w.fs env.hardlink_ok w.next_ino source dest).any (copy_conflict w.fs) = false ∧
    w2.fs = w.fs ++ (copy_items w.fs env.hardlink_ok w.next_ino source dest).filter
      (fun it => (fs_node w.fs it.1).isNone) ∧
    w2.locks = w.locks := by
  unfold pv_cheap_tree_copy at h
  split at h
  · cases h
  · split at h
    · cases h
    · simp only at h
      split at h
      · cases h
      · rename_i hc
        simp only [Except.ok.injEq] at h
        subst h
        exact ⟨Bool.eq_false_iff.mpr hc, rfl, rfl⟩

theorem copy_extends {env : Env} {w w2 : World} {source dest : Path}
    (h : pv_cheap_tree_copy env w source dest = .ok w2) : FsExtends w.fs w2.fs := by
  rw [(copy_ok h).2.1]
  exact FsExtends.append _ _

theorem copy_dest_dir {env : Env} {w w2 : World} {source dest : Path} {c : String}
    (h : pv_cheap_tree_copy env w source (dest ++ [c]) = .ok w2)
    (hsrc : fs_get w.fs source = some .dir) : fs_get w2.fs (dest ++ [c]) = some .dir := by
  obtain ⟨hconf, hfs, _⟩ := copy_ok h
  have hitem : fs_get (copy_items w.fs env.hardlink_ok w.next_ino source (dest ++ [c]))
      (dest ++ [c]) = some .dir := by
    rw [fs_get_copy_items_dest, hsrc]; rfl
  cases hd : fs_get w.fs (dest ++ [c]) with
  | some m =>
    have hmem := fs_get_mem hitem
    have hno := List.any_eq_false.mp hconf _ hmem
    have hm : m = .dir := by
      unfold copy_conflict at hno
      simp only [fs_node_append_singleton, hd] at hno
      cases m with
      | dir => rfl
      | file ino => simp at hno
      | symlink t => simp at hno
    rw [hfs, fs_get_append_of_some _ hd, hm]
  | none =>
    rw [hfs, fs_get_append_of_none _ hd,
      fs_get_filter_key (fun k => (fs_node w.fs k).isNone)]
    simp [fs_node_append_singleton, hd, hitem]

/-! ## Steps that create no directory -/

theorem NoNewDirs.same (fs : FS) : NoNewDirs fs fs := fun _ h => h

theorem NoNewDirs.comp {a b c : FS} (h1 : NoNewDirs a b) (h2 : NoNewDirs b c) :
    NoNewDirs a c := fun q h => h1 q (h2 q h)

theorem NoNewDirs.del (fs : FS) (p : Path) : NoNewDirs fs (fs_del fs p) := by
  intro q h
  rw [fs_get_del] at h
  split at h
  · cases h
  · exact h

theorem NoNewDirs.add (fs : FS) (p : Path) (n : Node) (hn : n ≠ .dir) :
    NoNewDirs fs (fs ++ [(p, n)]) := by
  intro q h
  cases hq : fs_get fs q with
  | some m => rw [fs_get_append_of_some _ hq] at h; exact h
  | none =>
    rw [fs_get_append_of_none _ hq, fs_get_singleton] at h
    split at h
    · simp only [Option.some.injEq] at h; exact absurd h hn
    · cases h

theorem symlinkat_no_new_dirs {fs fs1 : FS} {target : String} {base : Path} {rel : List String}
    (h : symlinkat fs target base rel = .ok fs1) : NoNewDirs fs fs1 := by
  unfold symlinkat at h
  split at h
  · cases h
  · split at h
    · cases h
    · split at h
      · simp only [Except.ok.injEq] at h
        subst h
        exact NoNewDirs.add _ _ _ (by simp)
      · cases h

theorem symlink_members_no_new_dirs (temp_dir : Path) (is_just_usr : Bool) :
    ∀ (members : List String) (fs fs1 : FS),
      symlink_members temp_dir is_just_usr members fs = .ok fs1 → NoNewDirs fs fs1 := by
  intro members
  induction members with
  | nil =>
    intro fs fs1 h
    simp only [symlink_members, Except.ok.injEq] at h
    subst h
    exact NoNewDirs.same _
  | cons m rest ih =>
    intro fs fs1 h
    unfold symlink_members at h
    split at h
    · split at h
      · rename_i fs2 hs
        exact (symlinkat_no_new_dirs hs).comp (ih _ _ h)
      · split at h
        · cases h
        · exact ih _ _ h
    · exact ih _ _ h

theorem lock_new_no_new_dirs {env : Env} {w w1 : World} {at_dir : Path} {path : List String}
    {create write : Bool} {l : Lock}
    (h : pv_bwrap_lock_new env w at_dir path create write = .ok (w1, l)) :
    NoNewDirs w.fs w1.fs := by
  unfold pv_bwrap_lock_new at h
  split at h
  · cases h
  · split at h
    · rw [take_lock_fs h]; exact NoNewDirs.same _
    · cases h
    · split at h
      · rw [take_lock_fs h]
        exact NoNewDirs.add _ _ _ (by simp)
      · cases h

theorem copy_source_exists {env : Env} {w w2 : World} {source dest : Path}
    (h : pv_cheap_tree_copy env w source dest = .ok w2) : (fs_node w.fs source).isSome = true := by
  unfold pv_cheap_tree_copy at h
  split at h
  · cases h
  · rename_i hs
    cases hn : fs_node w.fs source with
    | none => simp [hn] at hs
    | some n => rfl

theorem copy_items_key {fs : FS} {hl : Bool} {fresh : Nat} {source dest q : Path} {n : Node}
    (h : (q, n) ∈ copy_items fs hl fresh source dest) : ∃ sfx, q = dest ++ sfx := by
  unfold copy_items at h
  rw [List.mem_filterMap] at h
  obtain ⟨e, _, he⟩ := h
  cases hs : strip_dir source e.1 with
  | none => rw [hs] at he; cases he
  | some sfx =>
    rw [hs] at he
    simp only [Option.map_some', Option.some.injEq, Prod.mk.injEq] at he
    exact ⟨sfx, he.1.symm⟩

theorem is_dir_child_exists {fs : FS} {base : Path} {c : String}
    (h1 : c ≠ ".") (h2 : c ≠ "..")
    (h : g_file_test_is_dir fs base [c] = true) : fs_get fs (base ++ [c]) ≠ none := by
  intro hn
  unfold g_file_test_is_dir stat_at at h
  rw [walk_of_done _ (walk_segment_last_none h1 h2 hn)] at h
  simp [fs_node_append_singleton, hn] at h

theorem unlink_ref_keeps {env : Env} {fs fs1 : FS} {base : Path} (comps : List String)
    (h : unlink_if_exists env fs base (comps ++ [".ref"]) = some fs1)
    {d : Path} {c : String} (hc : c ≠ ".ref") :
    fs_get fs1 (d ++ [c]) = fs_get fs (d ++ [c]) := by
  rcases unlink_if_exists_last comps (by decide) (by decide) h with rfl | ⟨d1, rfl⟩
  · rfl
  · rw [fs_get_del, if_neg (snoc_ne hc)]

theorem opendirat_self {fs : FS} {dir temp_dir_fd : Path} {c : String}
    (h : glnx_opendirat fs (dir ++ [c]) [] false = .ok temp_dir_fd) :
    temp_dir_fd = dir ++ [c] := by
  unfold glnx_opendirat lstat_at at h
  have hw : walk fs [] false MAXSYMLINKS (dir ++ [c]) [] = .ok (dir ++ [c]) :=
    walk_of_done _ (by simp [walk_segment])
  simp only [Bool.false_eq_true, if_false, hw] at h
  cases hn : fs_node fs (dir ++ [c]) with
  | none => rw [hn] at h; cases h
  | some n =>
    rw [hn] at h
    cases n with
    | dir => simp only [Except.ok.injEq] at h; exact h.symm
    | file ino => cases h
    | symlink t => cases h

/-- The second half of `pv_runtime_init_mutable` on a merged-`/usr` image. -/
theorem init_mutable_copy_merged {env : Env} {self self1 : PvRuntime} {w w4 : World}
    {parent_fd : Path}
    (h : init_mutable_copy env self w parent_fd = (w4, .ok self1))
    (hsrc : fs_get w4.fs self.source_files = some .dir)
    (hmerged : fs_get w4.fs (self.source_files ++ ["usr"]) = none) :
    ∃ (temp_dir : Path) (lock : Lock),
      self1.mutable_sysroot = some temp_dir ∧
      self1.mutable_sysroot_fd = some temp_dir ∧
      self1.runtime_lock = some lock ∧
      lock.write = false ∧
      fs_get w4.fs (temp_dir ++ [".ref"]) = some (.symlink "usr/.ref") ∧
      fs_get w4.fs (temp_dir ++ ["usr"]) = some .dir ∧
      fs_get w4.fs (temp_dir ++ ["usr", ".ref"]) = some (.file lock.ino) := by
  obtain ⟨fs1, name, w2, temp_dir_fd, fs3, fs4, w5, copy_lock, fs6, dir, fs7,
    hmk, hcopy, hopen, hu1, hu2, hlock, hsym, hdir, hmem, hw4, hself⟩ :=
    init_mutable_copy_steps h
  obtain ⟨hfs1, hfresh⟩ := g_mkdtemp_ok hmk
  have hw4fs : w4.fs = fs7 := by rw [hw4, release_fs]
  rw [hw4fs] at hsrc hmerged
  have hext67 : FsExtends fs6 fs7 := symlink_members_extends _ _ _ _ _ hmem
  have hext45 : FsExtends fs4 w5.fs := lock_new_extends hlock
  have hext12 : FsExtends fs1 w2.fs := copy_extends hcopy
  -- the image is recognised as a merged /usr
  have hj : g_file_test_is_dir fs1 self.source_files ["usr"] = false := by
    cases hj : g_file_test_is_dir fs1 self.source_files ["usr"] with
    | false => rfl
    | true =>
      exfalso
      have h1 := is_dir_child_exists (by decide) (by decide) hj
      cases hn : fs_get fs1 (self.source_files ++ ["usr"]) with
      | none => exact h1 hn
      | some n =>
        have h2 := hext12 _ _ hn
        have h3 : fs_get fs3 (self.source_files ++ ["usr"]) = some n := by
          rw [unlink_ref_keeps [] hu1 (by decide)]; exact h2
        have h4 : fs_get fs4 (self.source_files ++ ["usr"]) = some n := by
          rw [unlink_ref_keeps ["usr"] hu2 (by decide)]; exact h3
        have h5 := hext45 _ _ h4
        simp only [hj, Bool.not_true, Bool.false_eq_true, if_false, Except.ok.injEq] at hsym
        subst hsym
        have h7 := hext67 _ _ h5
        rw [hmerged] at h7
        cases h7
  simp only [hj, Bool.not_false, if_true] at hcopy hsym hdir hmem
  -- the source image is a directory when it is copied
  have hnd : NoNewDirs w2.fs fs7 := by
    have n1 : NoNewDirs w2.fs fs3 := by
      rcases unlink_if_exists_last [] (by decide) (by decide) hu1 with rfl | ⟨d, rfl⟩
      · exact NoNewDirs.same _
      · exact NoNewDirs.del _ _
    have n2 : NoNewDirs fs3 fs4 := by
      rcases unlink_if_exists_last ["usr"] (by decide) (by decide) hu2 with rfl | ⟨d, rfl⟩
      · exact NoNewDirs.same _
      · exact NoNewDirs.del _ _
    exact n1.comp (n2.comp ((lock_new_no_new_dirs hlock).comp
      ((symlinkat_no_new_dirs hsym).comp (symlink_members_no_new_dirs _ _ _ _ _ hmem))))
  have hsrc2 : fs_get w2.fs self.source_files = some .dir := hnd _ hsrc
  have hsrc1 : fs_get fs1 self.source_files = some .dir := by
    cases hs : fs_get fs1 self.source_files with
    | some n => rw [hext12 _ _ hs] at hsrc2; exact hsrc2
    | none =>
      exfalso
      have hex := copy_source_exists hcopy
      have hroot : self.source_files = [] := by
        cases hS : self.source_files with
        | nil => rfl
        | cons a as =>
          rw [hS] at hex hs
          simp [fs_node, hs] at hex
      rw [(copy_ok hcopy).2.1, fs_get_append_of_none _ hs] at hsrc2
      have hmem2 := List.mem_of_mem_filter (fs_get_mem hsrc2)
      obtain ⟨sfx, hk⟩ := copy_items_key hmem2
      rw [hroot] at hk
      simp at hk
  have husr2 : fs_get w2.fs (parent_fd ++ [name] ++ ["usr"]) = some .dir :=
    copy_dest_dir hcopy hsrc1
  have htemp1 : fs_get fs1 (parent_fd ++ [name]) = some .dir := by
    rw [hfs1, fs_get_append_of_none _ hfresh]; simp [fs_get]
  have hfd : temp_dir_fd = parent_fd ++ [name] := opendirat_self hopen
  subst hfd
  have e3 : parent_fd ++ [name] ++ ["usr"] ++ [".ref"] = parent_fd ++ [name] ++ ["usr", ".ref"] := by
    simp
  -- the two lock files of the copy are removed
  have hfs3 : fs3 = fs_del w2.fs (parent_fd ++ [name] ++ [".ref"]) :=
    unlink_if_exists_child (by decide) (by decide) hu1
  have husr3 : fs_get fs3 (parent_fd ++ [name] ++ ["usr"]) = some .dir := by
    rw [hfs3, fs_get_del, if_neg (snoc_ne (by decide))]; exact husr2
  have hfs4 : fs4 = fs_del fs3 (parent_fd ++ [name] ++ ["usr", ".ref"]) :=
    unlink_if_exists_grandchild (by decide) (by decide) husr3 (by decide) (by decide) hu2
  have husr4 : fs_get fs4 (parent_fd ++ [name] ++ ["usr"]) = some .dir := by
    rw [hfs4, fs_get_del, ← e3, if_neg (snoc_ne (by decide))]; exact husr3
  have hnone4 : fs_get fs4 (parent_fd ++ [name] ++ ["usr", ".ref"]) = none := by
    rw [hfs4, fs_get_del, if_pos rfl]
  have href4 : fs_get fs4 (parent_fd ++ [name] ++ [".ref"]) = none := by
    rw [hfs4, fs_get_del]
    split
    · rfl
    · rw [hfs3, fs_get_del, if_pos rfl]
  -- the new lock file is created and locked, then `.ref` is made a link to it
  obtain ⟨hfs5, hino, hwrite⟩ := @lock_new_create _ { w2 with fs := fs4 } _ _ _ _ husr4 hnone4 hlock
  simp only at hfs5 hino
  have href5 : fs_get w5.fs (parent_fd ++ [name] ++ [".ref"]) = none := by
    rw [hfs5, fs_get_append_of_none _ href4, fs_get_singleton, if_neg (by simp)]
  have hfs6 : fs6 = w5.fs ++ [(parent_fd ++ [name] ++ [".ref"], .symlink "usr/.ref")] :=
    symlinkat_child (by decide) (by decide) href5 hsym
  have hlock5 : fs_get w5.fs (parent_fd ++ [name] ++ ["usr", ".ref"])
      = some (.file copy_lock.ino) := by
    rw [hfs5, fs_get_append_of_none _ hnone4, fs_get_singleton, if_pos rfl, hino]
  refine ⟨parent_fd ++ [name], copy_lock, ?_, ?_, ?_, hwrite, ?_, ?_, ?_⟩
  · rw [hself]
  · rw [hself]
  · rw [hself]
  · rw [hw4fs]
    apply hext67
    rw [hfs6, fs_get_append_of_none _ href5, fs_get_singleton, if_pos rfl]
  · rw [hw4fs]
    apply hext67
    rw [hfs6]
    exact fs_get_append_of_some _ (hext45 _ _ husr4)
  · rw [hw4fs]
    apply hext67
    rw [hfs6]
    exact fs_get_append_of_some _ hlock5

/-! ## The locks held after the mutable copy is made -/

/-- A lock that is granted uses the next free descriptor and is added to the
locks held. -/
theorem take_lock_held {env : Env} {w w1 : World} {ino : Nat} {write : Bool} {l : Lock}
    (h : take_lock env w ino write = .ok (w1, l)) :
    l.fd = w.next_fd ∧ w1.next_fd = w.next_fd + 1 ∧ w1.locks = l :: w.locks := by
  unfold take_lock at h
  split at h
  · cases h
  · simp only [Except.ok.injEq, Prod.mk.injEq] at h
    obtain ⟨rfl, rfl⟩ := h
    exact ⟨rfl, rfl, rfl⟩

theorem lock_new_held {env : Env} {w w1 : World} {at_dir : Path} {path : List String}
    {create write : Bool} {l : Lock}
    (h : pv_bwrap_lock_new env w at_dir path create write = .ok (w1, l)) :
    l.fd = w.next_fd ∧ w1.next_fd = w.next_fd + 1 ∧ w1.locks = l :: w.locks := by
  unfold pv_bwrap_lock_new at h
  split at h
  · cases h
  · split at h
    · exact take_lock_held h
    · cases h
    · split at h
      · have h3 := take_lock_held h
        exact h3
      · cases h

/-- The garbage collection never gives a descriptor back to the counter of
fresh descriptors. -/
theorem gc_entry_next_fd (env : Env) (parent_fd : Path) (w : World) (dent : Dirent) :
    w.next_fd ≤ (gc_entry env parent_fd w dent).next_fd := by
  unfold gc_entry
  split
  · split
    · exact Nat.le_refl _
    · split
      · exact Nat.le_refl _
      · exact Nat.le_refl _
      · split
        · exact Nat.le_refl _
        · rename_i w1 temp_lock hl
          obtain ⟨_, h2, _⟩ := lock_new_held hl
          split
          · show w.next_fd ≤ w1.next_fd
            omega
          · show w.next_fd ≤ w1.next_fd
            omega
  · exact Nat.le_refl _

theorem gc_loop_next_fd (env : Env) (iter_dir parent_fd : Path) :
    ∀ (dents : List Dirent) (i : Nat) (w : World),
      w.next_fd ≤ (gc_loop env iter_dir parent_fd i dents w).1.next_fd := by
  intro dents
  induction dents with
  | nil =>
    intro i w
    unfold gc_loop
    split <;> exact Nat.le_refl _
  | cons dent rest ih =>
    intro i w
    unfold gc_loop
    split
    · exact Nat.le_refl _
    · exact Nat.le_trans (gc_entry_next_fd env parent_fd w dent) (ih _ _)

theorem garbage_collect_next_fd (env : Env) (self : PvRuntime) (w : World)
    (mutable_parent_lock : Option Lock) :
    w.next_fd ≤ (pv_runtime_garbage_collect env self w mutable_parent_lock).1.next_fd := by
  unfold pv_runtime_garbage_collect
  split
  · split
    · exact Nat.le_refl _
    · split
      · exact Nat.le_refl _
      · exact gc_loop_next_fd env _ _ _ _ _
  · exact Nat.le_refl _

/-- The garbage collection releases every lock it takes. -/
theorem gc_entry_locks (env : Env) (parent_fd : Path) (w : World) (dent : Dirent) :
    (gc_entry env parent_fd w dent).locks = w.locks := by
  unfold gc_entry
  split
  · split
    · rfl
    · split
      · rfl
      · rfl
      · split
        · rfl
        · rename_i w1 temp_lock hl
          obtain ⟨_, _, h3⟩ := lock_new_held hl
          split
          · show w1.locks.erase temp_lock = w.locks
            rw [h3, List.erase_cons_head]
          · show w1.locks.erase temp_lock = w.locks
            rw [h3, List.erase_cons_head]
  · rfl

theorem gc_loop_locks (env : Env) (iter_dir parent_fd : Path) :
    ∀ (dents : List Dirent) (i : Nat) (w : World),
      (gc_loop env iter_dir parent_fd i dents w).1.locks = w.locks := by
  intro dents
  induction dents with
  | nil =>
    intro i w
    unfold gc_loop
    split <;> rfl
  | cons dent rest ih =>
    intro i w
    unfold gc_loop
    split
    · rfl
    · rw [ih, gc_entry_locks]

theorem garbage_collect_locks (env : Env) (self : PvRuntime) (w : World)
    (mutable_parent_lock : Option Lock) :
    (pv_runtime_garbage_collect env self w mutable_parent_lock).1.locks = w.locks := by
  unfold pv_runtime_garbage_collect
  split
  · split
    · rfl
    · split
      · rfl
      · exact gc_loop_locks env _ _ _ _ _
  · rfl

theorem garbage_collect_held {env : Env} {self : PvRuntime} {w w3 : World}
    {mutable_parent_lock : Option Lock} {r : Except String Unit}
    (h : pv_runtime_garbage_collect env self w mutable_parent_lock = (w3, r)) :
    w.next_fd ≤ w3.next_fd ∧ w3.locks = w.locks := by
  have ha := garbage_collect_next_fd env self w mutable_parent_lock
  have hb := garbage_collect_locks env self w mutable_parent_lock
  rw [h] at ha hb
  exact ⟨ha, hb⟩

theorem copy_next_fd {env : Env} {w w2 : World} {source dest : Path}
    (h : pv_cheap_tree_copy env w source dest = .ok w2) : w2.next_fd = w.next_fd := by
  unfold pv_cheap_tree_copy at h
  split at h
  · cases h
  · split at h
    · cases h
    · simp only at h
      split at h
      · cases h
      · simp only [Except.ok.injEq] at h
        rw [← h]

/-- The second half of `pv_runtime_init_mutable` hands the new lock over to
the runtime: it uses the next free descriptor, and the locks held afterwards
are the new lock and the locks held before, less the lock the runtime held so
far. -/
theorem init_mutable_copy_held {env : Env} {self self1 : PvRuntime} {w w4 : World}
    {parent_fd : Path}
    (h : init_mutable_copy env self w parent_fd = (w4, .ok self1)) :
    ∃ lock : Lock,
      self1.runtime_lock = some lock ∧ lock.fd = w.next_fd ∧
      w4.locks = (release { w with locks := lock :: w.locks } self.runtime_lock).locks := by
  obtain ⟨fs1, name, w2, temp_dir_fd, fs3, fs4, w5, copy_lock, fs6, dir, fs7,
    hmk, hcopy, hopen, hu1, hu2, hlock, hsym, hdir, hmem, hw4, hself⟩ :=
    init_mutable_copy_steps h
  obtain ⟨_, _, hl2⟩ := copy_ok hcopy
  have hfd2 := copy_next_fd hcopy
  simp only at hfd2
  obtain ⟨hfd, _, hl5⟩ := lock_new_held hlock
  simp only at hfd hl5 hl2
  refine ⟨copy_lock, by rw [hself], by rw [hfd, hfd2], ?_⟩
  rw [hw4]
  cases self.runtime_lock with
  | none => simp only [release]; rw [hl5, hl2]
  | some old => simp only [release, pv_bwrap_lock_free]; rw [hl5, hl2]

/-- C5 (merged-`/usr` lock consistency): whenever `pv_runtime_init_mutable`
succeeds on a source image that has no `usr` entry (a merged `/usr`), the
copy's top-level `.ref` is a symbolic link with target exactly `usr/.ref`,
and the lock the runtime holds afterwards is a shared lock on the copy's
`usr/.ref`: it is the runtime's `runtime_lock`, it is among the locks held
in the world the function leaves behind, and both names resolve to that one
lock file.  The locks held afterwards are exactly this lock and the locks
held before, less the lock on the source that the runtime hands over; the
lock on the parent directory is released.  The descriptor of the lock the
runtime held so far is one that was allocated before. -/
theorem init_mutable_merged_usr_ref (env : Env) (self self1 : PvRuntime) (w w1 : World)
    (mutable_parent : Path)
    (hmp : self.mutable_parent = some mutable_parent)
    (hok : pv_runtime_init_mutable env self w = (w1, .ok self1))
    (hsrc : fs_get w1.fs self.source_files = some .dir)
    (hmerged : fs_get w1.fs (self.source_files ++ ["usr"]) = none)
    (hfd : ∀ old, self.runtime_lock = some old → old.fd < w.next_fd) :
    ∃ (temp_dir : Path) (lock : Lock),
      self1.mutable_sysroot = some temp_dir ∧
      self1.mutable_sysroot_fd = some temp_dir ∧
      self1.runtime_lock = some lock ∧
      lock ∈ w1.locks ∧
      w1.locks = lock :: (release w self.runtime_lock).locks ∧
      lock.write = false ∧
      fs_get w1.fs (temp_dir ++ [".ref"]) = some (.symlink "usr/.ref") ∧
      stat_at w1.fs temp_dir ["usr", ".ref"] = .ok (temp_dir ++ ["usr", ".ref"], .file lock.ino) ∧
      stat_at w1.fs temp_dir [".ref"] = .ok (temp_dir ++ ["usr", ".ref"], .file lock.ino) := by
  generalize hrl0 : self.runtime_lock = self_rl at hfd ⊢
  cases self
  simp only at hmp hsrc hmerged hrl0
  subst hmp
  have hrl1 := hrl0.symm
  subst hrl1
  unfold pv_runtime_init_mutable at hok
  simp only at hok
  split at hok
  · simp only [Prod.mk.injEq] at hok; exact absurd hok.2 (by simp)
  · split at hok
    · simp only [Prod.mk.injEq] at hok; exact absurd hok.2 (by simp)
    · rename_i parent_fd _
      split at hok
      · simp only [Prod.mk.injEq] at hok; exact absurd hok.2 (by simp)
      · rename_i w2 mutable_lock hml
        split at hok
        · simp only [Prod.mk.injEq] at hok; exact absurd hok.2 (by simp)
        · rename_i w3 hgc
          generalize hcop : init_mutable_copy env _ w3 parent_fd = cop at hok
          obtain ⟨w4, r⟩ := cop
          simp only [Prod.mk.injEq] at hok
          obtain ⟨hw1, rfl⟩ := hok
          have hfs : w1.fs = w4.fs := by rw [← hw1, lock_free_fs]
          rw [hfs] at hsrc hmerged
          obtain ⟨temp_dir, lock, h1, h2, h3, h4, href, husr, hlockfile⟩ :=
            init_mutable_copy_merged hcop hsrc hmerged
          rw [← hfs] at href husr hlockfile
          have hnl : ∀ t, fs_get w1.fs (temp_dir ++ ["usr", ".ref"]) ≠ some (.symlink t) := by
            intro t; rw [hlockfile]; simp
          have hnode : fs_node w1.fs (temp_dir ++ ["usr", ".ref"]) = some (.file lock.ino) := by
            have happ : temp_dir ++ ["usr", ".ref"] = (temp_dir ++ ["usr"]) ++ [".ref"] := by simp
            rw [happ, fs_node_append_singleton, ← happ]; exact hlockfile
          -- the locks: the parent lock, the garbage collection, the new lock
          obtain ⟨hmfd, hfd2, hl2⟩ := lock_new_held hml
          simp only at hmfd hfd2 hl2
          have hgc3 : w2.next_fd ≤ w3.next_fd ∧ w3.locks = w2.locks := by
            split at hgc
            · exact garbage_collect_held hgc
            · simp only [Prod.mk.injEq] at hgc
              rw [← hgc.1]
              exact ⟨Nat.le_refl _, rfl⟩
          obtain ⟨lock2, hrl, hlfd, hl4⟩ := init_mutable_copy_held hcop
          have hsame : lock2 = lock := Option.some.inj (hrl.symm.trans h3)
          subst hsame
          simp only at hl4
          have hne_m : mutable_lock ≠ lock2 := by
            intro he
            rw [he] at hmfd
            omega
          have hlocks : w1.locks = lock2 :: (release w self_rl).locks := by
            rw [← hw1]
            show w4.locks.erase mutable_lock = _
            rw [hl4]
            cases self_rl with
            | none =>
              show (lock2 :: w3.locks).erase mutable_lock = lock2 :: w.locks
              rw [hgc3.2, hl2]
              simp [List.erase_cons, hne_m.symm]
            | some old =>
              have hold : old.fd < w.next_fd := hfd old rfl
              have hne_o : old ≠ lock2 := by
                intro he
                rw [he] at hold
                omega
              show ((lock2 :: w3.locks).erase old).erase mutable_lock
                = lock2 :: w.locks.erase old
              rw [hgc3.2, hl2]
              have h5 : (lock2 :: mutable_lock :: w.locks).erase old
                  = lock2 :: (mutable_lock :: w.locks).erase old := by
                simp [List.erase_cons, hne_o.symm]
              have h6 : (lock2 :: (mutable_lock :: w.locks).erase old).erase mutable_lock
                  = lock2 :: ((mutable_lock :: w.locks).erase old).erase mutable_lock := by
                simp [List.erase_cons, hne_m.symm]
              rw [h5, h6, List.erase_comm, List.erase_cons_head]
          refine ⟨temp_dir, lock2, h1, h2, h3, ?_, hlocks, h4, href, ?_, ?_⟩
          · rw [hlocks]; exact List.mem_cons_self _ _
          · simp only [stat_at, walk_usr_ref MAXSYMLINKS husr hnl, hnode]
          · have hw : walk w1.fs [] true MAXSYMLINKS temp_dir [".ref"]
                = .ok (temp_dir ++ ["usr", ".ref"]) := walk_ref_alias 39 href husr hnl
            simp only [stat_at, hw, hnode]

/-! ## Evaluations on concrete inputs -/

/-- C1 (lock safety of garbage collection) fails for a complete-sysroot
image.  Session A composes a runtime in `/var/pv`: its copy is
`tmp-AAAAAA`, and it holds the shared lock on `tmp-AAAAAA/usr/.ref`; the
copy has no `.ref` of its own.  Session B then composes a runtime in the
same store with garbage collection: A's lock is still held afterwards, and
`tmp-AAAAAA` is gone. -/
theorem gc_deletes_entry_in_use :
    (session_a img_sysroot).value.map PvRuntime.mutable_sysroot
        = some (some ["var", "pv", "tmp-AAAAAA"]) ∧
    (session_a img_sysroot).value.map PvRuntime.runtime_lock = some (some lock_a) ∧
    stat_at (session_a img_sysroot).1.fs ["var", "pv", "tmp-AAAAAA"] ["usr", ".ref"]
        = .ok (["var", "pv", "tmp-AAAAAA", "usr", ".ref"], .file lock_a.ino) ∧
    fs_get (session_a img_sysroot).1.fs ["var", "pv", "tmp-AAAAAA", ".ref"] = none ∧
    (session_b img_sysroot).value.map PvRuntime.mutable_sysroot
        = some (some ["var", "pv", "tmp-BBBBBB"]) ∧
    lock_a ∈ (session_b img_sysroot).1.locks ∧
    fs_get (session_b img_sysroot).1.fs ["var", "pv", "tmp-AAAAAA"] = none := by
  decide

/-- For the merged-`/usr` image the same two sessions leave the copy of
session A in place. -/
theorem gc_keeps_entry_in_use_merged :
    (session_a img_merged).value.map PvRuntime.runtime_lock = some (some lock_a) ∧
    fs_get (session_a img_merged).1.fs ["var", "pv", "tmp-AAAAAA", ".ref"]
        = some (.symlink "usr/.ref") ∧
    lock_a ∈ (session_b img_merged).1.locks ∧
    fs_get (session_b img_merged).1.fs ["var", "pv", "tmp-AAAAAA"] = some .dir := by
  decide

/-- Counterexample to C2 as stated: the entry `tmp-OLD` has no `keep` marker
and a write lock on its `usr/.ref` can be acquired, but its removal fails;
`pv_runtime_garbage_collect` returns success and the entry is still
there. -/
theorem gc_keeps_entry_when_removal_fails :
    fs_get world_old.fs ["var", "pv", "tmp-OLD", "keep"] = none ∧
    (pv_bwrap_lock_new env_rm_fails world_old ["var", "pv"] ["tmp-OLD", "usr", ".ref"]
        true true).toBool = true ∧
    (pv_runtime_garbage_collect env_rm_fails self_store world_old (some lock_store)).2
        = .ok () ∧
    fs_get (pv_runtime_garbage_collect env_rm_fails self_store world_old (some lock_store)).1.fs
        ["var", "pv", "tmp-OLD"] = some .dir := by
  decide

/-- Witness of `gc_entry_deletes_iff`: without faults, the loop body deletes
the unused entry `tmp-OLD` of `store_old`. -/
theorem gc_entry_deletes_iff_witness :
    fs_get (gc_entry {} ["var", "pv"] world_old ⟨"tmp-OLD", .DT_DIR⟩).fs
        (["var", "pv"] ++ ["tmp-OLD"]) = none :=
  (gc_entry_deletes_iff {} world_old ["var", "pv"] "tmp-OLD" (by decide) (by decide)
    (by decide) (by decide)
    (fun t h => by
      have h2 : some (Node.file 11) = some (Node.symlink t) := h
      cases h2)).mpr
    ⟨⟨by decide, rfl⟩, ⟨_, rfl⟩, rfl⟩

/-- Counterexample to C3 as stated: with `GC_RUNTIMES` set, an error while
iterating over the store makes `pv_runtime_init_mutable` fail, and no
`tmp-XXXXXX` entry is created. -/
theorem init_mutable_fails_when_iteration_fails :
    (pv_runtime_init_mutable env_iter_fails self_new { fs := img_merged }).message
        = some "Unable to read directory" ∧
    readdir (pv_runtime_init_mutable env_iter_fails self_new { fs := img_merged }).1.fs
        ["var", "pv"] = [⟨".ref", .DT_REG⟩] := by
  decide

/-- Witness of `init_mutable_gc_failures_ignored`: the old entry `tmp-OLD`
cannot be removed, and the new copy is made all the same. -/
theorem init_mutable_gc_failures_ignored_witness :
    ∃ w3,
      pv_runtime_garbage_collect env_old { self_new with mutable_parent_fd := some ["var", "pv"] }
        locked_old.1 (some locked_old.2) = (w3, .ok ()) ∧
      pv_runtime_init_mutable env_old self_new { fs := host_old } =
        (pv_bwrap_lock_free
          (init_mutable_copy env_old { self_new with mutable_parent_fd := some ["var", "pv"] } w3
            ["var", "pv"]).1 locked_old.2,
          (init_mutable_copy env_old { self_new with mutable_parent_fd := some ["var", "pv"] } w3
            ["var", "pv"]).2) :=
  init_mutable_gc_failures_ignored env_old self_new { fs := host_old } ["var", "pv"] host_old
    ["var", "pv"] ["var", "pv"] locked_old.1 locked_old.2 rfl rfl (by decide) (by decide)
    (by decide) rfl (fun _ => rfl)

/-- Counterexample to C4 as stated: the store `/var/pv` does not exist, its
parent `/var` does; `pv_runtime_new` fails and `/var/pv` is not created. -/
theorem pv_runtime_new_does_not_create_parent :
    fs_get img_no_store ["var", "pv"] = none ∧
    fs_get img_no_store ["var"] = some .dir ∧
    (pv_runtime_new envA { fs := img_no_store } ["srv", "scout"] (some ["var", "pv"])
        "/usr/bin/bwrap" ["tools"] flagsGC).message = some "\"/var/pv\" is not a directory" ∧
    fs_get (pv_runtime_new envA { fs := img_no_store } ["srv", "scout"] (some ["var", "pv"])
        "/usr/bin/bwrap" ["tools"] flagsGC).1.fs ["var", "pv"] = none := by
  decide

/-- Witness of `pv_runtime_new_missing_parent` on the host without a store. -/
theorem pv_runtime_new_missing_parent_witness :
    pv_runtime_new envA { fs := img_no_store } ["srv", "scout"] (some ["var", "pv"])
        "/usr/bin/bwrap" ["tools"] flagsGC =
      ({ fs := img_no_store },
        .error ("\"" ++ path_to_string ["var", "pv"] ++ "\" is not a directory")) :=
  pv_runtime_new_missing_parent envA { fs := img_no_store } ["srv", "scout"] ["var", "pv"]
    "/usr/bin/bwrap" ["tools"] flagsGC rfl (by decide)

/-- Witness of `init_mutable_merged_usr_ref`: the runtime holds the lock on
the merged-`/usr` image and the store has the old entry `tmp-OLD`; afterwards
the only lock held is the one on `tmp-AAAAAA/usr/.ref`. -/
theorem init_mutable_merged_usr_ref_witness :
    ∃ (temp_dir : Path) (lock : Lock),
      (init_merged_locked.value.getD self_locked).mutable_sysroot = some temp_dir ∧
      (init_merged_locked.value.getD self_locked).mutable_sysroot_fd = some temp_dir ∧
      (init_merged_locked.value.getD self_locked).runtime_lock = some lock ∧
      lock ∈ init_merged_locked.1.locks ∧
      init_merged_locked.1.locks
        = lock :: (release world_source_locked self_locked.runtime_lock).locks ∧
      lock.write = false ∧
      fs_get init_merged_locked.1.fs (temp_dir ++ [".ref"]) = some (.symlink "usr/.ref") ∧
      stat_at init_merged_locked.1.fs temp_dir ["usr", ".ref"]
        = .ok (temp_dir ++ ["usr", ".ref"], .file lock.ino) ∧
      stat_at init_merged_locked.1.fs temp_dir [".ref"]
        = .ok (temp_dir ++ ["usr", ".ref"], .file lock.ino) :=
  init_mutable_merged_usr_ref envA self_locked (init_merged_locked.value.getD self_locked)
    world_source_locked init_merged_locked.1 ["var", "pv"] rfl (by decide) (by decide)
    (by decide)
    (fun old h => by
      have h2 : some lock_source = some old := h
      cases h2
      decide)

/-! ## The loop over the architectures -/

theorem no_architecture_message_eq :
    no_architecture_message =
      "None of the supported CPU architectures are common to the host system and the container (tried: x86_64-linux-gnu, i386-linux-gnu)" := by
  decide

/-- With a mutable sysroot, an `ld.so` that `pv_resolve_in_sysroot` cannot
resolve ends the iteration, and with it the function, with the error of
`pv_resolve_in_sysroot` (the `return FALSE` of line 2217). -/
theorem arch_unresolved_in_sysroot (env : Env) (system_info : SrtSystemInfo) (i : Nat)
    (st : GraphicsStack) (w : World) (arch : RuntimeArchitecture) (e : Errno)
    (hms : st.self.mutable_sysroot.isSome = true)
    (harch : runtime_architecture_init env st.self w.fs i = some arch)
    (hres : pv_resolve_in_sysroot w.fs (st.self.mutable_sysroot_fd.getD [])
      (path_components arch.ld_so) = .error e) :
    use_host_graphics_stack_arch env system_info i st w =
      (w, .error (pv_resolve_in_sysroot_error arch.ld_so)) := by
  simp [use_host_graphics_stack_arch, harch, resolve_ld_so, hms, hres]

/-- Without a mutable sysroot, an `ld.so` that the helper process cannot
resolve leaves the state as it was: the loop goes on with the next
tuple. -/
theorem arch_unresolved_in_place (env : Env) (system_info : SrtSystemInfo) (i : Nat)
    (st : GraphicsStack) (w : World) (arch : RuntimeArchitecture) (b1 b2 : List String)
    (hms : st.self.mutable_sysroot = none)
    (harch : runtime_architecture_init env st.self w.fs i = some arch)
    (hb1 : pv_bwrap_bind_usr w.fs [st.self.bubblewrap] st.self.runtime_files "/" = .ok b1)
    (hb2 : pv_bwrap_bind_usr w.fs b1 [] "/run/host" = .ok b2)
    (hcap : env.capture_output w.fs
      (b2 ++ ["env", "PATH=/usr/bin:/bin", "readlink", "-e", arch.ld_so]) = none) :
    use_host_graphics_stack_arch env system_info i st w = (w, .ok st) := by
  simp [use_host_graphics_stack_arch, harch, resolve_ld_so, hms, hb1, hb2, hcap]

/-- An architecture whose capture tool cannot be run leaves the state as it
was. -/
theorem arch_without_capture_tool (env : Env) (system_info : SrtSystemInfo) (i : Nat)
    (st : GraphicsStack) (w : World)
    (harch : runtime_architecture_init env st.self w.fs i = none) :
    use_host_graphics_stack_arch env system_info i st w = (w, .ok st) := by
  simp [use_host_graphics_stack_arch, harch]

/-- A loop in which every architecture is skipped leaves the state as it
was. -/
theorem loop_all_skipped (env : Env) (system_info : SrtSystemInfo) (st : GraphicsStack)
    (w : World) (tuples : List Nat)
    (h : ∀ i ∈ tuples, use_host_graphics_stack_arch env system_info i st w = (w, .ok st)) :
    use_host_graphics_stack_loop env system_info tuples st w = (w, .ok st) := by
  induction tuples with
  | nil => rfl
  | cons i rest ih =>
    simp only [use_host_graphics_stack_loop, h i (List.mem_cons_self _ _)]
    exact ih (fun j hj => h j (List.mem_cons_of_mem _ hj))

/-- When every architecture is skipped (its capture tool cannot be run, or
its `ld.so` is not found by the helper process of a runtime used in place),
`pv_runtime_use_host_graphics_stack` fails with the message of lines 2590 to
2593. -/
theorem no_viable_architecture (env : Env) (system_info : SrtSystemInfo) (self self1 : PvRuntime)
    (w w1 : World) (bwrap : List String)
    (hacc : pv_runtime_provide_container_access self w = (w1, .ok self1))
    (h : ∀ (st : GraphicsStack), st.self = { self1 with all_libc_from_host := true } →
      ∀ i ∈ List.range (N_MULTIARCH - 1),
        use_host_graphics_stack_arch env system_info i st w1 = (w1, .ok st)) :
    pv_runtime_use_host_graphics_stack env system_info self w bwrap =
      (w1, .error no_architecture_message) := by
  unfold pv_runtime_use_host_graphics_stack
  rw [hacc]
  simp only
  rw [loop_all_skipped env system_info _ w1 _ (h _ rfl)]
  rfl

/-- C6 (no common architecture) fails with a mutable sysroot.  On
`img_arch` with only the capture tool of `x86_64-linux-gnu`, no architecture
is viable: the 64-bit `ld.so` is not in the runtime, the 32-bit capture tool
does not run.  With the runtime used in place the error is the one of
lines 2590 to 2593; with a mutable sysroot it is the error of
`pv_resolve_in_sysroot` instead. -/
theorem no_common_architecture_message_lost :
    (composed_arch env_arch_64 (some ["var", "pv"])).value.map PvRuntime.mutable_sysroot_fd
        = some (some ["var", "pv", "tmp-AAAAAA"]) ∧
    pv_resolve_in_sysroot (composed_arch env_arch_64 (some ["var", "pv"])).1.fs
        ["var", "pv", "tmp-AAAAAA"] (path_components "/lib64/ld-linux-x86-64.so.2")
        = .error .ENOENT ∧
    env_arch_64.capture_output img_arch
        ["/tools/i386-linux-gnu-capsule-capture-libs", "--print-ld.so"] = none ∧
    (graphics_run env_arch_64 none).message = some no_architecture_message ∧
    (graphics_run env_arch_64 (some ["var", "pv"])).message
        = some (pv_resolve_in_sysroot_error "/lib64/ld-linux-x86-64.so.2") ∧
    (graphics_run env_arch_64 (some ["var", "pv"])).message ≠ some no_architecture_message := by
  decide

/-- C7 (an unresolvable `ld.so` skips the architecture) fails with a mutable
sysroot.  On `img_arch` the capture tools of both architectures run and only
the 32-bit `ld.so` is in the runtime.  With the runtime used in place,
`x86_64-linux-gnu` is skipped and `i386-linux-gnu` is used; with a mutable
sysroot, in which the 32-bit `ld.so` resolves too, the function returns the
error of `pv_resolve_in_sysroot` for the 64-bit `ld.so` and runs no
helper. -/
theorem unresolvable_ld_so_aborts :
    (graphics_run env_arch none).value.map
        (fun st => (st.any_architecture_works, st.dri_path))
        = some (true, "/overrides/lib/i386-linux-gnu/dri") ∧
    pv_resolve_in_sysroot (composed_arch env_arch (some ["var", "pv"])).1.fs
        ["var", "pv", "tmp-AAAAAA"] (path_components "/lib64/ld-linux-x86-64.so.2")
        = .error .ENOENT ∧
    pv_resolve_in_sysroot (composed_arch env_arch (some ["var", "pv"])).1.fs
        ["var", "pv", "tmp-AAAAAA"] (path_components "/lib/ld-linux.so.2")
        = .ok ["var", "pv", "tmp-AAAAAA", "usr", "lib", "ld-linux.so.2"] ∧
    (graphics_run env_arch (some ["var", "pv"])).message
        = some (pv_resolve_in_sysroot_error "/lib64/ld-linux-x86-64.so.2") ∧
    (graphics_run env_arch (some ["var", "pv"])).1.spawned = [] := by
  decide

/-! ## Witnesses for `bind_icd` and the removal of overridden libraries -/

/-- Witness of `bind_icd_empty_capture`: the capture helper finds nothing for
the first EGL ICD. -/
theorem bind_icd_empty_capture_witness :
    ∃ details2,
      bind_icd {} self_plain { fs := host_plain } arch_plain 0 "glvnd" egl_nvidia =
        ({ capture_nothing.1 with fs := fs_del capture_nothing.1.fs staging_egl },
          .ok ((capture_nothing.value.getD (self_plain, egl_nvidia)).1, details2)) ∧
      details2.kind arch_plain.multiarch_index = .ICD_KIND_NONEXISTENT ∧
      details2.path_in_container arch_plain.multiarch_index = none ∧
      capture_nothing.1.spawned = ({ fs := host_plain } : World).spawned ++
        [capture_libs_argv (capture_nothing.value.getD (self_plain, egl_nvidia)).1 arch_plain
          (icd_on_host arch_plain 0 "glvnd")
          [icd_pattern "path" "/usr/lib/x86_64-linux-gnu/libEGL_nvidia.so.0"]] :=
  bind_icd_empty_capture {} self_plain (capture_nothing.value.getD (self_plain, egl_nvidia)).1
    { fs := host_plain } capture_nothing.1 arch_plain 0 "glvnd"
    "/usr/lib/x86_64-linux-gnu/libEGL_nvidia.so.0" egl_nvidia
    (capture_nothing.value.getD (self_plain, egl_nvidia)).2 staging_egl
    rfl (by decide) (by decide) (by decide) (by decide)

/-- Witness of `bind_icd_container_path`: the first EGL ICD, whose library the
capture helper finds. -/
theorem bind_icd_container_path_witness :
    if g_path_is_absolute "/usr/lib/x86_64-linux-gnu/libEGL_nvidia.so.0" then
      (bound_found.value.getD (self_plain, egl_nvidia)).2.kind arch_plain.multiarch_index
        = .ICD_KIND_ABSOLUTE ∧
      (bound_found.value.getD (self_plain, egl_nvidia)).2.path_in_container
          arch_plain.multiarch_index =
        some (if 0 = G_MAXSIZE then
            arch_plain.libdir_in_container ++ "/" ++ "glvnd" ++ "/"
              ++ glnx_basename "/usr/lib/x86_64-linux-gnu/libEGL_nvidia.so.0"
          else
            arch_plain.libdir_in_container ++ "/" ++ "glvnd" ++ "/" ++ gsize_to_string 0
              ++ "/" ++ glnx_basename "/usr/lib/x86_64-linux-gnu/libEGL_nvidia.so.0")
    else
      (bound_found.value.getD (self_plain, egl_nvidia)).2.kind arch_plain.multiarch_index
        = .ICD_KIND_SONAME ∧
      (bound_found.value.getD (self_plain, egl_nvidia)).2.path_in_container
          arch_plain.multiarch_index = none :=
  bind_icd_container_path env_capture self_plain
    (capture_found.value.getD (self_plain, egl_nvidia)).1
    (bound_found.value.getD (self_plain, egl_nvidia)).1
    { fs := host_plain } capture_found.1 bound_found.1 arch_plain 0 "glvnd"
    "/usr/lib/x86_64-linux-gnu/libEGL_nvidia.so.0" egl_nvidia
    (capture_found.value.getD (self_plain, egl_nvidia)).2
    (bound_found.value.getD (self_plain, egl_nvidia)).2
    rfl (by decide) (by decide) (by decide) (by decide) (by decide) (by decide) (by decide)
    (fun _ => ⟨staging_egl, by decide, by decide⟩) (by decide)

/-- The example of the specification: the first EGL ICD is recorded at
`/overrides/lib/x86_64-linux-gnu/glvnd/0/libEGL_nvidia.so.0`. -/
theorem bind_icd_egl_example :
    bound_found.value.map (fun r => r.2.path_in_container 0)
      = some (some "/overrides/lib/x86_64-linux-gnu/glvnd/0/libEGL_nvidia.so.0") := by
  decide

/-- Counterexample to C10 as stated: after a successful
`pv_runtime_remove_overridden_libraries` on `sysroot_captured`, the names
`libbar.so.1` (a directory in the sysroot) and `ld-linux-x86-64.so.2` (a
name that does not start with `lib`) are still in the sysroot's
`usr/lib/x86_64-linux-gnu`, although both exist as symbolic links under
`overrides/lib/x86_64-linux-gnu`. -/
theorem remove_overridden_leaves_entries :
    removed_overridden.2 = .ok () ∧
    pv_resolve_in_sysroot sysroot_captured ["var", "pv", "tmp-AAAAAA"]
        ["usr", "lib", "x86_64-linux-gnu"] = .ok sysroot_libdir ∧
    g_file_test_is_symlink sysroot_captured [] (arch_mutable.libdir_on_host ++ ["libbar.so.1"])
        = true ∧
    g_file_test_is_symlink sysroot_captured []
        (arch_mutable.libdir_on_host ++ ["ld-linux-x86-64.so.2"]) = true ∧
    readdir removed_overridden.1.fs sysroot_libdir
        = [⟨"libbar.so.1", .DT_DIR⟩, ⟨"ld-linux-x86-64.so.2", .DT_REG⟩] := by
  decide

/-- Witness of `remove_overridden_single_provider`: the regular file
`libfoo.so.1` of the sysroot is removed. -/
theorem remove_overridden_single_provider_witness :
    fs_get removed_overridden.1.fs (sysroot_libdir ++ ["libfoo.so.1"]) = none :=
  remove_overridden_single_provider {} self_mutable { fs := sysroot_captured }
    removed_overridden.1 arch_mutable ["var", "pv", "tmp-AAAAAA"] "libfoo.so.1" ["usr", "lib"]
    sysroot_libdir rfl (by decide) (by decide) (by decide) (Or.inr (by decide)) (by decide)
    (by decide) (by decide) rfl

/-! ## Capture expressions -/

/-- C15 (newer-wins policy in the fixed graphics-stack list): the list of
expressions passed to the capture helper for each architecture starts with
`gl:`; an entry carries the modifier `even-if-older` exactly when its
selector is a `soname-match:` expression (the NVIDIA stack); the entries
without that modifier are `gl:`, `libvulkan.so.1`, `libvdpau.so.1` and the
eight `libva` sonames. -/
theorem graphics_stack_newer_wins :
    graphics_stack_patterns.head? = some "gl:" ∧
    (∀ e ∈ graphics_stack_patterns,
      ("even-if-older" ∈ expr_modifiers e ↔
        g_str_has_prefix (expr_selector e) "soname-match:" = true)) ∧
    (graphics_stack_patterns.filter
        (fun e => !(expr_modifiers e).contains "even-if-older")).map expr_selector =
      ["gl:", "soname:libvulkan.so.1", "soname:libvdpau.so.1",
       "soname:libva.so.1", "soname:libva-drm.so.1", "soname:libva-glx.so.1",
       "soname:libva-x11.so.1", "soname:libva.so.2", "soname:libva-drm.so.2",
       "soname:libva-glx.so.2", "soname:libva-x11.so.2"] ∧
    (graphics_stack_patterns.filter
        (fun e => (expr_modifiers e).contains "even-if-older")).length = 34 := by
  decide

/-- Counterexample to C16 as stated: the expression of the capture of the
libraries that libc may load consists of the modifier `if-exists` followed
by the bare name `libidn2.so.0`, which is none of the selector tokens. -/
theorem libidn2_expression_has_no_selector :
    libidn2_pattern = "if-exists:libidn2.so.0" ∧
    expr_modifiers libidn2_pattern = ["if-exists"] ∧
    expr_selector libidn2_pattern = "libidn2.so.0" ∧
    well_formed_expr libidn2_pattern = false := by
  decide

theorem split_modifiers_stop (fuel : Nat) (e : List Char)
    (h : capture_modifiers.find? (fun m => (m.data ++ [':']).isPrefixOf e) = none) :
    split_modifiers fuel e = ([], e) := by
  cases fuel with
  | zero => rfl
  | succ n => simp only [split_modifiers, h]

theorem find_modifier (m : String) (hm : m ∈ capture_modifiers) (r : List Char) :
    capture_modifiers.find? (fun m1 => (m1.data ++ [':']).isPrefixOf (m.data ++ ':' :: r))
      = some m := by
  simp only [capture_modifiers, List.mem_cons, List.mem_singleton, List.not_mem_nil,
    or_false] at hm
  rcases hm with h | h | h | h | h <;> subst h <;>
    simp [capture_modifiers, List.find?, List.isPrefixOf]

/-- The text of a sequence of modifier tokens, each followed by `:`. -/
theorem split_modifiers_tokens (ms : List String) (hms : ∀ m ∈ ms, m ∈ capture_modifiers)
    (r : List Char)
    (hr : capture_modifiers.find? (fun m => (m.data ++ [':']).isPrefixOf r) = none) :
    ∀ fuel, ms.length ≤ fuel →
      split_modifiers fuel ((ms.map (fun m => m.data ++ [':'])).flatten ++ r) = (ms, r) := by
  induction ms with
  | nil => intro fuel _; simpa using split_modifiers_stop fuel r hr
  | cons m rest ih =>
    intro fuel hfuel
    cases fuel with
    | zero => simp at hfuel
    | succ n =>
      have hm := hms m (List.mem_cons_self _ _)
      have hfind := find_modifier m hm ((rest.map (fun m => m.data ++ [':'])).flatten ++ r)
      have hshape : ((m :: rest).map (fun m => m.data ++ [':'])).flatten ++ r =
          m.data ++ ':' :: ((rest.map (fun m => m.data ++ [':'])).flatten ++ r) := by
        simp only [List.map_cons, List.flatten_cons, List.append_assoc, List.singleton_append,
          List.cons_append, List.nil_append]
      rw [hshape]
      simp only [split_modifiers, hfind]
      have hdrop : List.drop (m.length + 1)
          (m.data ++ ':' :: ((rest.map (fun m => m.data ++ [':'])).flatten ++ r)) =
          (rest.map (fun m => m.data ++ [':'])).flatten ++ r := by
        have : m.data ++ ':' :: ((rest.map (fun m => m.data ++ [':'])).flatten ++ r) =
            (m.data ++ [':']) ++ ((rest.map (fun m => m.data ++ [':'])).flatten ++ r) := by
          simp only [List.append_assoc, List.singleton_append]
        rw [this]
        exact List.drop_left' (by
          rw [List.length_append, List.length_singleton]; rfl)
      rw [hdrop, ih (fun x hx => hms x (List.mem_cons_of_mem _ hx)) n (by simpa using hfuel)]

theorem expr_of_tokens (ms : List String) (hms : ∀ m ∈ ms, m ∈ capture_modifiers)
    (sel : String)
    (hsel : capture_modifiers.find? (fun m => (m.data ++ [':']).isPrefixOf sel.data) = none)
    (e : String) (he : e.data = (ms.map (fun m => m.data ++ [':'])).flatten ++ sel.data) :
    expr_modifiers e = ms ∧ expr_selector e = sel := by
  have hlen : ms.length ≤ e.length := by
    have h1 : ms.length ≤ ((ms.map (fun m => m.data ++ [':'])).flatten).length := by
      clear hms he
      induction ms with
      | nil => simp
      | cons m rest ih => simp only [List.map_cons, List.flatten_cons, List.length_append,
          List.length_cons, List.length_singleton]; omega
    simp only [String.length, he, List.length_append]
    omega
  have h := split_modifiers_tokens ms hms sel.data hsel e.length hlen
  unfold expr_modifiers expr_selector
  rw [he] at *
  rw [h]
  exact ⟨rfl, rfl⟩

theorem well_formed_icd_patterns (lib : String) :
    well_formed_expr (icd_pattern (icd_mode lib) lib) = true ∧
    well_formed_expr (icd_dependency_pattern (icd_mode lib) lib) = true := by
  by_cases habs : g_path_is_absolute lib = true
  · have hmode : icd_mode lib = "path" := by simp [icd_mode, habs]
    rw [hmode]
    have hsel : capture_modifiers.find?
        (fun m => (m.data ++ [':']).isPrefixOf ("path:" ++ lib).data) = none := by
      simp [capture_modifiers, List.find?, List.isPrefixOf, String.data_append]
    have hok : is_capture_selector ("path:" ++ lib) = true := by
      have h5 : ("path:" ++ lib).data.drop 5 = lib.data := by
        simp [String.data_append]
      have hp : g_str_has_prefix ("path:" ++ lib) "path:" = true := by
        simp [ g_str_has_prefix, String.data_append, List.isPrefixOf]
      have ha : g_path_is_absolute ⟨lib.data⟩ = true := habs
      simp [is_capture_selector, hp, h5, ha]
    constructor
    · have h := expr_of_tokens ["no-dependencies", "even-if-older", "if-exists", "if-same-abi"]
        (by decide) ("path:" ++ lib) hsel (icd_pattern "path" lib)
        (by simp [icd_pattern, bind_icd_options, String.data_append])
      unfold well_formed_expr; rw [h.2]; exact hok
    · have h := expr_of_tokens ["only-dependencies", "if-exists", "if-same-abi"]
        (by decide) ("path:" ++ lib) hsel (icd_dependency_pattern "path" lib)
        (by simp [icd_dependency_pattern, bind_icd_options, String.data_append])
      unfold well_formed_expr; rw [h.2]; exact hok
  · have hmode : icd_mode lib = "soname" := by simp [icd_mode, habs]
    rw [hmode]
    have hsel : capture_modifiers.find?
        (fun m => (m.data ++ [':']).isPrefixOf ("soname:" ++ lib).data) = none := by
      simp [capture_modifiers, List.find?, List.isPrefixOf, String.data_append]
    have hok : is_capture_selector ("soname:" ++ lib) = true := by
      have hp : g_str_has_prefix ("soname:" ++ lib) "soname:" = true := by
        simp [ g_str_has_prefix, String.data_append, List.isPrefixOf]
      simp [is_capture_selector, hp]
    constructor
    · have h := expr_of_tokens ["no-dependencies", "even-if-older", "if-exists", "if-same-abi"]
        (by decide) ("soname:" ++ lib) hsel (icd_pattern "soname" lib)
        (by simp [icd_pattern, bind_icd_options, String.data_append])
      unfold well_formed_expr; rw [h.2]; exact hok
    · have h := expr_of_tokens ["only-dependencies", "if-exists", "if-same-abi"]
        (by decide) ("soname:" ++ lib) hsel (icd_dependency_pattern "soname" lib)
        (by simp [icd_dependency_pattern, bind_icd_options, String.data_append])
      unfold well_formed_expr; rw [h.2]; exact hok

theorem well_formed_dri_patterns (libdir s2tc : String) :
    well_formed_expr (dri_pattern libdir) = true ∧
    well_formed_expr (s2tc_pattern s2tc) = true := by
  constructor
  · have hsel : capture_modifiers.find?
        (fun m => (m.data ++ [':']).isPrefixOf
          ("path-match:" ++ libdir ++ "/dri/*.so").data) = none := by
      simp [capture_modifiers, List.find?, List.isPrefixOf, String.data_append]
    have h := expr_of_tokens ["only-dependencies", "if-exists"] (by decide)
      ("path-match:" ++ libdir ++ "/dri/*.so") hsel (dri_pattern libdir)
      (by simp [dri_pattern, String.data_append])
    unfold well_formed_expr; rw [h.2]
    have hp : g_str_has_prefix ("path-match:" ++ libdir ++ "/dri/*.so") "path-match:" = true := by
      simp [ g_str_has_prefix, String.data_append, List.isPrefixOf]
    simp [is_capture_selector, hp]
  · have hsel : capture_modifiers.find?
        (fun m => (m.data ++ [':']).isPrefixOf ("path-match:" ++ s2tc).data) = none := by
      simp [capture_modifiers, List.find?, List.isPrefixOf, String.data_append]
    have h := expr_of_tokens [] (by simp) ("path-match:" ++ s2tc) hsel (s2tc_pattern s2tc)
      (by simp [s2tc_pattern, String.data_append])
    unfold well_formed_expr; rw [h.2]
    have hp : g_str_has_prefix ("path-match:" ++ s2tc) "path-match:" = true := by
      simp [ g_str_has_prefix, String.data_append, List.isPrefixOf]
    simp [is_capture_selector, hp]

/-- Amended C16 (capture expressions are well-formed): every expression of
the fixed graphics-stack list, both patterns of `bind_icd` for every resolved
library, and the DRI and `s2tc` patterns of `try_bind_dri` for every host
directory are a sequence of modifier tokens followed by one selector token
(`soname:`, `soname-match:`, `path:` with an absolute path, `path-match:` or
`gl:`); the libidn2 capture is the modifier `if-exists` followed by the bare
name `libidn2.so.0`, without a selector keyword. -/
theorem capture_expressions_well_formed (lib libdir s2tc : String) :
    (∀ e ∈ graphics_stack_patterns, well_formed_expr e = true) ∧
    well_formed_expr (icd_pattern (icd_mode lib) lib) = true ∧
    well_formed_expr (icd_dependency_pattern (icd_mode lib) lib) = true ∧
    well_formed_expr (dri_pattern libdir) = true ∧
    well_formed_expr (s2tc_pattern s2tc) = true ∧
    expr_modifiers libidn2_pattern = ["if-exists"] ∧
    expr_selector libidn2_pattern = "libidn2.so.0" :=
  ⟨by decide, (well_formed_icd_patterns lib).1, (well_formed_icd_patterns lib).2,
    (well_formed_dri_patterns libdir s2tc).1, (well_formed_dri_patterns libdir s2tc).2,
    by decide, by decide⟩

/-! ## Taking files from the host -/

theorem exists_of_is_dir {fs : FS} {base : Path} {rel : List String}
    (h : g_file_test_is_dir fs base rel = true) : g_file_test_exists fs base rel = true := by
  unfold g_file_test_is_dir at h
  unfold g_file_test_exists
  split at h
  · rename_i heq; rw [heq]
  · exact absurd h (by simp)

/-- What `pv_runtime_take_from_host` does with
`TAKE_FROM_HOST_FLAGS_IF_CONTAINER_COMPATIBLE` when there is no mutable
sysroot: it always succeeds, and binds the source exactly when the
destination in the runtime is a directory, whatever the source is. -/
theorem take_from_host_in_place (env : Env) (self : PvRuntime) (w : World)
    (bwrap : List String) (source_in_host dest_in_container : String)
    (hms : self.mutable_sysroot = none) :
    pv_runtime_take_from_host env self w bwrap source_in_host dest_in_container
        { if_container_compatible := true } =
      (w, .ok
        (if g_file_test_is_dir w.fs []
            (if g_str_has_prefix dest_in_container "/usr/" then
              self.runtime_usr ++ path_components ⟨dest_in_container.data.drop 5⟩
            else self.runtime_files ++ path_components dest_in_container) then
          bwrap ++ ["--ro-bind", source_in_host, dest_in_container]
        else bwrap)) := by
  unfold pv_runtime_take_from_host
  simp only [hms, Bool.false_and, Bool.false_eq_true, if_false, Bool.true_and]
  by_cases hsrc : g_file_test_is_dir w.fs [] (path_components source_in_host) = true
  · by_cases hd : g_file_test_is_dir w.fs []
        (if g_str_has_prefix dest_in_container "/usr/" then
          self.runtime_usr ++ path_components ⟨dest_in_container.data.drop 5⟩
        else self.runtime_files ++ path_components dest_in_container) = true
    · simp [hsrc, hd]
    · simp [hsrc, hd]
  · by_cases hd : g_file_test_is_dir w.fs []
        (if g_str_has_prefix dest_in_container "/usr/" then
          self.runtime_usr ++ path_components ⟨dest_in_container.data.drop 5⟩
        else self.runtime_files ++ path_components dest_in_container) = true
    · simp [hsrc, hd, exists_of_is_dir hd]
    · simp [hsrc, hd]

/-- C18 (kind-compatible bind of host files) fails for a host source that
is not a directory.  On `host_locale`, without a mutable sysroot and with
`TAKE_FROM_HOST_FLAGS_IF_CONTAINER_COMPATIBLE`: the host program
`/usr/bin/localedef` is not bound over the regular file
`/usr/bin/localedef` of the runtime, and the host program `/usr/bin/locale`
is bound over the directory `/usr/bin/locale` of the runtime.  For a source
that is a directory (`/usr/share/libdrm`) the destination directory is bound
as claimed. -/
theorem take_from_host_binds_file_over_directory :
    self_plain.mutable_sysroot = none ∧
    stat_at host_locale [] ["usr", "bin", "localedef"]
        = .ok (["usr", "bin", "localedef"], .file 30) ∧
    stat_at host_locale [] (self_plain.runtime_usr ++ ["bin", "localedef"])
        = .ok (["srv", "scout", "usr", "bin", "localedef"], .file 32) ∧
    pv_runtime_take_from_host {} self_plain { fs := host_locale } []
        "/usr/bin/localedef" "/usr/bin/localedef" if_container_compatible
        = ({ fs := host_locale }, .ok []) ∧
    stat_at host_locale [] ["usr", "bin", "locale"]
        = .ok (["usr", "bin", "locale"], .file 31) ∧
    stat_at host_locale [] (self_plain.runtime_usr ++ ["bin", "locale"])
        = .ok (["srv", "scout", "usr", "bin", "locale"], .dir) ∧
    pv_runtime_take_from_host {} self_plain { fs := host_locale } []
        "/usr/bin/locale" "/usr/bin/locale" if_container_compatible
        = ({ fs := host_locale }, .ok ["--ro-bind", "/usr/bin/locale", "/usr/bin/locale"]) ∧
    pv_runtime_take_from_host {} self_plain { fs := host_locale } []
        "/usr/share/libdrm" "/usr/share/libdrm" if_container_compatible
        = ({ fs := host_locale },
            .ok ["--ro-bind", "/usr/share/libdrm", "/usr/share/libdrm"]) := by
  decide

/-! ## Search paths -/

theorem build_path_fold_clean (rest : List String)
    (hrest : ∀ x ∈ rest, clean_head x = true ∧ clean_tail x = true) :
    ∀ (res : List Char),
      rest.foldl (fun st (e : String) => build_path_step st e.data)
        { result := res, is_first := false, have_leading := true,
          single_element := none, last_trailing := some [] } =
      { result := (rest.foldl (fun (acc : String) x => acc ++ "/" ++ x) ⟨res⟩).data,
        is_first := false, have_leading := true,
        single_element := none, last_trailing := some [] } := by
  induction rest with
  | nil => intro res; rfl
  | cons x xs ih =>
    intro res
    obtain ⟨h1, h2⟩ := hrest x (List.mem_cons_self _ _)
    obtain ⟨_, _, h1, h1'⟩ := clean_head_data h1
    obtain ⟨_, _, h2, h2'⟩ := clean_tail_data h2
    simp only [List.foldl_cons, build_path_step_next res h1 h1' h2 h2']
    rw [ih (fun y hy => hrest y (List.mem_cons_of_mem _ hy))]
    have hs : (⟨res ++ '/' :: x.data⟩ : String) = ⟨res⟩ ++ "/" ++ x := by
      apply String.ext; simp [String.data_append]
    rw [hs]

/-- `g_build_filename` of well-formed elements joins them with `/`. -/
theorem g_build_filename_clean (a : String) (rest : List String)
    (ha : clean_tail a = true)
    (hrest : ∀ x ∈ rest, clean_head x = true ∧ clean_tail x = true) :
    g_build_filename (a :: rest) = rest.foldl (fun acc x => acc ++ "/" ++ x) a := by
  obtain ⟨_, _, ha1, ha2⟩ := clean_tail_data ha
  apply String.ext
  have hmap : ∀ (l : List String) st,
      (l.map String.data).foldl build_path_step st =
        l.foldl (fun st (e : String) => build_path_step st e.data) st := by
    intro l
    induction l with
    | nil => intro st; rfl
    | cons y ys ih => intro st; simp only [List.map_cons, List.foldl_cons, ih]
  simp only [g_build_filename, build_path_chars, List.map_cons, List.foldl_cons,
    build_path_step_first ha1 ha2, hmap, build_path_fold_clean rest hrest,
    Option.getD, List.append_nil]

theorem search_path_append_first {item : String} (h : item.data ≠ []) :
    pv_search_path_append "" (some item) = item := by
  have h1 : item.data.isEmpty = false := by
    cases hd : item.data with
    | nil => exact absurd hd h
    | cons a as => rfl
  simp [pv_search_path_append, h1]

theorem search_path_append_next {path item : String} (hp : path.data ≠ [])
    (h : item.data ≠ []) :
    pv_search_path_append path (some item) = path ++ ":" ++ item := by
  have h1 : item.data.isEmpty = false := by
    cases hd : item.data with
    | nil => exact absurd hd h
    | cons a as => rfl
  have h2 : path.data.isEmpty = false := by
    cases hd : path.data with
    | nil => exact absurd hd hp
    | cons a as => rfl
  simp [pv_search_path_append, h1, h2]

/-- Amended C11 (`LD_LIBRARY_PATH`): `pv_runtime_set_search_paths` appends
`--setenv PATH /usr/bin:/bin` and `--setenv LD_LIBRARY_PATH v`, where `v` is
the colon-separated list of `<overrides_in_container>/lib/<tuple>` for all
declared tuples in declared order; it depends on nothing else, in particular
not on which architectures are viable. -/
theorem set_search_paths_all_tuples (self : PvRuntime) (bwrap : List String)
    (h : clean_tail self.overrides_in_container = true) :
    pv_runtime_set_search_paths self bwrap =
      bwrap ++ ["--setenv", "PATH", "/usr/bin:/bin", "--setenv", "LD_LIBRARY_PATH",
        self.overrides_in_container ++ "/lib/x86_64-linux-gnu" ++ ":" ++
          self.overrides_in_container ++ "/lib/i386-linux-gnu"] := by
  have h1 : g_build_filename [self.overrides_in_container, "lib", "x86_64-linux-gnu"] =
      self.overrides_in_container ++ "/lib/x86_64-linux-gnu" := by
    rw [g_build_filename_clean _ _ h (by decide)]
    apply String.ext; simp [String.data_append]
  have h2 : g_build_filename [self.overrides_in_container, "lib", "i386-linux-gnu"] =
      self.overrides_in_container ++ "/lib/i386-linux-gnu" := by
    rw [g_build_filename_clean _ _ h (by decide)]
    apply String.ext; simp [String.data_append]
  have hne1 : (self.overrides_in_container ++ "/lib/x86_64-linux-gnu").data ≠ [] := by
    simp [String.data_append]
  have hne2 : (self.overrides_in_container ++ "/lib/i386-linux-gnu").data ≠ [] := by
    simp [String.data_append]
  simp only [pv_runtime_set_search_paths, multiarch_tuples, List.foldl_cons, List.foldl_nil,
    h1, h2, search_path_append_first hne1, search_path_append_next hne1 hne2,
    String.append_assoc]

/-- Witness of `set_search_paths_all_tuples` for a runtime used in place. -/
theorem set_search_paths_all_tuples_witness :
    pv_runtime_set_search_paths self_plain [] =
      [] ++ ["--setenv", "PATH", "/usr/bin:/bin", "--setenv", "LD_LIBRARY_PATH",
        self_plain.overrides_in_container ++ "/lib/x86_64-linux-gnu" ++ ":" ++
          self_plain.overrides_in_container ++ "/lib/i386-linux-gnu"] :=
  set_search_paths_all_tuples self_plain [] (by decide)

/-- Counterexample to C11 as stated: on `img_arch`, used in place, only
`i386-linux-gnu` is viable; the value of `LD_LIBRARY_PATH` begins with the
directory of `x86_64-linux-gnu`, so the directories of the viable
architectures are not a prefix of the list. -/
theorem ld_library_path_lists_unused_architecture :
    (composed_arch env_arch none).value.map
        (fun self => (viable_architecture env_arch self (composed_arch env_arch none).1.fs 0,
          (viable_architecture env_arch self (composed_arch env_arch none).1.fs 1).map
            (fun a => a.1.tuple)))
        = some (none, some "i386-linux-gnu") ∧
    (graphics_run env_arch none).value.map
        (fun st => pv_runtime_set_search_paths st.self [])
        = some ["--setenv", "PATH", "/usr/bin:/bin", "--setenv", "LD_LIBRARY_PATH",
            "/overrides/lib/x86_64-linux-gnu:/overrides/lib/i386-linux-gnu"] ∧
    ¬ (["/overrides/lib/i386-linux-gnu"] <+:
        ["/overrides/lib/x86_64-linux-gnu", "/overrides/lib/i386-linux-gnu"]) := by
  decide

/-! ## What the steps of the loop leave unchanged -/

theorem same_runtime_refl (s : PvRuntime) : same_runtime s s := by
  cases s; rfl

theorem same_runtime_trans {a b c : PvRuntime} (h1 : same_runtime a b)
    (h2 : same_runtime b c) : same_runtime a c := by
  unfold same_runtime at *
  rw [h2, h1]

theorem same_runtime_flags {s s1 : PvRuntime} (h : same_runtime s s1) :
    s1.any_libc_from_host = s.any_libc_from_host ∧
    s1.all_libc_from_host = s.all_libc_from_host ∧
    s1.overrides_in_container = s.overrides_in_container ∧
    s1.overrides = s.overrides ∧
    s1.mutable_sysroot = s.mutable_sysroot := by
  unfold same_runtime at h
  rw [h]
  exact ⟨rfl, rfl, rfl, rfl, rfl⟩

theorem provide_container_access_same {self self1 : PvRuntime} {w w1 : World}
    (h : pv_runtime_provide_container_access self w = (w1, .ok self1)) :
    same_runtime self self1 := by
  unfold pv_runtime_provide_container_access at h
  split at h
  · simp only [Prod.mk.injEq, Except.ok.injEq] at h; rw [← h.2]; exact same_runtime_refl _
  · split at h
    · simp only [Prod.mk.injEq, Except.ok.injEq] at h; rw [← h.2]; rfl
    · split at h
      · simp only at h
        split at h
        · simp only [Prod.mk.injEq] at h; exact absurd h.2 (by simp)
        · simp only [Prod.mk.injEq, Except.ok.injEq] at h; rw [← h.2]; rfl
      · simp only [Prod.mk.injEq] at h; exact absurd h.2 (by simp)

theorem bind_icd_same {env : Env} {self self1 : PvRuntime} {w w1 : World}
    {arch : RuntimeArchitecture} {sequence_number : Nat} {subdir : String}
    {details details1 : IcdDetails}
    (h : bind_icd env self w arch sequence_number subdir details = (w1, .ok (self1, details1))) :
    same_runtime self self1 := by
  unfold bind_icd at h
  split at h
  · simp only [Prod.mk.injEq] at h; exact absurd h.2 (by simp)
  · rename_i w2 self2 details2 hcap
    have h2 : same_runtime self self2 := by
      unfold bind_icd_capture at hcap
      split at hcap
      · simp only [Prod.mk.injEq] at hcap; exact absurd hcap.2 (by simp)
      · split at hcap
        · simp only [Prod.mk.injEq] at hcap; exact absurd hcap.2 (by simp)
        · simp only at hcap
          split at hcap
          · simp only [Prod.mk.injEq] at hcap; exact absurd hcap.2 (by simp)
          · split at hcap
            · simp only [Prod.mk.injEq] at hcap; exact absurd hcap.2 (by simp)
            · split at hcap
              · simp only [Prod.mk.injEq] at hcap; exact absurd hcap.2 (by simp)
              · rename_i hacc
                split at hcap
                · simp only [Prod.mk.injEq] at hcap; exact absurd hcap.2 (by simp)
                · simp only [Prod.mk.injEq, Except.ok.injEq] at hcap
                  rw [← hcap.2.1]
                  exact provide_container_access_same hacc
    have h3 : self1 = self2 := by
      unfold bind_icd_finish at h
      simp only at h
      split at h
      · simp only [Prod.mk.injEq, Except.ok.injEq] at h; exact h.2.1.symm
      · split at h
        · simp only [Prod.mk.injEq] at h; exact absurd h.2 (by simp)
        · split at h
          · simp only [Prod.mk.injEq, Except.ok.injEq] at h; exact h.2.1.symm
          · simp only [Prod.mk.injEq, Except.ok.injEq] at h; exact h.2.1.symm
    rw [h3]; exact h2

theorem bind_icd_details_same {env : Env} {arch : RuntimeArchitecture} {subdir : String}
    {seq : Nat → Nat} :
    ∀ (ds : List IcdDetails) (j : Nat) (self self1 : PvRuntime) (w w1 : World)
      (ds1 : List IcdDetails),
      bind_icd_details env arch subdir seq j ds self w = (w1, .ok (self1, ds1)) →
      same_runtime self self1 := by
  intro ds
  induction ds with
  | nil =>
    intro j self self1 w w1 ds1 h
    simp only [bind_icd_details, Prod.mk.injEq, Except.ok.injEq] at h
    rw [← h.2.1]; exact same_runtime_refl _
  | cons d rest ih =>
    intro j self self1 w w1 ds1 h
    unfold bind_icd_details at h
    split at h
    · split at h
      · simp only [Prod.mk.injEq] at h; exact absurd h.2 (by simp)
      · rename_i hrec
        simp only [Prod.mk.injEq, Except.ok.injEq] at h
        rw [← h.2.1]; exact ih _ _ _ _ _ _ hrec
    · split at h
      · simp only [Prod.mk.injEq] at h; exact absurd h.2 (by simp)
      · rename_i hb
        split at h
        · simp only [Prod.mk.injEq] at h; exact absurd h.2 (by simp)
        · rename_i hrec
          simp only [Prod.mk.injEq, Except.ok.injEq] at h
          rw [← h.2.1]
          exact same_runtime_trans (bind_icd_same hb) (ih _ _ _ _ _ _ hrec)

theorem bind_drivers_same {env : Env} {arch : RuntimeArchitecture} {subdir : String}
    {seq : Nat → Nat} :
    ∀ (icds : List Icd) (j : Nat) (self self1 : PvRuntime) (w w1 : World)
      (ds1 : List IcdDetails),
      bind_drivers env arch subdir seq j icds self w = (w1, .ok (self1, ds1)) →
      same_runtime self self1 := by
  intro icds
  induction icds with
  | nil =>
    intro j self self1 w w1 ds1 h
    simp only [bind_drivers, Prod.mk.injEq, Except.ok.injEq] at h
    rw [← h.2.1]; exact same_runtime_refl _
  | cons d rest ih =>
    intro j self self1 w w1 ds1 h
    unfold bind_drivers at h
    split at h
    · simp only [Prod.mk.injEq] at h; exact absurd h.2 (by simp)
    · split at h
      · simp only [Prod.mk.injEq] at h; exact absurd h.2 (by simp)
      · rename_i hb
        split at h
        · simp only [Prod.mk.injEq] at h; exact absurd h.2 (by simp)
        · rename_i hrec
          simp only [Prod.mk.injEq, Except.ok.injEq] at h
          rw [← h.2.1]
          exact same_runtime_trans (bind_icd_same hb) (ih _ _ _ _ _ _ hrec)

theorem try_bind_dri_same {env : Env} {self self1 : PvRuntime} {w w1 : World}
    {arch : RuntimeArchitecture} {libdir : String}
    (h : try_bind_dri env self w arch libdir = (w1, .ok self1)) :
    same_runtime self self1 := by
  unfold try_bind_dri at h
  simp only at h
  split at h
  · simp only [Prod.mk.injEq] at h; exact absurd h.2 (by simp)
  · rename_i w3 self3 hbound
    have h3 : same_runtime self self3 := by
      split at hbound
      · split at hbound
        · simp only [Prod.mk.injEq] at hbound; exact absurd hbound.2 (by simp)
        · rename_i hacc
          split at hbound
          · simp only [Prod.mk.injEq] at hbound; exact absurd hbound.2 (by simp)
          · split at hbound
            · simp only [Prod.mk.injEq] at hbound; exact absurd hbound.2 (by simp)
            · split at hbound
              · simp only [Prod.mk.injEq] at hbound; exact absurd hbound.2 (by simp)
              · simp only [Prod.mk.injEq, Except.ok.injEq] at hbound
                rw [← hbound.2]; exact provide_container_access_same hacc
      · simp only [Prod.mk.injEq, Except.ok.injEq] at hbound
        rw [← hbound.2]; exact same_runtime_refl _
    split at h
    · split at h
      · simp only [Prod.mk.injEq] at h; exact absurd h.2 (by simp)
      · rename_i hacc
        split at h
        · simp only [Prod.mk.injEq] at h; exact absurd h.2 (by simp)
        · simp only [Prod.mk.injEq, Except.ok.injEq] at h
          rw [← h.2]
          exact same_runtime_trans h3 (provide_container_access_same hacc)
    · simp only [Prod.mk.injEq, Except.ok.injEq] at h
      rw [← h.2]; exact h3

theorem try_bind_dri_dirs_same {env : Env} {arch : RuntimeArchitecture} :
    ∀ (dirs : List String) (self self1 : PvRuntime) (w w1 : World),
      try_bind_dri_dirs env arch dirs self w = (w1, .ok self1) → same_runtime self self1 := by
  intro dirs
  induction dirs with
  | nil =>
    intro self self1 w w1 h
    simp only [try_bind_dri_dirs, Prod.mk.injEq, Except.ok.injEq] at h
    rw [← h.2]; exact same_runtime_refl _
  | cons d rest ih =>
    intro self self1 w w1 h
    unfold try_bind_dri_dirs at h
    split at h
    · simp only [Prod.mk.injEq] at h; exact absurd h.2 (by simp)
    · rename_i hb
      exact same_runtime_trans (try_bind_dri_same hb) (ih _ _ _ _ h)

/-! ## One architecture -/

theorem use_arch_capture_ok {env : Env} {system_info : SrtSystemInfo}
    {arch : RuntimeArchitecture} {st st7 : GraphicsStack} {w w7 : World}
    (h : use_arch_capture env system_info arch st w = (w7, .ok st7)) :
    st7.dri_path = pv_search_path_append st.dri_path
        (some (g_build_filename [arch.libdir_in_container, "dri"])) ∧
    st7.any_architecture_works = true ∧
    same_runtime st.self st7.self := by
  unfold use_arch_capture at h
  simp only at h
  split at h
  · simp only [Prod.mk.injEq] at h; exact absurd h.2 (by simp)
  · split at h
    · simp only [Prod.mk.injEq] at h; exact absurd h.2 (by simp)
    · rename_i h3
      split at h
      · simp only [Prod.mk.injEq] at h; exact absurd h.2 (by simp)
      · rename_i h4
        split at h
        · simp only [Prod.mk.injEq] at h; exact absurd h.2 (by simp)
        · rename_i h5
          split at h
          · simp only [Prod.mk.injEq] at h; exact absurd h.2 (by simp)
          · rename_i h6
            split at h
            · simp only [Prod.mk.injEq] at h; exact absurd h.2 (by simp)
            · simp only [Prod.mk.injEq, Except.ok.injEq] at h
              rw [← h.2]
              refine ⟨rfl, rfl, ?_⟩
              exact same_runtime_trans (bind_icd_details_same _ _ _ _ _ _ _ h3)
                (same_runtime_trans (bind_icd_details_same _ _ _ _ _ _ _ h4)
                  (same_runtime_trans (bind_drivers_same _ _ _ _ _ _ _ h5)
                    (bind_drivers_same _ _ _ _ _ _ _ h6)))

theorem use_arch_libc_ok {env : Env} {arch : RuntimeArchitecture} {ld_so_in_runtime : String}
    {st7 st10 : GraphicsStack} {w7 w10 : World}
    (h : use_arch_libc env arch ld_so_in_runtime st7 w7 = (w10, .ok st10)) :
    st10.dri_path = st7.dri_path ∧
    st10.any_architecture_works = st7.any_architecture_works ∧
    st10.self =
      (if g_file_test_is_symlink w7.fs [] (arch.libdir_on_host ++ ["libc.so.6"]) then
        { st7.self with any_libc_from_host := true }
      else { st7.self with all_libc_from_host := false }) := by
  unfold use_arch_libc at h
  simp only at h
  split at h
  · rename_i hsym
    split at h
    · simp only [Prod.mk.injEq] at h; exact absurd h.2 (by simp)
    · split at h
      · simp only [Prod.mk.injEq] at h; exact absurd h.2 (by simp)
      · simp only [Prod.mk.injEq, Except.ok.injEq] at h
        rw [← h.2, if_pos hsym]
        exact ⟨rfl, rfl, rfl⟩
  · rename_i hsym
    simp only [Prod.mk.injEq, Except.ok.injEq] at h
    rw [← h.2, if_neg hsym]
    exact ⟨rfl, rfl, rfl⟩

theorem use_arch_dri_ok {env : Env} {arch : RuntimeArchitecture}
    {st10 st12 : GraphicsStack} {w10 w12 : World}
    (h : use_arch_dri env arch st10 w10 = (w12, .ok st12)) :
    st12.dri_path = st10.dri_path ∧
    st12.any_architecture_works = st10.any_architecture_works ∧
    same_runtime st10.self st12.self := by
  unfold use_arch_dri at h
  simp only at h
  split at h
  · simp only [Prod.mk.injEq] at h; exact absurd h.2 (by simp)
  · rename_i hdri
    simp only [Prod.mk.injEq, Except.ok.injEq] at h
    rw [← h.2]
    have hs := try_bind_dri_dirs_same _ _ _ _ _ hdri
    split at hs <;> (try split at hs) <;> (try split at hs) <;>
      (split <;> (try split) <;> (try split) <;> exact ⟨rfl, rfl, hs⟩)

/-! ## The loop over the architectures: search path and libc flags -/

/-- What a successful iteration of the loop does to the DRI search path and
to the libc flags: nothing if the architecture is not viable; for a viable
architecture its `dri` directory is appended, and the flags record whether
`libc.so.6` was a symbolic link after the capture. -/
theorem arch_step {env : Env} {system_info : SrtSystemInfo} {i : Nat}
    {st st1 : GraphicsStack} {w w1 : World}
    (h : use_host_graphics_stack_arch env system_info i st w = (w1, .ok st1)) :
    match viable_architecture env st.self w.fs i with
    | none => st1 = st ∧ w1 = w
    | some (arch, _) =>
      st1.dri_path = pv_search_path_append st.dri_path
        (some (g_build_filename [arch.libdir_in_container, "dri"])) ∧
      st1.any_architecture_works = true ∧
      ∃ w7 st7, use_arch_capture env system_info arch st w = (w7, .ok st7) ∧
        st1.self.any_libc_from_host = (st.self.any_libc_from_host ||
          g_file_test_is_symlink w7.fs [] (arch.libdir_on_host ++ ["libc.so.6"])) ∧
        st1.self.all_libc_from_host = (st.self.all_libc_from_host &&
          g_file_test_is_symlink w7.fs [] (arch.libdir_on_host ++ ["libc.so.6"])) := by
  unfold use_host_graphics_stack_arch at h
  unfold viable_architecture
  cases harch : runtime_architecture_init env st.self w.fs i with
  | none =>
    rw [harch] at h
    simp only [Prod.mk.injEq, Except.ok.injEq] at h
    exact ⟨h.2.symm, h.1.symm⟩
  | some arch =>
    rw [harch] at h
    simp only at h ⊢
    cases hres : resolve_ld_so env st.self w.fs arch with
    | failed e =>
      rw [hres] at h
      simp only [Prod.mk.injEq] at h
      exact absurd h.2 (by simp)
    | missing =>
      rw [hres] at h
      simp only [Prod.mk.injEq, Except.ok.injEq] at h
      exact ⟨h.2.symm, h.1.symm⟩
    | found ld =>
      rw [hres] at h
      simp only at h ⊢
      unfold use_arch at h
      split at h
      · simp only [Prod.mk.injEq] at h; exact absurd h.2 (by simp)
      · rename_i w7 st7 hcap
        split at h
        · simp only [Prod.mk.injEq] at h; exact absurd h.2 (by simp)
        · rename_i w10 st10 hlibc
          obtain ⟨hc1, hc2, hc3⟩ := use_arch_capture_ok hcap
          obtain ⟨hl1, hl2, hl3⟩ := use_arch_libc_ok hlibc
          obtain ⟨hd1, hd2, hd3⟩ := use_arch_dri_ok h
          obtain ⟨f1, f2, _⟩ := same_runtime_flags hc3
          obtain ⟨g1, g2, _⟩ := same_runtime_flags hd3
          refine ⟨by rw [hd1, hl1, hc1], by rw [hd2, hl2, hc2], w7, st7, hcap, ?_, ?_⟩
          · rw [g1, hl3]
            split
            · rename_i hs; simp [hs]
            · rename_i hs; simp [hs, f1]
          · rw [g2, hl3]
            split
            · rename_i hs; simp [hs, f2]
            · rename_i hs; simp [hs]

theorem loop_dri_path (env : Env) (system_info : SrtSystemInfo) :
    ∀ (tuples : List Nat) (st st1 : GraphicsStack) (w w1 : World),
      use_host_graphics_stack_loop env system_info tuples st w = (w1, .ok st1) →
      st1.dri_path =
        ((loop_viable env system_info tuples st w).map
          (fun a => g_build_filename [a.libdir_in_container, "dri"])).foldl
          (fun path item => pv_search_path_append path (some item)) st.dri_path := by
  intro tuples
  induction tuples with
  | nil =>
    intro st st1 w w1 h
    simp only [use_host_graphics_stack_loop, Prod.mk.injEq, Except.ok.injEq] at h
    rw [← h.2]; rfl
  | cons i rest ih =>
    intro st st1 w w1 h
    unfold use_host_graphics_stack_loop at h
    split at h
    · simp only [Prod.mk.injEq] at h; exact absurd h.2 (by simp)
    · rename_i w2 st2 hstep
      have hrec := ih _ _ _ _ h
      have hs := arch_step hstep
      simp only [loop_viable, hstep]
      cases hv : viable_architecture env st.self w.fs i with
      | none =>
        rw [hv] at hs
        simp only at hs
        rw [hrec, hs.1]
        simp
      | some p =>
        obtain ⟨arch, ld⟩ := p
        rw [hv] at hs
        simp only at hs
        rw [hrec, hs.1]
        simp

theorem loop_libc_flags (env : Env) (system_info : SrtSystemInfo) :
    ∀ (tuples : List Nat) (st st1 : GraphicsStack) (w w1 : World),
      use_host_graphics_stack_loop env system_info tuples st w = (w1, .ok st1) →
      st1.self.any_libc_from_host = (st.self.any_libc_from_host ||
        (loop_libc env system_info tuples st w).any id) ∧
      st1.self.all_libc_from_host = (st.self.all_libc_from_host &&
        (loop_libc env system_info tuples st w).all id) := by
  intro tuples
  induction tuples with
  | nil =>
    intro st st1 w w1 h
    simp only [use_host_graphics_stack_loop, Prod.mk.injEq, Except.ok.injEq] at h
    rw [← h.2]; simp [loop_libc]
  | cons i rest ih =>
    intro st st1 w w1 h
    unfold use_host_graphics_stack_loop at h
    split at h
    · simp only [Prod.mk.injEq] at h; exact absurd h.2 (by simp)
    · rename_i w2 st2 hstep
      obtain ⟨hrec1, hrec2⟩ := ih _ _ _ _ h
      have hs := arch_step hstep
      simp only [loop_libc, hstep]
      cases hv : viable_architecture env st.self w.fs i with
      | none =>
        rw [hv] at hs
        simp only at hs
        rw [hrec1, hrec2, hs.1]
        simp
      | some p =>
        obtain ⟨arch, ld⟩ := p
        rw [hv] at hs
        simp only at hs
        obtain ⟨_, _, w7, st7, hcap, ha, hb⟩ := hs
        rw [hrec1, hrec2, ha, hb]
        simp only [hcap, List.singleton_append, List.any_cons, List.all_cons, id]
        constructor
        · rw [Bool.or_assoc]
        · rw [Bool.and_assoc]

theorem loop_viable_order (env : Env) (system_info : SrtSystemInfo) :
    ∀ (tuples : List Nat) (st : GraphicsStack) (w : World),
      ((loop_viable env system_info tuples st w).map
          RuntimeArchitecture.multiarch_index).Sublist tuples ∧
      ∀ a ∈ loop_viable env system_info tuples st w,
        multiarch_tuples.get? a.multiarch_index = some a.tuple := by
  intro tuples
  induction tuples with
  | nil => intro st w; simp [loop_viable]
  | cons i rest ih =>
    intro st w
    unfold loop_viable
    split
    · simp
    · rename_i w1 st1 hstep
      obtain ⟨ih1, ih2⟩ := ih st1 w1
      cases hv : viable_architecture env st.self w.fs i with
      | none =>
        simp only [Option.map_none', Option.toList_none, List.nil_append]
        exact ⟨ih1.cons _, ih2⟩
      | some p =>
        obtain ⟨arch, ld⟩ := p
        have harch : arch.multiarch_index = i ∧
            multiarch_tuples.get? arch.multiarch_index = some arch.tuple := by
          unfold viable_architecture at hv
          cases hinit : runtime_architecture_init env st.self w.fs i with
          | none => rw [hinit] at hv; simp at hv
          | some arch1 =>
            rw [hinit] at hv
            simp only at hv
            have : arch1 = arch := by
              split at hv
              · simp only [Option.some.injEq, Prod.mk.injEq] at hv; exact hv.1
              · simp at hv
            subst this
            unfold runtime_architecture_init at hinit
            split at hinit
            · rename_i tuple libqual ht hl
              simp only at hinit
              split at hinit
              · simp at hinit
              · simp only [Option.some.injEq] at hinit
                rw [← hinit]
                exact ⟨rfl, ht⟩
            · simp at hinit
        simp only [Option.map_some', Option.toList_some, List.singleton_append, List.map_cons,
          List.mem_cons]
        refine ⟨?_, ?_⟩
        · rw [harch.1]; exact ih1.cons₂ _
        · intro a ha
          rcases ha with ha | ha
          · rw [ha]; exact harch.2
          · exact ih2 a ha

/-! ## Search paths as colon-separated lists -/

theorem search_path_fold (items : List String) (hne : ∀ x ∈ items, x.data ≠ []) :
    ∀ (acc : String), acc.data ≠ [] →
      items.foldl (fun path item => pv_search_path_append path (some item)) acc =
        String.intercalate.go acc ":" items := by
  induction items with
  | nil => intro acc _; rfl
  | cons x xs ih =>
    intro acc hacc
    have hx := hne x (List.mem_cons_self _ _)
    simp only [List.foldl_cons, String.intercalate.go, search_path_append_next hacc hx]
    exact ih (fun y hy => hne y (List.mem_cons_of_mem _ hy)) _
      (by simp [String.data_append])

/-- Appending non-empty items to an empty search path gives the items
separated by colons. -/
theorem search_path_of_eq (items : List String) (hne : ∀ x ∈ items, x.data ≠ []) :
    search_path_of items = ":".intercalate items := by
  cases items with
  | nil => rfl
  | cons x xs =>
    have hx := hne x (List.mem_cons_self _ _)
    simp only [search_path_of, List.foldl_cons, String.intercalate,
      search_path_append_first hx]
    exact search_path_fold xs (fun y hy => hne y (List.mem_cons_of_mem _ hy)) x hx

theorem build_path_step_leading (st : BuildPathState) (e : List Char) (he : e ≠ []) :
    (build_path_step st e).have_leading = true := by
  have h1 : e.isEmpty = false := by
    cases e with
    | nil => exact absurd rfl he
    | cons a as => rfl
  unfold build_path_step
  simp only [h1, Bool.false_eq_true, if_false]
  by_cases hl : st.have_leading = true <;>
    by_cases hc : (strip_trailing_sep (List.dropWhile (fun c => c == '/') e)).isEmpty = true <;>
    simp [hl, hc]

theorem build_path_step_dri (st : BuildPathState) (h : st.have_leading = true) :
    (build_path_step st "dri".data).single_element = none ∧
    (build_path_step st "dri".data).result ≠ [] := by
  have hcore : strip_trailing_sep (List.dropWhile (fun c => c == '/') "dri".data)
      = "dri".data := by decide
  have hne : "dri".data.isEmpty = false := by decide
  unfold build_path_step
  simp only [hne, Bool.false_eq_true, if_false, h, if_true, hcore]
  constructor
  · trivial
  · by_cases hf : st.is_first = true <;> simp [hf]

/-- The `dri` directory of a library directory is not the empty string. -/
theorem dri_directory_ne_empty (libdir : String) :
    (g_build_filename [libdir, "dri"]).data ≠ [] := by
  unfold g_build_filename build_path_chars
  simp only [List.map_cons, List.map_nil, List.foldl_cons, List.foldl_nil]
  by_cases he : libdir.data = []
  · rw [he]
    have h0 : ∀ st, build_path_step st [] = st := by
      intro st; simp [build_path_step]
    rw [h0]
    decide
  · have hl := build_path_step_leading
      { result := [], is_first := true, have_leading := false,
        single_element := none, last_trailing := none } libdir.data he
    obtain ⟨h1, h2⟩ := build_path_step_dri _ hl
    rw [h1]
    simp only
    intro hcontra
    exact h2 (List.append_eq_nil.mp hcontra).1

/-! ## The parts of `pv_runtime_use_host_graphics_stack` -/

theorem architectures_ok {env : Env} {system_info : SrtSystemInfo} {self : PvRuntime}
    {w w2 : World} {bwrap : List String} {st : GraphicsStack}
    (h : pv_runtime_use_host_graphics_stack env system_info self w bwrap = (w2, .ok st)) :
    ∃ w1 self1,
      pv_runtime_provide_container_access self w = (w1, .ok self1) ∧
      use_host_graphics_stack_loop env system_info (List.range (N_MULTIARCH - 1))
        (graphics_stack_start system_info self1 bwrap) w1 = (w2, .ok st) ∧
      st.any_architecture_works = true := by
  unfold pv_runtime_use_host_graphics_stack at h
  split at h
  · simp only [Prod.mk.injEq] at h; exact absurd h.2 (by simp)
  · rename_i w1 self1 hacc
    simp only at h
    split at h
    · simp only [Prod.mk.injEq] at h; exact absurd h.2 (by simp)
    · rename_i w3 st3 hloop
      split at h
      · simp only [Prod.mk.injEq] at h; exact absurd h.2 (by simp)
      · rename_i hany
        simp only [Prod.mk.injEq, Except.ok.injEq] at h
        obtain ⟨rfl, rfl⟩ := h
        refine ⟨w1, self1, hacc, hloop, ?_⟩
        simpa using hany

theorem finish_ok {env : Env} {st : GraphicsStack} {w w5 : World} {bwrap5 : List String}
    (h : use_host_graphics_stack_finish env st w = (w5, .ok bwrap5)) :
    ∃ (w2 w3 w4 : World) (bwrap2 bwrap3 bwrap4 : List String)
      (egl_path vulkan_path va_api_path : String),
      setup_icd_json env st.self ["share", "glvnd", "egl_vendor.d"] st.egl_icd_details w2 bwrap2
        = (w3, .ok (bwrap3, egl_path)) ∧
      setup_icd_json env st.self ["share", "vulkan", "icd.d"] st.vulkan_icd_details w3 bwrap3
        = (w4, .ok (bwrap4, vulkan_path)) ∧
      va_api_search_path st.va_api_icd_details "" = .ok va_api_path ∧
      bwrap5 = bwrap4 ++ driver_env_args st.dri_path egl_path vulkan_path va_api_path ++
        vdpau_env_args st.self := by
  unfold use_host_graphics_stack_finish at h
  simp only at h
  split at h
  · simp only [Prod.mk.injEq] at h; exact absurd h.2 (by simp)
  · split at h
    · simp only [Prod.mk.injEq] at h; exact absurd h.2 (by simp)
    · rename_i w2 bwrap2 _
      split at h
      · simp only [Prod.mk.injEq] at h; exact absurd h.2 (by simp)
      · rename_i w3 bwrap3 egl_path hegl
        split at h
        · simp only [Prod.mk.injEq] at h; exact absurd h.2 (by simp)
        · rename_i w4 bwrap4 vulkan_path hvk
          split at h
          · simp only [Prod.mk.injEq] at h; exact absurd h.2 (by simp)
          · rename_i va_api_path hva
            split at h
            · simp only [Prod.mk.injEq] at h; exact absurd h.2 (by simp)
            · simp only [Prod.mk.injEq, Except.ok.injEq] at h
              exact ⟨w2, w3, w4, bwrap2, bwrap3, bwrap4, egl_path, vulkan_path, va_api_path,
                hegl, hvk, hva, h.2.symm⟩

theorem complete_ok {env : Env} {system_info : SrtSystemInfo} {self self2 : PvRuntime}
    {w w2 : World} {bwrap bwrap2 : List String}
    (h : use_host_graphics_stack_complete env system_info self w bwrap
      = (w2, .ok (self2, bwrap2))) :
    ∃ w1 st,
      pv_runtime_use_host_graphics_stack env system_info self w bwrap = (w1, .ok st) ∧
      use_host_graphics_stack_finish env st w1 = (w2, .ok bwrap2) ∧
      self2 = st.self := by
  unfold use_host_graphics_stack_complete at h
  split at h
  · simp only [Prod.mk.injEq] at h; exact absurd h.2 (by simp)
  · rename_i w1 st harch
    split at h
    · simp only [Prod.mk.injEq] at h; exact absurd h.2 (by simp)
    · rename_i w3 bwrap3 hfin
      simp only [Prod.mk.injEq, Except.ok.injEq] at h
      obtain ⟨rfl, rfl, rfl⟩ := h
      exact ⟨w1, st, harch, hfin, rfl⟩

/-! ## The manifests of the ICDs -/

theorem write_icd_json_archs_path {env : Env} {self : PvRuntime} {dir_on_host : Path}
    {share_dir : List String} {j : Nat} {details : IcdDetails} :
    ∀ (tuples : List Nat) (w w1 : World) (path path1 : String) (need need1 : Bool),
      write_icd_json_archs env self dir_on_host share_dir j details tuples w path need
        = (w1, .ok (path1, need1)) →
      path1 =
        ((tuples.filter (fun i => details.kind i == .ICD_KIND_ABSOLUTE)).map
          (fun i => icd_json_in_container self share_dir
            (icd_json_base j (some (multiarch_tuples.getD i ""))))).foldl
          (fun p item => pv_search_path_append p (some item)) path ∧
      need1 = (need || tuples.any (fun i => details.kind i == .ICD_KIND_SONAME)) := by
  intro tuples
  induction tuples with
  | nil =>
    intro w w1 path path1 need need1 h
    simp only [write_icd_json_archs, Prod.mk.injEq, Except.ok.injEq] at h
    simp [← h.2.1, ← h.2.2]
  | cons i rest ih =>
    intro w w1 path path1 need need1 h
    unfold write_icd_json_archs at h
    split at h
    · rename_i habs
      split at h
      · simp only [Prod.mk.injEq] at h; exact absurd h.2 (by simp)
      · simp only at h
        split at h
        · simp only [Prod.mk.injEq] at h; exact absurd h.2 (by simp)
        · obtain ⟨h1, h2⟩ := ih _ _ _ _ _ _ h
          have hk : details.kind i = .ICD_KIND_ABSOLUTE := by simpa using habs
          refine ⟨?_, ?_⟩
          · rw [h1]; simp [habs]
          · have hne : (details.kind i == .ICD_KIND_SONAME) = false := by rw [hk]; decide
            rw [h2]; simp [hne]
    · rename_i habs
      split at h
      · rename_i hso
        obtain ⟨h1, h2⟩ := ih _ _ _ _ _ _ h
        refine ⟨?_, ?_⟩
        · rw [h1]; simp [habs]
        · rw [h2]; simp [hso]
      · rename_i hso
        obtain ⟨h1, h2⟩ := ih _ _ _ _ _ _ h
        refine ⟨?_, ?_⟩
        · rw [h1]; simp [habs]
        · rw [h2]; simp [hso]

theorem write_icd_jsons_path {env : Env} {self : PvRuntime} {dir_on_host : Path}
    {share_dir : List String} :
    ∀ (ds : List IcdDetails) (j : Nat) (w w1 : World) (bwrap bwrap1 : List String)
      (path path1 : String),
      write_icd_jsons env self dir_on_host share_dir j ds w bwrap path
        = (w1, .ok (bwrap1, path1)) →
      path1 = (spec_manifest_list self share_dir j ds).foldl
        (fun p item => pv_search_path_append p (some item)) path := by
  intro ds
  induction ds with
  | nil =>
    intro j w w1 bwrap bwrap1 path path1 h
    simp only [write_icd_jsons, Prod.mk.injEq, Except.ok.injEq] at h
    simp [spec_manifest_list, ← h.2.2]
  | cons d rest ih =>
    intro j w w1 bwrap bwrap1 path path1 h
    unfold write_icd_jsons at h
    split at h
    · rename_i herr
      rw [ih _ _ _ _ _ _ _ h]
      simp [spec_manifest_list, herr]
    · rename_i herr
      split at h
      · simp only [Prod.mk.injEq] at h; exact absurd h.2 (by simp)
      · rename_i w2 path2 need2 harchs
        obtain ⟨hp, hn⟩ := write_icd_json_archs_path _ _ _ _ _ _ _ harchs
        simp only [Bool.false_or] at hn
        split at h
        · rename_i hneed
          simp only at h
          split at h
          · simp only [Prod.mk.injEq] at h; exact absurd h.2 (by simp)
          · rw [ih _ _ _ _ _ _ _ h, hp]
            rw [hn] at hneed
            simp [spec_manifest_list, herr, spec_icd_manifests, hneed, List.foldl_append]
        · rename_i hneed
          rw [ih _ _ _ _ _ _ _ h, hp]
          rw [hn] at hneed
          simp [spec_manifest_list, herr, spec_icd_manifests, hneed, List.foldl_append]

theorem setup_icd_json_path {env : Env} {self : PvRuntime} {share_dir : List String}
    {ds : List IcdDetails} {w w1 : World} {bwrap bwrap1 : List String} {path : String}
    (h : setup_icd_json env self share_dir ds w bwrap = (w1, .ok (bwrap1, path))) :
    path = search_path_of (spec_manifest_list self share_dir 0 ds) := by
  unfold setup_icd_json at h
  simp only at h
  split at h
  · simp only [Prod.mk.injEq] at h; exact absurd h.2 (by simp)
  · exact write_icd_jsons_path _ _ _ _ _ _ _ _ h

/-- The record at position `k` of the array is bound with the sequence number
of position `j + k`, where `j` is the number of the first record. -/
theorem bind_icd_details_sequence {env : Env} {arch : RuntimeArchitecture} {subdir : String}
    {seq : Nat → Nat} :
    ∀ (ds : List IcdDetails) (j : Nat) (self self1 : PvRuntime) (w w1 : World)
      (ds1 : List IcdDetails),
      bind_icd_details env arch subdir seq j ds self w = (w1, .ok (self1, ds1)) →
      ds1.length = ds.length ∧
      ∀ (k : Nat) (d : IcdDetails), ds.get? k = some d → d.icd.has_error = false →
        ∃ (s0 s2 : PvRuntime) (w0 w2 : World) (d1 : IcdDetails),
          bind_icd env s0 w0 arch (seq (j + k)) subdir
            { d with resolved_library := some d.icd.resolved_library } = (w2, .ok (s2, d1)) ∧
          ds1.get? k = some d1 := by
  intro ds
  induction ds with
  | nil =>
    intro j self self1 w w1 ds1 h
    simp only [bind_icd_details, Prod.mk.injEq, Except.ok.injEq] at h
    rw [← h.2.2]
    exact ⟨rfl, fun k d hk => by simp at hk⟩
  | cons d0 rest ih =>
    intro j self self1 w w1 ds1 h
    unfold bind_icd_details at h
    split at h
    · rename_i herr
      split at h
      · simp only [Prod.mk.injEq] at h; exact absurd h.2 (by simp)
      · rename_i w2 self2 rest1 hrec
        simp only [Prod.mk.injEq, Except.ok.injEq] at h
        obtain ⟨hl, hk⟩ := ih _ _ _ _ _ _ hrec
        rw [← h.2.2]
        refine ⟨by simp [hl], ?_⟩
        intro k d hd hne
        cases k with
        | zero =>
          simp only [List.get?_cons_zero, Option.some.injEq] at hd
          rw [← hd] at hne
          rw [hne] at herr
          exact absurd herr (by simp)
        | succ n =>
          simp only [List.get?_cons_succ] at hd ⊢
          have := hk n d hd hne
          rw [show j + 1 + n = j + (n + 1) by omega] at this
          exact this
    · split at h
      · simp only [Prod.mk.injEq] at h; exact absurd h.2 (by simp)
      · rename_i w2 self2 d1 hb
        split at h
        · simp only [Prod.mk.injEq] at h; exact absurd h.2 (by simp)
        · rename_i w3 self3 rest1 hrec
          simp only [Prod.mk.injEq, Except.ok.injEq] at h
          obtain ⟨hl, hk⟩ := ih _ _ _ _ _ _ hrec
          rw [← h.2.2]
          refine ⟨by simp [hl], ?_⟩
          intro k d hd hne
          cases k with
          | zero =>
            simp only [List.get?_cons_zero, Option.some.injEq] at hd
            rw [← hd]
            exact ⟨self, self2, w, w2, d1, hb, rfl⟩
          | succ n =>
            simp only [List.get?_cons_succ] at hd ⊢
            have := hk n d hd hne
            rw [show j + 1 + n = j + (n + 1) by omega] at this
            exact this

/-- C13 (ICD manifest list): when the set-up of the manifests of the EGL ICDs
(`share_dir` is `share/glvnd/egl_vendor.d`) or of the Vulkan ICDs
(`share/vulkan/icd.d`) succeeds, the search path it built consists of, for
`j` ascending over the records of the accepted ICDs: one entry
`<overrides_in_container>/<share_dir>/<j>-<tuple>.json` for each architecture
whose kind is `ABSOLUTE`, in declared order, followed by
`<overrides_in_container>/<share_dir>/<j>.json` if and only if the kind of some
architecture is `SONAME`.  The number `j` is the position of the record in
the array, and the loops of an architecture call `bind_icd` for the record
at position `k` with the sequence number `k`, the number of its staging
directory. -/
theorem icd_manifest_list (env : Env) (self : PvRuntime) (share_dir : List String)
    (icd_details : List IcdDetails) (w w1 : World) (bwrap bwrap1 : List String)
    (path : String)
    (hok : setup_icd_json env self share_dir icd_details w bwrap = (w1, .ok (bwrap1, path))) :
    path = search_path_of (spec_manifest_list self share_dir 0 icd_details) ∧
    ∀ (arch : RuntimeArchitecture) (subdir : String) (ds ds1 : List IcdDetails)
      (self0 self1 : PvRuntime) (w0 w2 : World),
      bind_icd_details env arch subdir id 0 ds self0 w0 = (w2, .ok (self1, ds1)) →
      ds1.length = ds.length ∧
      ∀ (k : Nat) (d : IcdDetails), ds.get? k = some d → d.icd.has_error = false →
        ∃ (s0 s2 : PvRuntime) (w3 w4 : World) (d1 : IcdDetails),
          bind_icd env s0 w3 arch k subdir
            { d with resolved_library := some d.icd.resolved_library } = (w4, .ok (s2, d1)) ∧
          ds1.get? k = some d1 := by
  refine ⟨setup_icd_json_path hok, ?_⟩
  intro arch subdir ds ds1 self0 self1 w0 w2 h
  obtain ⟨h1, h2⟩ := bind_icd_details_sequence ds 0 self0 self1 w0 w2 ds1 h
  refine ⟨h1, ?_⟩
  intro k d hd hne
  have := h2 k d hd hne
  simpa using this

/-! ## The driver variables -/

/-- A successful iteration of the loop leaves `overrides_in_container` as it
was. -/
theorem arch_step_frame {env : Env} {system_info : SrtSystemInfo} {i : Nat}
    {st st1 : GraphicsStack} {w w1 : World}
    (h : use_host_graphics_stack_arch env system_info i st w = (w1, .ok st1)) :
    st1.self.overrides_in_container = st.self.overrides_in_container := by
  unfold use_host_graphics_stack_arch at h
  cases harch : runtime_architecture_init env st.self w.fs i with
  | none =>
    rw [harch] at h
    simp only [Prod.mk.injEq, Except.ok.injEq] at h
    rw [← h.2]
  | some arch =>
    rw [harch] at h
    simp only at h
    cases hres : resolve_ld_so env st.self w.fs arch with
    | failed e =>
      rw [hres] at h
      simp only [Prod.mk.injEq] at h
      exact absurd h.2 (by simp)
    | missing =>
      rw [hres] at h
      simp only [Prod.mk.injEq, Except.ok.injEq] at h
      rw [← h.2]
    | found ld =>
      rw [hres] at h
      simp only at h
      unfold use_arch at h
      split at h
      · simp only [Prod.mk.injEq] at h; exact absurd h.2 (by simp)
      · rename_i w7 st7 hcap
        split at h
        · simp only [Prod.mk.injEq] at h; exact absurd h.2 (by simp)
        · rename_i w10 st10 hlibc
          obtain ⟨_, _, hc3⟩ := use_arch_capture_ok hcap
          obtain ⟨_, _, hl3⟩ := use_arch_libc_ok hlibc
          obtain ⟨_, _, hd3⟩ := use_arch_dri_ok h
          obtain ⟨_, _, f3, _⟩ := same_runtime_flags hc3
          obtain ⟨_, _, g3, _⟩ := same_runtime_flags hd3
          rw [g3, hl3, ← f3]
          split <;> rfl

/-- Some architecture works at the end of the loop if and only if one did at
its start or the loop found a viable one. -/
theorem loop_any_works (env : Env) (system_info : SrtSystemInfo) :
    ∀ (tuples : List Nat) (st st1 : GraphicsStack) (w w1 : World),
      use_host_graphics_stack_loop env system_info tuples st w = (w1, .ok st1) →
      st1.any_architecture_works = (st.any_architecture_works ||
        !(loop_viable env system_info tuples st w).isEmpty) := by
  intro tuples
  induction tuples with
  | nil =>
    intro st st1 w w1 h
    simp only [use_host_graphics_stack_loop, Prod.mk.injEq, Except.ok.injEq] at h
    rw [← h.2]; simp [loop_viable]
  | cons i rest ih =>
    intro st st1 w w1 h
    unfold use_host_graphics_stack_loop at h
    split at h
    · simp only [Prod.mk.injEq] at h; exact absurd h.2 (by simp)
    · rename_i w2 st2 hstep
      have hrec := ih _ _ _ _ h
      have hs := arch_step hstep
      simp only [loop_viable, hstep]
      cases hv : viable_architecture env st.self w.fs i with
      | none =>
        rw [hv] at hs
        simp only at hs
        rw [hrec, hs.1]
        simp
      | some p =>
        obtain ⟨arch, ld⟩ := p
        rw [hv] at hs
        simp only at hs
        rw [hrec, hs.2.1]
        simp

/-- The directory in the container of each architecture that the loop finds
viable is `<overrides_in_container>/lib/<tuple>`. -/
theorem loop_viable_libdir (env : Env) (system_info : SrtSystemInfo) :
    ∀ (tuples : List Nat) (st : GraphicsStack) (w : World),
      ∀ a ∈ loop_viable env system_info tuples st w,
        a.libdir_in_container =
          g_build_filename [st.self.overrides_in_container, "lib", a.tuple] := by
  intro tuples
  induction tuples with
  | nil => intro st w; simp [loop_viable]
  | cons i rest ih =>
    intro st w
    unfold loop_viable
    split
    · simp
    · rename_i w1 st1 hstep
      intro a ha
      rw [List.mem_append] at ha
      rcases ha with ha | ha
      · unfold viable_architecture at ha
        cases harch : runtime_architecture_init env st.self w.fs i with
        | none => rw [harch] at ha; simp at ha
        | some arch =>
          rw [harch] at ha
          simp only at ha
          cases hres : resolve_ld_so env st.self w.fs arch with
          | failed e => rw [hres] at ha; simp at ha
          | missing => rw [hres] at ha; simp at ha
          | found ld =>
            rw [hres] at ha
            simp only [Option.map_some', Option.toList_some, List.mem_singleton] at ha
            unfold runtime_architecture_init at harch
            split at harch
            · simp only at harch
              split at harch
              · exact absurd harch (by simp)
              · simp only [Option.some.injEq] at harch
                rw [ha, ← harch]
            · exact absurd harch (by simp)
      · rw [ih st1 w1 a ha, arch_step_frame hstep]

theorem intercalate_go_ne (sep : String) :
    ∀ (items : List String) (acc : String), acc.data ≠ [] →
      (String.intercalate.go acc sep items).data ≠ [] := by
  intro items
  induction items with
  | nil => intro acc h; exact h
  | cons x xs ih =>
    intro acc h
    unfold String.intercalate.go
    apply ih
    simp [String.data_append, h]

theorem length_bne_zero (s : String) : (s.length != 0) = true ↔ s ≠ "" := by
  rw [bne_iff_ne, ne_eq, ne_eq, String.length, List.length_eq_zero]
  constructor
  · intro h e; exact h (by rw [e])
  · intro h e; exact h (String.ext e)

/-- The arguments for the driver variables in the words of the spec. -/
theorem driver_env_args_spec (dri_path egl_path vulkan_path va_api_path : String) :
    driver_env_args dri_path egl_path vulkan_path va_api_path =
      spec_set_or_unset "LIBGL_DRIVERS_PATH" dri_path ++
      spec_set_or_unset "__EGL_VENDOR_LIBRARY_FILENAMES" egl_path ++
      ["--unsetenv", "__EGL_VENDOR_LIBRARY_DIRS"] ++
      spec_set_or_unset "VK_ICD_FILENAMES" vulkan_path ++
      spec_set_or_unset "LIBVA_DRIVERS_PATH" va_api_path := by
  have key : ∀ (name value : String),
      (if (value.length != 0) = true then ["--setenv", name, value] else ["--unsetenv", name])
        = spec_set_or_unset name value := by
    intro name value
    unfold spec_set_or_unset
    by_cases h : value = ""
    · have h2 : ¬ ((value.length != 0) = true) := fun hh => (length_bne_zero value).1 hh h
      rw [if_neg h2, if_pos h]
    · rw [if_pos ((length_bne_zero value).2 h), if_neg h]
  unfold driver_env_args
  rw [key, key, key, key]

/-- The search path of the manifests is empty when no record has an
architecture of kind `ABSOLUTE` or `SONAME`. -/
theorem manifest_list_unusable (self : PvRuntime) (share_dir : List String) :
    ∀ (ds : List IcdDetails) (j : Nat),
      (∀ d ∈ ds, ∀ i, d.kind i = .ICD_KIND_NONEXISTENT) →
      spec_manifest_list self share_dir j ds = [] := by
  intro ds
  induction ds with
  | nil => intro j _; rfl
  | cons d rest ih =>
    intro j h
    have hd := h d (List.mem_cons_self _ _)
    have hrest := ih (j + 1) (fun d1 h1 => h d1 (List.mem_cons_of_mem _ h1))
    unfold spec_manifest_list
    rw [hrest]
    have h1 : ∀ i, (d.kind i == IcdKind.ICD_KIND_ABSOLUTE) = false := by
      intro i; rw [hd i]; decide
    have h2 : ∀ i, (d.kind i == IcdKind.ICD_KIND_SONAME) = false := by
      intro i; rw [hd i]; decide
    split
    · rfl
    · simp [spec_icd_manifests, h1, h2]

/-- C12 (LIBGL_DRIVERS_PATH): when `pv_runtime_use_host_graphics_stack`
succeeds, the loop over the architectures found at least one viable
architecture, the viable architectures are in the declared order of the
multiarch tuples, and the arguments that the function appends for the driver
variables begin with `--setenv LIBGL_DRIVERS_PATH v`, where `v` is the
colon-separated list of `<libdir_in_container>/dri`, for exactly the viable
architectures in that order.  When `overrides_in_container` is `/overrides`
(no mutable sysroot) and both tuples are viable, `v` is
`/overrides/lib/x86_64-linux-gnu/dri:/overrides/lib/i386-linux-gnu/dri`. -/
theorem libgl_drivers_path (env : Env) (system_info : SrtSystemInfo) (self self2 : PvRuntime)
    (w w2 : World) (bwrap bwrap2 : List String)
    (hok : use_host_graphics_stack_complete env system_info self w bwrap
      = (w2, .ok (self2, bwrap2))) :
    ∃ (w1 : World) (self1 : PvRuntime) (before : List String)
      (egl_path vulkan_path va_api_path : String),
      pv_runtime_provide_container_access self w = (w1, .ok self1) ∧
      loop_viable env system_info (List.range (N_MULTIARCH - 1))
        (graphics_stack_start system_info self1 bwrap) w1 ≠ [] ∧
      ((loop_viable env system_info (List.range (N_MULTIARCH - 1))
        (graphics_stack_start system_info self1 bwrap) w1).map
          RuntimeArchitecture.multiarch_index).Sublist (List.range (N_MULTIARCH - 1)) ∧
      (∀ a ∈ loop_viable env system_info (List.range (N_MULTIARCH - 1))
          (graphics_stack_start system_info self1 bwrap) w1,
        multiarch_tuples.get? a.multiarch_index = some a.tuple) ∧
      bwrap2 = before ++
        driver_env_args
          (":".intercalate
            ((loop_viable env system_info (List.range (N_MULTIARCH - 1))
              (graphics_stack_start system_info self1 bwrap) w1).map
              (fun a => g_build_filename [a.libdir_in_container, "dri"])))
          egl_path vulkan_path va_api_path ++
        vdpau_env_args self2 ∧
      (driver_env_args
          (":".intercalate
            ((loop_viable env system_info (List.range (N_MULTIARCH - 1))
              (graphics_stack_start system_info self1 bwrap) w1).map
              (fun a => g_build_filename [a.libdir_in_container, "dri"])))
          egl_path vulkan_path va_api_path).take 3 =
        ["--setenv", "LIBGL_DRIVERS_PATH",
          ":".intercalate
            ((loop_viable env system_info (List.range (N_MULTIARCH - 1))
              (graphics_stack_start system_info self1 bwrap) w1).map
              (fun a => g_build_filename [a.libdir_in_container, "dri"]))] ∧
      (self.overrides_in_container = "/overrides" →
        (loop_viable env system_info (List.range (N_MULTIARCH - 1))
          (graphics_stack_start system_info self1 bwrap) w1).map
            RuntimeArchitecture.multiarch_index = [0, 1] →
        ":".intercalate
            ((loop_viable env system_info (List.range (N_MULTIARCH - 1))
              (graphics_stack_start system_info self1 bwrap) w1).map
              (fun a => g_build_filename [a.libdir_in_container, "dri"])) =
          "/overrides/lib/x86_64-linux-gnu/dri:/overrides/lib/i386-linux-gnu/dri") := by
  obtain ⟨wa, st, harchs, hfin, hself⟩ := complete_ok hok
  obtain ⟨w1, self1, hacc, hloop, hany⟩ := architectures_ok harchs
  obtain ⟨wb, wc, wd, b2, b3, b4, egl_path, vulkan_path, va_api_path, _, _, _, hb⟩ :=
    finish_ok hfin
  have hdri := loop_dri_path env system_info _ _ _ _ _ hloop
  have hord := loop_viable_order env system_info (List.range (N_MULTIARCH - 1))
    (graphics_stack_start system_info self1 bwrap) w1
  have hlib := loop_viable_libdir env system_info (List.range (N_MULTIARCH - 1))
    (graphics_stack_start system_info self1 bwrap) w1
  have hw := loop_any_works env system_info _ _ _ _ _ hloop
  rw [hany] at hw
  have hne : loop_viable env system_info (List.range (N_MULTIARCH - 1))
      (graphics_stack_start system_info self1 bwrap) w1 ≠ [] := by
    intro he
    rw [he] at hw
    simp [graphics_stack_start] at hw
  have hitems : ∀ x ∈ (loop_viable env system_info (List.range (N_MULTIARCH - 1))
      (graphics_stack_start system_info self1 bwrap) w1).map
        (fun a => g_build_filename [a.libdir_in_container, "dri"]), x.data ≠ [] := by
    intro x hx
    rw [List.mem_map] at hx
    obtain ⟨a, _, hx⟩ := hx
    rw [← hx]
    exact dri_directory_ne_empty _
  have hpath : st.dri_path = ":".intercalate
      ((loop_viable env system_info (List.range (N_MULTIARCH - 1))
        (graphics_stack_start system_info self1 bwrap) w1).map
        (fun a => g_build_filename [a.libdir_in_container, "dri"])) := by
    rw [hdri, ← search_path_of_eq _ hitems]
    rfl
  have hnonempty : st.dri_path ≠ "" := by
    rw [hdri]
    intro he
    cases hl : loop_viable env system_info (List.range (N_MULTIARCH - 1))
        (graphics_stack_start system_info self1 bwrap) w1 with
    | nil => exact hne hl
    | cons a rest =>
      rw [hl] at he hitems
      have ha : (g_build_filename [a.libdir_in_container, "dri"]).data ≠ [] :=
        dri_directory_ne_empty _
      have h0 : (graphics_stack_start system_info self1 bwrap).dri_path = "" := rfl
      rw [h0] at he
      simp only [List.map_cons, List.foldl_cons] at he
      rw [search_path_append_first ha] at he
      rw [search_path_fold _ (fun y hy => hitems y (List.mem_cons_of_mem _ hy)) _ ha] at he
      exact intercalate_go_ne ":" _ _ ha (by rw [he])
  refine ⟨w1, self1, b4, egl_path, vulkan_path, va_api_path, hacc, hne, hord.1, hord.2, ?_, ?_,
    ?_⟩
  · rw [hb, hpath, hself]
  · rw [← hpath]
    unfold driver_env_args
    rw [if_pos ((length_bne_zero _).2 hnonempty)]
    rfl
  · intro hover hidx
    have hstart : (graphics_stack_start system_info self1 bwrap).self.overrides_in_container
        = "/overrides" := by
      rw [← hover, ← (same_runtime_flags (provide_container_access_same hacc)).2.2.1]
      rfl
    rw [hstart] at hlib
    have htup := hord.2
    cases hl : loop_viable env system_info (List.range (N_MULTIARCH - 1))
        (graphics_stack_start system_info self1 bwrap) w1 with
    | nil => rw [hl] at hidx; simp at hidx
    | cons a rest =>
      cases rest with
      | nil => rw [hl] at hidx; simp at hidx
      | cons b rest2 =>
        cases rest2 with
        | cons c rest3 => rw [hl] at hidx; simp at hidx
        | nil =>
          rw [hl] at hidx hlib htup
          simp only [List.map_cons, List.map_nil, List.cons.injEq, and_true] at hidx
          have ha := hlib a (by simp)
          have hb2 := hlib b (by simp)
          have hta := htup a (by simp)
          have htb := htup b (by simp)
          rw [hidx.1] at hta
          rw [hidx.2] at htb
          have hta2 : a.tuple = "x86_64-linux-gnu" := by
            have : some "x86_64-linux-gnu" = some a.tuple := hta
            exact (Option.some.inj this).symm
          have htb2 : b.tuple = "i386-linux-gnu" := by
            have : some "i386-linux-gnu" = some b.tuple := htb
            exact (Option.some.inj this).symm
          rw [hta2] at ha
          rw [htb2] at hb2
          simp only [List.map_cons, List.map_nil, ha, hb2]
          decide

/-! ## The libc flags -/

theorem take_from_host_ignores_all_libc (env : Env) (self : PvRuntime) (b : Bool) (w : World)
    (bwrap : List String) (source dest : String) (flags : TakeFromHostFlags) :
    pv_runtime_take_from_host env { self with all_libc_from_host := b } w bwrap source dest flags
      = pv_runtime_take_from_host env self w bwrap source dest flags := rfl

theorem take_each_ignores_all_libc (env : Env) (self : PvRuntime) (b : Bool) :
    ∀ (items : List (String × String × TakeFromHostFlags)) (w : World) (bwrap : List String),
      take_each_from_host env { self with all_libc_from_host := b } items w bwrap
        = take_each_from_host env self items w bwrap := by
  intro items
  induction items with
  | nil => intro w bwrap; rfl
  | cons x xs ih =>
    intro w bwrap
    obtain ⟨s, d, f⟩ := x
    unfold take_each_from_host
    rw [take_from_host_ignores_all_libc]
    split
    · rfl
    · exact ih _ _

theorem write_icd_json_archs_ignores_all_libc (env : Env) (self : PvRuntime) (b : Bool)
    (dir_on_host : Path) (share_dir : List String) (j : Nat) (details : IcdDetails) :
    ∀ (tuples : List Nat) (w : World) (path : String) (need : Bool),
      write_icd_json_archs env { self with all_libc_from_host := b } dir_on_host share_dir j
          details tuples w path need
        = write_icd_json_archs env self dir_on_host share_dir j details tuples w path need := by
  intro tuples
  induction tuples with
  | nil => intro w path need; rfl
  | cons i rest ih =>
    intro w path need
    unfold write_icd_json_archs
    simp only [ih]
    rfl

theorem write_icd_jsons_ignores_all_libc (env : Env) (self : PvRuntime) (b : Bool)
    (dir_on_host : Path) (share_dir : List String) :
    ∀ (ds : List IcdDetails) (j : Nat) (w : World) (bwrap : List String) (path : String),
      write_icd_jsons env { self with all_libc_from_host := b } dir_on_host share_dir j ds w
          bwrap path
        = write_icd_jsons env self dir_on_host share_dir j ds w bwrap path := by
  intro ds
  induction ds with
  | nil => intro j w bwrap path; rfl
  | cons d rest ih =>
    intro j w bwrap path
    unfold write_icd_jsons
    simp only [ih, write_icd_json_archs_ignores_all_libc, take_from_host_ignores_all_libc]
    rfl

theorem setup_icd_json_ignores_all_libc (env : Env) (self : PvRuntime) (b : Bool)
    (share_dir : List String) (ds : List IcdDetails) (w : World) (bwrap : List String) :
    setup_icd_json env { self with all_libc_from_host := b } share_dir ds w bwrap
      = setup_icd_json env self share_dir ds w bwrap := by
  unfold setup_icd_json
  simp only [write_icd_jsons_ignores_all_libc]

theorem link_extra_tuples_ignores_all_libc (env : Env) (self : PvRuntime) (b : Bool) :
    ∀ (tuples : List String) (fs : FS),
      link_extra_tuples env { self with all_libc_from_host := b } tuples fs
        = link_extra_tuples env self tuples fs := by
  intro tuples
  induction tuples with
  | nil => intro fs; rfl
  | cons t rest ih =>
    intro fs
    unfold link_extra_tuples
    simp only [ih]

/-- What follows the loop over the architectures does not read
`all_libc_from_host`. -/
theorem finish_ignores_all_libc (env : Env) (st : GraphicsStack) (b : Bool) (w : World) :
    use_host_graphics_stack_finish env
        { st with self := { st.self with all_libc_from_host := b } } w
      = use_host_graphics_stack_finish env st w := by
  unfold use_host_graphics_stack_finish
  simp only [take_each_ignores_all_libc, setup_icd_json_ignores_all_libc,
    link_extra_tuples_ignores_all_libc]
  rfl

/-- One test of `libc.so.6` is made for each architecture that the loop finds
viable. -/
theorem loop_libc_length (env : Env) (system_info : SrtSystemInfo) :
    ∀ (tuples : List Nat) (st : GraphicsStack) (w : World),
      (loop_libc env system_info tuples st w).length
        = (loop_viable env system_info tuples st w).length := by
  intro tuples
  induction tuples with
  | nil => intro st w; rfl
  | cons i rest ih =>
    intro st w
    unfold loop_libc loop_viable
    split
    · rfl
    · rename_i w1 st1 hstep
      have hs := arch_step hstep
      rw [List.length_append, List.length_append, ih]
      cases hv : viable_architecture env st.self w.fs i with
      | none => rfl
      | some p =>
        obtain ⟨arch, ld⟩ := p
        rw [hv] at hs
        simp only at hs
        obtain ⟨_, _, w7, st7, hcap, _, _⟩ := hs
        simp only [hcap]
        rfl

/-- C14 (set-or-unset of the driver variables): in every successful run of
`pv_runtime_use_host_graphics_stack` the launcher arguments end with, for
the search paths accumulated for `LIBGL_DRIVERS_PATH`,
`__EGL_VENDOR_LIBRARY_FILENAMES`, `VK_ICD_FILENAMES` and `LIBVA_DRIVERS_PATH`
in this order, `--setenv NAME value` when the path is not empty and
`--unsetenv NAME` when it is empty, with `--unsetenv
__EGL_VENDOR_LIBRARY_DIRS` after the second of them, followed only by the
arguments for `VDPAU_DRIVER_PATH`.  When no Vulkan ICD is usable for any
architecture, `VK_ICD_FILENAMES` is unset. -/
theorem driver_variables_set_or_unset (env : Env) (system_info : SrtSystemInfo)
    (self self2 : PvRuntime) (w w2 : World) (bwrap bwrap2 : List String)
    (hok : use_host_graphics_stack_complete env system_info self w bwrap
      = (w2, .ok (self2, bwrap2))) :
    ∃ (w1 : World) (st : GraphicsStack) (before : List String)
      (egl_path vulkan_path va_api_path : String),
      pv_runtime_use_host_graphics_stack env system_info self w bwrap = (w1, .ok st) ∧
      egl_path = search_path_of
        (spec_manifest_list st.self ["share", "glvnd", "egl_vendor.d"] 0 st.egl_icd_details) ∧
      vulkan_path = search_path_of
        (spec_manifest_list st.self ["share", "vulkan", "icd.d"] 0 st.vulkan_icd_details) ∧
      va_api_search_path st.va_api_icd_details "" = .ok va_api_path ∧
      bwrap2 = before ++
        (spec_set_or_unset "LIBGL_DRIVERS_PATH" st.dri_path ++
         spec_set_or_unset "__EGL_VENDOR_LIBRARY_FILENAMES" egl_path ++
         ["--unsetenv", "__EGL_VENDOR_LIBRARY_DIRS"] ++
         spec_set_or_unset "VK_ICD_FILENAMES" vulkan_path ++
         spec_set_or_unset "LIBVA_DRIVERS_PATH" va_api_path) ++
        vdpau_env_args self2 ∧
      ((∀ d ∈ st.vulkan_icd_details, ∀ i, d.kind i = .ICD_KIND_NONEXISTENT) →
        spec_set_or_unset "VK_ICD_FILENAMES" vulkan_path = ["--unsetenv", "VK_ICD_FILENAMES"]) := by
  obtain ⟨wa, st, harchs, hfin, hself⟩ := complete_ok hok
  obtain ⟨wb, wc, wd, b2, b3, b4, egl_path, vulkan_path, va_api_path, hegl, hvk, hva, hb⟩ :=
    finish_ok hfin
  refine ⟨wa, st, b4, egl_path, vulkan_path, va_api_path, harchs, setup_icd_json_path hegl,
    setup_icd_json_path hvk, hva, ?_, ?_⟩
  · rw [hb, driver_env_args_spec, hself]
  · intro hnone
    rw [setup_icd_json_path hvk, manifest_list_unusable _ _ _ _ hnone]
    rfl

/-- C17 (libc provenance flags): on a runtime whose flag `any_libc_from_host`
is not yet set, when the part of `pv_runtime_use_host_graphics_stack` up
to the end of the loop over the architectures succeeds, `any_libc_from_host`
is true if and only if `libc.so.6` in the directory of the overrides was a
symbolic link for at least one viable architecture, and `all_libc_from_host`
is true if and only if it was one for every viable architecture (one test is
made for each viable architecture); an iteration for an architecture that is
not viable changes nothing; and what follows the loop does not depend on
`all_libc_from_host`, so that the case of some but not all does not make the
function fail where it would otherwise succeed. -/
theorem libc_provenance_flags (env : Env) (system_info : SrtSystemInfo) (self : PvRuntime)
    (w w2 : World) (bwrap : List String) (st : GraphicsStack)
    (hfresh : self.any_libc_from_host = false)
    (hok : pv_runtime_use_host_graphics_stack env system_info self w bwrap = (w2, .ok st)) :
    ∃ (w1 : World) (self1 : PvRuntime),
      pv_runtime_provide_container_access self w = (w1, .ok self1) ∧
      (loop_libc env system_info (List.range (N_MULTIARCH - 1))
          (graphics_stack_start system_info self1 bwrap) w1).length =
        (loop_viable env system_info (List.range (N_MULTIARCH - 1))
          (graphics_stack_start system_info self1 bwrap) w1).length ∧
      (st.self.any_libc_from_host = true ↔
        ∃ t ∈ loop_libc env system_info (List.range (N_MULTIARCH - 1))
          (graphics_stack_start system_info self1 bwrap) w1, t = true) ∧
      (st.self.all_libc_from_host = true ↔
        ∀ t ∈ loop_libc env system_info (List.range (N_MULTIARCH - 1))
          (graphics_stack_start system_info self1 bwrap) w1, t = true) ∧
      (∀ (i : Nat) (st0 st1 : GraphicsStack) (w0 w3 : World),
        viable_architecture env st0.self w0.fs i = none →
        use_host_graphics_stack_arch env system_info i st0 w0 = (w3, .ok st1) →
        st1 = st0) ∧
      (∀ b : Bool, use_host_graphics_stack_finish env
          { st with self := { st.self with all_libc_from_host := b } } w2
        = use_host_graphics_stack_finish env st w2) := by
  obtain ⟨w1, self1, hacc, hloop, _⟩ := architectures_ok hok
  obtain ⟨hany, hall⟩ := loop_libc_flags env system_info _ _ _ _ _ hloop
  have hs1 : self1.any_libc_from_host = false := by
    rw [(same_runtime_flags (provide_container_access_same hacc)).1, hfresh]
  have h0 : (graphics_stack_start system_info self1 bwrap).self.any_libc_from_host = false :=
    hs1
  have h1 : (graphics_stack_start system_info self1 bwrap).self.all_libc_from_host = true :=
    rfl
  rw [h0] at hany
  rw [h1] at hall
  refine ⟨w1, self1, hacc, loop_libc_length env system_info _ _ _, ?_, ?_, ?_, ?_⟩
  · rw [hany]; simp
  · rw [hall]; simp
  · intro i st0 st1 w0 w3 hv hstep
    have hs := arch_step hstep
    rw [hv] at hs
    exact hs.1
  · intro b
    exact finish_ignores_all_libc env st b w2

/-! ## Locales and the lock -/

theorem build_path_step_locales (st : BuildPathState) (h : st.have_leading = true) :
    (build_path_step st "locales".data).single_element = none ∧
    (build_path_step st "locales".data).result ≠ [] := by
  have hcore : strip_trailing_sep (List.dropWhile (fun c => c == '/') "locales".data)
      = "locales".data := by decide
  have hne : "locales".data.isEmpty = false := by decide
  unfold build_path_step
  simp only [hne, Bool.false_eq_true, if_false, h, if_true, hcore]
  constructor
  · trivial
  · by_cases hf : st.is_first = true <;> simp [hf]

/-- The directory `locales` of a directory is not the empty string. -/
theorem build_filename_locales_ne_empty (dir : String) :
    (g_build_filename [dir, "locales"]).data ≠ [] := by
  unfold g_build_filename build_path_chars
  simp only [List.map_cons, List.map_nil, List.foldl_cons, List.foldl_nil]
  by_cases he : dir.data = []
  · rw [he]
    have h0 : ∀ st, build_path_step st [] = st := by
      intro st; simp [build_path_step]
    rw [h0]
    decide
  · have hl := build_path_step_leading
      { result := [], is_first := true, have_leading := false,
        single_element := none, last_trailing := none } dir.data he
    obtain ⟨h1, h2⟩ := build_path_step_locales _ hl
    rw [h1]
    simp only
    intro hcontra
    exact h2 (List.append_eq_nil.mp hcontra).1

/-- C19 (LOCPATH): when the builder owns no file descriptor, `ensure_locales`
runs the locale helper once, and it appends `--setenv LOCPATH v` to the
builder if and only if the directory `locales` of the overrides can be opened
and has an entry in the file system that the helper left behind; otherwise it
leaves the builder as it was.  The value `v` is
`<overrides_in_container>/locales`, followed by `:` and the previous
`LOCPATH` if that is set and not empty.  The function has no failure, and its
result is the same for every exit status of the helper. -/
theorem locpath_iff_locales (env : Env) (self : PvRuntime) (on_host : Bool) (w : World)
    (bwrap : FlatpakBwrap) (hfds : bwrap.fds = []) :
    ∃ (fs1 : FS) (v : String),
      fs1 = (match g_mkdir w.fs [] (self.overrides.getD [] ++ ["locales"]) with
        | .ok fs => fs
        | .error _ => w.fs) ∧
      (ensure_locales env self on_host w bwrap).1 =
        { w with
          fs := (env.run_status fs1 (locale_gen_argv env self on_host bwrap)).1
          spawned := w.spawned ++ [locale_gen_argv env self on_host bwrap] } ∧
      v = (match env.getenv "LOCPATH" with
        | none => g_build_filename [self.overrides_in_container, "locales"]
        | some previous =>
          if previous = "" then g_build_filename [self.overrides_in_container, "locales"]
          else g_build_filename [self.overrides_in_container, "locales"] ++ ":" ++ previous) ∧
      ((ensure_locales env self on_host w bwrap).2 =
          { bwrap with argv := bwrap.argv ++ ["--setenv", "LOCPATH", v] } ↔
        dir_has_entry (ensure_locales env self on_host w bwrap).1.fs
          (self.overrides.getD [] ++ ["locales"]) = true) ∧
      ((ensure_locales env self on_host w bwrap).2 = bwrap ↔
        dir_has_entry (ensure_locales env self on_host w bwrap).1.fs
          (self.overrides.getD [] ++ ["locales"]) = false) ∧
      ∀ status : Nat,
        ensure_locales
            { env with run_status := fun fs argv => ((env.run_status fs argv).1, status) }
            self on_host w bwrap
          = ensure_locales env self on_host w bwrap := by
  have hemp : bwrap.fds.isEmpty = true := by rw [hfds]; rfl
  have hv : pv_search_path_append (g_build_filename [self.overrides_in_container, "locales"])
      (env.getenv "LOCPATH") =
      (match env.getenv "LOCPATH" with
        | none => g_build_filename [self.overrides_in_container, "locales"]
        | some previous =>
          if previous = "" then g_build_filename [self.overrides_in_container, "locales"]
          else g_build_filename [self.overrides_in_container, "locales"] ++ ":" ++ previous) := by
    have hne := build_filename_locales_ne_empty self.overrides_in_container
    cases hg : env.getenv "LOCPATH" with
    | none => rfl
    | some previous =>
      simp only [pv_search_path_append]
      by_cases hp : previous = ""
      · rw [hp]; simp
      · have hp2 : previous.data ≠ [] := fun h => hp (String.ext h)
        have h1 : previous.data.isEmpty = false := by
          cases hd : previous.data with
          | nil => exact absurd hd hp2
          | cons a as => rfl
        have h2 : (g_build_filename [self.overrides_in_container, "locales"]).data.isEmpty
            = false := by
          cases hd : (g_build_filename [self.overrides_in_container, "locales"]).data with
          | nil => exact absurd hd hne
          | cons a as => rfl
        simp [h1, h2, hp]
  have hdiff : ∀ (v : String),
      ¬ (({ bwrap with argv := bwrap.argv ++ ["--setenv", "LOCPATH", v] } : FlatpakBwrap)
        = bwrap) := by
    intro v h
    have h2 := congrArg FlatpakBwrap.argv h
    simp at h2
  refine ⟨_, _, rfl, ?_, rfl, ?_, ?_, ?_⟩
  · unfold ensure_locales
    simp only [hemp, Bool.not_true, Bool.false_eq_true, if_false]
    split <;> rfl
  · unfold ensure_locales
    simp only [hemp, Bool.not_true, Bool.false_eq_true, if_false]
    split
    · rename_i hd
      simp only [hd, iff_true, flatpak_bwrap_add_args, hv]
    · rename_i hd
      simp only [hd]
      constructor
      · intro h
        exact absurd h.symm (hdiff _)
      · intro h
        exact absurd h (by simp)
  · unfold ensure_locales
    simp only [hemp, Bool.not_true, Bool.false_eq_true, if_false]
    split
    · rename_i hd
      simp only [hd, Bool.true_eq_false, iff_false, flatpak_bwrap_add_args]
      exact hdiff _
    · rename_i hd
      simp only [hd]
  · intro status
    rfl

theorem external_add_finished (env : Env) (fs : FS) (bwrap : FlatpakBwrap) (name : String)
    (args : List String) : (external_add env fs bwrap name args).finished = bwrap.finished :=
  rfl

theorem external_add_fold_finished (env : Env) (fs : FS) :
    ∀ (names : List String) (bwrap : FlatpakBwrap),
      (names.foldl (fun b name => external_add env fs b name []) bwrap).finished
        = bwrap.finished := by
  intro names
  induction names with
  | nil => intro bwrap; rfl
  | cons n rest ih => intro bwrap; rw [List.foldl_cons, ih]; rfl

theorem ensure_locales_finished (env : Env) (self : PvRuntime) (on_host : Bool) (w : World)
    (bwrap : FlatpakBwrap) :
    (ensure_locales env self on_host w bwrap).2.finished = bwrap.finished := by
  unfold ensure_locales
  simp only
  split
  · rfl
  · split <;> rfl

theorem bind_localtime_finished (env : Env) (fs : FS) (bwrap : FlatpakBwrap) :
    (bind_localtime env fs bwrap).finished = bwrap.finished := by
  unfold bind_localtime
  simp only
  split
  · split <;> rfl
  · rfl

/-- A successful `bind_runtime` returns a builder that is not finished. -/
theorem bind_runtime_finished {env : Env} {system_info : SrtSystemInfo} {self self1 : PvRuntime}
    {w w1 : World} {bwrap bwrap1 : FlatpakBwrap}
    (h : bind_runtime env system_info self w bwrap = (w1, .ok (self1, bwrap1))) :
    bwrap1.finished = false := by
  unfold bind_runtime at h
  simp only at h
  split at h
  · simp only [Prod.mk.injEq] at h; exact absurd h.2 (by simp)
  · rename_i hfin
    split at h
    · simp only [Prod.mk.injEq] at h; exact absurd h.2 (by simp)
    · split at h
      · simp only [Prod.mk.injEq] at h; exact absurd h.2 (by simp)
      · split at h
        · simp only [Prod.mk.injEq] at h; exact absurd h.2 (by simp)
        · split at h
          · simp only [Prod.mk.injEq] at h; exact absurd h.2 (by simp)
          · simp only [Prod.mk.injEq, Except.ok.injEq] at h
            rw [← h.2.2, bind_localtime_finished]
            have hfin2 : bwrap.finished = false := by
              simpa [pv_bwrap_was_finished] using hfin
            split
            · rw [external_add_finished, external_add_fold_finished]
              split
              · rw [ensure_locales_finished]; exact hfin2
              · exact hfin2
            · rw [external_add_fold_finished]
              split
              · rw [ensure_locales_finished]; exact hfin2
              · exact hfin2

/-- C20 (lock hand-over arguments): after a successful `pv_runtime_bind`,
`with_lock_in_container` is set and the builder that the function returns
is not finished; and on a builder that is not finished
`pv_runtime_append_lock_adverb` appends exactly `with_lock_in_container`,
`--subreaper`, `--fd`, the descriptor of the runtime lock in decimal and `--`,
and makes the builder track that descriptor, when the runtime lock is an
OFD lock, and appends exactly `with_lock_in_container`, `--subreaper`,
`--lock-file`, `/.ref` and `--` otherwise; what the builder held before is
left as it was, in the same order. -/
theorem lock_adverb_arguments (env : Env) (system_info : SrtSystemInfo) (self self1 : PvRuntime)
    (w w1 : World) (bwrap bwrap1 builder : FlatpakBwrap)
    (hbind : pv_runtime_bind env system_info self w bwrap = (w1, .ok (self1, bwrap1)))
    (hopen : pv_bwrap_was_finished builder = false) :
    ∃ with_lock : String,
      self1.with_lock_in_container = some with_lock ∧
      pv_bwrap_was_finished bwrap1 = false ∧
      pv_runtime_append_lock_adverb self1 builder =
        (if pv_bwrap_lock_is_ofd self1.runtime_lock then
          { builder with
            argv := builder.argv ++
              [with_lock, "--subreaper", "--fd",
                fd_to_string ((self1.runtime_lock.map Lock.fd).getD 0), "--"]
            fds := builder.fds ++ [(self1.runtime_lock.map Lock.fd).getD 0] }
         else
          { builder with
            argv := builder.argv ++ [with_lock, "--subreaper", "--lock-file", "/.ref", "--"] }) := by
  have key : ∀ (s : PvRuntime) (with_lock : String),
      s.with_lock_in_container = some with_lock →
      pv_runtime_append_lock_adverb s builder =
        (if pv_bwrap_lock_is_ofd s.runtime_lock then
          { builder with
            argv := builder.argv ++
              [with_lock, "--subreaper", "--fd",
                fd_to_string ((s.runtime_lock.map Lock.fd).getD 0), "--"]
            fds := builder.fds ++ [(s.runtime_lock.map Lock.fd).getD 0] }
         else
          { builder with
            argv := builder.argv ++ [with_lock, "--subreaper", "--lock-file", "/.ref", "--"] }) := by
    intro s with_lock hs
    unfold pv_runtime_append_lock_adverb
    rw [hopen, hs]
    simp only [Bool.false_eq_true, if_false]
    cases hl : s.runtime_lock with
    | none =>
      simp [pv_bwrap_lock_is_ofd, flatpak_bwrap_add_args]
    | some lock =>
      by_cases ho : lock.is_ofd = true
      · simp [pv_bwrap_lock_is_ofd, ho, flatpak_bwrap_add_args, flatpak_bwrap_add_fd,
          pv_bwrap_lock_steal_fd]
      · simp [pv_bwrap_lock_is_ofd, ho, flatpak_bwrap_add_args]
  unfold pv_runtime_bind at hbind
  split at hbind
  · simp only [Prod.mk.injEq] at hbind; exact absurd hbind.2 (by simp)
  · split at hbind
    · simp only [Prod.mk.injEq] at hbind; exact absurd hbind.2 (by simp)
    · rename_i wa selfa bwrapa hrun
      have hfin := bind_runtime_finished hrun
      simp only at hbind
      split at hbind
      · split at hbind
        · simp only [Prod.mk.injEq] at hbind; exact absurd hbind.2 (by simp)
        · split at hbind
          · simp only [Prod.mk.injEq] at hbind; exact absurd hbind.2 (by simp)
          · split at hbind
            · simp only [Prod.mk.injEq] at hbind; exact absurd hbind.2 (by simp)
            · simp only [Prod.mk.injEq, Except.ok.injEq] at hbind
              obtain ⟨_, hs, hb⟩ := hbind
              refine ⟨_, by rw [← hs], ?_, key _ _ (by rw [← hs])⟩
              rw [← hb]
              exact hfin
      · simp only [Prod.mk.injEq, Except.ok.injEq] at hbind
        obtain ⟨_, hs, hb⟩ := hbind
        refine ⟨_, by rw [← hs], ?_, key _ _ (by rw [← hs])⟩
        rw [← hb]
        exact hfin

/-- Witness of `libgl_drivers_path`: the run on `host_full`, in which both
architectures are viable. -/
theorem libgl_drivers_path_witness :
    use_host_graphics_stack_complete env_full system_info_full self_full composed_full.1 []
      = (graphics_full.1, .ok (graphics_full.value.getD (self_plain, []))) ∧
    arg_after "LIBGL_DRIVERS_PATH" (graphics_full.value.getD (self_plain, [])).2
      = some "/overrides/lib/x86_64-linux-gnu/dri:/overrides/lib/i386-linux-gnu/dri" ∧
    ∃ (w1 : World) (self1 : PvRuntime),
      pv_runtime_provide_container_access self_full composed_full.1 = (w1, .ok self1) ∧
      loop_viable env_full system_info_full (List.range (N_MULTIARCH - 1))
        (graphics_stack_start system_info_full self1 []) w1 ≠ [] :=
  ⟨by decide, by decide,
    (libgl_drivers_path env_full system_info_full self_full
      (graphics_full.value.getD (self_plain, [])).1 composed_full.1 graphics_full.1 []
      (graphics_full.value.getD (self_plain, [])).2 (by decide)).elim
      (fun w1 h1 => h1.elim (fun self1 h2 => h2.elim (fun _ h3 => h3.elim (fun _ h4 =>
        h4.elim (fun _ h5 => h5.elim (fun _ h6 => ⟨w1, self1, h6.1, h6.2.1⟩))))))⟩

/-- Witness of `icd_manifest_list`: the manifests of the EGL ICDs of
`system_info_full`, of which the first has the kind `ABSOLUTE` for
`x86_64-linux-gnu` and the second the kind `SONAME`. -/
theorem icd_manifest_list_witness :
    setup_icd_json env_full stack_full.self ["share", "glvnd", "egl_vendor.d"]
        stack_full.egl_icd_details archs_full.1 stack_full.bwrap
      = (egl_setup_full.1, .ok (egl_setup_full.value.getD ([], ""))) ∧
    (egl_setup_full.value.getD ([], "")).2 = search_path_of
      (spec_manifest_list stack_full.self ["share", "glvnd", "egl_vendor.d"] 0
        stack_full.egl_icd_details) ∧
    search_path_of
      (spec_manifest_list stack_full.self ["share", "glvnd", "egl_vendor.d"] 0
        stack_full.egl_icd_details)
      = "/overrides/share/glvnd/egl_vendor.d/0-x86_64-linux-gnu.json:"
        ++ "/overrides/share/glvnd/egl_vendor.d/1.json" :=
  ⟨by decide,
    (icd_manifest_list env_full stack_full.self ["share", "glvnd", "egl_vendor.d"]
      stack_full.egl_icd_details archs_full.1 egl_setup_full.1 stack_full.bwrap
      (egl_setup_full.value.getD ([], "")).1 (egl_setup_full.value.getD ([], "")).2
      (by decide)).1,
    by decide⟩

/-- Witness of `driver_variables_set_or_unset`: the run on `host_full`, which
has no Vulkan ICD. -/
theorem driver_variables_set_or_unset_witness :
    use_host_graphics_stack_complete env_full system_info_full self_full composed_full.1 []
      = (graphics_full.1, .ok (graphics_full.value.getD (self_plain, []))) ∧
    (graphics_full.value.getD (self_plain, [])).2.contains "VK_ICD_FILENAMES" = true ∧
    ∃ (w1 : World) (st : GraphicsStack),
      pv_runtime_use_host_graphics_stack env_full system_info_full self_full composed_full.1 []
        = (w1, .ok st) :=
  ⟨by decide, by decide,
    (driver_variables_set_or_unset env_full system_info_full self_full
      (graphics_full.value.getD (self_plain, [])).1 composed_full.1 graphics_full.1 []
      (graphics_full.value.getD (self_plain, [])).2 (by decide)).elim
      (fun w1 h1 => h1.elim (fun st h2 => h2.elim (fun _ h3 => h3.elim (fun _ h4 =>
        h4.elim (fun _ h5 => h5.elim (fun _ h6 => ⟨w1, st, h6.1⟩))))))⟩

/-- Witness of `libc_provenance_flags`: on `host_full` the libc of the host is
used for `x86_64-linux-gnu` and not for `i386-linux-gnu`, and the function
succeeds. -/
theorem libc_provenance_flags_witness :
    self_full.any_libc_from_host = false ∧
    pv_runtime_use_host_graphics_stack env_full system_info_full self_full composed_full.1 []
      = (archs_full.1, .ok stack_full) ∧
    stack_full.self.any_libc_from_host = true ∧
    stack_full.self.all_libc_from_host = false ∧
    (use_host_graphics_stack_finish env_full stack_full archs_full.1).value.isSome = true ∧
    ∀ b : Bool, use_host_graphics_stack_finish env_full
        { stack_full with self := { stack_full.self with all_libc_from_host := b } } archs_full.1
      = use_host_graphics_stack_finish env_full stack_full archs_full.1 :=
  ⟨by decide, by decide, by decide, by decide, by decide,
    (libc_provenance_flags env_full system_info_full self_full composed_full.1 archs_full.1 []
      stack_full (by decide) (by decide)).elim
      (fun _ h1 => h1.elim (fun _ h2 => h2.2.2.2.2.2))⟩

/-- Witness of `locpath_iff_locales`: the helper creates a locale and exits
with the status 72, and `LOCPATH` was `/usr/lib/locale`. -/
theorem locpath_iff_locales_witness :
    builder_plain.fds = [] ∧
    locales_run.2.argv = builder_plain.argv ++
      ["--setenv", "LOCPATH", "/overrides/locales:/usr/lib/locale"] ∧
    ∀ status : Nat,
      ensure_locales
          { env_locales with
            run_status := fun fs argv => ((env_locales.run_status fs argv).1, status) }
          self_plain true { fs := host_locales } builder_plain
        = ensure_locales env_locales self_plain true { fs := host_locales } builder_plain :=
  ⟨rfl, by decide,
    (locpath_iff_locales env_locales self_plain true { fs := host_locales } builder_plain
      rfl).elim (fun _ h => h.elim (fun _ h2 => h2.2.2.2.2.2))⟩

/-- Witness of `lock_adverb_arguments`: the runtime in `/srv/scout`, whose lock
is an OFD lock with the descriptor 3, bound on `host_locales`. -/
theorem lock_adverb_arguments_witness :
    pv_runtime_bind {} {} self_plain { fs := host_locales } { argv := ["/usr/bin/bwrap"] }
      = (bound_plain.1, .ok (bound_plain.value.getD (self_plain, {}))) ∧
    pv_bwrap_was_finished (bound_plain.value.getD (self_plain, {})).2 = false ∧
    (pv_runtime_append_lock_adverb (bound_plain.value.getD (self_plain, {})).1
        (bound_plain.value.getD (self_plain, {})).2).argv
      = (bound_plain.value.getD (self_plain, {})).2.argv ++
        ["/run/pressure-vessel/pv-from-host/bin/pressure-vessel-with-lock", "--subreaper",
          "--fd", "3", "--"] ∧
    ∃ with_lock : String,
      (bound_plain.value.getD (self_plain, {})).1.with_lock_in_container = some with_lock ∧
      pv_bwrap_was_finished (bound_plain.value.getD (self_plain, {})).2 = false :=
  ⟨by decide, by decide, by decide,
    (lock_adverb_arguments {} {} self_plain (bound_plain.value.getD (self_plain, {})).1
      { fs := host_locales } bound_plain.1 { argv := ["/usr/bin/bwrap"] }
      (bound_plain.value.getD (self_plain, {})).2 (bound_plain.value.getD (self_plain, {})).2
      (by decide) (by decide)).elim (fun v h => ⟨v, h.1, h.2.1⟩)⟩

/-! ## Paths visible in `/run/host` -/

/-- C26 (visibility in `/run/host`) fails: the last test of
`path_visible_in_run_host` is `g_str_has_prefix (path, "sbin") || (path[4] ==
'\0' || path[4] == '/')`, so the function returns TRUE for `/home/x`, whose
fifth character after the leading `/` is `/`, for `/etc/`, whose fifth
character is the terminator, and for `/sbinfoo`.  (It returns FALSE for
`/opt/x` and `/etc/ld.so.cache`, and TRUE for `/usr`, `/usr/lib`, `/bin/sh`,
`/sbin` and `/lib64`, as claimed.) -/
theorem path_visible_beyond_host_os :
    path_visible_in_run_host "/home/x" = some true ∧
    path_visible_in_run_host "/etc/" = some true ∧
    path_visible_in_run_host "/sbinfoo" = some true ∧
    path_visible_in_run_host "/opt/x" = some false ∧
    path_visible_in_run_host "/etc/ld.so.cache" = some false ∧
    path_visible_in_run_host "/usr" = some true ∧
    path_visible_in_run_host "//usr/lib" = some true ∧
    path_visible_in_run_host "/usrlocal" = some false ∧
    path_visible_in_run_host "/bin/sh" = some true ∧
    path_visible_in_run_host "/sbin" = some true ∧
    path_visible_in_run_host "/lib64" = some true := by
  decide

/-- C27 (no read past the end of the string) fails: for a path that, after
its leading `/` characters, has fewer than four characters and is neither
`usr`, `bin` nor begins with `lib`, the last test of
`path_visible_in_run_host` reads `path[4]`, which lies beyond the
terminator: so for `/etc`, `/opt`, `/` and the empty string. -/
theorem path_visible_reads_past_end :
    path_visible_in_run_host "/etc" = none ∧
    path_visible_in_run_host "/opt" = none ∧
    path_visible_in_run_host "/" = none ∧
    path_visible_in_run_host "" = none ∧
    c_char_at "etc".data 3 = some (Char.ofNat 0) ∧
    c_char_at "etc".data 4 = none := by
  decide

/-! ## Symbol lookup across capsules -/

/-- C30 (symbol lookup across capsules) fails for an address whose origin
`dladdr` cannot determine: the loop goes on to the next capsule instead of
stopping.  With the capsules 1 and 2, of which the first gives such an
address and the second does not have the symbol, `_dlsym_from_capsules`
returns NULL; and if the second gives an address in a DSO that it exports,
that address is returned and not the one found in the first capsule. -/
theorem dlsym_forgets_unknown_origin :
    linker_unknown.dlsym 1 "glFlush" = 4096 ∧
    linker_unknown.dladdr 4096 = none ∧
    _dlsym_from_capsules linker_unknown
      [some { dl_handle := 1 }, some { dl_handle := 2 }] "glFlush" = 0 ∧
    _dlsym_from_capsules linker_unknown
      [some { dl_handle := 1 }, none] "glFlush" = 4096 ∧
    _dlsym_from_capsules linker_two
      [some { dl_handle := 1 },
       some { dl_handle := 2, combined_export := ["libGL.so.1"] }] "glFlush" = 8192 := by
  decide

/-! ## The data directory of libdrm -/

/-- C25 (libdrm data directory) fails for the empty prefix: for a library
directly in `/lib64` or in `/lib/<tuple>` of the host the path computed is the
relative path `share/libdrm`, not `/share/libdrm`.  With a prefix the path is
`<prefix>/share/libdrm`, one suffix being removed and `/lib/<tuple>` going
before `/lib`. -/
theorem libdrm_data_dir_relative :
    libdrm_data_dir arch_plain "/run/host/lib64/libdrm.so.2" = "share/libdrm" ∧
    libdrm_data_dir arch_plain "/run/host/lib/x86_64-linux-gnu/libdrm.so.2" = "share/libdrm" ∧
    g_path_is_absolute "share/libdrm" = false ∧
    libdrm_data_dir arch_plain "/run/host/usr/lib/x86_64-linux-gnu/libdrm.so.2"
      = "/usr/share/libdrm" ∧
    libdrm_data_dir arch_plain "/run/host/usr/lib64/libdrm.so.2" = "/usr/share/libdrm" ∧
    libdrm_data_dir arch_plain "/run/host/usr/lib32/libdrm.so.2" = "/usr/share/libdrm" ∧
    libdrm_data_dir arch_plain "/run/host/opt/lib/lib/libdrm.so.2" = "/opt/lib/share/libdrm" ∧
    libdrm_data_dir arch_plain "/run/host/usr/local/lib/libdrm.so.2"
      = "/usr/local/share/libdrm" := by
  decide

/-! ## The bind plan for `/etc` and `/var` -/

theorem bind_mutable_members_eq (self : PvRuntime) (fs : FS) (dir : String) :
    ∀ (members : List Dirent) (argv : List String),
      bind_mutable_members self fs dir members argv =
        argv ++ (members.map (fun m => spec_bind_entry self fs dir m.d_name)).flatten := by
  intro members
  induction members with
  | nil => intro argv; simp [bind_mutable_members]
  | cons m rest ih =>
    intro argv
    unfold bind_mutable_members
    simp only [List.map_cons, List.flatten_cons]
    by_cases hb : dont_bind.contains (g_build_filename ["/", dir, m.d_name]) = true
    · have he : spec_bind_entry self fs dir m.d_name = [] := by
        simp only [spec_bind_entry, hb, if_true]
      rw [he]
      simp only [hb, if_true, List.nil_append]
      exact ih argv
    · cases ht : glnx_readlinkat_malloc fs []
          (self.runtime_files ++ path_components dir ++ [m.d_name]) with
      | none =>
        have he : spec_bind_entry self fs dir m.d_name =
            ["--ro-bind", path_to_string (self.runtime_files ++ path_components dir ++ [m.d_name]),
              g_build_filename ["/", dir, m.d_name]] := by
          simp only [spec_bind_entry, hb, if_false, ht, Bool.false_eq_true]
        rw [he]
        simp only [hb, Bool.false_eq_true, if_false, ht]
        rw [ih]
        simp only [List.append_assoc]
      | some target =>
        have he : spec_bind_entry self fs dir m.d_name =
            ["--symlink", target, g_build_filename ["/", dir, m.d_name]] := by
          simp only [spec_bind_entry, hb, if_false, ht, Bool.false_eq_true]
        rw [he]
        simp only [hb, Bool.false_eq_true, if_false, ht]
        rw [ih]
        simp only [List.append_assoc]

theorem bind_mutable_dirs_eq (self : PvRuntime) (fs : FS) :
    ∀ (dirs : List String) (argv : List String),
      bind_mutable_dirs self fs dirs argv =
        argv ++ (dirs.map (spec_bind_dir self fs)).flatten := by
  intro dirs
  induction dirs with
  | nil => intro argv; simp [bind_mutable_dirs]
  | cons d rest ih =>
    intro argv
    unfold bind_mutable_dirs
    simp only [List.map_cons, List.flatten_cons]
    cases ho : glnx_opendirat fs [] (self.runtime_files ++ path_components d) true with
    | error e =>
      have he : spec_bind_dir self fs d = [] := by simp only [spec_bind_dir, ho]
      rw [he]
      simp only [ih, List.nil_append]
    | ok loc =>
      have he : spec_bind_dir self fs d =
          ((readdir fs loc).map (fun m => spec_bind_entry self fs d m.d_name)).flatten := by
        simp only [spec_bind_dir, ho]
      rw [he]
      simp only [ih, bind_mutable_members_eq, List.append_assoc]

/-- Amended C21 (bind plan for `/etc` and `/var`): the loop of `bind_runtime`
over `etc`, `var/cache` and `var/lib` appends to the builder, for these
directories in this order and for every entry `m` of each directory of the
runtime that can be opened, in directory order: nothing if `/<dir>/<m>` is in
the blocklist; `--symlink <target> /<dir>/<m>` if the entry is a symbolic
link with that target; and `--ro-bind <runtime_files>/<dir>/<m> /<dir>/<m>`
otherwise.  What the builder held before is kept. -/
theorem bind_plan_etc_var (self : PvRuntime) (fs : FS) (argv : List String) :
    bind_mutable_dirs self fs bind_mutable argv =
      argv ++ spec_bind_dir self fs "etc" ++ spec_bind_dir self fs "var/cache" ++
        spec_bind_dir self fs "var/lib" ∧
    (∀ (dir member : String),
      dont_bind.contains (g_build_filename ["/", dir, member]) = true →
      spec_bind_entry self fs dir member = []) ∧
    (∀ (dir member target : String),
      dont_bind.contains (g_build_filename ["/", dir, member]) = false →
      glnx_readlinkat_malloc fs [] (self.runtime_files ++ path_components dir ++ [member])
        = some target →
      spec_bind_entry self fs dir member =
        ["--symlink", target, g_build_filename ["/", dir, member]]) ∧
    (∀ (dir member : String),
      dont_bind.contains (g_build_filename ["/", dir, member]) = false →
      glnx_readlinkat_malloc fs [] (self.runtime_files ++ path_components dir ++ [member])
        = none →
      spec_bind_entry self fs dir member =
        ["--ro-bind", path_to_string (self.runtime_files ++ path_components dir ++ [member]),
          g_build_filename ["/", dir, member]]) ∧
    dont_bind =
      ["/etc/group", "/etc/passwd", "/etc/host.conf", "/etc/hosts", "/etc/localtime",
       "/etc/machine-id", "/etc/resolv.conf", "/var/lib/dbus", "/var/lib/dhcp",
       "/var/lib/sudo", "/var/lib/urandom"] := by
  refine ⟨?_, ?_, ?_, ?_, rfl⟩
  · rw [bind_mutable_dirs_eq]
    simp [bind_mutable, List.append_assoc]
  · intro dir member h
    simp only [spec_bind_entry, h, if_true]
  · intro dir member target h ht
    simp only [spec_bind_entry, h, Bool.false_eq_true, if_false, ht]
  · intro dir member h ht
    simp only [spec_bind_entry, h, Bool.false_eq_true, if_false, ht]

/-- Counterexample to C21 as stated: the entry `etc/mtab` of the runtime in
`/srv/scout` is a symbolic link to `/proc/mounts` and `/etc/mtab` is not in
the blocklist; the loop appends `--symlink /proc/mounts /etc/mtab` for it and
not `--ro-bind /srv/scout/etc/mtab /etc/mtab`. -/
theorem bind_plan_symlink_entry :
    fs_get img_etc ["srv", "scout", "etc", "mtab"] = some (.symlink "/proc/mounts") ∧
    dont_bind.contains "/etc/mtab" = false ∧
    bind_mutable_dirs self_plain img_etc bind_mutable [] =
      ["--symlink", "/proc/mounts", "/etc/mtab",
       "--ro-bind", "/srv/scout/etc/ld.so.conf", "/etc/ld.so.conf",
       "--ro-bind", "/srv/scout/etc/fonts", "/etc/fonts",
       "--ro-bind", "/srv/scout/var/lib/dpkg", "/var/lib/dpkg"] ∧
    (bind_runtime {} {} self_plain { fs := img_etc } {}).value.map (fun r => r.2.argv) =
      some ["--ro-bind", "/srv/scout/usr", "/usr",
        "--setenv", "XDG_RUNTIME_DIR", "/run/user/1000", "--tmpfs", "/run", "--tmpfs", "/tmp",
        "--tmpfs", "/var", "--symlink", "../run", "/var/run",
        "--ro-bind", "/", "/run/host/usr",
        "--symlink", "/proc/mounts", "/etc/mtab",
        "--ro-bind", "/srv/scout/etc/ld.so.conf", "/etc/ld.so.conf",
        "--ro-bind", "/srv/scout/etc/fonts", "/etc/fonts",
        "--ro-bind", "/srv/scout/var/lib/dpkg", "/var/lib/dpkg"] := by
  decide

/-! ## The candidates of the scan for overridden libraries -/

theorem overridden_by_candidate {env : Env} {fs : FS} {sysroot_fd : Path}
    {arch : RuntimeArchitecture} {multiarch_libdir : List String} {dir : Path} {dent : Dirent}
    {r : Path}
    (h : overridden_by env fs sysroot_fd arch multiarch_libdir dir dent = some r) :
    is_library_candidate dent = true := by
  unfold overridden_by at h
  by_cases hc : is_library_candidate dent = true
  · exact hc
  · simp [hc] at h

theorem scan_libdir_eq (env : Env) (fs : FS) (sysroot_fd : Path) (arch : RuntimeArchitecture)
    (multiarch_libdir : List String) (dir : Path) :
    ∀ (dents : List Dirent) (i : Nat) (acc delete : List (String × Path)),
      scan_libdir env fs sysroot_fd arch multiarch_libdir dir i dents acc = .ok delete →
      delete = acc ++ dents.filterMap (fun d =>
        (overridden_by env fs sysroot_fd arch multiarch_libdir dir d).map
          (fun r => (d.d_name, r))) := by
  intro dents
  induction dents with
  | nil =>
    intro i acc delete h
    unfold scan_libdir at h
    split at h
    · cases h
    · simp only [Except.ok.injEq] at h
      simp [← h]
  | cons d rest ih =>
    intro i acc delete h
    unfold scan_libdir at h
    split at h
    · cases h
    · split at h
      · rename_i reason hr
        rw [ih _ _ _ h]
        simp [List.filterMap_cons, hr]
      · rename_i hr
        rw [ih _ _ _ h]
        simp [List.filterMap_cons, hr]

theorem scan_libdirs_marked (env : Env) (fs : FS) (sysroot_fd : Path)
    (arch : RuntimeArchitecture) :
    ∀ (dirs : List (List String)) (tables : List (Option (Path × List (String × Path)))),
      scan_libdirs env fs sysroot_fd arch dirs = .ok tables →
      ∀ dir tbl, some (dir, tbl) ∈ tables →
        ∃ libdir ∈ dirs,
          pv_resolve_in_sysroot fs sysroot_fd (libdir ++ [arch.tuple]) = .ok dir ∧
          tbl = (readdir fs dir).filterMap (fun d =>
            (overridden_by env fs sysroot_fd arch (libdir ++ [arch.tuple]) dir d).map
              (fun r => (d.d_name, r))) := by
  intro dirs
  induction dirs with
  | nil =>
    intro tables h dir tbl hm
    simp only [scan_libdirs, Except.ok.injEq] at h
    rw [← h] at hm
    simp at hm
  | cons d rest ih =>
    intro tables h dir tbl hm
    unfold scan_libdirs at h
    simp only at h
    cases hr : pv_resolve_in_sysroot fs sysroot_fd (d ++ [arch.tuple]) with
    | error e =>
      rw [hr] at h
      simp only at h
      cases hrest : scan_libdirs env fs sysroot_fd arch rest with
      | error e2 => rw [hrest] at h; cases h
      | ok tables2 =>
        rw [hrest] at h
        simp only [Except.map, Except.ok.injEq] at h
        rw [← h] at hm
        simp only [List.mem_cons] at hm
        rcases hm with hm | hm
        · cases hm
        · obtain ⟨libdir, hl, h1, h2⟩ := ih _ hrest dir tbl hm
          exact ⟨libdir, List.mem_cons_of_mem _ hl, h1, h2⟩
    | ok dir1 =>
      rw [hr] at h
      simp only at h
      split at h
      · cases h
      · cases hscan : scan_libdir env fs sysroot_fd arch (d ++ [arch.tuple]) dir1 0
            (readdir fs dir1) [] with
        | error e => rw [hscan] at h; cases h
        | ok delete =>
          rw [hscan] at h
          simp only at h
          cases hrest : scan_libdirs env fs sysroot_fd arch rest with
          | error e2 => rw [hrest] at h; cases h
          | ok tables2 =>
            rw [hrest] at h
            simp only [Except.map, Except.ok.injEq] at h
            rw [← h] at hm
            simp only [List.mem_cons, Option.some.injEq, Prod.mk.injEq] at hm
            rcases hm with ⟨rfl, rfl⟩ | hm
            · refine ⟨d, List.mem_cons_self _ _, hr, ?_⟩
              have := scan_libdir_eq env fs sysroot_fd arch (d ++ [arch.tuple]) dir _ _ _ _ hscan
              simpa using this
            · obtain ⟨libdir, hl, h1, h2⟩ := ih _ hrest dir tbl hm
              exact ⟨libdir, List.mem_cons_of_mem _ hl, h1, h2⟩

theorem unlinkat_plain {env : Env} {fs fs1 : FS} {dir : Path} {name : String}
    (h1 : name ≠ ".") (h2 : name ≠ "..")
    (h : unlinkat env fs dir [name] = .ok fs1) : fs1 = fs_del fs (dir ++ [name]) := by
  unfold unlinkat at h
  cases hn : fs_get fs (dir ++ [name]) with
  | none =>
    rw [lstat_at_child_none h1 h2 hn] at h
    cases h
  | some n =>
    rw [lstat_at_child h1 h2 hn] at h
    cases n with
    | dir => cases h
    | file ino =>
      simp only at h
      split at h
      · cases h
      · simp only [Except.ok.injEq] at h; exact h.symm
    | symlink t =>
      simp only at h
      split at h
      · cases h
      · simp only [Except.ok.injEq] at h; exact h.symm

theorem delete_marked_frame (env : Env) (dir : Path) (q : Path) :
    ∀ (tbl : List (String × Path)) (fs : FS),
      (∀ x ∈ tbl, x.1 ≠ "." ∧ x.1 ≠ "..") → (∀ x ∈ tbl, q ≠ dir ++ [x.1]) →
      fs_get (delete_marked env dir tbl fs) q = fs_get fs q := by
  intro tbl
  induction tbl with
  | nil => intro fs _ _; rfl
  | cons e rest ih =>
    intro fs hp hq
    obtain ⟨name, reason⟩ := e
    have hpr := fun x hx => hp x (List.mem_cons_of_mem _ hx)
    have hqr := fun x hx => hq x (List.mem_cons_of_mem _ hx)
    have hp0 := hp (name, reason) (List.mem_cons_self _ _)
    have hq0 := hq (name, reason) (List.mem_cons_self _ _)
    unfold delete_marked
    split
    · rename_i fs1 hu
      rw [ih fs1 hpr hqr, unlinkat_plain hp0.1 hp0.2 hu, fs_get_del, if_neg hq0]
    · exact ih fs hpr hqr

theorem delete_tables_frame (env : Env) (q : Path) :
    ∀ (tables : List (Option (Path × List (String × Path)))) (fs : FS),
      (∀ dir tbl, some (dir, tbl) ∈ tables → ∀ x ∈ tbl, x.1 ≠ "." ∧ x.1 ≠ "..") →
      (∀ dir tbl, some (dir, tbl) ∈ tables → ∀ x ∈ tbl, q ≠ dir ++ [x.1]) →
      fs_get (delete_tables env tables fs) q = fs_get fs q := by
  intro tables
  induction tables with
  | nil => intro fs _ _; rfl
  | cons t rest ih =>
    intro fs hp hq
    have hpr := fun dir tbl hm => hp dir tbl (List.mem_cons_of_mem _ hm)
    have hqr := fun dir tbl hm => hq dir tbl (List.mem_cons_of_mem _ hm)
    cases t with
    | none => exact ih fs hpr hqr
    | some dt =>
      obtain ⟨dir, tbl⟩ := dt
      unfold delete_tables
      rw [ih _ hpr hqr]
      exact delete_marked_frame env dir q tbl fs (hp dir tbl (List.mem_cons_self _ _))
        (hq dir tbl (List.mem_cons_self _ _))

/-- Amended C23 (candidate filter of the shadowed-library scan): an entry of
a library directory is a candidate exactly when it is a regular file or a
symbolic link whose name starts with `lib` and either ends in `.so` or
contains `.so.`.  When `pv_runtime_remove_overridden_libraries` succeeds,
the table of each library directory that it could open holds, in directory
order, exactly the entries for which the check against the overrides
(`overridden_by`) gives a reason; each of them is a candidate, every
candidate is put to that check, an entry that is not a candidate is never
put in a table, and every path that is not an entry of a table is left as
it was. -/
theorem shadowed_scan_candidates (env : Env) (self : PvRuntime) (w w1 : World)
    (arch : RuntimeArchitecture)
    (hok : pv_runtime_remove_overridden_libraries env self w arch = (w1, .ok ())) :
    (∀ dent : Dirent, is_library_candidate dent = true ↔
      ((dent.d_type = .DT_REG ∨ dent.d_type = .DT_LNK) ∧
        g_str_has_prefix dent.d_name "lib" = true ∧
        (g_str_has_suffix dent.d_name ".so" = true ∨ strstr_found dent.d_name ".so." = true))) ∧
    ∃ (sysroot_fd : Path) (tables : List (Option (Path × List (String × Path)))),
      self.mutable_sysroot_fd = some sysroot_fd ∧
      scan_libdirs env w.fs sysroot_fd arch libdirs = .ok tables ∧
      (∀ dir tbl, some (dir, tbl) ∈ tables →
        ∃ libdir ∈ libdirs,
          pv_resolve_in_sysroot w.fs sysroot_fd (libdir ++ [arch.tuple]) = .ok dir ∧
          tbl = (readdir w.fs dir).filterMap (fun d =>
            (overridden_by env w.fs sysroot_fd arch (libdir ++ [arch.tuple]) dir d).map
              (fun r => (d.d_name, r))) ∧
          ∀ x ∈ tbl, ∃ dent ∈ readdir w.fs dir,
            dent.d_name = x.1 ∧ is_library_candidate dent = true) ∧
      (∀ (multiarch_libdir : List String) (dir : Path) (dent : Dirent),
        is_library_candidate dent = false →
        overridden_by env w.fs sysroot_fd arch multiarch_libdir dir dent = none) ∧
      (∀ q : Path, (∀ dir tbl, some (dir, tbl) ∈ tables → ∀ x ∈ tbl, q ≠ dir ++ [x.1]) →
        fs_get w1.fs q = fs_get w.fs q) := by
  constructor
  · intro dent
    unfold is_library_candidate
    cases dent.d_type <;>
      cases g_str_has_prefix dent.d_name "lib" <;>
      cases g_str_has_suffix dent.d_name ".so" <;>
      cases strstr_found dent.d_name ".so." <;> simp
  · unfold pv_runtime_remove_overridden_libraries at hok
    cases hms : self.mutable_sysroot with
    | none => rw [hms] at hok; simp only [Prod.mk.injEq] at hok; exact absurd hok.2 (by simp)
    | some sysroot =>
      cases hfd : self.mutable_sysroot_fd with
      | none =>
        rw [hms, hfd] at hok; simp only [Prod.mk.injEq] at hok; exact absurd hok.2 (by simp)
      | some sysroot_fd =>
        rw [hms, hfd] at hok
        simp only at hok
        cases hscan : scan_libdirs env w.fs sysroot_fd arch libdirs with
        | error e =>
          rw [hscan] at hok; simp only [Prod.mk.injEq] at hok; exact absurd hok.2 (by simp)
        | ok tables =>
          rw [hscan] at hok
          simp only [Prod.mk.injEq, and_true] at hok
          have hmarked := scan_libdirs_marked env w.fs sysroot_fd arch libdirs tables hscan
          have hcand : ∀ dir tbl, some (dir, tbl) ∈ tables → ∀ x ∈ tbl,
              ∃ dent ∈ readdir w.fs dir, dent.d_name = x.1 ∧ is_library_candidate dent = true := by
            intro dir tbl hm x hx
            obtain ⟨libdir, _, _, htbl⟩ := hmarked dir tbl hm
            rw [htbl, List.mem_filterMap] at hx
            obtain ⟨dent, hd, hx⟩ := hx
            cases ho : overridden_by env w.fs sysroot_fd arch (libdir ++ [arch.tuple]) dir dent with
            | none => rw [ho] at hx; cases hx
            | some r =>
              rw [ho] at hx
              simp only [Option.map_some', Option.some.injEq] at hx
              exact ⟨dent, hd, by rw [← hx], overridden_by_candidate ho⟩
          refine ⟨sysroot_fd, tables, rfl, hscan, ?_, ?_, ?_⟩
          · intro dir tbl hm
            obtain ⟨libdir, hl, h1, h2⟩ := hmarked dir tbl hm
            exact ⟨libdir, hl, h1, h2, hcand dir tbl hm⟩
          · intro multiarch_libdir dir dent hc
            simp [overridden_by, hc]
          · intro q hq
            rw [← hok]
            apply delete_tables_frame env q tables w.fs _ hq
            intro dir tbl hm x hx
            obtain ⟨dent, _, hname, hc⟩ := hcand dir tbl hm x hx
            have hpre : g_str_has_prefix dent.d_name "lib" = true := by
              unfold is_library_candidate at hc
              simp only [Bool.and_eq_true] at hc
              exact hc.1.2
            rw [← hname]
            exact lib_name_plain hpre

/-- Witness of `shadowed_scan_candidates`: the run on `sysroot_captured`
leaves the directory `libbar.so.1` and the loader of the sysroot as they
were. -/
theorem shadowed_scan_candidates_witness :
    pv_runtime_remove_overridden_libraries {} self_mutable { fs := sysroot_captured }
        arch_mutable = (removed_overridden.1, .ok ()) ∧
    ∃ (sysroot_fd : Path) (tables : List (Option (Path × List (String × Path)))),
      self_mutable.mutable_sysroot_fd = some sysroot_fd ∧
      scan_libdirs {} sysroot_captured sysroot_fd arch_mutable libdirs = .ok tables :=
  ⟨by decide,
    (shadowed_scan_candidates {} self_mutable { fs := sysroot_captured } removed_overridden.1
      arch_mutable (by decide)).2.elim
      (fun fd h => h.elim (fun tables h2 => ⟨fd, tables, h2.1, h2.2.1⟩))⟩

/-- Counterexample to C23 as stated: the name `libGL.sold` starts with `lib`
and contains `.so`, but it neither ends in `.so` nor contains `.so.`; the
regular file of that name in the sysroot is not a candidate, and it is left in
place although a link of the same name exists among the overrides. -/
theorem scan_skips_name_with_so_inside :
    g_str_has_prefix "libGL.sold" "lib" = true ∧
    strstr_found "libGL.sold" ".so" = true ∧
    is_library_candidate ⟨"libGL.sold", .DT_REG⟩ = false ∧
    fs_get sysroot_sold (sysroot_libdir ++ ["libGL.sold"]) = some (.file 22) ∧
    g_file_test_is_symlink sysroot_sold [] (arch_mutable.libdir_on_host ++ ["libGL.sold"])
      = true ∧
    removed_sold.2 = .ok () ∧
    fs_get removed_sold.1.fs (sysroot_libdir ++ ["libGL.sold"]) = some (.file 22) ∧
    fs_get removed_sold.1.fs (sysroot_libdir ++ ["libfoo.so.1"]) = none := by
  decide

/-! ## The invariant of the ICD records -/

theorem kind_set_ne (kinds : List IcdKind) (i j : Nat) (k : IcdKind) (icd : Icd)
    (rl : Option String) (paths : List (Option String)) (h : j ≠ i) :
    (⟨icd, rl, kinds.set i k, paths⟩ : IcdDetails).kind j
      = (⟨icd, rl, kinds, paths⟩ : IcdDetails).kind j := by
  unfold IcdDetails.kind
  simp [List.getD_eq_getElem?_getD, List.getElem?_set_ne (Ne.symm h)]

theorem path_set_ne (paths : List (Option String)) (i j : Nat) (v : Option String) (icd : Icd)
    (rl : Option String) (kinds : List IcdKind) (h : j ≠ i) :
    (⟨icd, rl, kinds, paths.set i v⟩ : IcdDetails).path_in_container j
      = (⟨icd, rl, kinds, paths⟩ : IcdDetails).path_in_container j := by
  unfold IcdDetails.path_in_container
  simp [List.getElem?_set_ne (Ne.symm h)]

theorem bind_icd_valid {env : Env} {self self1 : PvRuntime} {w w1 : World}
    {arch : RuntimeArchitecture} {sequence_number : Nat} {subdir : String}
    {details details1 : IcdDetails}
    (h : bind_icd env self w arch sequence_number subdir details = (w1, .ok (self1, details1))) :
    arch.multiarch_index < N_MULTIARCH - 1 ∧ ∃ lib, details.resolved_library = some lib := by
  unfold bind_icd at h
  split at h
  · simp only [Prod.mk.injEq] at h; exact absurd h.2 (by simp)
  · rename_i w2 self2 details2 hcap
    unfold bind_icd_capture at hcap
    split at hcap
    · simp only [Prod.mk.injEq] at hcap; exact absurd hcap.2 (by simp)
    · rename_i hv
      split at hcap
      · simp only [Prod.mk.injEq] at hcap; exact absurd hcap.2 (by simp)
      · rename_i lib hlib
        refine ⟨?_, lib, hlib⟩
        simp only [runtime_architecture_check_valid, Bool.not_eq_true, Bool.not_eq_false,
          Bool.and_eq_true, decide_eq_true_eq, Bool.not_eq_eq_eq_not, Bool.not_true] at hv
        have := hv.1.1
        simpa [libquals, N_MULTIARCH, multiarch_tuples] using this

/-- The shape of the record after a successful `bind_icd`. -/
theorem bind_icd_record {env : Env} {self self1 : PvRuntime} {w w1 : World}
    {arch : RuntimeArchitecture} {sequence_number : Nat} {subdir : String}
    {details details1 : IcdDetails} {lib : String}
    (hlib : details.resolved_library = some lib)
    (hk : arch.multiarch_index < details.kinds.length)
    (hp : arch.multiarch_index < details.paths_in_container.length)
    (h : bind_icd env self w arch sequence_number subdir details = (w1, .ok (self1, details1))) :
    details1.kinds.length = details.kinds.length ∧
    details1.paths_in_container.length = details.paths_in_container.length ∧
    (∀ j, j ≠ arch.multiarch_index →
      details1.kind j = details.kind j ∧
      details1.path_in_container j = details.path_in_container j) ∧
    (details1.kind arch.multiarch_index = .ICD_KIND_ABSOLUTE ↔
      (details1.path_in_container arch.multiarch_index).isSome = true) ∧
    (g_path_is_absolute lib = true →
      details1.kind arch.multiarch_index ≠ .ICD_KIND_SONAME) := by
  unfold bind_icd at h
  split at h
  · simp only [Prod.mk.injEq] at h; exact absurd h.2 (by simp)
  · rename_i w2 self2 details2 hcap
    obtain ⟨hk0, hp0, hd2, -⟩ := bind_icd_capture_ok hlib hcap
    obtain ⟨icd, rl, kinds, paths⟩ := details
    simp only at hlib hk hp
    subst hlib
    subst hd2
    unfold bind_icd_finish at h
    simp only [Option.getD_some] at h
    split at h
    · simp only [Prod.mk.injEq, Except.ok.injEq] at h
      obtain ⟨-, -, rfl⟩ := h
      refine ⟨by simp, rfl, ?_, ?_, ?_⟩
      · intro j hj
        refine ⟨?_, rfl⟩
        rw [kind_set_ne _ _ _ _ _ _ _ hj, kind_set_ne _ _ _ _ _ _ _ hj]
      · rw [kind_set, path_of_paths icd (some lib) _ kinds paths, hp0]
        simp
      · intro _
        rw [kind_set]
        simp
    · split at h
      · simp only [Prod.mk.injEq] at h; exact absurd h.2 (by simp)
      · rw [kind_set] at h
        simp only [hk, if_true] at h
        by_cases habs : g_path_is_absolute lib = true
        · simp only [habs, if_true, beq_self_eq_true] at h
          simp only [Prod.mk.injEq, Except.ok.injEq] at h
          obtain ⟨-, -, rfl⟩ := h
          refine ⟨by simp, by simp, ?_, ?_, ?_⟩
          · intro j hj
            refine ⟨?_, ?_⟩
            · rw [kind_of_kinds icd (some lib) _ _ paths, kind_set_ne _ _ _ _ _ _ _ hj]
            · rw [path_set_ne _ _ _ _ _ _ _ hj,
                path_of_paths icd (some lib) _ kinds paths]
          · rw [kind_of_kinds icd (some lib) _ _ paths, kind_set, path_set _ _ _ _ _ _ hp]
            simp [hk]
          · intro _
            rw [kind_of_kinds icd (some lib) _ _ paths, kind_set]
            simp [hk]
        · have hf : g_path_is_absolute lib = false := by
            cases hx : g_path_is_absolute lib with
            | true => exact absurd hx habs
            | false => rfl
          simp only [hf, Bool.false_eq_true, if_false] at h
          have hne : (IcdKind.ICD_KIND_SONAME == IcdKind.ICD_KIND_ABSOLUTE) = false := by decide
          simp only [hne, Bool.false_eq_true, if_false, Prod.mk.injEq, Except.ok.injEq] at h
          obtain ⟨-, -, rfl⟩ := h
          refine ⟨by simp, rfl, ?_, ?_, ?_⟩
          · intro j hj
            refine ⟨?_, rfl⟩
            rw [kind_set_ne _ _ _ _ _ _ _ hj]
          · rw [kind_set, path_of_paths icd (some lib) _ kinds paths, hp0]
            simp [hk, hf]
          · intro ha; rw [hf] at ha; cases ha

theorem icd_record_ok_new (icd : Icd) (rl : Option String) :
    icd_record_ok { icd_details_new icd with resolved_library := rl } ∧
    icd_record_no_soname { icd_details_new icd with resolved_library := rl } := by
  constructor
  · refine ⟨rfl, rfl, ?_, rfl, rfl⟩
    intro i hi
    have : i = 0 ∨ i = 1 ∨ i = 2 := by
      simp only [N_MULTIARCH, multiarch_tuples, List.length_cons, List.length_nil] at hi; omega
    rcases this with rfl | rfl | rfl <;>
      simp [IcdDetails.kind, IcdDetails.path_in_container, icd_details_new, N_MULTIARCH,
        multiarch_tuples, List.replicate]
  · intro i hi
    have : i = 0 ∨ i = 1 ∨ i = 2 := by
      simp only [N_MULTIARCH, multiarch_tuples, List.length_cons, List.length_nil] at hi; omega
    rcases this with rfl | rfl | rfl <;>
      simp [IcdDetails.kind, IcdDetails.path_in_container, icd_details_new, N_MULTIARCH,
        multiarch_tuples, List.replicate]

theorem icd_record_ok_library (d : IcdDetails) (rl : Option String) :
    icd_record_ok { d with resolved_library := rl } ↔ icd_record_ok d :=
  Iff.rfl

theorem bind_icd_keeps_ok {env : Env} {self self1 : PvRuntime} {w w1 : World}
    {arch : RuntimeArchitecture} {sequence_number : Nat} {subdir : String}
    {details details1 : IcdDetails}
    (hinv : icd_record_ok details)
    (h : bind_icd env self w arch sequence_number subdir details = (w1, .ok (self1, details1))) :
    icd_record_ok details1 ∧
    (∀ lib, details.resolved_library = some lib → g_path_is_absolute lib = true →
      icd_record_no_soname details → icd_record_no_soname details1) := by
  obtain ⟨hi, lib, hlib⟩ := bind_icd_valid h
  obtain ⟨hk, hp, hall, hlast1, hlast2⟩ := hinv
  have hN : N_MULTIARCH - 1 < N_MULTIARCH := by decide
  have hi3 : arch.multiarch_index < N_MULTIARCH := Nat.lt_trans hi hN
  obtain ⟨hk1, hp1, hframe, hiff, hns⟩ :=
    bind_icd_record hlib (by rw [hk]; exact hi3) (by rw [hp]; exact hi3) h
  have hne : N_MULTIARCH - 1 ≠ arch.multiarch_index := Nat.ne_of_gt hi
  refine ⟨⟨by rw [hk1, hk], by rw [hp1, hp], ?_, ?_, ?_⟩, ?_⟩
  · intro j hj
    by_cases hji : j = arch.multiarch_index
    · rw [hji]; exact hiff
    · rw [(hframe j hji).1, (hframe j hji).2]; exact hall j hj
  · rw [(hframe _ hne).1]; exact hlast1
  · rw [(hframe _ hne).2]; exact hlast2
  · intro lib1 hlib1 habs hno j hj
    by_cases hji : j = arch.multiarch_index
    · rw [hji]
      rw [hlib] at hlib1
      cases hlib1
      exact hns habs
    · rw [(hframe j hji).1]; exact hno j hj

theorem bind_icd_details_keeps_ok {env : Env} {arch : RuntimeArchitecture} {subdir : String}
    {seq : Nat → Nat} :
    ∀ (ds : List IcdDetails) (j : Nat) (self self1 : PvRuntime) (w w1 : World)
      (ds1 : List IcdDetails),
      (∀ d ∈ ds, icd_record_ok d) →
      bind_icd_details env arch subdir seq j ds self w = (w1, .ok (self1, ds1)) →
      ∀ d ∈ ds1, icd_record_ok d := by
  intro ds
  induction ds with
  | nil =>
    intro j self self1 w w1 ds1 _ h
    simp only [bind_icd_details, Prod.mk.injEq, Except.ok.injEq] at h
    rw [← h.2.2]; intro d hd; cases hd
  | cons d rest ih =>
    intro j self self1 w w1 ds1 hall h
    have hd : icd_record_ok d := hall d (List.mem_cons_self _ _)
    have hrest : ∀ x ∈ rest, icd_record_ok x := fun x hx => hall x (List.mem_cons_of_mem _ hx)
    unfold bind_icd_details at h
    split at h
    · split at h
      · simp only [Prod.mk.injEq] at h; exact absurd h.2 (by simp)
      · rename_i hrec
        simp only [Prod.mk.injEq, Except.ok.injEq] at h
        rw [← h.2.2]
        intro x hx
        rcases List.mem_cons.mp hx with rfl | hx
        · exact hd
        · exact ih _ _ _ _ _ _ hrest hrec x hx
    · split at h
      · simp only [Prod.mk.injEq] at h; exact absurd h.2 (by simp)
      · rename_i hb
        split at h
        · simp only [Prod.mk.injEq] at h; exact absurd h.2 (by simp)
        · rename_i hrec
          simp only [Prod.mk.injEq, Except.ok.injEq] at h
          rw [← h.2.2]
          intro x hx
          rcases List.mem_cons.mp hx with rfl | hx
          · exact (bind_icd_keeps_ok ((icd_record_ok_library d _).mpr hd) hb).1
          · exact ih _ _ _ _ _ _ hrest hrec x hx

theorem bind_drivers_keeps_ok {env : Env} {arch : RuntimeArchitecture} {subdir : String}
    {seq : Nat → Nat} :
    ∀ (icds : List Icd) (j : Nat) (self self1 : PvRuntime) (w w1 : World)
      (ds1 : List IcdDetails),
      bind_drivers env arch subdir seq j icds self w = (w1, .ok (self1, ds1)) →
      ∀ d ∈ ds1, icd_record_ok d ∧ icd_record_no_soname d := by
  intro icds
  induction icds with
  | nil =>
    intro j self self1 w w1 ds1 h
    simp only [bind_drivers, Prod.mk.injEq, Except.ok.injEq] at h
    rw [← h.2.2]; intro d hd; cases hd
  | cons d rest ih =>
    intro j self self1 w w1 ds1 h
    unfold bind_drivers at h
    split at h
    · simp only [Prod.mk.injEq] at h; exact absurd h.2 (by simp)
    · rename_i habs
      simp only [Bool.not_eq_true, Bool.not_eq_false, Bool.not_eq_eq_eq_not, Bool.not_true,
        Bool.not_false] at habs
      split at h
      · simp only [Prod.mk.injEq] at h; exact absurd h.2 (by simp)
      · rename_i hb
        split at h
        · simp only [Prod.mk.injEq] at h; exact absurd h.2 (by simp)
        · rename_i hrec
          simp only [Prod.mk.injEq, Except.ok.injEq] at h
          rw [← h.2.2]
          intro x hx
          rcases List.mem_cons.mp hx with rfl | hx
          · have hnew := icd_record_ok_new d (some d.resolved_library)
            have hkeep := bind_icd_keeps_ok hnew.1 hb
            exact ⟨hkeep.1, hkeep.2 _ rfl (by simpa using habs) hnew.2⟩
          · exact ih _ _ _ _ _ _ hrec x hx

theorem use_arch_capture_records {env : Env} {system_info : SrtSystemInfo}
    {arch : RuntimeArchitecture} {st st7 : GraphicsStack} {w w7 : World}
    (hinv : graphics_stack_records_ok st)
    (h : use_arch_capture env system_info arch st w = (w7, .ok st7)) :
    graphics_stack_records_ok st7 := by
  unfold use_arch_capture at h
  simp only at h
  split at h
  · simp only [Prod.mk.injEq] at h; exact absurd h.2 (by simp)
  · split at h
    · simp only [Prod.mk.injEq] at h; exact absurd h.2 (by simp)
    · rename_i h3
      split at h
      · simp only [Prod.mk.injEq] at h; exact absurd h.2 (by simp)
      · rename_i h4
        split at h
        · simp only [Prod.mk.injEq] at h; exact absurd h.2 (by simp)
        · rename_i h5
          split at h
          · simp only [Prod.mk.injEq] at h; exact absurd h.2 (by simp)
          · rename_i h6
            split at h
            · simp only [Prod.mk.injEq] at h; exact absurd h.2 (by simp)
            · simp only [Prod.mk.injEq, Except.ok.injEq] at h
              rw [← h.2]
              refine ⟨bind_icd_details_keeps_ok _ _ _ _ _ _ _ hinv.1 h3,
                bind_icd_details_keeps_ok _ _ _ _ _ _ _ hinv.2.1 h4, ?_⟩
              intro d hd
              rcases List.mem_append.mp hd with hd | hd
              · exact hinv.2.2 d hd
              · exact bind_drivers_keeps_ok _ _ _ _ _ _ _ h6 d hd

theorem use_arch_libc_records {env : Env} {arch : RuntimeArchitecture} {ld_so_in_runtime : String}
    {st7 st10 : GraphicsStack} {w7 w10 : World}
    (h : use_arch_libc env arch ld_so_in_runtime st7 w7 = (w10, .ok st10)) :
    st10.egl_icd_details = st7.egl_icd_details ∧
    st10.vulkan_icd_details = st7.vulkan_icd_details ∧
    st10.va_api_icd_details = st7.va_api_icd_details := by
  unfold use_arch_libc at h
  simp only at h
  split at h
  · split at h
    · simp only [Prod.mk.injEq] at h; exact absurd h.2 (by simp)
    · split at h
      · simp only [Prod.mk.injEq] at h; exact absurd h.2 (by simp)
      · simp only [Prod.mk.injEq, Except.ok.injEq] at h
        rw [← h.2]
        exact ⟨rfl, rfl, rfl⟩
  · simp only [Prod.mk.injEq, Except.ok.injEq] at h
    rw [← h.2]
    exact ⟨rfl, rfl, rfl⟩

theorem use_arch_dri_records {env : Env} {arch : RuntimeArchitecture}
    {st10 st12 : GraphicsStack} {w10 w12 : World}
    (h : use_arch_dri env arch st10 w10 = (w12, .ok st12)) :
    st12.egl_icd_details = st10.egl_icd_details ∧
    st12.vulkan_icd_details = st10.vulkan_icd_details ∧
    st12.va_api_icd_details = st10.va_api_icd_details := by
  unfold use_arch_dri at h
  simp only at h
  split at h
  · simp only [Prod.mk.injEq] at h; exact absurd h.2 (by simp)
  · simp only [Prod.mk.injEq, Except.ok.injEq] at h
    rw [← h.2]
    split <;> (try split) <;> (try split) <;> exact ⟨rfl, rfl, rfl⟩

theorem use_arch_records {env : Env} {system_info : SrtSystemInfo}
    {arch : RuntimeArchitecture} {ld : String} {st st1 : GraphicsStack} {w w1 : World}
    (hinv : graphics_stack_records_ok st)
    (h : use_arch env system_info arch ld st w = (w1, .ok st1)) :
    graphics_stack_records_ok st1 := by
  unfold use_arch at h
  split at h
  · simp only [Prod.mk.injEq] at h; exact absurd h.2 (by simp)
  · rename_i w7 st7 hcap
    split at h
    · simp only [Prod.mk.injEq] at h; exact absurd h.2 (by simp)
    · rename_i w10 st10 hlibc
      have h7 := use_arch_capture_records hinv hcap
      obtain ⟨a1, a2, a3⟩ := use_arch_libc_records hlibc
      obtain ⟨b1, b2, b3⟩ := use_arch_dri_records h
      unfold graphics_stack_records_ok
      rw [b1, b2, b3, a1, a2, a3]
      exact h7

theorem loop_records {env : Env} {system_info : SrtSystemInfo} :
    ∀ (is : List Nat) (st st1 : GraphicsStack) (w w1 : World),
      graphics_stack_records_ok st →
      use_host_graphics_stack_loop env system_info is st w = (w1, .ok st1) →
      graphics_stack_records_ok st1 := by
  intro is
  induction is with
  | nil =>
    intro st st1 w w1 hinv h
    simp only [use_host_graphics_stack_loop, Prod.mk.injEq, Except.ok.injEq] at h
    rw [← h.2]; exact hinv
  | cons i rest ih =>
    intro st st1 w w1 hinv h
    unfold use_host_graphics_stack_loop at h
    split at h
    · simp only [Prod.mk.injEq] at h; exact absurd h.2 (by simp)
    · rename_i w2 st2 harch
      refine ih _ _ _ _ ?_ h
      unfold use_host_graphics_stack_arch at harch
      split at harch
      · simp only [Prod.mk.injEq, Except.ok.injEq] at harch
        rw [← harch.2]; exact hinv
      · split at harch
        · simp only [Prod.mk.injEq] at harch; exact absurd harch.2 (by simp)
        · simp only [Prod.mk.injEq, Except.ok.injEq] at harch
          rw [← harch.2]; exact hinv
        · exact use_arch_records hinv harch

theorem icd_details_array_ok (icds : List Icd) :
    ∀ d ∈ icd_details_array icds, icd_record_ok d := by
  intro d hd
  unfold icd_details_array at hd
  obtain ⟨icd, -, rfl⟩ := List.mem_map.mp hd
  exact (icd_record_ok_new icd none).1

theorem graphics_stack_records {env : Env} {system_info : SrtSystemInfo} {self : PvRuntime}
    {w w2 : World} {bwrap : List String} {st : GraphicsStack}
    (h : pv_runtime_use_host_graphics_stack env system_info self w bwrap = (w2, .ok st)) :
    graphics_stack_records_ok st := by
  unfold pv_runtime_use_host_graphics_stack at h
  split at h
  · simp only [Prod.mk.injEq] at h; exact absurd h.2 (by simp)
  · simp only at h
    split at h
    · simp only [Prod.mk.injEq] at h; exact absurd h.2 (by simp)
    · rename_i hloop
      split at h
      · simp only [Prod.mk.injEq] at h; exact absurd h.2 (by simp)
      · simp only [Prod.mk.injEq, Except.ok.injEq] at h
        rw [← h.2]
        refine loop_records _ _ _ _ _ ?_ hloop
        refine ⟨icd_details_array_ok _, icd_details_array_ok _, ?_⟩
        intro d hd
        cases hd

theorem va_api_path_archs_ok (details : IcdDetails) (hno : icd_record_no_soname details) :
    ∀ (is : List Nat) (path : String), (∀ i ∈ is, i < N_MULTIARCH) →
      ∃ p, va_api_path_archs details is path = .ok p := by
  intro is
  induction is with
  | nil => intro path _; exact ⟨path, rfl⟩
  | cons i rest ih =>
    intro path hlt
    have hrest : ∀ x ∈ rest, x < N_MULTIARCH := fun x hx => hlt x (List.mem_cons_of_mem _ hx)
    unfold va_api_path_archs
    split
    · exact ih _ hrest
    · rename_i hne
      have hk := hno i (hlt i (List.mem_cons_self _ _))
      have habs : details.kind i = .ICD_KIND_ABSOLUTE := by
        cases hx : details.kind i with
        | ICD_KIND_NONEXISTENT => rw [hx] at hne; exact absurd rfl hne
        | ICD_KIND_ABSOLUTE => rfl
        | ICD_KIND_SONAME => exact absurd hx hk
      simp only [habs, bne_self_eq_false, Bool.false_eq_true, if_false]
      exact ih _ hrest

theorem va_api_search_path_ok :
    ∀ (ds : List IcdDetails) (path : String), (∀ d ∈ ds, icd_record_no_soname d) →
      ∃ p, va_api_search_path ds path = .ok p := by
  intro ds
  induction ds with
  | nil => intro path _; exact ⟨path, rfl⟩
  | cons d rest ih =>
    intro path hall
    unfold va_api_search_path
    obtain ⟨p1, hp1⟩ := va_api_path_archs_ok d (hall d (List.mem_cons_self _ _))
      (List.range (N_MULTIARCH - 1)) path (by
        intro i hi
        have := List.mem_range.mp hi
        exact Nat.lt_trans this (by decide))
    rw [hp1]
    exact ih _ (fun x hx => hall x (List.mem_cons_of_mem _ hx))

/-- C28 (ICD record invariant): whenever `bind_icd` returns success for an
architecture of index `i` on a record whose two arrays have `N_MULTIARCH`
entries, `i` is not the last index, `kinds[i] = ABSOLUTE` if and only if
`paths_in_container[i]` is non-NULL, `kinds[i]` is not `SONAME` when the
resolved library is an absolute path, the entry at the last index is left as
it was, and the invariant of the record is preserved.  Consequently, after
the loop over the architectures of `pv_runtime_use_host_graphics_stack` has
succeeded, every EGL, Vulkan and VA-API record satisfies the invariant, so
that `paths_in_container[j] != NULL` holds wherever `kinds[j]` is `ABSOLUTE`,
every VA-API entry that is not `NONEXISTENT` is `ABSOLUTE` (the loop that
builds the VA-API search path does not fail), and the entry at the last
index of every record is `NONEXISTENT` / NULL. -/
theorem icd_record_invariant (env : Env) (self self1 : PvRuntime) (w w1 : World)
    (arch : RuntimeArchitecture) (sequence_number : Nat) (subdir : String)
    (details details1 : IcdDetails)
    (hk : details.kinds.length = N_MULTIARCH)
    (hp : details.paths_in_container.length = N_MULTIARCH)
    (hok : bind_icd env self w arch sequence_number subdir details
      = (w1, .ok (self1, details1))) :
    arch.multiarch_index < N_MULTIARCH - 1 ∧
    (details1.kind arch.multiarch_index = .ICD_KIND_ABSOLUTE ↔
      (details1.path_in_container arch.multiarch_index).isSome = true) ∧
    (∀ lib, details.resolved_library = some lib → g_path_is_absolute lib = true →
      details1.kind arch.multiarch_index ≠ .ICD_KIND_SONAME) ∧
    details1.kind (N_MULTIARCH - 1) = details.kind (N_MULTIARCH - 1) ∧
    details1.path_in_container (N_MULTIARCH - 1)
      = details.path_in_container (N_MULTIARCH - 1) ∧
    (icd_record_ok details → icd_record_ok details1) ∧
    ∀ (env0 : Env) (system_info : SrtSystemInfo) (self0 : PvRuntime) (w0 w2 : World)
      (bwrap : List String) (st : GraphicsStack),
      pv_runtime_use_host_graphics_stack env0 system_info self0 w0 bwrap = (w2, .ok st) →
      graphics_stack_records_ok st ∧
      (∀ d ∈ st.egl_icd_details ++ st.vulkan_icd_details, ∀ j, j < N_MULTIARCH - 1 →
        d.kind j = .ICD_KIND_ABSOLUTE → d.path_in_container j ≠ none) ∧
      (∀ d ∈ st.va_api_icd_details, ∀ j, j < N_MULTIARCH - 1 →
        d.kind j ≠ .ICD_KIND_NONEXISTENT → d.kind j = .ICD_KIND_ABSOLUTE) ∧
      (∃ va_api_path, va_api_search_path st.va_api_icd_details "" = .ok va_api_path) ∧
      (∀ d ∈ st.egl_icd_details ++ st.vulkan_icd_details ++ st.va_api_icd_details,
        d.kind (N_MULTIARCH - 1) = .ICD_KIND_NONEXISTENT ∧
        d.path_in_container (N_MULTIARCH - 1) = none) := by
  obtain ⟨hi, lib, hlib⟩ := bind_icd_valid hok
  have hN : N_MULTIARCH - 1 < N_MULTIARCH := by decide
  have hi3 : arch.multiarch_index < N_MULTIARCH := Nat.lt_trans hi hN
  obtain ⟨-, -, hframe, hiff, hns⟩ :=
    bind_icd_record hlib (by rw [hk]; exact hi3) (by rw [hp]; exact hi3) hok
  have hne : N_MULTIARCH - 1 ≠ arch.multiarch_index := Nat.ne_of_gt hi
  refine ⟨hi, hiff, ?_, (hframe _ hne).1, (hframe _ hne).2,
    fun hinv => (bind_icd_keeps_ok hinv hok).1, ?_⟩
  · intro lib1 hlib1 habs
    rw [hlib] at hlib1
    cases hlib1
    exact hns habs
  · intro env0 system_info self0 w0 w2 bwrap st hrun
    have hrec := graphics_stack_records hrun
    have hegl : ∀ d ∈ st.egl_icd_details ++ st.vulkan_icd_details, icd_record_ok d := by
      intro d hd
      rcases List.mem_append.mp hd with hd | hd
      · exact hrec.1 d hd
      · exact hrec.2.1 d hd
    refine ⟨hrec, ?_, ?_, ?_, ?_⟩
    · intro d hd j hj habs hnone
      have := ((hegl d hd).2.2.1 j (Nat.lt_trans hj hN)).mp habs
      rw [hnone] at this
      cases this
    · intro d hd j hj hnon
      have hno := (hrec.2.2 d hd).2 j (Nat.lt_trans hj hN)
      cases hx : d.kind j with
      | ICD_KIND_NONEXISTENT => exact absurd hx hnon
      | ICD_KIND_ABSOLUTE => rfl
      | ICD_KIND_SONAME => exact absurd hx hno
    · exact va_api_search_path_ok _ _ (fun d hd => (hrec.2.2 d hd).2)
    · intro d hd
      rcases List.mem_append.mp hd with hd | hd
      · exact ⟨(hegl d hd).2.2.2.1, (hegl d hd).2.2.2.2⟩
      · exact ⟨(hrec.2.2 d hd).1.2.2.2.1, (hrec.2.2 d hd).1.2.2.2.2⟩

/-- Witness of `icd_record_invariant`: the first EGL ICD, whose library the
capture helper finds, and the run on `host_full`. -/
theorem icd_record_invariant_witness :
    bind_icd env_capture self_plain { fs := host_plain } arch_plain 0 "glvnd" egl_nvidia
      = (bound_found.1, .ok (bound_found.value.getD (self_plain, egl_nvidia))) ∧
    (bound_found.value.getD (self_plain, egl_nvidia)).2.kind 0 = .ICD_KIND_ABSOLUTE ∧
    icd_record_ok (bound_found.value.getD (self_plain, egl_nvidia)).2 ∧
    pv_runtime_use_host_graphics_stack env_full system_info_full self_full composed_full.1 []
      = (archs_full.1, .ok stack_full) ∧
    graphics_stack_records_ok stack_full ∧
    stack_full.va_api_icd_details.length = 1 :=
  ⟨by decide, by decide,
    (icd_record_invariant env_capture self_plain
      (bound_found.value.getD (self_plain, egl_nvidia)).1 { fs := host_plain } bound_found.1
      arch_plain 0 "glvnd" egl_nvidia (bound_found.value.getD (self_plain, egl_nvidia)).2
      rfl rfl (by decide)).2.2.2.2.2.1 (by decide),
    by decide,
    ((icd_record_invariant env_capture self_plain
      (bound_found.value.getD (self_plain, egl_nvidia)).1 { fs := host_plain } bound_found.1
      arch_plain 0 "glvnd" egl_nvidia (bound_found.value.getD (self_plain, egl_nvidia)).2
      rfl rfl (by decide)).2.2.2.2.2.2 env_full system_info_full self_full composed_full.1
        archs_full.1 [] stack_full (by decide)).1,
    by decide⟩

/-! ## The mutable copy is a complete sysroot -/

theorem fs_get_copy_items_sub (hl : Bool) (fresh : Nat) (source dest sfx : Path) :
    ∀ fs : FS, fs_get (copy_items fs hl fresh source dest) (dest ++ sfx)
      = (fs_get fs (source ++ sfx)).map (copied_node hl fresh) := by
  intro fs
  induction fs with
  | nil => rfl
  | cons e rest ih =>
    obtain ⟨p, n⟩ := e
    unfold copy_items at ih ⊢
    rw [List.filterMap_cons]
    cases hs : strip_dir source p with
    | none =>
      have hne : p ≠ source ++ sfx := by
        rintro rfl
        have := (strip_dir_spec source (source ++ sfx) sfx).2 rfl
        rw [hs] at this; cases this
      simp only [Option.map_none', fs_get, hne, if_false]
      exact ih
    | some sfx1 =>
      have hp := (strip_dir_spec source p sfx1).1 hs
      simp only [Option.map_some', fs_get]
      by_cases hsfx : sfx1 = sfx
      · subst hsfx
        simp [hp]
      · have h1 : dest ++ sfx1 ≠ dest ++ sfx := by
          intro h; exact hsfx (List.append_cancel_left h)
        have h2 : p ≠ source ++ sfx := by
          rw [hp]
          intro h; exact hsfx (List.append_cancel_left h)
        simp only [h1, h2, if_false]
        exact ih

theorem copy_child_dir {env : Env} {w w2 : World} {source dest : Path} {c : String}
    (h : pv_cheap_tree_copy env w source dest = .ok w2)
    (hsrc : fs_get w.fs (source ++ [c]) = some .dir) :
    fs_get w2.fs (dest ++ [c]) = some .dir := by
  obtain ⟨hconf, hfs, _⟩ := copy_ok h
  have hitem : fs_get (copy_items w.fs env.hardlink_ok w.next_ino source dest)
      (dest ++ [c]) = some .dir := by
    rw [fs_get_copy_items_sub, hsrc]; rfl
  cases hd : fs_get w.fs (dest ++ [c]) with
  | some m =>
    have hmem := fs_get_mem hitem
    have hno := List.any_eq_false.mp hconf _ hmem
    have hm : m = .dir := by
      unfold copy_conflict at hno
      simp only [fs_node_append_singleton, hd] at hno
      cases m with
      | dir => rfl
      | file ino => simp at hno
      | symlink t => simp at hno
    rw [hfs, fs_get_append_of_some _ hd, hm]
  | none =>
    rw [hfs, fs_get_append_of_none _ hd,
      fs_get_filter_key (fun k => (fs_node w.fs k).isNone)]
    simp [fs_node_append_singleton, hd, hitem]

theorem is_dir_child_real {fs : FS} {base : Path} {c : String}
    (h1 : c ≠ ".") (h2 : c ≠ "..")
    (h : g_file_test_is_dir fs base [c] = true)
    (hnl : ∀ t, fs_get fs (base ++ [c]) ≠ some (.symlink t)) :
    fs_get fs (base ++ [c]) = some .dir := by
  cases hn : fs_get fs (base ++ [c]) with
  | none => exact absurd hn (is_dir_child_exists h1 h2 h)
  | some n =>
    cases n with
    | dir => rfl
    | symlink t => exact absurd hn (hnl t)
    | file ino =>
      exfalso
      unfold g_file_test_is_dir stat_at at h
      rw [walk_of_done _ (walk_segment_last_file h1 h2 hn)] at h
      simp [fs_node_append_singleton, hn] at h

theorem is_dir_of_child {fs : FS} {base : Path} {c : String}
    (h1 : c ≠ ".") (h2 : c ≠ "..")
    (h : fs_get fs (base ++ [c]) = some .dir) :
    g_file_test_is_dir fs base [c] = true := by
  unfold g_file_test_is_dir stat_at
  have hw : walk fs [] true MAXSYMLINKS base [c] = .ok (base ++ [c]) := by
    rw [walk_into_dir MAXSYMLINKS [] h1 h2 h]
    exact walk_of_done _ (by simp [walk_segment])
  rw [hw]
  simp [fs_node_append_singleton, h]

/-- The second half of `pv_runtime_init_mutable`, for either shape of the
source image: the copy has a directory `usr`. -/
theorem init_mutable_copy_usr {env : Env} {self self1 : PvRuntime} {w w4 : World}
    {parent_fd : Path}
    (h : init_mutable_copy env self w parent_fd = (w4, .ok self1))
    (hsrc : fs_get w4.fs self.source_files = some .dir)
    (hnl : ∀ t, fs_get w4.fs (self.source_files ++ ["usr"]) ≠ some (.symlink t)) :
    ∃ (temp_dir : Path),
      self1.mutable_sysroot = some temp_dir ∧
      self1.source_files = self.source_files ∧
      self1.tmpdir = self.tmpdir ∧
      fs_get w4.fs (temp_dir ++ ["usr"]) = some .dir := by
  obtain ⟨fs1, name, w2, temp_dir_fd, fs3, fs4, w5, copy_lock, fs6, dir, fs7,
    hmk, hcopy, hopen, hu1, hu2, hlock, hsym, hdir, hmem, hw4, hself⟩ :=
    init_mutable_copy_steps h
  have hw4fs : w4.fs = fs7 := by rw [hw4, release_fs]
  rw [hw4fs] at hsrc hnl
  have hext67 : FsExtends fs6 fs7 := symlink_members_extends _ _ _ _ _ hmem
  have hext45 : FsExtends fs4 w5.fs := lock_new_extends hlock
  have hext12 : FsExtends fs1 w2.fs := copy_extends hcopy
  have hext56 : FsExtends w5.fs fs6 := by
    split at hsym
    · exact symlinkat_extends hsym
    · simp only [Except.ok.injEq] at hsym
      subst hsym
      exact FsExtends.refl _
  -- what is below a name other than `.ref` in the copy stays
  have keep : ∀ (d : Path) (c : String) (n : Node), c ≠ ".ref" →
      fs_get w2.fs (d ++ [c]) = some n → fs_get fs7 (d ++ [c]) = some n := by
    intro d c n hc hn
    have h3 : fs_get fs3 (d ++ [c]) = some n := by
      rw [unlink_ref_keeps [] hu1 hc]; exact hn
    have h4 : fs_get fs4 (d ++ [c]) = some n := by
      rw [unlink_ref_keeps ["usr"] hu2 hc]; exact h3
    exact hext67 _ _ (hext56 _ _ (hext45 _ _ h4))
  have hnl1 : ∀ t, fs_get fs1 (self.source_files ++ ["usr"]) ≠ some (.symlink t) := by
    intro t ht
    exact hnl t (keep _ _ _ (by decide) (hext12 _ _ ht))
  have husr2 : fs_get w2.fs (parent_fd ++ [name] ++ ["usr"]) = some .dir := by
    cases hj : g_file_test_is_dir fs1 self.source_files ["usr"] with
    | true =>
      simp only [hj, Bool.not_true, Bool.false_eq_true, if_false] at hcopy
      exact copy_child_dir hcopy (is_dir_child_real (by decide) (by decide) hj hnl1)
    | false =>
      simp only [hj, Bool.not_false, if_true] at hcopy hsym hdir hmem
      have hnd : NoNewDirs w2.fs fs7 := by
        have n1 : NoNewDirs w2.fs fs3 := by
          rcases unlink_if_exists_last [] (by decide) (by decide) hu1 with rfl | ⟨d, rfl⟩
          · exact NoNewDirs.same _
          · exact NoNewDirs.del _ _
        have n2 : NoNewDirs fs3 fs4 := by
          rcases unlink_if_exists_last ["usr"] (by decide) (by decide) hu2 with rfl | ⟨d, rfl⟩
          · exact NoNewDirs.same _
          · exact NoNewDirs.del _ _
        exact n1.comp (n2.comp ((lock_new_no_new_dirs hlock).comp
          ((symlinkat_no_new_dirs hsym).comp (symlink_members_no_new_dirs _ _ _ _ _ hmem))))
      have hsrc2 : fs_get w2.fs self.source_files = some .dir := hnd _ hsrc
      have hsrc1 : fs_get fs1 self.source_files = some .dir := by
        cases hs : fs_get fs1 self.source_files with
        | some n => rw [hext12 _ _ hs] at hsrc2; exact hsrc2
        | none =>
          exfalso
          have hex := copy_source_exists hcopy
          have hroot : self.source_files = [] := by
            cases hS : self.source_files with
            | nil => rfl
            | cons a as =>
              rw [hS] at hex hs
              simp [fs_node, hs] at hex
          rw [(copy_ok hcopy).2.1, fs_get_append_of_none _ hs] at hsrc2
          have hmem2 := List.mem_of_mem_filter (fs_get_mem hsrc2)
          obtain ⟨sfx, hk⟩ := copy_items_key hmem2
          rw [hroot] at hk
          simp at hk
      exact copy_dest_dir hcopy hsrc1
  refine ⟨parent_fd ++ [name], ?_, ?_, ?_, ?_⟩
  · rw [hself]
  · rw [hself]
  · rw [hself]
  · rw [hw4fs]
    exact keep _ _ _ (by decide) husr2

theorem init_mutable_copy_source_kept {env : Env} {self self1 : PvRuntime} {w w4 : World}
    {parent_fd d : Path} {c : String}
    (h : init_mutable_copy env self w parent_fd = (w4, .ok self1))
    (hd : self.source_files = d ++ [c]) (hc : c ≠ ".ref") :
    fs_get w4.fs self.source_files ≠ none := by
  obtain ⟨fs1, name, w2, temp_dir_fd, fs3, fs4, w5, copy_lock, fs6, dir, fs7,
    hmk, hcopy, hopen, hu1, hu2, hlock, hsym, hdir, hmem, hw4, hself⟩ :=
    init_mutable_copy_steps h
  have hw4fs : w4.fs = fs7 := by rw [hw4, release_fs]
  have hext67 : FsExtends fs6 fs7 := symlink_members_extends _ _ _ _ _ hmem
  have hext45 : FsExtends fs4 w5.fs := lock_new_extends hlock
  have hext12 : FsExtends fs1 w2.fs := copy_extends hcopy
  have hext56 : FsExtends w5.fs fs6 := by
    split at hsym
    · exact symlinkat_extends hsym
    · simp only [Except.ok.injEq] at hsym
      subst hsym
      exact FsExtends.refl _
  have hex := copy_source_exists hcopy
  rw [hd, fs_node_append_singleton] at hex
  simp only at hex
  cases hn : fs_get fs1 (d ++ [c]) with
  | none => rw [hn] at hex; cases hex
  | some n =>
    have h2 := hext12 _ _ hn
    have h3 : fs_get fs3 (d ++ [c]) = some n := by
      rw [unlink_ref_keeps [] hu1 hc]; exact h2
    have h4 : fs_get fs4 (d ++ [c]) = some n := by
      rw [unlink_ref_keeps ["usr"] hu2 hc]; exact h3
    have h7 := hext67 _ _ (hext56 _ _ (hext45 _ _ h4))
    rw [hw4fs, hd, h7]
    simp

/-- A successful `pv_runtime_init_mutable` with a mutable parent is a
successful second half, up to the locks held. -/
theorem init_mutable_with_parent {env : Env} {self self1 : PvRuntime} {w w1 : World}
    {mutable_parent : Path}
    (hmp : self.mutable_parent = some mutable_parent)
    (hok : pv_runtime_init_mutable env self w = (w1, .ok self1)) :
    ∃ (parent_fd : Path) (w3 w4 : World),
      init_mutable_copy env { self with mutable_parent_fd := some parent_fd } w3 parent_fd
        = (w4, .ok self1) ∧
      w1.fs = w4.fs := by
  cases self
  simp only at hmp
  subst hmp
  unfold pv_runtime_init_mutable at hok
  simp only at hok
  split at hok
  · simp only [Prod.mk.injEq] at hok; exact absurd hok.2 (by simp)
  · split at hok
    · simp only [Prod.mk.injEq] at hok; exact absurd hok.2 (by simp)
    · rename_i parent_fd _
      split at hok
      · simp only [Prod.mk.injEq] at hok; exact absurd hok.2 (by simp)
      · rename_i w2 mutable_lock _
        split at hok
        · simp only [Prod.mk.injEq] at hok; exact absurd hok.2 (by simp)
        · rename_i w3 _
          generalize hcop : init_mutable_copy env _ w3 parent_fd = cop at hok
          obtain ⟨w4, r⟩ := cop
          simp only [Prod.mk.injEq] at hok
          obtain ⟨hw1, rfl⟩ := hok
          exact ⟨parent_fd, w3, w4, hcop, by rw [← hw1, lock_free_fs]⟩

theorem g_mkdir_ok {fs fs1 : FS} {base : Path} {rel : List String}
    (h : g_mkdir fs base rel = .ok fs1) :
    ∃ loc, walk fs [] false MAXSYMLINKS base rel = .ok loc ∧ fs_node fs loc = none ∧
      fs1 = fs ++ [(loc, .dir)] := by
  unfold g_mkdir at h
  split at h
  · cases h
  · rename_i loc hw
    split at h
    · cases h
    · rename_i hn
      split at h
      · simp only [Except.ok.injEq] at h
        refine ⟨loc, hw, ?_, h.symm⟩
        cases hx : fs_node fs loc with
        | none => rfl
        | some n => rw [hx] at hn; simp at hn
      · cases h

theorem bind_usr_error {fs : FS} {bwrap : List String} {host_path : Path} {mp e : String}
    (h : pv_bwrap_bind_usr fs bwrap host_path mp = .error e) : e ≠ "assertion failed" := by
  unfold pv_bwrap_bind_usr at h
  split at h
  · simp only [Except.error.injEq] at h
    rw [← h]
    intro heq
    have := congrArg String.data heq
    simp at this
  · split at h <;> cases h

theorem provide_access_no_assert (self : PvRuntime)
    (h : self.runtime_is_just_usr = true →
      self.mutable_sysroot = none ∧ self.tmpdir.isSome = true) (w : World) :
    (pv_runtime_provide_container_access self w).2 ≠ .error "assertion failed" := by
  unfold pv_runtime_provide_container_access
  split
  · simp
  · split
    · simp
    · rename_i hj
      simp only [Bool.not_eq_true, Bool.not_eq_false, Bool.not_not] at hj
      obtain ⟨h1, h2⟩ := h (by simpa using hj)
      cases ht : self.tmpdir with
      | none => rw [ht] at h2; cases h2
      | some tmpdir =>
        simp only [h1]
        split
        · rename_i e hb
          simp only [ne_eq, Except.error.injEq]
          exact bind_usr_error hb
        · simp

/-- C29 (a mutable copy is a complete sysroot): whenever
`pv_runtime_initable_init` succeeds on a new runtime object, with the source
image (at its canonical path) a directory whose `usr` entry is not itself a
symbolic link, then with a mutable parent, for either shape of the source
image, the copy contains a directory `usr`, `runtime_is_just_usr` is FALSE
and `runtime_usr` is `<mutable_sysroot>/usr`; hence whenever
`runtime_is_just_usr` is TRUE there is no mutable sysroot and `tmpdir` is
set, which is what the branch of `pv_runtime_provide_container_access` for a
merged `/usr` asserts, and that function never fails on an assertion. -/
theorem mutable_copy_complete_sysroot (env : Env) (self self1 : PvRuntime) (w w1 : World)
    (hinit : self.mutable_sysroot = none)
    (hok : pv_runtime_initable_init env self w = (w1, .ok self1))
    (hsrc : fs_get w1.fs self.source_files = some .dir)
    (hnl : ∀ t, fs_get w1.fs (self.source_files ++ ["usr"]) ≠ some (.symlink t)) :
    (self.mutable_parent.isSome = true →
      ∃ mutable_sysroot,
        self1.mutable_sysroot = some mutable_sysroot ∧
        fs_get w1.fs (mutable_sysroot ++ ["usr"]) = some .dir ∧
        self1.runtime_is_just_usr = false ∧
        self1.runtime_files = mutable_sysroot ∧
        self1.runtime_usr = mutable_sysroot ++ ["usr"]) ∧
    (self1.runtime_is_just_usr = true →
      self1.mutable_sysroot = none ∧ self1.tmpdir.isSome = true) ∧
    (∀ w2 : World,
      (pv_runtime_provide_container_access self1 w2).2 ≠ .error "assertion failed") := by
  suffices key : (self.mutable_parent.isSome = true →
      ∃ mutable_sysroot,
        self1.mutable_sysroot = some mutable_sysroot ∧
        fs_get w1.fs (mutable_sysroot ++ ["usr"]) = some .dir ∧
        self1.runtime_is_just_usr = false ∧
        self1.runtime_files = mutable_sysroot ∧
        self1.runtime_usr = mutable_sysroot ++ ["usr"]) ∧
    (self1.runtime_is_just_usr = true →
      self1.mutable_sysroot = none ∧ self1.tmpdir.isSome = true) from
    ⟨key.1, key.2, provide_access_no_assert self1 key.2⟩
  unfold pv_runtime_initable_init at hok
  split at hok
  · simp only [Prod.mk.injEq] at hok; exact absurd hok.2 (by simp)
  split at hok
  · simp only [Prod.mk.injEq] at hok; exact absurd hok.2 (by simp)
  split at hok
  · simp only [Prod.mk.injEq] at hok; exact absurd hok.2 (by simp)
  split at hok
  · simp only [Prod.mk.injEq] at hok; exact absurd hok.2 (by simp)
  split at hok
  · simp only [Prod.mk.injEq] at hok; exact absurd hok.2 (by simp)
  rename_i w0 runtime_lock hlock0
  split at hok
  · simp only [Prod.mk.injEq] at hok; exact absurd hok.2 (by simp)
  rename_i w2 self2 hmut
  cases hmp : self.mutable_parent with
  | none =>
    simp only [pv_runtime_init_mutable, hmp, Prod.mk.injEq, Except.ok.injEq] at hmut
    obtain ⟨-, rfl⟩ := hmut
    simp only [hinit] at hok
    split at hok
    · simp only [Prod.mk.injEq] at hok; exact absurd hok.2 (by simp)
    · rename_i w3 self3 hplaced
      split at hplaced
      · simp only [Prod.mk.injEq] at hplaced; exact absurd hplaced.2 (by simp)
      · simp only [Prod.mk.injEq, Except.ok.injEq] at hplaced
        obtain ⟨-, rfl⟩ := hplaced
        refine ⟨fun hsome => (by cases hsome), ?_⟩
        intro _
        split at hok <;>
          (simp only [Prod.mk.injEq, Except.ok.injEq] at hok
           obtain ⟨-, rfl⟩ := hok
           exact ⟨rfl, rfl⟩)
  | some mutable_parent =>
    obtain ⟨parent_fd, w3, w4, hcop, hfs24⟩ :=
      @init_mutable_with_parent env { self with runtime_lock := some runtime_lock } self2 w0 w2
        mutable_parent hmp hmut
    -- the steps after `pv_runtime_init_mutable` only add the directory `overrides`
    have hms2 : ∃ ms, self2.mutable_sysroot = some ms := by
      obtain ⟨fs1, name, w2', temp_dir_fd, fs3, fs4, w5, copy_lock, fs6, dir, fs7,
        _, _, _, _, _, _, _, _, _, _, hself⟩ := init_mutable_copy_steps hcop
      exact ⟨parent_fd ++ [name], by rw [hself]⟩
    obtain ⟨ms, hms⟩ := hms2
    simp only [hms] at hok
    have hfinal : w1.fs = w2.fs ∨ ∃ loc,
        walk w2.fs [] false MAXSYMLINKS []
          ((ms ++ ["usr", "lib", "pressure-vessel"]) ++ ["overrides"]) = .ok loc ∧
        w1.fs = w2.fs ++ [(loc, .dir)] := by
      have happ : ms ++ overrides_in_mutable_sysroot
          = (ms ++ ["usr", "lib", "pressure-vessel"]) ++ ["overrides"] := by
        simp [overrides_in_mutable_sysroot]
      cases hmk : g_mkdir w2.fs [] (ms ++ overrides_in_mutable_sysroot) with
      | error e =>
        left
        simp only [Option.getD_some, hmk] at hok
        split at hok <;>
          (simp only [Prod.mk.injEq, Except.ok.injEq] at hok
           rw [← hok.1])
      | ok fsm =>
        right
        obtain ⟨loc, hw, -, hfsm⟩ := g_mkdir_ok hmk
        rw [happ] at hw
        refine ⟨loc, hw, ?_⟩
        simp only [Option.getD_some, hmk] at hok
        split at hok <;>
          (simp only [Prod.mk.injEq, Except.ok.injEq] at hok
           rw [← hok.1]
           exact hfsm)
    have hext : FsExtends w2.fs w1.fs := by
      rcases hfinal with h | ⟨loc, -, h⟩
      · rw [h]; exact FsExtends.refl _
      · rw [h]; exact FsExtends.append _ _
    have hnl4 : ∀ t, fs_get w4.fs (self.source_files ++ ["usr"]) ≠ some (.symlink t) := by
      intro t ht
      rw [← hfs24] at ht
      exact hnl t (hext _ _ ht)
    have hsrc4 : fs_get w4.fs self.source_files = some .dir := by
      rw [← hfs24]
      cases hs : fs_get w2.fs self.source_files with
      | some n => rw [hext _ _ hs] at hsrc; exact hsrc
      | none =>
        exfalso
        rcases hfinal with h | ⟨loc, hw, h⟩
        · rw [h, hs] at hsrc; cases hsrc
        · rw [h, fs_get_append_of_none _ hs, fs_get_singleton] at hsrc
          split at hsrc
          · rename_i hloc
            obtain ⟨d, hd⟩ := walk_last w2.fs [] "overrides" (by decide) (by decide)
              MAXSYMLINKS [] _ loc hw
            have hkept := @init_mutable_copy_source_kept env
              { self with runtime_lock := some runtime_lock,
                          mutable_parent_fd := some parent_fd } self2 w3 w4 parent_fd d
              "overrides" hcop (by rw [← hloc, hd]) (by decide)
            rw [← hfs24] at hkept
            exact hkept hs
          · cases hsrc
    obtain ⟨temp_dir, hms1, -, htmp, husr⟩ := init_mutable_copy_usr hcop hsrc4 hnl4
    rw [hms] at hms1
    cases hms1
    rw [← hfs24] at husr
    have husr1 : fs_get w1.fs (ms ++ ["usr"]) = some .dir := hext _ _ husr
    have hdir : g_file_test_is_dir w1.fs ms ["usr"] = true :=
      is_dir_of_child (by decide) (by decide) husr1
    split at hok
    · simp only [Prod.mk.injEq, Except.ok.injEq] at hok
      obtain ⟨-, rfl⟩ := hok
      refine ⟨fun _ => ⟨ms, rfl, husr1, rfl, rfl, rfl⟩, ?_⟩
      intro hj
      cases hj
    · rename_i hnot
      exfalso
      simp only [Prod.mk.injEq, Except.ok.injEq] at hok
      apply hnot
      have hw1 := hok.1
      rw [← hw1] at hdir
      exact hdir

/-- Witness of `mutable_copy_complete_sysroot`: the merged-`/usr` image and
the complete sysroot, each copied into the store `/var/pv`. -/
theorem mutable_copy_complete_sysroot_witness :
    self_new.mutable_parent.isSome = true ∧
    pv_runtime_initable_init envA self_new { fs := img_merged }
      = (init_copy_merged.1, .ok (init_copy_merged.value.getD self_new)) ∧
    (∃ mutable_sysroot,
      (init_copy_merged.value.getD self_new).mutable_sysroot = some mutable_sysroot ∧
      fs_get init_copy_merged.1.fs (mutable_sysroot ++ ["usr"]) = some .dir ∧
      (init_copy_merged.value.getD self_new).runtime_is_just_usr = false ∧
      (init_copy_merged.value.getD self_new).runtime_files = mutable_sysroot ∧
      (init_copy_merged.value.getD self_new).runtime_usr = mutable_sysroot ++ ["usr"]) ∧
    pv_runtime_initable_init envA self_new { fs := img_sysroot }
      = (init_copy_sysroot.1, .ok (init_copy_sysroot.value.getD self_new)) ∧
    (init_copy_sysroot.value.getD self_new).runtime_usr = ["var", "pv", "tmp-AAAAAA", "usr"] :=
  ⟨by decide, by decide,
    (mutable_copy_complete_sysroot envA self_new (init_copy_merged.value.getD self_new)
      { fs := img_merged } init_copy_merged.1 rfl (by decide) (by decide)
      (fun t => by
        simp [show fs_get init_copy_merged.1.fs (self_new.source_files ++ ["usr"]) = none
          from by decide])).1 (by decide),
    by decide, by decide⟩

/-! ## Real directories -/

theorem real_cons {fs : FS} {base : Path} {c : String} {rest : List String}
    (h : is_real_dir_path fs base (c :: rest) = true) :
    c ≠ "." ∧ c ≠ ".." ∧ fs_get fs (base ++ [c]) = some .dir ∧
      is_real_dir_path fs (base ++ [c]) rest = true := by
  unfold is_real_dir_path at h
  simp only [Bool.and_eq_true, bne_iff_ne, ne_eq, beq_iff_eq] at h
  exact ⟨h.1.1.1, h.1.1.2, h.1.2, h.2⟩

theorem real_of_cons {fs : FS} {base : Path} {c : String} {rest : List String}
    (h1 : c ≠ ".") (h2 : c ≠ "..") (h3 : fs_get fs (base ++ [c]) = some .dir)
    (h4 : is_real_dir_path fs (base ++ [c]) rest = true) :
    is_real_dir_path fs base (c :: rest) = true := by
  unfold is_real_dir_path
  simp only [Bool.and_eq_true, bne_iff_ne, ne_eq, beq_iff_eq]
  exact ⟨⟨⟨h1, h2⟩, h3⟩, h4⟩

theorem walk_real {fs : FS} {root : Path} {ff : Bool} (fuel : Nat) (rest : List String) :
    ∀ (comps : List String) (base : Path), is_real_dir_path fs base comps = true →
      walk fs root ff fuel base (comps ++ rest) = walk fs root ff fuel (base ++ comps) rest := by
  intro comps
  induction comps with
  | nil => intro base _; simp
  | cons c cs ih =>
    intro base h
    obtain ⟨h1, h2, h3, h4⟩ := real_cons h
    rw [List.cons_append, walk_into_dir fuel (cs ++ rest) h1 h2 h3, ih _ h4]
    simp

/-- What a real directory path depends on: the objects at its prefixes. -/
theorem real_congr {fs fs1 : FS} :
    ∀ (comps : List String) (base : Path),
      (∀ pre sfx, comps = pre ++ sfx → pre ≠ [] →
        fs_get fs1 (base ++ pre) = fs_get fs (base ++ pre)) →
      is_real_dir_path fs1 base comps = is_real_dir_path fs base comps := by
  intro comps
  induction comps with
  | nil => intro base _; rfl
  | cons c cs ih =>
    intro base h
    unfold is_real_dir_path
    have h1 : fs_get fs1 (base ++ [c]) = fs_get fs (base ++ [c]) :=
      h [c] cs rfl (by simp)
    have h2 : is_real_dir_path fs1 (base ++ [c]) cs = is_real_dir_path fs (base ++ [c]) cs := by
      apply ih
      intro pre sfx hps hne
      have := h (c :: pre) sfx (by rw [hps]; rfl) (by simp)
      simpa using this
    rw [h1, h2]

theorem real_mono {fs fs1 : FS} (hext : FsExtends fs fs1) :
    ∀ (comps : List String) (base : Path),
      is_real_dir_path fs base comps = true → is_real_dir_path fs1 base comps = true := by
  intro comps
  induction comps with
  | nil => intro base _; rfl
  | cons c cs ih =>
    intro base h
    obtain ⟨h1, h2, h3, h4⟩ := real_cons h
    exact real_of_cons h1 h2 (hext _ _ h3) (ih _ h4)

theorem prefix_ne_longer {base pre sfx : Path} {x : String} (h : base = pre ++ sfx) :
    pre ≠ base ++ [x] := by
  intro hp
  have := congrArg List.length h
  rw [hp] at this
  simp at this

theorem real_del {fs : FS} (D : Path) (x : String) :
    is_real_dir_path (fs_del fs (D ++ [x])) [] D = is_real_dir_path fs [] D := by
  apply real_congr
  intro pre sfx hps hne
  rw [fs_get_del, if_neg]
  simp only [List.nil_append]
  intro heq
  exact prefix_ne_longer hps heq

theorem real_put {fs : FS} (D : Path) (x : String) (n : Node) :
    is_real_dir_path (fs_del fs (D ++ [x]) ++ [(D ++ [x], n)]) [] D
      = is_real_dir_path fs [] D := by
  refine Eq.trans ?_ (real_del D x)
  apply real_congr
  intro pre sfx hps hne
  simp only [List.nil_append]
  cases hg : fs_get (fs_del fs (D ++ [x])) pre with
  | some m => exact fs_get_append_of_some _ hg
  | none =>
    rw [fs_get_append_of_none _ hg, fs_get_singleton, if_neg]
    intro heq
    exact prefix_ne_longer hps heq.symm

theorem lstat_real {fs : FS} {D : Path} {m : String} (h : is_real_dir_path fs [] D = true) :
    lstat_at fs [] (D ++ [m]) = lstat_at fs D [m] := by
  unfold lstat_at
  rw [walk_real MAXSYMLINKS [m] D [] h]
  simp

theorem unlink_real {env : Env} {fs fs1 : FS} {D : Path} {m : String}
    (hreal : is_real_dir_path fs [] D = true) (h1 : m ≠ ".") (h2 : m ≠ "..")
    (h : unlink_if_exists env fs [] (D ++ [m]) = some fs1) :
    fs1 = fs_del fs (D ++ [m]) := by
  have he : unlink_if_exists env fs [] (D ++ [m]) = unlink_if_exists env fs D [m] := by
    unfold unlink_if_exists unlinkat
    rw [lstat_real hreal]
  rw [he] at h
  exact unlink_if_exists_child h1 h2 h

theorem symlink_real {fs fs2 : FS} {D : Path} {m target : String}
    (hreal : is_real_dir_path fs [] D = true) (h1 : m ≠ ".") (h2 : m ≠ "..")
    (hn : fs_get fs (D ++ [m]) = none)
    (h : symlinkat fs target [] (D ++ [m]) = .ok fs2) :
    fs2 = fs ++ [(D ++ [m], .symlink target)] := by
  have he : symlinkat fs target [] (D ++ [m]) = symlinkat fs target D [m] := by
    unfold symlinkat
    rw [walk_real MAXSYMLINKS [m] D [] hreal]
    simp
  rw [he] at h
  exact symlinkat_child h1 h2 hn h

/-! ## The links that `try_bind_dri` creates -/

theorem fs_get_put_other {fs : FS} {p q : Path} {n : Node} (h : q ≠ p) :
    fs_get (fs_del fs p ++ [(p, n)]) q = fs_get fs q := by
  have hd : fs_get (fs_del fs p) q = fs_get fs q := by rw [fs_get_del, if_neg h]
  cases hg : fs_get (fs_del fs p) q with
  | some m => rw [fs_get_append_of_some _ hg, ← hd, hg]
  | none => rw [fs_get_append_of_none _ hg, fs_get_singleton, if_neg (Ne.symm h), ← hd, hg]

theorem fs_get_put_self {fs : FS} {p : Path} {n : Node} :
    fs_get (fs_del fs p ++ [(p, n)]) p = some n := by
  have hg : fs_get (fs_del fs p) p = none := by rw [fs_get_del, if_pos rfl]
  rw [fs_get_append_of_none _ hg, fs_get_singleton, if_pos rfl]

theorem link_dri_members_spec {env : Env} {arch : RuntimeArchitecture} {dri : String}
    {D : Path} (hD : D = arch.libdir_on_host ++ ["dri"]) :
    ∀ (members : List String) (fs fs1 : FS),
      is_real_dir_path fs [] D = true →
      (∀ m ∈ members, m ≠ "." ∧ m ≠ "..") →
      link_dri_members env arch dri members fs = .ok fs1 →
      is_real_dir_path fs1 [] D = true ∧
      (∀ m ∈ members,
        fs_get fs1 (D ++ [m]) = some (.symlink (g_build_filename ["/run/host", dri, m]))) ∧
      (∀ q, (∀ m ∈ members, q ≠ D ++ [m]) → fs_get fs1 q = fs_get fs q) := by
  intro members
  induction members with
  | nil =>
    intro fs fs1 hreal _ h
    simp only [link_dri_members, Except.ok.injEq] at h
    subst h
    exact ⟨hreal, fun m hm => absurd hm (List.not_mem_nil m), fun q _ => rfl⟩
  | cons m rest ih =>
    intro fs fs3 hreal hplain h
    obtain ⟨h1, h2⟩ := hplain m (List.mem_cons_self _ _)
    have hdest : arch.libdir_on_host ++ ["dri", m] = D ++ [m] := by rw [hD]; simp
    unfold link_dri_members at h
    simp only [hdest] at h
    split at h
    · cases h
    · rename_i fs1 hu
      split at h
      · cases h
      · rename_i fs2 hs
        have hfs1 : fs1 = fs_del fs (D ++ [m]) := unlink_real hreal h1 h2 hu
        have hreal1 : is_real_dir_path fs1 [] D = true := by
          rw [hfs1, real_del]; exact hreal
        have hnone : fs_get fs1 (D ++ [m]) = none := by
          rw [hfs1, fs_get_del, if_pos rfl]
        have hfs2 := symlink_real hreal1 h1 h2 hnone hs
        rw [hfs1] at hfs2
        have hreal2 : is_real_dir_path fs2 [] D = true := by
          rw [hfs2, real_put]; exact hreal
        obtain ⟨hr, hl, hf⟩ := ih fs2 fs3 hreal2
          (fun x hx => hplain x (List.mem_cons_of_mem _ hx)) h
        refine ⟨hr, ?_, ?_⟩
        · intro x hx
          by_cases hxr : x ∈ rest
          · exact hl x hxr
          · have hxm : x = m := by
              rcases List.mem_cons.mp hx with h | h
              · exact h
              · exact absurd h hxr
            subst hxm
            rw [hf (D ++ [x]) (fun y hy heq => hxr (by
              have := List.append_cancel_left heq
              simp only [List.cons.injEq, and_true] at this
              rw [this]; exact hy)), hfs2, fs_get_put_self]
        · intro q hq
          rw [hf q (fun y hy => hq y (List.mem_cons_of_mem _ hy)), hfs2,
            fs_get_put_other (hq m (List.mem_cons_self _ _))]

theorem run_sync_fs {env : Env} {w w2 : World} {argv : List String}
    (h : pv_bwrap_run_sync env w argv = (w2, .ok ())) : env.run_sync w.fs argv = some w2.fs := by
  unfold pv_bwrap_run_sync at h
  split at h
  · simp only [Prod.mk.injEq] at h; exact absurd h.2 (by simp)
  · rename_i fs1 hr
    simp only [Prod.mk.injEq, and_true] at h
    rw [hr, ← h]

theorem provide_access_ready {self : PvRuntime} (hadv : self.container_access_adverb.isSome = true)
    (w : World) : pv_runtime_provide_container_access self w = (w, .ok self) := by
  unfold pv_runtime_provide_container_access
  rw [if_pos hadv]

/-- One call of `try_bind_dri` when the container is already accessible and
`<libdir_on_host>/dri` is a real directory: the links of the members read,
and what is left as it was.  `T` is a set of paths that the helper leaves as
they are. -/
theorem try_bind_dri_links {env : Env} {self self1 : PvRuntime} {w w1 : World}
    {arch : RuntimeArchitecture} {libdir : String} {D : Path} {T : Path → Prop}
    (hD : D = arch.libdir_on_host ++ ["dri"])
    (hT : ∀ m, T (D ++ [m]))
    (hadv : self.container_access_adverb.isSome = true)
    (hreal : is_real_dir_path w.fs [] D = true)
    (hframe : ∀ fs argv fs1, env.run_sync fs argv = some fs1 →
      is_real_dir_path fs [] D = true →
      is_real_dir_path fs1 [] D = true ∧ ∀ q, T q → fs_get fs1 q = fs_get fs q)
    (hplain : ∀ m ∈ try_bind_dri_members env self w arch libdir, m ≠ "." ∧ m ≠ "..")
    (hok : try_bind_dri env self w arch libdir = (w1, .ok self1)) :
    self1 = self ∧ is_real_dir_path w1.fs [] D = true ∧
    (∀ m ∈ try_bind_dri_members env self w arch libdir,
      fs_get w1.fs (D ++ [m]) = some (.symlink (dri_link_target libdir m))) ∧
    (∀ q, T q → (∀ m ∈ try_bind_dri_members env self w arch libdir, q ≠ D ++ [m]) →
      fs_get w1.fs q = fs_get w.fs q) := by
  unfold try_bind_dri at hok
  simp only at hok
  split at hok
  · simp only [Prod.mk.injEq] at hok; exact absurd hok.2 (by simp)
  · rename_i w3 self3 hbound
    have first : self3 = self ∧ is_real_dir_path w3.fs [] D = true ∧
        (∀ m ∈ try_bind_dri_members env self w arch libdir,
          fs_get w3.fs (D ++ [m]) = some (.symlink (dri_link_target libdir m))) ∧
        (∀ q, T q → (∀ m ∈ try_bind_dri_members env self w arch libdir, q ≠ D ++ [m]) →
          fs_get w3.fs q = fs_get w.fs q) := by
      split at hbound
      · rename_i hdir
        rw [provide_access_ready hadv w] at hbound
        simp only at hbound
        split at hbound
        · simp only [Prod.mk.injEq] at hbound; exact absurd hbound.2 (by simp)
        · rename_i w2 hrun
          split at hbound
          · simp only [Prod.mk.injEq] at hbound; exact absurd hbound.2 (by simp)
          · rename_i dir hopen
            split at hbound
            · simp only [Prod.mk.injEq] at hbound; exact absurd hbound.2 (by simp)
            · rename_i fs3 hlink
              simp only [Prod.mk.injEq, Except.ok.injEq] at hbound
              obtain ⟨rfl, rfl⟩ := hbound
              have hmem : try_bind_dri_members env self w arch libdir
                  = (readdir w2.fs dir).map Dirent.d_name := by
                unfold try_bind_dri_members
                simp only [hdir, if_true, provide_access_ready hadv w, hrun, hopen]
              rw [hmem] at hplain ⊢
              obtain ⟨hreal2, hkeep2⟩ := hframe _ _ _ (run_sync_fs hrun) hreal
              obtain ⟨hr, hl, hf⟩ := link_dri_members_spec hD _ _ _ hreal2 hplain hlink
              refine ⟨rfl, hr, hl, ?_⟩
              intro q hq hne
              rw [hf q hne]
              exact hkeep2 q hq
      · rename_i hdir
        simp only [Prod.mk.injEq, Except.ok.injEq] at hbound
        obtain ⟨rfl, rfl⟩ := hbound
        have hmem : try_bind_dri_members env self w arch libdir = [] := by
          unfold try_bind_dri_members
          simp only [hdir, if_false, Bool.false_eq_true]
        rw [hmem]
        exact ⟨rfl, hreal, fun m hm => absurd hm (List.not_mem_nil m), fun q _ _ => rfl⟩
    obtain ⟨rfl, hreal3, hl3, hf3⟩ := first
    split at hok
    · rw [provide_access_ready hadv w3] at hok
      simp only at hok
      split at hok
      · simp only [Prod.mk.injEq] at hok; exact absurd hok.2 (by simp)
      · rename_i w5 hrun5
        simp only [Prod.mk.injEq, Except.ok.injEq] at hok
        obtain ⟨rfl, rfl⟩ := hok
        obtain ⟨hreal5, hkeep5⟩ := hframe _ _ _ (run_sync_fs hrun5) hreal3
        refine ⟨rfl, hreal5, ?_, ?_⟩
        · intro m hm
          rw [hkeep5 _ (hT m)]
          exact hl3 m hm
        · intro q hq hne
          rw [hkeep5 q hq]
          exact hf3 q hq hne
    · simp only [Prod.mk.injEq, Except.ok.injEq] at hok
      obtain ⟨rfl, rfl⟩ := hok
      exact ⟨rfl, hreal3, hl3, hf3⟩

theorem last_dri_dir_cons_of_later {libdir later : String} {members : List String}
    {rest : List (String × List String)} {name : String}
    (h : last_dri_dir rest name = some later) :
    last_dri_dir ((libdir, members) :: rest) name = some later := by
  simp only [last_dri_dir, h]

theorem last_dri_dir_cons_of_none {libdir : String} {members : List String}
    {rest : List (String × List String)} {name : String}
    (h : last_dri_dir rest name = none) :
    last_dri_dir ((libdir, members) :: rest) name
      = if members.contains name then some libdir else none := by
  simp only [last_dri_dir, h]

theorem last_dri_dir_cons_ne_none {libdir : String} {members : List String}
    {rest : List (String × List String)} {name : String}
    (h : last_dri_dir rest name ≠ none ∨ name ∈ members) :
    last_dri_dir ((libdir, members) :: rest) name ≠ none := by
  cases hl : last_dri_dir rest name with
  | some later => rw [last_dri_dir_cons_of_later hl]; simp
  | none =>
    rw [last_dri_dir_cons_of_none hl]
    rcases h with h | h
    · exact absurd hl h
    · have : members.contains name = true := by simpa using h
      rw [if_pos this]; simp

theorem dri_listings_cons {env : Env} {arch : RuntimeArchitecture} {libdir : String}
    {rest : List String} {self self1 : PvRuntime} {w w1 : World}
    (h : try_bind_dri env self w arch libdir = (w1, .ok self1)) :
    dri_listings env arch (libdir :: rest) self w
      = (libdir, try_bind_dri_members env self w arch libdir) ::
          dri_listings env arch rest self1 w1 := by
  simp only [dri_listings, h]

/-- The loop over the directories of `try_bind_dri`: every driver is linked to
the last directory that lists it. -/
theorem try_bind_dri_dirs_links {env : Env} {arch : RuntimeArchitecture} {D : Path}
    {T : Path → Prop}
    (hD : D = arch.libdir_on_host ++ ["dri"])
    (hT : ∀ m, T (D ++ [m]))
    (hframe : ∀ fs argv fs1, env.run_sync fs argv = some fs1 →
      is_real_dir_path fs [] D = true →
      is_real_dir_path fs1 [] D = true ∧ ∀ q, T q → fs_get fs1 q = fs_get fs q) :
    ∀ (dirs : List String) (self self1 : PvRuntime) (w w1 : World),
      self.container_access_adverb.isSome = true →
      is_real_dir_path w.fs [] D = true →
      (∀ e ∈ dri_listings env arch dirs self w, ∀ m ∈ e.2, m ≠ "." ∧ m ≠ "..") →
      try_bind_dri_dirs env arch dirs self w = (w1, .ok self1) →
      self1 = self ∧ is_real_dir_path w1.fs [] D = true ∧
      (dri_listings env arch dirs self w).map Prod.fst = dirs ∧
      (∀ name libdir, last_dri_dir (dri_listings env arch dirs self w) name = some libdir →
        fs_get w1.fs (D ++ [name]) = some (.symlink (dri_link_target libdir name))) ∧
      (∀ q, T q →
        (∀ name, last_dri_dir (dri_listings env arch dirs self w) name ≠ none →
          q ≠ D ++ [name]) →
        fs_get w1.fs q = fs_get w.fs q) := by
  intro dirs
  induction dirs with
  | nil =>
    intro self self1 w w1 _ hreal _ hok
    simp only [try_bind_dri_dirs, Prod.mk.injEq, Except.ok.injEq] at hok
    obtain ⟨rfl, rfl⟩ := hok
    refine ⟨rfl, hreal, rfl, ?_, fun q _ _ => rfl⟩
    intro name libdir h
    simp [dri_listings, last_dri_dir] at h
  | cons libdir rest ih =>
    intro self self1 w w1 hadv hreal hplain hok
    unfold try_bind_dri_dirs at hok
    split at hok
    · simp only [Prod.mk.injEq] at hok; exact absurd hok.2 (by simp)
    · rename_i w2 self2 htry
      rw [dri_listings_cons htry] at hplain ⊢
      obtain ⟨rfl, hreal2, hl2, hf2⟩ := try_bind_dri_links hD hT hadv hreal hframe
        (hplain _ (List.mem_cons_self _ _)) htry
      obtain ⟨rfl, hreal1, hdirs, hl1, hf1⟩ := ih self2 self1 w2 w1 hadv hreal2
        (fun e he => hplain e (List.mem_cons_of_mem _ he)) hok
      refine ⟨rfl, hreal1, ?_, ?_, ?_⟩
      · simp only [List.map_cons, hdirs]
      · intro name dir hlast
        cases hl : last_dri_dir (dri_listings env arch rest self1 w2) name with
        | some later =>
          rw [last_dri_dir_cons_of_later hl] at hlast
          rw [← Option.some.inj hlast]
          exact hl1 name later hl
        | none =>
          rw [last_dri_dir_cons_of_none hl] at hlast
          split at hlast
          · rename_i hc
            rw [← Option.some.inj hlast]
            have hmem : name ∈ try_bind_dri_members env self1 w arch libdir := by simpa using hc
            rw [hf1 (D ++ [name]) (hT name) (fun n hn heq => by
              have := List.append_cancel_left heq
              simp only [List.cons.injEq, and_true] at this
              rw [← this] at hn
              exact hn hl)]
            exact hl2 name hmem
          · cases hlast
      · intro q hq hne
        rw [hf1 q hq (fun n hn => hne n (last_dri_dir_cons_ne_none (Or.inl hn)))]
        exact hf2 q hq (fun m hm => hne m (last_dri_dir_cons_ne_none (Or.inr hm)))

/-! ## The directories of the DRI drivers and the targets of the links -/

theorem valid_arch_names {arch : RuntimeArchitecture}
    (h : runtime_architecture_check_valid arch = true) :
    (arch.tuple = "x86_64-linux-gnu" ∧ arch.libqual = "lib64") ∨
    (arch.tuple = "i386-linux-gnu" ∧ arch.libqual = "lib32") := by
  unfold runtime_architecture_check_valid at h
  simp only [Bool.and_eq_true, decide_eq_true_eq, beq_iff_eq] at h
  obtain ⟨⟨hi, ht⟩, hq⟩ := h
  have : arch.multiarch_index = 0 ∨ arch.multiarch_index = 1 := by
    simp only [libquals, List.length_cons, List.length_nil] at hi; omega
  rcases this with h0 | h1
  · rw [h0] at ht hq
    left
    simp only [multiarch_tuples, libquals, List.get?_cons_zero, Option.some.injEq] at ht hq
    exact ⟨ht.symm, hq.symm⟩
  · rw [h1] at ht hq
    right
    simp only [multiarch_tuples, libquals, List.get?_cons_succ, List.get?_cons_zero,
      Option.some.injEq] at ht hq
    exact ⟨ht.symm, hq.symm⟩

theorem dri_dirs_valid {arch : RuntimeArchitecture}
    (h : runtime_architecture_check_valid arch = true) :
    dri_dirs arch =
      ["/lib", "/usr/lib", "/" ++ arch.libqual, "/usr/" ++ arch.libqual,
        "/lib/" ++ arch.tuple, "/usr/lib/" ++ arch.tuple] := by
  unfold dri_dirs
  rcases valid_arch_names h with ⟨ht, hq⟩ | ⟨ht, hq⟩ <;>
    (rw [ht, hq]; decide)

theorem build_filename_after {a b name : String} {res : List Char}
    (hst : build_path_step (build_path_step
        { result := [], is_first := true, have_leading := false,
          single_element := none, last_trailing := none } a.data) b.data
      = { result := res, is_first := false, have_leading := true,
          single_element := none, last_trailing := some [] })
    (h1 : clean_head name = true) (h2 : clean_tail name = true) :
    g_build_filename [a, b, name] = ⟨res ++ '/' :: name.data⟩ := by
  obtain ⟨_, _, h1, h1'⟩ := clean_head_data h1
  obtain ⟨_, _, h2, h2'⟩ := clean_tail_data h2
  apply String.ext
  simp only [g_build_filename, build_path_chars, List.map_cons, List.map_nil, List.foldl_cons,
    List.foldl_nil, hst, build_path_step_next res h1 h1' h2 h2', Option.getD, List.append_nil]

theorem dri_link_target_of {libdir name : String}
    (hst : build_path_step (build_path_step
        { result := [], is_first := true, have_leading := false,
          single_element := none, last_trailing := none } "/run/host".data)
        (g_build_filename [libdir, "dri"]).data
      = { result := ("/run/host" ++ libdir ++ "/dri").data, is_first := false,
          have_leading := true, single_element := none, last_trailing := some [] })
    (h1 : clean_head name = true) (h2 : clean_tail name = true) :
    dri_link_target libdir name = "/run/host" ++ libdir ++ "/dri/" ++ name := by
  unfold dri_link_target
  rw [build_filename_after hst h1 h2]
  apply String.ext
  simp [String.data_append]

theorem dri_link_target_valid {arch : RuntimeArchitecture} {libdir name : String}
    (h : runtime_architecture_check_valid arch = true) (hl : libdir ∈ dri_dirs arch)
    (h1 : clean_head name = true) (h2 : clean_tail name = true) :
    dri_link_target libdir name = "/run/host" ++ libdir ++ "/dri/" ++ name := by
  have hcases : libdir = "/lib" ∨ libdir = "/usr/lib" ∨ libdir = "/lib64" ∨
      libdir = "/usr/lib64" ∨ libdir = "/lib/x86_64-linux-gnu" ∨
      libdir = "/usr/lib/x86_64-linux-gnu" ∨ libdir = "/lib32" ∨ libdir = "/usr/lib32" ∨
      libdir = "/lib/i386-linux-gnu" ∨ libdir = "/usr/lib/i386-linux-gnu" := by
    rw [dri_dirs_valid h] at hl
    rcases valid_arch_names h with ⟨ht, hq⟩ | ⟨ht, hq⟩ <;>
      (rw [ht, hq] at hl
       simp only [List.mem_cons, List.mem_singleton, List.not_mem_nil, or_false] at hl
       rcases hl with h | h | h | h | h | h <;> (rw [h]; decide))
  rcases hcases with h | h | h | h | h | h | h | h | h | h <;>
    (subst h
     exact dri_link_target_of (by decide) h1 h2)

theorem env_dri_frame (fs : FS) (argv : List String) (fs1 : FS)
    (h : env_dri.run_sync fs argv = some fs1)
    (hreal : is_real_dir_path fs [] (arch_plain.libdir_on_host ++ ["dri"]) = true) :
    is_real_dir_path fs1 [] (arch_plain.libdir_on_host ++ ["dri"]) = true ∧
    ∀ m, fs_get fs1 (arch_plain.libdir_on_host ++ ["dri", m])
      = fs_get fs (arch_plain.libdir_on_host ++ ["dri", m]) := by
  simp only [env_dri] at h
  split at h
  · simp only [Option.some.injEq] at h
    subst h
    exact ⟨hreal, fun _ => rfl⟩
  · simp only [Option.some.injEq] at h
    subst h
    refine ⟨real_mono (FsExtends.append _ _) _ _ hreal, ?_⟩
    intro m
    cases hg : fs_get fs (arch_plain.libdir_on_host ++ ["dri", m]) with
    | some n => exact fs_get_append_of_some _ hg
    | none =>
      rw [fs_get_append_of_none _ hg, fs_get_singleton, if_neg]
      intro heq
      have := congrArg List.length heq
      simp at this

/-- C24 (DRI drop-in order): when the loop over `dirs` succeeds for an
architecture whose `<libdir_on_host>/dri` is a real directory, with the
container already accessible and a capture helper that leaves that directory
and its entries as they are, then `try_bind_dri` has been called for exactly
the directories `/lib`, `/usr/lib`, `/<libqual>`, `/usr/<libqual>`,
`/lib/<tuple>`, `/usr/lib/<tuple>`, in this order, and for every driver name
that the loop read in the `dri` subdirectory of one or more of them, the link
`<libdir_on_host>/dri/<name>` that is left points to
`/run/host/<libdir>/dri/<name>` where `libdir` is the last directory in that
order in which the name was read. -/
theorem dri_later_directory_wins (env : Env) (arch : RuntimeArchitecture)
    (self self1 : PvRuntime) (w w1 : World)
    (hadv : self.container_access_adverb.isSome = true)
    (hreal : is_real_dir_path w.fs [] (arch.libdir_on_host ++ ["dri"]) = true)
    (hhelper : ∀ fs argv fs1, env.run_sync fs argv = some fs1 →
      is_real_dir_path fs [] (arch.libdir_on_host ++ ["dri"]) = true →
      is_real_dir_path fs1 [] (arch.libdir_on_host ++ ["dri"]) = true ∧
      ∀ m, fs_get fs1 (arch.libdir_on_host ++ ["dri", m])
        = fs_get fs (arch.libdir_on_host ++ ["dri", m]))
    (hplain : ∀ e ∈ dri_listings env arch (dri_dirs arch) self w,
      ∀ m ∈ e.2, m ≠ "." ∧ m ≠ "..")
    (hok : try_bind_dri_dirs env arch (dri_dirs arch) self w = (w1, .ok self1)) :
    (dri_listings env arch (dri_dirs arch) self w).map Prod.fst = dri_dirs arch ∧
    (runtime_architecture_check_valid arch = true →
      dri_dirs arch =
        ["/lib", "/usr/lib", "/" ++ arch.libqual, "/usr/" ++ arch.libqual,
          "/lib/" ++ arch.tuple, "/usr/lib/" ++ arch.tuple]) ∧
    (∀ name libdir,
      last_dri_dir (dri_listings env arch (dri_dirs arch) self w) name = some libdir →
      libdir ∈ dri_dirs arch ∧
      fs_get w1.fs (arch.libdir_on_host ++ ["dri", name])
        = some (.symlink (dri_link_target libdir name)) ∧
      (runtime_architecture_check_valid arch = true →
        clean_head name = true → clean_tail name = true →
        dri_link_target libdir name = "/run/host" ++ libdir ++ "/dri/" ++ name)) ∧
    (∀ name,
      last_dri_dir (dri_listings env arch (dri_dirs arch) self w) name = none →
      fs_get w1.fs (arch.libdir_on_host ++ ["dri", name])
        = fs_get w.fs (arch.libdir_on_host ++ ["dri", name])) := by
  have happ : ∀ m, arch.libdir_on_host ++ ["dri", m] = (arch.libdir_on_host ++ ["dri"]) ++ [m] := by
    intro m; simp
  have hframe : ∀ fs argv fs1, env.run_sync fs argv = some fs1 →
      is_real_dir_path fs [] (arch.libdir_on_host ++ ["dri"]) = true →
      is_real_dir_path fs1 [] (arch.libdir_on_host ++ ["dri"]) = true ∧
      ∀ q, (∃ m, q = (arch.libdir_on_host ++ ["dri"]) ++ [m]) →
        fs_get fs1 q = fs_get fs q := by
    intro fs argv fs1 h hr
    obtain ⟨h1, h2⟩ := hhelper fs argv fs1 h hr
    refine ⟨h1, ?_⟩
    rintro q ⟨m, rfl⟩
    rw [← happ]; exact h2 m
  obtain ⟨-, -, hdirs, hl, hf⟩ :=
    try_bind_dri_dirs_links rfl (fun m => ⟨m, rfl⟩) hframe (dri_dirs arch) self self1 w w1
      hadv hreal hplain hok
  have hmem : ∀ (l : List (String × List String)) name libdir,
      last_dri_dir l name = some libdir → libdir ∈ l.map Prod.fst := by
    intro l
    induction l with
    | nil => intro name libdir h; simp [last_dri_dir] at h
    | cons e rest ih =>
      intro name libdir h
      obtain ⟨d, ms⟩ := e
      cases hr : last_dri_dir rest name with
      | some later =>
        rw [last_dri_dir_cons_of_later hr] at h
        rw [← Option.some.inj h]
        exact List.mem_cons_of_mem _ (ih name later hr)
      | none =>
        rw [last_dri_dir_cons_of_none hr] at h
        split at h
        · rw [← Option.some.inj h]; exact List.mem_cons_self _ _
        · cases h
  refine ⟨hdirs, dri_dirs_valid, ?_, ?_⟩
  · intro name libdir hlast
    have hin : libdir ∈ dri_dirs arch := by
      rw [← hdirs]; exact hmem _ name libdir hlast
    refine ⟨hin, ?_, fun hv h1 h2 => dri_link_target_valid hv hin h1 h2⟩
    rw [happ]
    exact hl name libdir hlast
  · intro name hnone
    rw [happ]
    apply hf _ ⟨name, rfl⟩
    intro n hn heq
    have := List.append_cancel_left heq
    simp only [List.cons.injEq, and_true] at this
    rw [← this] at hn
    exact hn hnone

/-- Witness of `dri_later_directory_wins`: on `host_dri` the driver
`i965_dri.so` is in `/usr/lib/dri` and in `/usr/lib/x86_64-linux-gnu/dri`, and
`/lib` is a link to `/usr/lib`. -/
theorem dri_later_directory_wins_witness :
    dri_listings env_dri arch_plain (dri_dirs arch_plain) self_dri { fs := host_dri } =
      [("/lib", ["i965_dri.so", "swrast_dri.so"]),
       ("/usr/lib", ["i965_dri.so", "swrast_dri.so"]),
       ("/lib64", []), ("/usr/lib64", []),
       ("/lib/x86_64-linux-gnu", ["i965_dri.so", "radeonsi_dri.so"]),
       ("/usr/lib/x86_64-linux-gnu", ["i965_dri.so", "radeonsi_dri.so"])] ∧
    fs_get dri_bound.1.fs (arch_plain.libdir_on_host ++ ["dri", "i965_dri.so"])
      = some (.symlink "/run/host/usr/lib/x86_64-linux-gnu/dri/i965_dri.so") ∧
    fs_get dri_bound.1.fs (arch_plain.libdir_on_host ++ ["dri", "swrast_dri.so"])
      = some (.symlink "/run/host/usr/lib/dri/swrast_dri.so") ∧
    (fs_get dri_bound.1.fs (arch_plain.libdir_on_host ++ ["dri", "i965_dri.so"])
      = some (.symlink (dri_link_target "/usr/lib/x86_64-linux-gnu" "i965_dri.so"))) :=
  ⟨by decide, by decide, by decide,
    ((dri_later_directory_wins env_dri arch_plain self_dri self_dri { fs := host_dri }
      dri_bound.1 (by decide) (by decide) env_dri_frame (by decide) (by decide)).2.2.1
        "i965_dri.so" "/usr/lib/x86_64-linux-gnu" (by decide)).2.1⟩

/-! ## Creating and removing directories that are already settled -/

end PressureVessel
